import Mathlib

/-! Route resolution of the Lagoon build-deploy tool.

A shallow embedding of the route resolution code of the repository
(`internal/lagoon/fastly.go`, `internal/lagoon/routes.go`,
`cmd/template_autogen_ingress.go`, `internal/templating/ingress/templates_ingress.go`)
and theorems about it.

Conventions of the embedding.

* A Go `string` is a Lean `String`, the characters of its UTF-8 encoding.  Go's `len`
  and the bounds of a slice count bytes: `len` here is the number of bytes of the
  encoding and `sliceTo s n` is the slice `s[:n]`.  A slice that ends inside the
  encoding of a character is no sequence of characters; `sliceTo` then stops before
  that character, and the theorems about such a slice speak of the cuts that fall
  between two characters.
* A Go pointer `*bool` / `*string` is an `Option`; a slice or map that may be `nil`
  is an `Option (List _)`, `none` being `nil`.  A Go `map` that is ranged over is a
  list of key/value pairs in the order of the enumeration.
* A function that mutates `*f` and returns an `error` becomes a function returning the
  final state together with `Option Failure`; `none` is the `nil` error.  A run-time
  panic is a `Failure.panic`.
-/

namespace Lagoon

/-! ## Library functions used by the code -/

/-- The two ways a call can fail: a returned Go `error`, or a run-time panic. -/
inductive Failure where
  | error (msg : String)
  | panic (msg : String)
deriving DecidableEq, Repr

/-- The number of bytes of the UTF-8 encoding of a character. -/
def utf8Len (c : Char) : Nat :=
  if c.toNat < 0x80 then 1
  else if c.toNat < 0x800 then 2
  else if c.toNat < 0x10000 then 3
  else 4

/-- The number of bytes of the UTF-8 encoding of a list of characters. -/
def utf8Bytes : List Char → Nat
  | [] => 0
  | c :: cs => utf8Bytes cs + utf8Len c

/-- Go's `len(s)` of a string: the number of bytes of its UTF-8 encoding. -/
def len (s : String) : Nat :=
  utf8Bytes s.data

/-- The characters whose encodings lie within the first `n` bytes of the encoding of a
list of characters. -/
def takeBytes : Nat → List Char → List Char
  | _, [] => []
  | n, c :: cs => if utf8Len c ≤ n then c :: takeBytes (n - utf8Len c) cs else []

/-- Go's slice `s[:n]` of a string, for `n ≤ len(s)`: the first `n` bytes.  When byte `n`
lies inside the encoding of a character, the value in Go ends with a part of that
encoding; here the slice stops before that character, and has fewer than `n` bytes. -/
def sliceTo (s : String) (n : Nat) : String :=
  String.mk (takeBytes n s.data)

/-- The strings of ASCII characters, on which bytes and characters are the same. -/
def isASCII (s : String) : Bool :=
  s.data.all fun c => decide (c.toNat < 0x80)

/-- The pieces of a character list between the occurrences of `sep`; there is always at
least one piece. -/
def splitChars (sep : Char) : List Char → List (List Char)
  | [] => [[]]
  | c :: cs =>
    if c = sep then [] :: splitChars sep cs
    else
      match splitChars sep cs with
      | [] => [[c]]
      | p :: ps => (c :: p) :: ps

/-- Go's `strings.Split(s, sep)` for a separator of one character. -/
def Split (s : String) (sep : Char) : List String :=
  (splitChars sep s.data).map String.mk

/-- Go's `strings.Join(parts, sep)`. -/
def Join (parts : List String) (sep : String) : String :=
  sep.intercalate parts

/-- Go's `strings.HasPrefix(s, pre)`. -/
def HasPrefix (s pre : String) : Bool :=
  pre.data.isPrefixOf s.data

/-- Go's `strconv.ParseBool`: `none` is the returned error. -/
def ParseBool (str : String) : Option Bool :=
  if str ∈ ["1", "t", "T", "TRUE", "true", "True"] then some true
  else if str ∈ ["0", "f", "F", "FALSE", "false", "False"] then some false
  else none

/-- Go's `unicode.ToLower` as far as the code can observe it: the ASCII capitals, and the
two other runes whose lower case is an ASCII letter (U+212A KELVIN SIGN and U+0130).
Every other rune is left as it is: its lower case is not ASCII, so a string holding it
fails the pattern of the validator before and after lowering and is never emitted. -/
def toLowerRune (c : Char) : Char :=
  if c = Char.ofNat 0x212A then 'k'
  else if c = Char.ofNat 0x130 then 'i'
  else if 'A' ≤ c ∧ c ≤ 'Z' then Char.ofNat (c.toNat + 32)
  else c

/-- Go's `strings.ToLower`. -/
def ToLower (s : String) : String :=
  String.mk (s.data.map toLowerRune)

/-- The character class `[a-z0-9]`. -/
def isLowerAlnum (c : Char) : Bool :=
  ('a' ≤ c && c ≤ 'z') || ('0' ≤ c && c ≤ '9')

/-- A full match of `[a-z0-9]([-a-z0-9]*[a-z0-9])?` (`dns1123LabelFmt`): a non-empty run of
`[-a-z0-9]` that starts and ends with `[a-z0-9]`. -/
def matchesDNS1123Label (l : List Char) : Bool :=
  match l with
  | [] => false
  | c :: cs =>
    isLowerAlnum c && (c :: cs).all (fun x => isLowerAlnum x || x == '-')
      && isLowerAlnum ((c :: cs).getLast (List.cons_ne_nil c cs))

/-- A full match of `dns1123SubdomainFmt`, labels joined by dots. -/
def matchesDNS1123Subdomain (value : String) : Bool :=
  (splitChars '.' value.data).all matchesDNS1123Label

/-- The length limit `DNS1123SubdomainMaxLength` of apimachinery. -/
def DNS1123SubdomainMaxLength : Nat := 253

/-- The text of apimachinery's `MaxLenError(253)`. -/
def maxLenError : String := "must be no more than 253 characters"

/-- The text of apimachinery's `RegexError` for a DNS-1123 subdomain. -/
def dns1123SubdomainError : String :=
  "a lowercase RFC 1123 subdomain must consist of lower case alphanumeric characters, \x27-\x27 or \x27.\x27, and must start and end with an alphanumeric character (e.g. \x27example.com\x27, regex used for validation is \x27[a-z0-9]([-a-z0-9]*[a-z0-9])?(\\.[a-z0-9]([-a-z0-9]*[a-z0-9])?)*\x27)"

/-- The function `validation.IsDNS1123Subdomain` of `k8s.io/apimachinery`: the list of
the problems found, empty (Go `nil`) for a legal name.  The name may have at most 253
bytes (`len(value)`) and must match the subdomain pattern; the length of a single label
is not looked at. -/
def IsDNS1123Subdomain (value : String) : List String :=
  (if len value > DNS1123SubdomainMaxLength then [maxLenError] else [])
    ++ (if matchesDNS1123Subdomain value then [] else [dns1123SubdomainError])

/-- Go's `%v` of a `[]string`. -/
def fmtStrings (xs : List String) : String :=
  "[" ++ Join xs " " ++ "]"

/-! ## Data model -/

/-- The type `EnvironmentVariable` of package `lagoon`. -/
structure EnvironmentVariable where
  Name : String
  Value : String
  Scope : String
deriving DecidableEq, Repr

/-- The type `Fastly` of `fastly.go`. -/
structure Fastly where
  ServiceID : String
  APISecretName : String
  Watch : Bool
deriving DecidableEq, Repr

/-- The type `PathRoute` of `routes.go`. -/
structure PathRoute where
  ToService : String
  Path : String
deriving DecidableEq, Repr

/-- The type `RouteV2` of `routes.go`. -/
structure RouteV2 where
  Domain : String
  LagoonService : String
  ComposeService : String
  TLSAcme : Option Bool
  Migrate : Option Bool
  Insecure : Option String
  MonitoringPath : String
  Fastly : Fastly
  Annotations : Option (List (String × String))
  Labels : Option (List (String × String))
  AlternativeNames : Option (List String)
  IngressName : String
  IngressClass : String
  HSTSEnabled : Option Bool
  HSTSMaxAge : Int
  HSTSIncludeSubdomains : Option Bool
  HSTSPreload : Option Bool
  Autogenerated : Bool
  Wildcard : Option Bool
  RequestVerification : Option Bool
  PathRoutes : Option (List PathRoute)
deriving DecidableEq, Repr

/-- The type `RoutesV2` of `routes.go`. -/
structure RoutesV2 where
  Routes : List RouteV2
deriving DecidableEq, Repr

/-- The type `Ingress` of `routes.go`. -/
structure Ingress where
  TLSAcme : Option Bool
  Migrate : Option Bool
  Insecure : Option String
  MonitoringPath : String
  Fastly : Fastly
  Annotations : Option (List (String × String))
  IngressClass : String
  HSTSEnabled : Option Bool
  HSTSMaxAge : Int
  HSTSIncludeSubdomains : Option Bool
  HSTSPreload : Option Bool
  AlternativeNames : Option (List String)
  Wildcard : Option Bool
  RequestVerification : Option Bool
  PathRoutes : Option (List PathRoute)
deriving DecidableEq, Repr

/-- The type `Route` of `routes.go`: a bare domain (`Name`) or a map from domain to
overrides, listed in the order in which the map is ranged over. -/
structure Route where
  Name : String
  Ingresses : List (String × Ingress)
deriving DecidableEq, Repr

/-- The zero value `Fastly{}`. -/
def Fastly.zero : Fastly :=
  { ServiceID := "", APISecretName := "", Watch := false }

/-- The zero value `RouteV2{}`. -/
def RouteV2.zero : RouteV2 :=
  { Domain := "", LagoonService := "", ComposeService := "", TLSAcme := none, Migrate := none,
    Insecure := none, MonitoringPath := "", Fastly := Fastly.zero, Annotations := none,
    Labels := none, AlternativeNames := none, IngressName := "", IngressClass := "",
    HSTSEnabled := none, HSTSMaxAge := 0, HSTSIncludeSubdomains := none, HSTSPreload := none,
    Autogenerated := false, Wildcard := none, RequestVerification := none, PathRoutes := none }

/-- The zero value `Ingress{}`. -/
def Ingress.zero : Ingress :=
  { TLSAcme := none, Migrate := none, Insecure := none, MonitoringPath := "",
    Fastly := Fastly.zero, Annotations := none, IngressClass := "", HSTSEnabled := none,
    HSTSMaxAge := 0, HSTSIncludeSubdomains := none, HSTSPreload := none,
    AlternativeNames := none, Wildcard := none, RequestVerification := none,
    PathRoutes := none }

/-! ## Variables -/

/-- Modelled from the spec: `GetLagoonVariable` of package `lagoon` is called by the
sources but not among them.  The spec has lookups that are scope-filtered and return
the first match or a not-found signal: the first variable of that name whose scope is
one of `scope` (any scope when `scope` is `nil`), `none` being the not-found error. -/
def GetLagoonVariable (name : String) (scope : Option (List String))
    (vars : List EnvironmentVariable) : Option EnvironmentVariable :=
  vars.find? fun v =>
    decide (v.Name = name) &&
      (match scope with
       | none => true
       | some scopes => decide (v.Scope ∈ scopes))

/-! ## `fastly.go` -/

/-- Lines 18-24 of `GenerateFastlyConfiguration`: the explicit service id, or else the
no-cache service with watch switched on. -/
def fastlyDefaults (f : Fastly) (noCacheServiceID serviceID : String) : Fastly :=
  let f := { f with ServiceID := serviceID }
  if serviceID = "" then
    if noCacheServiceID ≠ "" then { f with ServiceID := noCacheServiceID, Watch := true }
    else f
  else f

/-- Lines 29-45 of `GenerateFastlyConfiguration`: the override `LAGOON_FASTLY_SERVICE_ID`,
`SERVICE_ID:WATCH_STATUS:SECRET_NAME(optional)`, meant for all ingresses. -/
def fastlyServiceIDOverride (f : Fastly) (secretPrefix : String)
    (vars : List EnvironmentVariable) : Fastly × Option Failure :=
  match GetLagoonVariable "LAGOON_FASTLY_SERVICE_ID" (some ["build", "global"]) vars with
  | none => (f, none)
  | some lfsID =>
    let lfsIDSplit := Split lfsID.Value ':'
    if lfsIDSplit.length = 1 then
      (f, some (.error "no watch status was provided, only the service id"))
    else
      match lfsIDSplit[1]? with
      | none => (f, some (.panic "index out of range [1]"))
      | some w =>
        match ParseBool w with
        | none => (f, some (.error ("the provided value " ++ w ++ " is not a valid boolean")))
        | some watch =>
          match lfsIDSplit[0]? with
          | none => (f, some (.panic "index out of range [0]"))
          | some sid =>
            let f := { f with ServiceID := sid, Watch := watch }
            if lfsIDSplit.length = 3 then
              match lfsIDSplit[2]? with
              | none => (f, some (.panic "index out of range [2]"))
              | some secret => ({ f with APISecretName := secretPrefix ++ secret }, none)
            else (f, none)

/-- Lines 64-83 of `GenerateFastlyConfiguration`: one entry
`INGRESS_DOMAIN:FASTLY_SERVICE_ID:WATCH_STATUS:SECRET_NAME(OPTIONAL)` of
`LAGOON_FASTLY_SERVICE_IDS`, the body of the loop. -/
def fastlyServiceIDsEntry (route secretPrefix : String) (f : Fastly) (lfs : String) :
    Fastly × Option Failure :=
  let lfsIDSplit := Split lfs ':'
  match lfsIDSplit[0]? with
  | none => (f, some (.panic "index out of range [0]"))
  | some domain =>
    if domain = route then
      if lfsIDSplit.length = 2 then
        (f, some (.error "no watch status was provided, only the route and service id"))
      else
        match lfsIDSplit[2]? with
        | none => (f, some (.panic "index out of range [2]"))
        | some w =>
          match ParseBool w with
          | none =>
            (f, some (.error ("the provided value " ++ w ++ " is not a valid boolean")))
          | some watch =>
            match lfsIDSplit[1]? with
            | none => (f, some (.panic "index out of range [1]"))
            | some sid =>
              let f := { f with ServiceID := sid, Watch := watch, APISecretName := "" }
              if lfsIDSplit.length = 4 then
                match lfsIDSplit[3]? with
                | none => (f, some (.panic "index out of range [3]"))
                | some secret => ({ f with APISecretName := secretPrefix ++ secret }, none)
              else (f, none)
    else (f, none)

/-- Lines 63-84 of `GenerateFastlyConfiguration`: the loop over the entries of
`LAGOON_FASTLY_SERVICE_IDS`, left at the first failure. -/
def fastlyServiceIDsOverride (route secretPrefix : String) :
    Fastly → List String → Fastly × Option Failure
  | f, [] => (f, none)
  | f, lfs :: rest =>
    match fastlyServiceIDsEntry route secretPrefix f lfs with
    | (f, none) => fastlyServiceIDsOverride route secretPrefix f rest
    | (f, some e) => (f, some e)

/-- Lines 86-90 of `GenerateFastlyConfiguration`: a secret name that lacks the prefix
gets it. -/
def fastlySecretPrefix (f : Fastly) (secretPrefix : String) : Fastly :=
  if f.APISecretName ≠ "" then
    if ¬ HasPrefix f.APISecretName secretPrefix then
      { f with APISecretName := secretPrefix ++ f.APISecretName }
    else f
  else f

/-- Lines 60-85 of `GenerateFastlyConfiguration`: the override `LAGOON_FASTLY_SERVICE_IDS`,
a list of entries separated by commas. -/
def fastlyServiceIDsVariable (route secretPrefix : String) (f : Fastly)
    (vars : List EnvironmentVariable) : Fastly × Option Failure :=
  match GetLagoonVariable "LAGOON_FASTLY_SERVICE_IDS" (some ["build", "global"]) vars with
  | none => (f, none)
  | some lfsIDs => fastlyServiceIDsOverride route secretPrefix f (Split lfsIDs.Value ',')

/-- The function `GenerateFastlyConfiguration` of `fastly.go`: the state of `*f` when the
function returns, and the error it returns. -/
def GenerateFastlyConfiguration (f : Fastly)
    (noCacheServiceID serviceID route secretPrefix : String)
    (vars : List EnvironmentVariable) : Fastly × Option Failure :=
  let f := fastlyDefaults f noCacheServiceID serviceID
  match fastlyServiceIDOverride f secretPrefix vars with
  | (f, some e) => (f, some e)
  | (f, none) =>
    match fastlyServiceIDsVariable route secretPrefix f vars with
    | (f, some e) => (f, some e)
    | (f, none) => (fastlySecretPrefix f secretPrefix, none)

/-- The secret name that the tokens of an entry after the watch status stand for, as
lines 78-82 set it: the prefix and the fourth token when there are exactly four tokens,
and the empty name otherwise. -/
def entrySecret (secretPrefix : String) : List String → String
  | [secret] => secretPrefix ++ secret
  | _ => ""

/-! ## `routes.go` -/

/-- A loop `for _, x := range xs` whose body makes one record from `x` and appends it to
the route list, or leaves the function with a failure: the list when the loop is left,
and the failure. -/
def appendEach {α : Type} (body : α → Except Failure RouteV2) :
    RoutesV2 → List α → RoutesV2 × Option Failure
  | routes, [] => (routes, none)
  | routes, x :: rest =>
    match body x with
    | .error e => (routes, some e)
    | .ok r => appendEach body { Routes := routes.Routes ++ [r] } rest

/-- The default `defaultHSTSMaxAge`. -/
def defaultHSTSMaxAge : Int := 31536000

/-- The default `defaultMonitoringPath`. -/
def defaultMonitoringPath : String := "/"

/-- The default `defaultFastlyService`. -/
def defaultFastlyService : String := ""

/-- The default `defaultFastlyWatch`. -/
def defaultFastlyWatch : Bool := false

/-- The default `defaultInsecure`, a pointer to `"Redirect"`. -/
def defaultInsecure : Option String := some "Redirect"

/-- The default `defaultTLSAcme`, a pointer to `true`. -/
def defaultTLSAcme : Option Bool := some true

/-- The default `defaultActiveStandby`, a pointer to `true`. -/
def defaultActiveStandby : Option Bool := some true

/-- The default `defaultRequestVerification`, a pointer to `false`. -/
def defaultRequestVerification : Option Bool := some false

/-- The default `defaultAnnotations`, an empty map that is not `nil`. -/
def defaultAnnotations : Option (List (String × String)) := some []

/-- Lines 198-201 of `GenerateRoutesV2` and 373-376 of `handleAPIRoute`: the ingress name
`wildcard-<domain>`, and when that is no DNS-1123 subdomain the name without its last ten
bytes, a dash and the first five characters of the hash of the domain.  The helper
`helpers.GetMD5HashWithNewLine` is not among the sources and is a parameter; its value is
a hex digest of 32 characters, so that the slice `[:5]` is `take 5`.  The slice
`[:len-10]` counts bytes, and panics when the name has fewer than ten bytes. -/
def wildcardIngressName (GetMD5HashWithNewLine : String → String) (domain : String) :
    Except Failure String :=
  let ingressName := "wildcard-" ++ domain
  if IsDNS1123Subdomain (ToLower ingressName) ≠ [] then
    if len ingressName < 10 then
      .error (.panic "slice bounds out of range")
    else
      .ok (sliceTo ingressName (len ingressName - 10) ++ "-"
        ++ String.mk ((GetMD5HashWithNewLine domain).data.take 5))
  else .ok ingressName

/-- Lines 146-186 of `GenerateRoutesV2`: the fields of one override object, up to the HSTS
settings, laid over the route built so far.  The assignments of the source are gathered
field by field: a field keeps the value of the route built so far unless the source
assigns it. -/
def ingressOverrides (defaultIngressClass rName : String) (newRoute : RouteV2)
    (iName : String) (ingress : Ingress) : RouteV2 :=
  let hstsEnabled :=
    if ingress.HSTSEnabled.isSome then ingress.HSTSEnabled else newRoute.HSTSEnabled
  { newRoute with
    Domain := iName
    LagoonService := rName
    IngressName := iName
    IngressClass :=
      if ingress.IngressClass ≠ "" then ingress.IngressClass else defaultIngressClass
    Fastly := ingress.Fastly
    Annotations :=
      if ingress.Annotations.isSome then ingress.Annotations else newRoute.Annotations
    TLSAcme := if ingress.TLSAcme.isSome then ingress.TLSAcme else newRoute.TLSAcme
    Insecure := if ingress.Insecure.isSome then ingress.Insecure else newRoute.Insecure
    AlternativeNames :=
      if ingress.AlternativeNames.isSome then ingress.AlternativeNames
      else newRoute.AlternativeNames
    MonitoringPath :=
      if ingress.MonitoringPath ≠ "" then ingress.MonitoringPath else newRoute.MonitoringPath
    HSTSEnabled := hstsEnabled
    HSTSIncludeSubdomains :=
      if ingress.HSTSIncludeSubdomains.isSome then ingress.HSTSIncludeSubdomains
      else newRoute.HSTSIncludeSubdomains
    HSTSPreload :=
      if ingress.HSTSPreload.isSome then ingress.HSTSPreload else newRoute.HSTSPreload
    HSTSMaxAge :=
      if ingress.HSTSMaxAge > 0 then ingress.HSTSMaxAge
      else if hstsEnabled = some true then defaultHSTSMaxAge
      else newRoute.HSTSMaxAge }

/-- Lines 190-202 of `GenerateRoutesV2`: the wildcard flag of an override object, the two
exclusion rules and the wildcard ingress name. -/
def ingressWildcard (GetMD5HashWithNewLine : String → String) (newRoute : RouteV2)
    (ingress : Ingress) : Except Failure RouteV2 :=
  match ingress.Wildcard with
  | none => .ok newRoute
  | some wildcard =>
    let newRoute := { newRoute with Wildcard := ingress.Wildcard }
    match newRoute.TLSAcme with
    | none => .error (.panic "nil pointer dereference")
    | some tlsAcme =>
      if tlsAcme = true ∧ wildcard = true then
        .error (.error ("Route " ++ newRoute.Domain
          ++ " has wildcard: true and tls-acme: true, this is not supported"))
      else if ingress.AlternativeNames.isSome ∧ wildcard = true then
        .error (.error ("Route " ++ newRoute.Domain
          ++ " has wildcard: true and alternativenames defined, this is not supported"))
      else
        match wildcardIngressName GetMD5HashWithNewLine newRoute.Domain with
        | .error e => .error e
        | .ok ingressName => .ok { newRoute with IngressName := ingressName }

/-- Lines 204-212 of `GenerateRoutesV2`: request verification and path routes of an
override object. -/
def ingressTail (newRoute : RouteV2) (ingress : Ingress) : RouteV2 :=
  { newRoute with
    RequestVerification :=
      if ingress.RequestVerification.isSome then ingress.RequestVerification
      else newRoute.RequestVerification
    PathRoutes :=
      if ingress.PathRoutes.isSome then ingress.PathRoutes else newRoute.PathRoutes }

/-- Lines 145-213 of `GenerateRoutesV2`: the loop over the entries of one override map.
The route built so far is carried from one entry to the next. -/
def applyIngresses (GetMD5HashWithNewLine : String → String)
    (defaultIngressClass rName : String) :
    RouteV2 → List (String × Ingress) → Except Failure RouteV2
  | newRoute, [] => .ok newRoute
  | newRoute, (iName, ingress) :: rest =>
    match ingressWildcard GetMD5HashWithNewLine
        (ingressOverrides defaultIngressClass rName newRoute iName ingress) ingress with
    | .error e => .error e
    | .ok newRoute =>
      applyIngresses GetMD5HashWithNewLine defaultIngressClass rName
        (ingressTail newRoute ingress) rest

/-- Lines 128-141 of `GenerateRoutesV2`: the route with the defaults set. -/
def defaultRoute (defaultIngressClass : String) (activeStandby : Bool) : RouteV2 :=
  { RouteV2.zero with
    TLSAcme := defaultTLSAcme, Insecure := defaultInsecure,
    MonitoringPath := defaultMonitoringPath, Annotations := defaultAnnotations,
    Fastly := { RouteV2.zero.Fastly with
      ServiceID := defaultFastlyService, Watch := defaultFastlyWatch },
    AlternativeNames := some [], IngressClass := defaultIngressClass,
    RequestVerification := defaultRequestVerification,
    Migrate := if activeStandby then defaultActiveStandby else none }

/-- Lines 128-231 of `GenerateRoutesV2`: the body of the inner loop, the record made for
one entry of the route map.  The call of `GenerateFastlyConfiguration` in the source
passes no secret prefix, which the function in `fastly.go` requires; the prefix is a
parameter here.  The error of that call is dropped by the code, a panic is not. -/
def generateRoute (GetMD5HashWithNewLine : String → String)
    (vars : List EnvironmentVariable) (defaultIngressClass : String) (activeStandby : Bool)
    (secretPrefix rName : String) (lagoonRoute : Route) : Except Failure RouteV2 :=
  let newRoute := defaultRoute defaultIngressClass activeStandby
  let built : Except Failure RouteV2 :=
    if lagoonRoute.Name = "" then
      applyIngresses GetMD5HashWithNewLine defaultIngressClass rName newRoute
        lagoonRoute.Ingresses
    else
      .ok { newRoute with
        Domain := lagoonRoute.Name, LagoonService := rName, IngressName := lagoonRoute.Name }
  match built with
  | .error e => .error e
  | .ok newRoute =>
    match GenerateFastlyConfiguration newRoute.Fastly "" newRoute.Fastly.ServiceID
        newRoute.Domain secretPrefix vars with
    | (_, some (.panic msg)) => .error (.panic msg)
    | (fastly, _) =>
      let newRoute := { newRoute with Fastly := fastly }
      let err := IsDNS1123Subdomain (ToLower newRoute.Domain)
      if err ≠ [] then
        .error (.error ("Route " ++ newRoute.Domain ++ " in .lagoon.yml is not valid: "
          ++ fmtStrings err))
      else .ok newRoute

/-- Lines 127-232 of `GenerateRoutesV2`: the loop over the routes of one service. -/
def generateServiceRoutes (GetMD5HashWithNewLine : String → String)
    (vars : List EnvironmentVariable) (defaultIngressClass : String) (activeStandby : Bool)
    (secretPrefix rName : String) (yamlRoutes : RoutesV2) (lagoonRoutes : List Route) :
    RoutesV2 × Option Failure :=
  appendEach (generateRoute GetMD5HashWithNewLine vars defaultIngressClass activeStandby
    secretPrefix rName) yamlRoutes lagoonRoutes

/-- The function `GenerateRoutesV2` of `routes.go`: the state of `*yamlRoutes` when the
function returns, and the error it returns.  The route map is the list of its entries
in the order in which the map is ranged over. -/
def GenerateRoutesV2 (GetMD5HashWithNewLine : String → String) (yamlRoutes : RoutesV2)
    (routeMap : List (String × List Route)) (vars : List EnvironmentVariable)
    (defaultIngressClass : String) (activeStandby : Bool) (secretPrefix : String) :
    RoutesV2 × Option Failure :=
  match routeMap with
  | [] => (yamlRoutes, none)
  | (rName, lagoonRoutes) :: rest =>
    match generateServiceRoutes GetMD5HashWithNewLine vars defaultIngressClass activeStandby
        secretPrefix rName yamlRoutes lagoonRoutes with
    | (yamlRoutes, some e) => (yamlRoutes, some e)
    | (yamlRoutes, none) =>
      GenerateRoutesV2 GetMD5HashWithNewLine yamlRoutes rest vars defaultIngressClass
        activeStandby secretPrefix

/-- Lines 314-361 of `handleAPIRoute`: the copy of the API route with the defaults of
the fields that are not set.  The assignments of the source are gathered field by
field. -/
def apiRouteDefaults (defaultIngressClass : String) (apiRoute : RouteV2) : RouteV2 :=
  let hstsEnabled :=
    if apiRoute.HSTSEnabled.isSome then apiRoute.HSTSEnabled else apiRoute.HSTSEnabled
  { apiRoute with
    Fastly := apiRoute.Fastly
    IngressName := apiRoute.Domain
    TLSAcme := if apiRoute.TLSAcme.isSome then apiRoute.TLSAcme else defaultTLSAcme
    Insecure := if apiRoute.Insecure.isSome then apiRoute.Insecure else defaultInsecure
    Annotations :=
      if apiRoute.Annotations.isSome then apiRoute.Annotations else defaultAnnotations
    AlternativeNames :=
      if apiRoute.AlternativeNames.isSome then apiRoute.AlternativeNames else some []
    IngressClass :=
      if apiRoute.IngressClass ≠ "" then apiRoute.IngressClass else defaultIngressClass
    HSTSEnabled := hstsEnabled
    HSTSIncludeSubdomains :=
      if apiRoute.HSTSIncludeSubdomains.isSome then apiRoute.HSTSIncludeSubdomains
      else apiRoute.HSTSIncludeSubdomains
    HSTSPreload :=
      if apiRoute.HSTSPreload.isSome then apiRoute.HSTSPreload else apiRoute.HSTSPreload
    HSTSMaxAge :=
      if apiRoute.HSTSMaxAge > 0 then apiRoute.HSTSMaxAge
      else if hstsEnabled = some true then defaultHSTSMaxAge
      else apiRoute.HSTSMaxAge }

/-- Lines 379-388 of `handleAPIRoute`: request verification and path routes. -/
def apiRouteTail (routeAdd apiRoute : RouteV2) : RouteV2 :=
  { routeAdd with
    RequestVerification :=
      if apiRoute.RequestVerification.isSome then apiRoute.RequestVerification
      else defaultRequestVerification
    PathRoutes :=
      if apiRoute.PathRoutes.isSome then apiRoute.PathRoutes else routeAdd.PathRoutes }

/-- The function `handleAPIRoute` of `routes.go`: the defaults of a route defined in the
API.  The wildcard ingress name is stored in the parameter `apiRoute`, not in the record
that is returned. -/
def handleAPIRoute (GetMD5HashWithNewLine : String → String) (defaultIngressClass : String)
    (apiRoute : RouteV2) : RouteV2 × Option Failure :=
  let routeAdd := apiRouteDefaults defaultIngressClass apiRoute
  match apiRoute.Wildcard with
  | none => (apiRouteTail routeAdd apiRoute, none)
  | some wildcard =>
    let routeAdd := { routeAdd with Wildcard := apiRoute.Wildcard }
    match routeAdd.TLSAcme with
    | none => (routeAdd, some (.panic "nil pointer dereference"))
    | some tlsAcme =>
      if tlsAcme = true ∧ wildcard = true then
        (routeAdd, some (.error ("Route " ++ routeAdd.Domain
          ++ " has wildcard=true and tls-acme=true, this is not supported")))
      else if apiRoute.AlternativeNames.isSome ∧ wildcard = true then
        (routeAdd, some (.error ("Route " ++ routeAdd.Domain
          ++ " has wildcard=true and alternativenames defined, this is not supported")))
      else
        match wildcardIngressName GetMD5HashWithNewLine apiRoute.Domain with
        | .error e => (routeAdd, some e)
        | .ok _ => (apiRouteTail routeAdd apiRoute, none)

/-- Lines 249-262 of `MergeRoutesV2`: the inner loop of the first round, over the API
routes, for one route of the configuration file.  The state is the pair of the flag
`existsInAPI` and the record `routeAdd`. -/
def mergeFindInAPI (GetMD5HashWithNewLine : String → String) (defaultIngressClass : String)
    (route : RouteV2) : Bool × RouteV2 → List RouteV2 → (Bool × RouteV2) × Option Failure
  | st, [] => (st, none)
  | st, apiRoute :: rest =>
    if apiRoute.Domain = route.Domain then
      let err := IsDNS1123Subdomain (ToLower apiRoute.Domain)
      if err ≠ [] then
        (st, some (.error ("Route " ++ apiRoute.Domain
          ++ " in API defined routes is not valid: " ++ fmtStrings err)))
      else
        match handleAPIRoute GetMD5HashWithNewLine defaultIngressClass apiRoute with
        | (routeAdd, some e) => ((true, routeAdd), some e)
        | (routeAdd, none) =>
          mergeFindInAPI GetMD5HashWithNewLine defaultIngressClass route (true, routeAdd) rest
    else mergeFindInAPI GetMD5HashWithNewLine defaultIngressClass route st rest

/-- Lines 244-272 of `MergeRoutesV2`, the body of the first loop: the record that is
appended for one route of the configuration file, the API one when the API defines the
domain too. -/
def mergeYamlRoute (GetMD5HashWithNewLine : String → String) (defaultIngressClass : String)
    (apiRoutes : List RouteV2) (route : RouteV2) : Except Failure RouteV2 :=
  let err := IsDNS1123Subdomain (ToLower route.Domain)
  if err ≠ [] then
    .error (.error ("Route " ++ route.Domain ++ " in .lagoon.yml is not valid: "
      ++ fmtStrings err))
  else
    match mergeFindInAPI GetMD5HashWithNewLine defaultIngressClass route
        (false, RouteV2.zero) apiRoutes with
    | (_, some e) => .error e
    | ((existsInAPI, routeAdd), none) =>
      if existsInAPI then .ok routeAdd
      else if route.AlternativeNames.isNone then .ok { route with AlternativeNames := some [] }
      else .ok route

/-- Lines 243-273 of `MergeRoutesV2`: the first round, over the routes of the
configuration file. -/
def mergeFirstRound (GetMD5HashWithNewLine : String → String) (defaultIngressClass : String)
    (apiRoutes : List RouteV2) (firstRoundRoutes : RoutesV2) (yamlRoutes : List RouteV2) :
    RoutesV2 × Option Failure :=
  appendEach (mergeYamlRoute GetMD5HashWithNewLine defaultIngressClass apiRoutes)
    firstRoundRoutes yamlRoutes

/-- Lines 275-295 of `MergeRoutesV2`: the second round, over the API routes; one whose
domain is not in the list yet is added. -/
def mergeAPIOnly (GetMD5HashWithNewLine : String → String) (defaultIngressClass : String) :
    RoutesV2 → List RouteV2 → RoutesV2 × Option Failure
  | firstRoundRoutes, [] => (firstRoundRoutes, none)
  | firstRoundRoutes, apiRoute :: rest =>
    let err := IsDNS1123Subdomain (ToLower apiRoute.Domain)
    if err ≠ [] then
      (firstRoundRoutes, some (.error ("Route " ++ apiRoute.Domain
        ++ " in API defined routes is not valid: " ++ fmtStrings err)))
    else
      match handleAPIRoute GetMD5HashWithNewLine defaultIngressClass apiRoute with
      | (_, some e) => (firstRoundRoutes, some e)
      | (routeAdd, none) =>
        let existsInAPI := firstRoundRoutes.Routes.any fun route =>
          decide (apiRoute.Domain = route.Domain)
        if existsInAPI then
          mergeAPIOnly GetMD5HashWithNewLine defaultIngressClass firstRoundRoutes rest
        else
          mergeAPIOnly GetMD5HashWithNewLine defaultIngressClass
            { Routes := firstRoundRoutes.Routes ++ [routeAdd] } rest

/-- Lines 299-307 of `MergeRoutesV2`, the body of the last loop: the Fastly configuration
is generated again and the domain is lowered.  The error of
`GenerateFastlyConfiguration` is dropped by the code, a panic is not; the secret prefix
is a parameter as in `generateRoute`. -/
def finalRoute (vars : List EnvironmentVariable) (secretPrefix : String)
    (fRoute : RouteV2) : Except Failure RouteV2 :=
  match GenerateFastlyConfiguration fRoute.Fastly "" fRoute.Fastly.ServiceID fRoute.Domain
      secretPrefix vars with
  | (_, some (.panic msg)) => .error (.panic msg)
  | (fastly, _) => .ok { fRoute with Fastly := fastly, Domain := ToLower fRoute.Domain }

/-- Lines 298-307 of `MergeRoutesV2`: the last loop. -/
def mergeFinalRoutes (vars : List EnvironmentVariable) (secretPrefix : String)
    (finalRoutes : RoutesV2) (firstRoundRoutes : List RouteV2) : RoutesV2 × Option Failure :=
  appendEach (finalRoute vars secretPrefix) finalRoutes firstRoundRoutes

/-- The function `MergeRoutesV2` of `routes.go`: the two values it returns. -/
def MergeRoutesV2 (GetMD5HashWithNewLine : String → String) (yamlRoutes apiRoutes : RoutesV2)
    (vars : List EnvironmentVariable) (defaultIngressClass secretPrefix : String) :
    RoutesV2 × Option Failure :=
  match mergeFirstRound GetMD5HashWithNewLine defaultIngressClass apiRoutes.Routes
      { Routes := [] } yamlRoutes.Routes with
  | (firstRoundRoutes, some e) => (firstRoundRoutes, some e)
  | (firstRoundRoutes, none) =>
    match mergeAPIOnly GetMD5HashWithNewLine defaultIngressClass firstRoundRoutes
        apiRoutes.Routes with
    | (firstRoundRoutes, some e) => (firstRoundRoutes, some e)
    | (firstRoundRoutes, none) =>
      mergeFinalRoutes vars secretPrefix { Routes := [] } firstRoundRoutes.Routes

/-! ## `template_autogen_ingress.go` -/

/-- Go's `strings.Contains` on the characters: `substr` starts at some place of the
list. -/
def containsChars (substr : List Char) : List Char → Bool
  | [] => substr.isEmpty
  | c :: cs => substr.isPrefixOf (c :: cs) || containsChars substr cs

/-- Go's `strings.Contains(s, substr)`. -/
def Contains (s substr : String) : Bool :=
  containsChars substr.data s.data

/-- Go's `strings.Replace` with the count 1 on the characters: the first occurrence of
`old` is replaced by `new`. -/
def replaceFirstChars (old new : List Char) : List Char → List Char
  | [] => if old = [] then new else []
  | c :: cs =>
    if old.isPrefixOf (c :: cs) then new ++ (c :: cs).drop old.length
    else c :: replaceFirstChars old new cs

/-- Go's `strings.Replace(s, old, new, 1)`; 1 is the only count that the code uses. -/
def Replace (s old new : String) : String :=
  String.mk (replaceFirstChars old.data new.data s.data)

/-- The service token of a router pattern: a dollar sign and `service` in braces. -/
def serviceToken : String := "$\x7bservice\x7d"

/-- The project token of a router pattern: a dollar sign and `project` in braces. -/
def projectToken : String := "$\x7bproject\x7d"

/-- The environment token of a router pattern: a dollar sign and `environment` in
braces. -/
def environmentToken : String := "$\x7benvironment\x7d"

/-- The list `supportedAutogeneratedTypes`. -/
def supportedAutogeneratedTypes : List String :=
  ["node", "node-persistent", "nginx", "nginx-php", "nginx-php-persistent", "varnish",
    "varnish-persistent", "python-persistent", "python"]

/-- Lines 142-163 of `AutogeneratedDomainFromPattern`, the variable `domain`: the tokens
of the pattern are replaced, each once, and the service comes first when the pattern has
no service token.  The names of the project and of the environment are variables of the
package; they are parameters here. -/
def substitutedDomain (projectName environmentName pattern service : String) : String :=
  let hasServicePattern := Contains pattern serviceToken
  let domain := Replace pattern serviceToken service
  let domain := Replace domain projectToken projectName
  let domain := Replace domain environmentToken environmentName
  if !hasServicePattern then service ++ "." ++ domain else domain

/-- Lines 143-163 of `AutogeneratedDomainFromPattern`, the variable `shortDomain`.  The
helpers `helpers.GetSha256Hash` and `helpers.GetBase32EncodedLowercase` are not among the
sources and are parameters; the encoded digest has more than eight characters, so that the
slice `[:8]` is `take 8`. -/
def substitutedShortDomain (GetSha256Hash GetBase32EncodedLowercase : String → String)
    (projectName environmentName pattern service : String) : String :=
  let hasServicePattern := Contains pattern serviceToken
  let shortDomain := Replace pattern serviceToken service
  let shortDomain := Replace shortDomain projectToken
    (String.mk ((GetBase32EncodedLowercase (GetSha256Hash projectName)).data.take 8))
  let shortDomain := Replace shortDomain environmentToken
    (String.mk ((GetBase32EncodedLowercase (GetSha256Hash environmentName)).data.take 8))
  if !hasServicePattern then service ++ "." ++ shortDomain else shortDomain

/-- Lines 169-172 of `AutogeneratedDomainFromPattern`: a part of more than 63 bytes
(`len(part) > 63`) becomes its first 54 bytes (`part[:54]`), a dash and the first eight
characters of the hash of the domain.  The hash is a hex digest of 64 characters, so that
the slice `[:8]` is `take 8`. -/
def autogenDomainPart (domainHash part : String) : String :=
  if len part > 63 then
    sliceTo part 54 ++ "-" ++ String.mk (domainHash.data.take 8)
  else part

/-- Lines 168-178 of `AutogeneratedDomainFromPattern`: the loop over the parts of the
domain, from the value of `finalDomain` and the index `count`; `len` is the number of all
parts. -/
def autogenDomainParts (domainHash : String) (len : Nat) : String → Nat → List String → String
  | finalDomain, _, [] => finalDomain
  | finalDomain, count, part :: rest =>
    let domainPart := autogenDomainPart domainHash part
    if count = len - 1 then
      autogenDomainParts domainHash len (finalDomain ++ domainPart) (count + 1) rest
    else
      autogenDomainParts domainHash len (finalDomain ++ domainPart ++ ".") (count + 1) rest

/-- Lines 165-178 of `AutogeneratedDomainFromPattern`: the domain is split on the dots,
the long parts are shortened and the parts are joined again. -/
def autogenFinalDomain (GetSha256Hash : String → String) (domain : String) : String :=
  let domainParts := Split domain '.'
  let domainHash := GetSha256Hash domain
  autogenDomainParts domainHash domainParts.length "" 0 domainParts

/-- The function `AutogeneratedDomainFromPattern`: the domain and the short domain of an
autogenerated ingress. -/
def AutogeneratedDomainFromPattern (GetSha256Hash GetBase32EncodedLowercase : String → String)
    (projectName environmentName pattern service : String) : String × String :=
  (autogenFinalDomain GetSha256Hash
      (substitutedDomain projectName environmentName pattern service),
    substitutedShortDomain GetSha256Hash GetBase32EncodedLowercase projectName
      environmentName pattern service)

/-- The fields of `lagoon.ServiceValues` that `generateAutogenRoutes` reads and writes;
the type is not among the sources.  The field `Type` of the source is `ServiceType`
here. -/
structure ServiceValues where
  ServiceType : String
  TypeName : String
  AutogeneratedRoutesEnabled : Bool
  AutogeneratedRoutesTLSAcme : Bool
  AutogeneratedRouteDomain : String
  ShortAutogeneratedRouteDomain : String
deriving DecidableEq, Repr

/-- The zero value `ServiceValues{}`. -/
def ServiceValues.zero : ServiceValues :=
  { ServiceType := "", TypeName := "", AutogeneratedRoutesEnabled := false,
    AutogeneratedRoutesTLSAcme := false, AutogeneratedRouteDomain := "",
    ShortAutogeneratedRouteDomain := "" }

/-- The field `Services` of `lagoon.BuildValues`, a map from the name of a service to its
values, listed in the order in which the map is ranged over. -/
structure BuildValues where
  Services : List (String × ServiceValues)
deriving DecidableEq, Repr

/-- The part `Routes.Autogenerate` of the configuration file, as far as
`generateAutogenRoutes` reads it. -/
structure Autogenerate where
  Prefixes : List String
  Insecure : String
deriving DecidableEq, Repr

/-- The assignment `lagoonValues.Services[serviceName] = serviceValues` to a key of the
map. -/
def setService (services : List (String × ServiceValues)) (serviceName : String)
    (serviceValues : ServiceValues) : List (String × ServiceValues) :=
  services.map fun kv => if kv.1 = serviceName then (kv.1, serviceValues) else kv

/-- Lines 81-132 of `generateAutogenRoutes`: the body of the loop, for one service.  The
state is the pair of the build values and the list of autogenerated routes.  The variables
`fastlyCacheNoCahce`, `fastlyServiceID` and `fastlyAPISecretPrefix` of the package are
parameters; the field `Service` that the source sets is the field `LagoonService` of
`routes.go`; `helpers.Contains` on a list is membership. -/
def autogenService (GetSha256Hash GetBase32EncodedLowercase : String → String)
    (projectName environmentName fastlyCacheNoCahce fastlyServiceID
      fastlyAPISecretPrefix : String)
    (envVars : List EnvironmentVariable) (autogenerate : Autogenerate) (pattern : String)
    (st : BuildValues × RoutesV2) (serviceName : String) (service : ServiceValues) :
    (BuildValues × RoutesV2) × Option Failure :=
  if service.AutogeneratedRoutesEnabled then
    if service.ServiceType ∈ supportedAutogeneratedTypes then
      let serviceTypeName := if service.TypeName ≠ "" then service.TypeName else serviceName
      let domains := AutogeneratedDomainFromPattern GetSha256Hash GetBase32EncodedLowercase
        projectName environmentName pattern serviceTypeName
      let serviceValues := { ServiceValues.zero with
        AutogeneratedRouteDomain := domains.1
        ShortAutogeneratedRouteDomain := domains.2 }
      let lagoonValues : BuildValues :=
        { Services := setService st.1.Services serviceName serviceValues }
      let alternativeNames := autogenerate.Prefixes.map fun altName =>
        altName ++ "." ++ domains.1
      match GenerateFastlyConfiguration Fastly.zero fastlyCacheNoCahce fastlyServiceID
          domains.1 fastlyAPISecretPrefix envVars with
      | (_, some e) => ((lagoonValues, st.2), some e)
      | (fastlyConfig, none) =>
        let insecure := if autogenerate.Insecure ≠ "" then autogenerate.Insecure else "Allow"
        let autogenRoute := { RouteV2.zero with
          Domain := domains.1
          Fastly := fastlyConfig
          TLSAcme := some service.AutogeneratedRoutesTLSAcme
          Labels := some [("lagoon.sh/autogenerated", "true"),
            ("helm.sh/chart", "autogenerated-ingress-0.1.0"),
            ("app.kubernetes.io/name", "autogenerated-ingress"),
            ("app.kubernetes.io/instance", serviceTypeName),
            ("lagoon.sh/service", serviceTypeName),
            ("lagoon.sh/service-type", service.ServiceType)]
          LagoonService := serviceTypeName
          IngressName := serviceTypeName
          Insecure := some insecure
          AlternativeNames := some alternativeNames }
        ((lagoonValues, { Routes := st.2.Routes ++ [autogenRoute] }), none)
    else (st, none)
  else (st, none)

/-- Lines 78-133 of `generateAutogenRoutes`: the loop over the services. -/
def autogenServices (GetSha256Hash GetBase32EncodedLowercase : String → String)
    (projectName environmentName fastlyCacheNoCahce fastlyServiceID
      fastlyAPISecretPrefix : String)
    (envVars : List EnvironmentVariable) (autogenerate : Autogenerate) (pattern : String) :
    BuildValues × RoutesV2 → List (String × ServiceValues) →
      (BuildValues × RoutesV2) × Option Failure
  | st, [] => (st, none)
  | st, (serviceName, service) :: rest =>
    match autogenService GetSha256Hash GetBase32EncodedLowercase projectName environmentName
        fastlyCacheNoCahce fastlyServiceID fastlyAPISecretPrefix envVars autogenerate pattern
        st serviceName service with
    | (st, some e) => (st, some e)
    | (st, none) =>
      autogenServices GetSha256Hash GetBase32EncodedLowercase projectName environmentName
        fastlyCacheNoCahce fastlyServiceID fastlyAPISecretPrefix envVars autogenerate pattern
        st rest

/-- The function `generateAutogenRoutes`: the build values and the list of autogenerated
routes that it leaves, and the error that it returns.  The message of the error of
`GetLagoonVariable`, which is not among the sources, is the parameter `notFound`. -/
def generateAutogenRoutes (GetSha256Hash GetBase32EncodedLowercase : String → String)
    (projectName environmentName fastlyCacheNoCahce fastlyServiceID
      fastlyAPISecretPrefix notFound : String)
    (envVars : List EnvironmentVariable) (autogenerate : Autogenerate)
    (lagoonValues : BuildValues) (autogenRoutes : RoutesV2) :
    (BuildValues × RoutesV2) × Option Failure :=
  match GetLagoonVariable "LAGOON_SYSTEM_ROUTER_PATTERN" (some ["internal_system"])
      envVars with
  | some lagoonRouterPattern =>
    autogenServices GetSha256Hash GetBase32EncodedLowercase projectName environmentName
      fastlyCacheNoCahce fastlyServiceID fastlyAPISecretPrefix envVars autogenerate
      lagoonRouterPattern.Value (lagoonValues, autogenRoutes) lagoonValues.Services
  | none => ((lagoonValues, autogenRoutes), some (.error notFound))

/-- The characters of the parts joined by `sep`; the inverse of `splitChars`, against
which the loop of `AutogeneratedDomainFromPattern` is compared. -/
def joinChars (sep : Char) : List (List Char) → List Char
  | [] => []
  | [p] => p
  | p :: q :: ps => p ++ sep :: joinChars sep (q :: ps)

/-- The form of the value of `helpers.GetSha256Hash`: a digest of 64 hex characters. -/
def isHexDigest (s : String) : Bool :=
  decide (s.length = 64) && s.data.all fun c =>
    ('0' ≤ c && c ≤ '9') || ('a' ≤ c && c ≤ 'f')

/-- Lines 84-88 of `generateAutogenRoutes`: the type name of the service when it has one,
and the name of the service otherwise. -/
def serviceTypeNameOf (serviceName : String) (service : ServiceValues) : String :=
  if service.TypeName ≠ "" then service.TypeName else serviceName

/-- Lines 81-82 of `generateAutogenRoutes`: the two conditions under which a service gets
an autogenerated route. -/
def autogenEligible (service : ServiceValues) : Bool :=
  service.AutogeneratedRoutesEnabled
    && decide (service.ServiceType ∈ supportedAutogeneratedTypes)

/-- Lines 89-129 of `generateAutogenRoutes`: the record `autogenRoute` for one service,
with the Fastly configuration as `GenerateFastlyConfiguration` leaves it. -/
def autogeneratedRoute (GetSha256Hash GetBase32EncodedLowercase : String → String)
    (projectName environmentName fastlyCacheNoCahce fastlyServiceID
      fastlyAPISecretPrefix : String)
    (envVars : List EnvironmentVariable) (autogenerate : Autogenerate) (pattern : String)
    (serviceName : String) (service : ServiceValues) : RouteV2 :=
  let serviceTypeName := serviceTypeNameOf serviceName service
  let domain := (AutogeneratedDomainFromPattern GetSha256Hash GetBase32EncodedLowercase
    projectName environmentName pattern serviceTypeName).1
  { RouteV2.zero with
    Domain := domain
    Fastly := (GenerateFastlyConfiguration Fastly.zero fastlyCacheNoCahce fastlyServiceID
      domain fastlyAPISecretPrefix envVars).1
    TLSAcme := some service.AutogeneratedRoutesTLSAcme
    Labels := some [("lagoon.sh/autogenerated", "true"),
      ("helm.sh/chart", "autogenerated-ingress-0.1.0"),
      ("app.kubernetes.io/name", "autogenerated-ingress"),
      ("app.kubernetes.io/instance", serviceTypeName),
      ("lagoon.sh/service", serviceTypeName),
      ("lagoon.sh/service-type", service.ServiceType)]
    LagoonService := serviceTypeName
    IngressName := serviceTypeName
    Insecure := some (if autogenerate.Insecure ≠ "" then autogenerate.Insecure else "Allow")
    AlternativeNames := some (autogenerate.Prefixes.map fun altName =>
      altName ++ "." ++ domain) }

/-- Lines 90-94 of `generateAutogenRoutes`: the record that is written to the entry of the
service in the build values. -/
def autogeneratedServiceValues (GetSha256Hash GetBase32EncodedLowercase : String → String)
    (projectName environmentName pattern serviceName : String) (service : ServiceValues) :
    ServiceValues :=
  { ServiceValues.zero with
    AutogeneratedRouteDomain := (AutogeneratedDomainFromPattern GetSha256Hash
      GetBase32EncodedLowercase projectName environmentName pattern
      (serviceTypeNameOf serviceName service)).1
    ShortAutogeneratedRouteDomain := (AutogeneratedDomainFromPattern GetSha256Hash
      GetBase32EncodedLowercase projectName environmentName pattern
      (serviceTypeNameOf serviceName service)).2 }

/-! ## `templates_ingress.go` -/

/-- Go's `strconv.FormatBool`. -/
def FormatBool (b : Bool) : String :=
  if b then "true" else "false"

/-- The type `ServiceBackendPort` of `k8s.io/api/networking/v1`. -/
structure ServiceBackendPort where
  Name : String
  Number : Int
deriving DecidableEq, Repr

/-- The type `HTTPIngressPath` of `k8s.io/api/networking/v1`, with the name and the port of
the backend service at the top level. -/
structure HTTPIngressPath where
  Path : String
  PathType : String
  ServiceName : String
  ServicePort : ServiceBackendPort
deriving DecidableEq, Repr

/-- The type `IngressRule` of `k8s.io/api/networking/v1`: a host and the paths of its HTTP
rule. -/
structure IngressRule where
  Host : String
  Paths : List HTTPIngressPath
deriving DecidableEq, Repr

/-- The port configuration of an additional service port, as far as
`services.GenerateServiceBackendPort` reads it; the type is not among the sources. -/
structure ServicePortConfig where
  Target : Nat
  Protocol : String
deriving DecidableEq, Repr

/-- The type `generator.AdditionalServicePort`, which is not among the sources: the fields
that `GenerateIngressTemplate` reads and the port configuration. -/
structure AdditionalServicePort where
  ServicePort : ServicePortConfig
  ServiceName : String
  ServiceOverrideName : String
deriving DecidableEq, Repr

/-- The fields of `generator.ServiceValues` that `GenerateIngressTemplate` reads; the type
is not among the sources. -/
structure generator.ServiceValues where
  OverrideName : String
  ShortAutogeneratedRouteDomain : String
  AdditionalServicePorts : List AdditionalServicePort
deriving DecidableEq, Repr

/-- The field `Services` of `generator.BuildValues`, a slice. -/
structure generator.BuildValues where
  Services : List generator.ServiceValues
deriving DecidableEq, Repr

/-- Line 78 of `GenerateIngressTemplate`: the value of the annotation
`kubernetes.io/tls-acme`, which dereferences `route.TLSAcme`. -/
def tlsAcmeAnnotation (route : RouteV2) : Except Failure String :=
  match route.TLSAcme with
  | none => .error (.panic "nil pointer dereference")
  | some tlsAcme => .ok (FormatBool tlsAcme)

/-- Lines 126-132 of `GenerateIngressTemplate`: the value of the two `ssl-redirect`
annotations, `none` when they are not set; the condition dereferences
`route.Insecure`. -/
def sslRedirectAnnotation (route : RouteV2) : Except Failure (Option String) :=
  match route.Insecure with
  | none => .error (.panic "nil pointer dereference")
  | some insecure =>
    if insecure = "Allow" then .ok (some "false")
    else if insecure = "Redirect" ∨ insecure = "None" then .ok (some "true")
    else .ok none

/-- Lines 47 and 57 of `GenerateIngressTemplate`: the domain of a wildcard route gets the
wildcard before it. -/
def ingressHost (route : RouteV2) : String :=
  if route.Wildcard = some true then "*." ++ route.Domain else route.Domain

/-- Lines 256-266 of `GenerateIngressTemplate`: the loop over the additional ports of one
service, from the index `idx`.  The state is the pair of `servicePort` and
`backendService`; the helper `services.GenerateServiceBackendPort` is not among the sources
and is a parameter. -/
def backendServicePorts (GenerateServiceBackendPort : AdditionalServicePort → ServiceBackendPort)
    (route : RouteV2) (service : generator.ServiceValues) :
    ServiceBackendPort × String → Nat → List AdditionalServicePort →
      ServiceBackendPort × String
  | st, _, [] => st
  | st, idx, addPort :: rest =>
    let st :=
      if addPort.ServiceName = route.LagoonService then
        (GenerateServiceBackendPort addPort, service.OverrideName)
      else st
    let st :=
      if service.OverrideName = route.LagoonService ∧ idx = 0 then
        (GenerateServiceBackendPort addPort, st.2)
      else st
    backendServicePorts GenerateServiceBackendPort route service st (idx + 1) rest

/-- Lines 255-267 of `GenerateIngressTemplate`: the loop over the services. -/
def backendServiceLoop (GenerateServiceBackendPort : AdditionalServicePort → ServiceBackendPort)
    (route : RouteV2) :
    ServiceBackendPort × String → List generator.ServiceValues → ServiceBackendPort × String
  | st, [] => st
  | st, service :: rest =>
    backendServiceLoop GenerateServiceBackendPort route
      (backendServicePorts GenerateServiceBackendPort route service st 0
        service.AdditionalServicePorts) rest

/-- Lines 248-267 of `GenerateIngressTemplate`: the port `servicePort` and the name
`backendService` of the backend of the route. -/
def backendService (GenerateServiceBackendPort : AdditionalServicePort → ServiceBackendPort)
    (route : RouteV2) (lValues : generator.BuildValues) : ServiceBackendPort × String :=
  backendServiceLoop GenerateServiceBackendPort route
    ({ Name := "http", Number := 0 }, route.LagoonService) lValues.Services

/-- Lines 306-311 of `GenerateIngressTemplate`: the loop over the additional ports of one
service, for a path route.  The state is the pair of `pathPort` and
`backendServiceName`. -/
def pathPortOverride (GenerateServiceBackendPort : AdditionalServicePort → ServiceBackendPort)
    (pr : PathRoute) :
    ServiceBackendPort × String → List AdditionalServicePort → ServiceBackendPort × String
  | st, [] => st
  | st, addPort :: rest =>
    pathPortOverride GenerateServiceBackendPort pr
      (if addPort.ServiceName = pr.ToService then
        (GenerateServiceBackendPort addPort, addPort.ServiceOverrideName)
      else st) rest

/-- Lines 296-312 of `GenerateIngressTemplate`: the loop over the services, for a path
route. -/
def pathBackend (GenerateServiceBackendPort : AdditionalServicePort → ServiceBackendPort)
    (pr : PathRoute) :
    ServiceBackendPort × String → List generator.ServiceValues → ServiceBackendPort × String
  | st, [] => st
  | st, service :: rest =>
    let st :=
      if pr.ToService = service.OverrideName ∧ service.AdditionalServicePorts.length > 0 then
        match service.AdditionalServicePorts.head? with
        | some addPort => (GenerateServiceBackendPort addPort, st.2)
        | none => st
      else st
    pathBackend GenerateServiceBackendPort pr
      (pathPortOverride GenerateServiceBackendPort pr st service.AdditionalServicePorts) rest

/-- Lines 288-323 of `GenerateIngressTemplate`: the path that is appended for one path
route. -/
def ingressPath (GenerateServiceBackendPort : AdditionalServicePort → ServiceBackendPort)
    (lValues : generator.BuildValues) (pr : PathRoute) : HTTPIngressPath :=
  let st := pathBackend GenerateServiceBackendPort pr
    ({ Name := "http", Number := 0 }, pr.ToService) lValues.Services
  { Path := pr.Path, PathType := "Prefix", ServiceName := st.2, ServicePort := st.1 }

/-- Lines 287-324 of `GenerateIngressTemplate`: the loop over the path routes, which
appends to `paths`. -/
def ingressPathRoutes (GenerateServiceBackendPort : AdditionalServicePort → ServiceBackendPort)
    (lValues : generator.BuildValues) :
    List HTTPIngressPath → List PathRoute → List HTTPIngressPath
  | paths, [] => paths
  | paths, pr :: rest =>
    ingressPathRoutes GenerateServiceBackendPort lValues
      (paths ++ [ingressPath GenerateServiceBackendPort lValues pr]) rest

/-- Lines 270-324 of `GenerateIngressTemplate`: the list `paths`. -/
def ingressPaths (GenerateServiceBackendPort : AdditionalServicePort → ServiceBackendPort)
    (route : RouteV2) (lValues : generator.BuildValues) : List HTTPIngressPath :=
  let st := backendService GenerateServiceBackendPort route lValues
  let paths : List HTTPIngressPath :=
    [{ Path := "/", PathType := "Prefix", ServiceName := st.2, ServicePort := st.1 }]
  ingressPathRoutes GenerateServiceBackendPort lValues paths (route.PathRoutes.getD [])

/-- Lines 326-335 of `GenerateIngressTemplate`: the first rule of the ingress, for the
domain of the route.  What the function does before, the labels, the annotations and their
validation, does not touch `paths`. -/
def ingressMainRule (GenerateServiceBackendPort : AdditionalServicePort → ServiceBackendPort)
    (route : RouteV2) (lValues : generator.BuildValues) : IngressRule :=
  { Host := ingressHost route
    Paths := ingressPaths GenerateServiceBackendPort route lValues }

/-! ## Specification of the order of the merged routes -/

/-- The first occurrence of each element of a list, in the order of the list.  This is the
specification side of the second round of `MergeRoutesV2`, the domains of the API routes
that are added; the code is compared with it. -/
def firstOccurrences : List String → List String
  | [] => []
  | d :: ds => d :: (firstOccurrences ds).filter (· ≠ d)


/-! ## Lemmas on bytes -/

/-- Every character has at least one byte. -/
theorem utf8Len_pos (c : Char) : 1 ≤ utf8Len c := by
  unfold utf8Len
  split_ifs <;> omega

/-- The bytes of a concatenation of characters. -/
theorem utf8Bytes_append (a b : List Char) :
    utf8Bytes (a ++ b) = utf8Bytes a + utf8Bytes b := by
  induction a with
  | nil => simp [utf8Bytes]
  | cons c cs ih =>
    show utf8Bytes (cs ++ b) + utf8Len c = utf8Bytes cs + utf8Len c + utf8Bytes b
    rw [ih]
    omega

/-- The bytes of a concatenation. -/
theorem len_append (a b : String) : len (a ++ b) = len a + len b := by
  unfold len
  rw [String.data_append, utf8Bytes_append]

/-- A list of characters has at least as many bytes as characters. -/
theorem length_le_utf8Bytes (l : List Char) : l.length ≤ utf8Bytes l := by
  induction l with
  | nil => simp
  | cons c cs ih =>
    have := utf8Len_pos c
    simp only [List.length_cons, utf8Bytes]
    omega

/-- A string has at least as many bytes as characters. -/
theorem length_le_len (s : String) : s.length ≤ len s :=
  length_le_utf8Bytes s.data

/-- A list of ASCII characters has as many bytes as characters. -/
theorem utf8Bytes_of_ascii (l : List Char) (h : ∀ c ∈ l, c.toNat < 0x80) :
    utf8Bytes l = l.length := by
  induction l with
  | nil => simp [utf8Bytes]
  | cons c cs ih =>
    have hc : utf8Len c = 1 := by
      unfold utf8Len
      rw [if_pos (h c (List.mem_cons_self _ _))]
    simp only [List.length_cons, utf8Bytes, hc]
    rw [ih (fun x hx => h x (List.mem_cons_of_mem _ hx))]

/-- The characters of an ASCII string. -/
theorem isASCII_iff (s : String) : isASCII s = true ↔ ∀ c ∈ s.data, c.toNat < 0x80 := by
  simp [isASCII]

/-- An ASCII string has as many bytes as characters. -/
theorem len_of_isASCII (s : String) (h : isASCII s = true) : len s = s.length :=
  utf8Bytes_of_ascii s.data ((isASCII_iff s).mp h)

/-- On ASCII characters a slice by bytes is a slice by characters. -/
theorem takeBytes_of_ascii (l : List Char) (h : ∀ c ∈ l, c.toNat < 0x80) (n : Nat) :
    takeBytes n l = l.take n := by
  induction l generalizing n with
  | nil => simp [takeBytes]
  | cons c cs ih =>
    have hc : utf8Len c = 1 := by
      unfold utf8Len
      rw [if_pos (h c (List.mem_cons_self _ _))]
    rw [takeBytes, hc]
    cases n with
    | zero => simp
    | succ m =>
      rw [if_pos (by omega), ih (fun x hx => h x (List.mem_cons_of_mem _ hx))]
      simp

/-- On an ASCII string a slice by bytes is a slice by characters. -/
theorem sliceTo_of_isASCII (s : String) (h : isASCII s = true) (n : Nat) :
    sliceTo s n = String.mk (s.data.take n) := by
  unfold sliceTo
  rw [takeBytes_of_ascii s.data ((isASCII_iff s).mp h) n]

/-- A slice by bytes is a prefix of the characters. -/
theorem takeBytes_initial (n : Nat) (l : List Char) : takeBytes n l <+: l := by
  induction l generalizing n with
  | nil => simp [takeBytes]
  | cons c cs ih =>
    rw [takeBytes]
    split_ifs
    · exact List.prefix_cons_inj c |>.mpr (ih _)
    · exact List.nil_prefix

/-- A slice of `n` bytes has at most `n` bytes. -/
theorem utf8Bytes_takeBytes_le (n : Nat) (l : List Char) : utf8Bytes (takeBytes n l) ≤ n := by
  induction l generalizing n with
  | nil => simp [takeBytes, utf8Bytes]
  | cons c cs ih =>
    rw [takeBytes]
    split_ifs with hc
    · have := ih (n - utf8Len c)
      simp only [utf8Bytes]
      omega
    · simp [utf8Bytes]

/-- A slice of `n` bytes has at most `n` bytes. -/
theorem len_sliceTo_le (s : String) (n : Nat) : len (sliceTo s n) ≤ n :=
  utf8Bytes_takeBytes_le n s.data

/-- A slice that holds all the bytes is the whole list. -/
theorem takeBytes_of_le (l : List Char) (n : Nat) (h : utf8Bytes l ≤ n) :
    takeBytes n l = l := by
  induction l generalizing n with
  | nil => simp [takeBytes]
  | cons c cs ih =>
    simp only [utf8Bytes] at h
    rw [takeBytes, if_pos (by omega), ih _ (by omega)]

/-- A slice cut at the end of a prefix is that prefix. -/
theorem takeBytes_append (a b : List Char) :
    takeBytes (utf8Bytes a) (a ++ b) = a := by
  induction a with
  | nil =>
    cases b with
    | nil => simp [takeBytes]
    | cons c cs =>
      have := utf8Len_pos c
      simp only [utf8Bytes, List.nil_append]
      rw [takeBytes, if_neg (by omega)]
  | cons c cs ih =>
    simp only [utf8Bytes, List.cons_append]
    rw [takeBytes, if_pos (by omega)]
    simp only [Nat.add_sub_cancel]
    rw [ih]

/-- A slice cut at the end of a prefix is that prefix. -/
theorem sliceTo_append (pre suf : String) : sliceTo (pre ++ suf) (len pre) = pre := by
  unfold sliceTo len
  rw [String.data_append, takeBytes_append]

/-! ## Lemmas on strings -/

theorem splitChars_ne_nil (sep : Char) (l : List Char) : splitChars sep l ≠ [] := by
  induction l with
  | nil => simp [splitChars]
  | cons c cs ih =>
    unfold splitChars
    split
    · simp
    · split <;> simp

theorem Split_ne_nil (s : String) (sep : Char) : Split s sep ≠ [] := by
  simp [Split, splitChars_ne_nil]

theorem splitChars_of_not_mem (sep : Char) (l : List Char) (h : sep ∉ l) :
    splitChars sep l = [l] := by
  induction l with
  | nil => simp [splitChars]
  | cons c cs ih =>
    simp only [List.mem_cons, not_or] at h
    unfold splitChars
    rw [if_neg (fun hc => h.1 hc.symm), ih h.2]

theorem HasPrefix_append (p x : String) : HasPrefix (p ++ x) p = true := by
  simp [HasPrefix, String.data_append]

/-! ## Lemmas on `GenerateFastlyConfiguration` -/

theorem fastlySecretPrefix_idem (f : Fastly) (p : String) :
    fastlySecretPrefix (fastlySecretPrefix f p) p = fastlySecretPrefix f p := by
  unfold fastlySecretPrefix
  by_cases h1 : f.APISecretName = ""
  · simp [h1]
  · by_cases h2 : HasPrefix f.APISecretName p = true
    · simp [h1, h2]
    · simp [h1, h2, HasPrefix_append]

theorem fastlySecretPrefix_serviceID (g : Fastly) (p : String) :
    (fastlySecretPrefix g p).ServiceID = g.ServiceID := by
  unfold fastlySecretPrefix; split_ifs <;> rfl

theorem fastlySecretPrefix_watch (g : Fastly) (p : String) :
    (fastlySecretPrefix g p).Watch = g.Watch := by
  unfold fastlySecretPrefix; split_ifs <;> rfl

theorem fastlySecretPrefix_entrySecret (sid p : String) (rest : List String) (b : Bool) :
    fastlySecretPrefix ⟨sid, entrySecret p rest, b⟩ p = ⟨sid, entrySecret p rest, b⟩ := by
  unfold fastlySecretPrefix
  rcases rest with _ | ⟨s, _ | ⟨s2, rest⟩⟩ <;> simp [entrySecret, HasPrefix_append]

theorem fastlyDefaults_secret (f : Fastly) (nc sid : String) :
    (fastlyDefaults f nc sid).APISecretName = f.APISecretName := by
  unfold fastlyDefaults
  split_ifs <;> rfl

theorem fastlyDefaults_self (g : Fastly) (nc : String) (h : g.ServiceID = "" → nc = "") :
    fastlyDefaults g nc g.ServiceID = g := by
  unfold fastlyDefaults
  by_cases h1 : g.ServiceID = ""
  · simp only [if_pos h1, h h1, ne_eq, not_true_eq_false, if_false]
  · simp only [if_neg h1]

theorem fastlyDefaults_serviceID_empty (f : Fastly) (nc sid : String)
    (h : (fastlyDefaults f nc sid).ServiceID = "") : nc = "" := by
  unfold fastlyDefaults at h
  by_cases h1 : sid = ""
  · by_cases h2 : nc = ""
    · exact h2
    · simp [h1, h2] at h
  · simp [h1] at h

theorem entry_of_ne (route p : String) (f : Fastly) (lfs : String)
    (h : (Split lfs ':').head? ≠ some route) :
    fastlyServiceIDsEntry route p f lfs = (f, none) := by
  unfold fastlyServiceIDsEntry
  rcases hl : Split lfs ':' with _ | ⟨d, l⟩
  · exact absurd hl (Split_ne_nil lfs ':')
  · rw [hl] at h
    have hd : d ≠ route := by simpa using h
    simp [hd]

theorem entry_of_tokens (route p : String) (f : Fastly) (lfs svc w : String)
    (rest : List String) (b : Bool) (ht : Split lfs ':' = route :: svc :: w :: rest)
    (hw : ParseBool w = some b) :
    fastlyServiceIDsEntry route p f lfs = (⟨svc, entrySecret p rest, b⟩, none) := by
  unfold fastlyServiceIDsEntry
  rw [ht]
  rcases rest with _ | ⟨s, _ | ⟨s2, rest⟩⟩ <;> simp [hw, entrySecret]

theorem entry_trichotomy (route p lfs : String) :
    (∀ f, fastlyServiceIDsEntry route p f lfs = (f, none))
    ∨ (∃ c, ∀ f, fastlyServiceIDsEntry route p f lfs = (c, none))
    ∨ (∃ e, ∀ f, fastlyServiceIDsEntry route p f lfs = (f, some e)) := by
  by_cases h : (Split lfs ':').head? = some route
  · have hne := Split_ne_nil lfs ':'
    rcases hl : Split lfs ':' with _ | ⟨d, l⟩
    · exact absurd hl hne
    · rw [hl] at h
      have hd : d = route := by simpa using h
      subst hd
      rcases l with _ | ⟨svc, _ | ⟨w, rest⟩⟩
      · right; right
        exact ⟨.panic "index out of range [2]",
          fun f => by unfold fastlyServiceIDsEntry; rw [hl]; simp⟩
      · right; right
        exact ⟨.error "no watch status was provided, only the route and service id",
          fun f => by unfold fastlyServiceIDsEntry; rw [hl]; simp⟩
      · cases hw : ParseBool w with
        | none =>
          right; right
          exact ⟨.error ("the provided value " ++ w ++ " is not a valid boolean"),
            fun f => by unfold fastlyServiceIDsEntry; rw [hl]; simp [hw]⟩
        | some b =>
          right; left
          exact ⟨_, fun f => entry_of_tokens d p f lfs svc w rest b hl hw⟩
  · left
    exact fun f => entry_of_ne route p f lfs h

theorem override_trichotomy (route p : String) (ts : List String) :
    (∀ f, fastlyServiceIDsOverride route p f ts = (f, none))
    ∨ (∃ c, ∀ f, fastlyServiceIDsOverride route p f ts = (c, none))
    ∨ (∀ f, ∃ f1 e, fastlyServiceIDsOverride route p f ts = (f1, some e)) := by
  induction ts with
  | nil => left; intro f; rfl
  | cons t ts ih =>
    rcases entry_trichotomy route p t with h | ⟨c, h⟩ | ⟨e, h⟩
    · rcases ih with ih | ⟨c, ih⟩ | ih
      · left; intro f; simp [fastlyServiceIDsOverride, h, ih]
      · right; left; exact ⟨c, fun f => by simp [fastlyServiceIDsOverride, h, ih]⟩
      · right; right; intro f
        obtain ⟨f1, e, he⟩ := ih f
        exact ⟨f1, e, by simp [fastlyServiceIDsOverride, h, he]⟩
    · rcases ih with ih | ⟨c2, ih⟩ | ih
      · right; left; exact ⟨c, fun f => by simp [fastlyServiceIDsOverride, h, ih]⟩
      · right; left; exact ⟨c2, fun f => by simp [fastlyServiceIDsOverride, h, ih]⟩
      · right; right; intro f
        obtain ⟨f1, e, he⟩ := ih c
        exact ⟨f1, e, by simp [fastlyServiceIDsOverride, h, he]⟩
    · right; right; intro f
      exact ⟨f, e, by simp [fastlyServiceIDsOverride, h]⟩

theorem variable_trichotomy (route p : String) (vars : List EnvironmentVariable) :
    (∀ f, fastlyServiceIDsVariable route p f vars = (f, none))
    ∨ (∃ c, ∀ f, fastlyServiceIDsVariable route p f vars = (c, none))
    ∨ (∀ f, ∃ f1 e, fastlyServiceIDsVariable route p f vars = (f1, some e)) := by
  unfold fastlyServiceIDsVariable
  cases GetLagoonVariable "LAGOON_FASTLY_SERVICE_IDS" (some ["build", "global"]) vars with
  | none => left; intro g; rfl
  | some ids => exact override_trichotomy route p (Split ids.Value ',')

theorem serviceID_cases (p : String) (vars : List EnvironmentVariable) :
    (∀ f, fastlyServiceIDOverride f p vars = (f, none))
    ∨ (∃ sid w, ∀ f, fastlyServiceIDOverride f p vars = (⟨sid, f.APISecretName, w⟩, none))
    ∨ (∃ c, ∀ f, fastlyServiceIDOverride f p vars = (c, none))
    ∨ (∃ e, ∀ f, fastlyServiceIDOverride f p vars = (f, some e)) := by
  unfold fastlyServiceIDOverride
  cases GetLagoonVariable "LAGOON_FASTLY_SERVICE_ID" (some ["build", "global"]) vars with
  | none => left; intro f; rfl
  | some g =>
    rcases hl : Split g.Value ':' with _ | ⟨sid, _ | ⟨w, rest⟩⟩
    · exact absurd hl (Split_ne_nil _ _)
    · right; right; right
      exact ⟨.error "no watch status was provided, only the service id",
        fun f => by simp [hl]⟩
    · cases hw : ParseBool w with
      | none =>
        right; right; right
        exact ⟨.error ("the provided value " ++ w ++ " is not a valid boolean"),
          fun f => by simp [hl, hw]⟩
      | some b =>
        rcases rest with _ | ⟨s, _ | ⟨s2, rest⟩⟩
        · right; left
          exact ⟨sid, b, fun f => by simp [hl, hw]⟩
        · right; right; left
          exact ⟨⟨sid, p ++ s, b⟩, fun f => by simp [hl, hw]⟩
        · right; left
          exact ⟨sid, b, fun f => by simp [hl, hw]⟩

/-- C5. CDN resolution is idempotent: when `GenerateFastlyConfiguration` succeeds, running
it again from the resolved configuration, with the resolved service id as the explicit
one and the same no-cache id, domain, secret prefix and variables, succeeds and returns
the same service id, watch flag and secret name. -/
theorem C5_fastly_idempotent (f : Fastly) (nc sid route p : String)
    (vars : List EnvironmentVariable) (f1 : Fastly)
    (hrun : GenerateFastlyConfiguration f nc sid route p vars = (f1, none)) :
    GenerateFastlyConfiguration f1 nc f1.ServiceID route p vars = (f1, none) := by
  unfold GenerateFastlyConfiguration at hrun ⊢
  rcases serviceID_cases p vars with hg | ⟨gs, gw, hg⟩ | ⟨c, hg⟩ | ⟨e, hg⟩
  · -- no global override
    simp only [hg] at hrun ⊢
    rcases variable_trichotomy route p vars with hl | ⟨c, hl⟩ | hl
    · simp only [hl] at hrun ⊢
      have hf1 : f1 = fastlySecretPrefix (fastlyDefaults f nc sid) p := by
        simpa using hrun.symm
      have hd : fastlyDefaults f1 nc f1.ServiceID = f1 := by
        apply fastlyDefaults_self
        intro h0
        rw [hf1, fastlySecretPrefix_serviceID] at h0
        exact fastlyDefaults_serviceID_empty f nc sid h0
      rw [hd, hf1, fastlySecretPrefix_idem]
    · simp only [hl] at hrun ⊢
      exact hrun
    · obtain ⟨g1, e, he⟩ := hl (fastlyDefaults f nc sid)
      rw [he] at hrun
      simp at hrun
  · -- global override of service id and watch status
    simp only [hg] at hrun ⊢
    rcases variable_trichotomy route p vars with hl | ⟨c, hl⟩ | hl
    · simp only [hl] at hrun ⊢
      have hf1 : f1 = fastlySecretPrefix ⟨gs, (fastlyDefaults f nc sid).APISecretName, gw⟩ p := by
        simpa using hrun.symm
      have hsec : (fastlyDefaults f1 nc f1.ServiceID).APISecretName = f1.APISecretName :=
        fastlyDefaults_secret _ _ _
      rw [hsec]
      have : (⟨gs, f1.APISecretName, gw⟩ : Fastly) = f1 := by
        rw [hf1]; unfold fastlySecretPrefix; split_ifs <;> rfl
      rw [this, hf1, fastlySecretPrefix_idem]
    · simp only [hl] at hrun ⊢
      exact hrun
    · obtain ⟨g1, e, he⟩ := hl ⟨gs, (fastlyDefaults f nc sid).APISecretName, gw⟩
      rw [he] at hrun
      simp at hrun
  · -- global override of all three fields
    simp only [hg] at hrun ⊢
    exact hrun
  · simp [hg] at hrun


theorem override_append (route p : String) (f : Fastly) (xs ys : List String) :
    fastlyServiceIDsOverride route p f (xs ++ ys)
      = match fastlyServiceIDsOverride route p f xs with
        | (f1, none) => fastlyServiceIDsOverride route p f1 ys
        | (f1, some e) => (f1, some e) := by
  induction xs generalizing f with
  | nil => rfl
  | cons x xs ih =>
    simp only [List.cons_append, fastlyServiceIDsOverride]
    rcases hx : fastlyServiceIDsEntry route p f x with ⟨f1, _ | e⟩
    · exact ih f1
    · rfl

theorem override_of_ne (route p : String) (f : Fastly) (ts : List String)
    (h : ∀ u ∈ ts, (Split u ':').head? ≠ some route) :
    fastlyServiceIDsOverride route p f ts = (f, none) := by
  induction ts with
  | nil => rfl
  | cons t ts ih =>
    simp only [fastlyServiceIDsOverride]
    rw [entry_of_ne route p f t (h t (List.mem_cons_self _ _))]
    exact ih (fun u hu => h u (List.mem_cons_of_mem _ hu))

theorem override_of_wellformed (route p : String) (f : Fastly) (ts : List String)
    (h : ∀ u ∈ ts, (Split u ':').head? = some route →
      ∃ svc w rest b, Split u ':' = route :: svc :: w :: rest ∧ ParseBool w = some b) :
    ∃ f1, fastlyServiceIDsOverride route p f ts = (f1, none) := by
  induction ts generalizing f with
  | nil => exact ⟨f, rfl⟩
  | cons t ts ih =>
    simp only [fastlyServiceIDsOverride]
    by_cases hn : (Split t ':').head? = some route
    · obtain ⟨svc, w, rest, b, ht, hw⟩ := h t (List.mem_cons_self _ _) hn
      rw [entry_of_tokens route p f t svc w rest b ht hw]
      exact ih _ (fun u hu => h u (List.mem_cons_of_mem _ hu))
    · rw [entry_of_ne route p f t hn]
      exact ih _ (fun u hu => h u (List.mem_cons_of_mem _ hu))

theorem serviceID_of_wellformed (f : Fastly) (p : String) (vars : List EnvironmentVariable)
    (h : ∀ g, GetLagoonVariable "LAGOON_FASTLY_SERVICE_ID" (some ["build", "global"]) vars
        = some g →
      ∃ gs gw grest gb, Split g.Value ':' = gs :: gw :: grest ∧ ParseBool gw = some gb) :
    ∃ f1, fastlyServiceIDOverride f p vars = (f1, none) := by
  unfold fastlyServiceIDOverride
  cases hg : GetLagoonVariable "LAGOON_FASTLY_SERVICE_ID" (some ["build", "global"]) vars with
  | none => exact ⟨f, rfl⟩
  | some g =>
    obtain ⟨gs, gw, grest, gb, hs, hw⟩ := h g hg
    rcases grest with _ | ⟨s, _ | ⟨s2, rest⟩⟩ <;> simp [hs, hw]

/-- The entry that decides: when the global override is absent or well formed, the entries
for the route before `t` are well formed, `t` is a well-formed entry for the route and no
later entry names the route, the result is what `t` says. -/
theorem GFC_of_deciding_entry (f : Fastly) (nc sid route p : String)
    (vars : List EnvironmentVariable) (ids : EnvironmentVariable) (pre post : List String)
    (t svc w : String) (rest : List String) (b : Bool)
    (hIDs : GetLagoonVariable "LAGOON_FASTLY_SERVICE_IDS" (some ["build", "global"]) vars
      = some ids)
    (hsplit : Split ids.Value ',' = pre ++ t :: post)
    (ht : Split t ':' = route :: svc :: w :: rest) (hw : ParseBool w = some b)
    (hpost : ∀ u ∈ post, (Split u ':').head? ≠ some route)
    (hpre : ∀ u ∈ pre, (Split u ':').head? = some route →
      ∃ svc w rest b, Split u ':' = route :: svc :: w :: rest ∧ ParseBool w = some b)
    (hglobal : ∀ g, GetLagoonVariable "LAGOON_FASTLY_SERVICE_ID" (some ["build", "global"]) vars
        = some g →
      ∃ gs gw grest gb, Split g.Value ':' = gs :: gw :: grest ∧ ParseBool gw = some gb) :
    GenerateFastlyConfiguration f nc sid route p vars
      = (⟨svc, entrySecret p rest, b⟩, none) := by
  unfold GenerateFastlyConfiguration
  obtain ⟨f1, hf1⟩ := serviceID_of_wellformed (fastlyDefaults f nc sid) p vars hglobal
  obtain ⟨f2, hf2⟩ := override_of_wellformed route p f1 pre hpre
  have hloop : fastlyServiceIDsVariable route p f1 vars
      = (⟨svc, entrySecret p rest, b⟩, none) := by
    unfold fastlyServiceIDsVariable
    rw [hIDs]
    simp only [hsplit, override_append, hf2, fastlyServiceIDsOverride,
      entry_of_tokens route p f2 t svc w rest b ht hw]
    exact override_of_ne route p _ post hpost
  simp only [hf1, hloop, fastlySecretPrefix_entrySecret]

theorem entry_malformed (route p : String) (f : Fastly) (t : String)
    (hname : (Split t ':').head? = some route)
    (hmal : (Split t ':').length = 2 ∨ ∃ w, (Split t ':')[2]? = some w ∧ ParseBool w = none) :
    ∃ msg, fastlyServiceIDsEntry route p f t = (f, some (.error msg)) := by
  unfold fastlyServiceIDsEntry
  rcases hl : Split t ':' with _ | ⟨d, l⟩
  · exact absurd hl (Split_ne_nil t ':')
  · rw [hl] at hname hmal
    have hd : d = route := by simpa using hname
    subst hd
    rcases l with _ | ⟨svc, _ | ⟨w, rest⟩⟩
    · simp at hmal
    · exact ⟨"no watch status was provided, only the route and service id", by simp⟩
    · rcases hmal with hmal | ⟨w1, hw1, hp⟩
      · simp at hmal
      · have : w = w1 := by simpa using hw1
        subst this
        exact ⟨"the provided value " ++ w ++ " is not a valid boolean", by simp [hp]⟩

theorem entry_ok_or_error (route p : String) (f : Fastly) (u : String)
    (hlone : Split u ':' ≠ [route]) :
    (∃ f1, fastlyServiceIDsEntry route p f u = (f1, none))
    ∨ (∃ msg, fastlyServiceIDsEntry route p f u = (f, some (.error msg))) := by
  by_cases hn : (Split u ':').head? = some route
  · rcases hl : Split u ':' with _ | ⟨d, l⟩
    · exact absurd hl (Split_ne_nil u ':')
    · rw [hl] at hn hlone
      have hd : d = route := by simpa using hn
      subst hd
      rcases l with _ | ⟨svc, _ | ⟨w, rest⟩⟩
      · exact absurd rfl hlone
      · right
        exact entry_malformed d p f u (by rw [hl]; rfl) (Or.inl (by rw [hl]; rfl))
      · cases hw : ParseBool w with
        | none =>
          right
          exact entry_malformed d p f u (by rw [hl]; rfl)
            (Or.inr ⟨w, by rw [hl]; simp, hw⟩)
        | some b =>
          left
          exact ⟨_, entry_of_tokens d p f u svc w rest b hl hw⟩
  · left
    exact ⟨f, entry_of_ne route p f u hn⟩

theorem override_malformed (route p : String) (f : Fastly) (ts : List String) (t : String)
    (ht : t ∈ ts) (hname : (Split t ':').head? = some route)
    (hmal : (Split t ':').length = 2 ∨ ∃ w, (Split t ':')[2]? = some w ∧ ParseBool w = none)
    (hlone : ∀ u ∈ ts, Split u ':' ≠ [route]) :
    ∃ f1 msg, fastlyServiceIDsOverride route p f ts = (f1, some (.error msg)) := by
  induction ts generalizing f with
  | nil => simp at ht
  | cons u ts ih =>
    simp only [fastlyServiceIDsOverride]
    rcases entry_ok_or_error route p f u (hlone u (List.mem_cons_self _ _)) with
      ⟨f1, h1⟩ | ⟨msg, h1⟩
    · rw [h1]
      rcases List.mem_cons.mp ht with rfl | htl
      · obtain ⟨msg, h2⟩ := entry_malformed route p f t hname hmal
        rw [h2] at h1
        simp at h1
      · exact ih f1 htl (fun v hv => hlone v (List.mem_cons_of_mem _ hv))
    · rw [h1]
      exact ⟨f, msg, rfl⟩

theorem serviceID_ok_or_error (f : Fastly) (p : String) (vars : List EnvironmentVariable) :
    (∃ f1, fastlyServiceIDOverride f p vars = (f1, none))
    ∨ (∃ msg, fastlyServiceIDOverride f p vars = (f, some (.error msg))) := by
  unfold fastlyServiceIDOverride
  cases GetLagoonVariable "LAGOON_FASTLY_SERVICE_ID" (some ["build", "global"]) vars with
  | none => left; exact ⟨f, rfl⟩
  | some g =>
    rcases hl : Split g.Value ':' with _ | ⟨sid, _ | ⟨w, rest⟩⟩
    · exact absurd hl (Split_ne_nil _ _)
    · right; exact ⟨"no watch status was provided, only the service id", by simp [hl]⟩
    · cases hw : ParseBool w with
      | none =>
        right
        exact ⟨"the provided value " ++ w ++ " is not a valid boolean", by simp [hl, hw]⟩
      | some b =>
        left
        rcases rest with _ | ⟨s, _ | ⟨s2, rest⟩⟩ <;> simp [hl, hw]


/-- Witness of C5: a configuration resolved under a global override and a per-domain entry
for another domain resolves to itself. -/
theorem C5_fastly_idempotent_witness :
    GenerateFastlyConfiguration ⟨"svcG", "fastly-api-key", true⟩ "nc" "svcG" "b.com" "fastly-api-"
        [⟨"LAGOON_FASTLY_SERVICE_ID", "svcG:true", "build"⟩,
         ⟨"LAGOON_FASTLY_SERVICE_IDS", "a.com:svcA:false", "global"⟩]
      = (⟨"svcG", "fastly-api-key", true⟩, none) :=
  C5_fastly_idempotent ⟨"", "key", false⟩ "nc" "" "b.com" "fastly-api-"
    [⟨"LAGOON_FASTLY_SERVICE_ID", "svcG:true", "build"⟩,
     ⟨"LAGOON_FASTLY_SERVICE_IDS", "a.com:svcA:false", "global"⟩]
    ⟨"svcG", "fastly-api-key", true⟩ (by decide)

/-- C6, as stated, fails: with the per-domain list `a.com:svcA:true,b.com:svcB:false` and a
global override `svcG` that has no watch status, the run for `b.com` ends with the error of
the global override and the service id is not `svcB`. -/
theorem C6_counterexample :
    GenerateFastlyConfiguration Fastly.zero "" "" "b.com" "fastly-api-"
        [⟨"LAGOON_FASTLY_SERVICE_ID", "svcG", "build"⟩,
         ⟨"LAGOON_FASTLY_SERVICE_IDS", "a.com:svcA:true,b.com:svcB:false", "build"⟩]
      = (⟨"", "", false⟩,
          some (.error "no watch status was provided, only the service id")) := by
  decide

/-- C6, amended. When the per-domain list holds a well-formed entry `t` for the route's
domain, no later entry names the domain, the earlier entries for the domain are well
formed, and the global override is absent or well formed, `GenerateFastlyConfiguration`
succeeds with the service id and the watch status of `t`, whatever the global override,
the explicit service id, the no-cache service id and the incoming configuration are. -/
theorem C6_per_domain_override (f : Fastly) (nc sid route p : String)
    (vars : List EnvironmentVariable) (ids : EnvironmentVariable) (pre post : List String)
    (t svc w : String) (rest : List String) (b : Bool)
    (hIDs : GetLagoonVariable "LAGOON_FASTLY_SERVICE_IDS" (some ["build", "global"]) vars
      = some ids)
    (hsplit : Split ids.Value ',' = pre ++ t :: post)
    (ht : Split t ':' = route :: svc :: w :: rest) (hw : ParseBool w = some b)
    (hpost : ∀ u ∈ post, (Split u ':').head? ≠ some route)
    (hpre : ∀ u ∈ pre, (Split u ':').head? = some route →
      ∃ svc w rest b, Split u ':' = route :: svc :: w :: rest ∧ ParseBool w = some b)
    (hglobal : ∀ g, GetLagoonVariable "LAGOON_FASTLY_SERVICE_ID" (some ["build", "global"]) vars
        = some g →
      ∃ gs gw grest gb, Split g.Value ':' = gs :: gw :: grest ∧ ParseBool gw = some gb) :
    ∃ f1, GenerateFastlyConfiguration f nc sid route p vars = (f1, none)
      ∧ f1.ServiceID = svc ∧ f1.Watch = b :=
  ⟨_, GFC_of_deciding_entry f nc sid route p vars ids pre post t svc w rest b hIDs hsplit ht hw
    hpost hpre hglobal, rfl, rfl⟩

/-- Witness of C6: the list `a.com:svcA:true,b.com:svcB:false` and the route `b.com`, under
the global override `svcG:true:key`. -/
theorem C6_per_domain_override_witness :
    ∃ f1, GenerateFastlyConfiguration ⟨"", "old", true⟩ "nc" "explicit" "b.com" "fastly-api-"
        [⟨"LAGOON_FASTLY_SERVICE_ID", "svcG:true:key", "global"⟩,
         ⟨"LAGOON_FASTLY_SERVICE_IDS", "a.com:svcA:true,b.com:svcB:false", "build"⟩]
        = (f1, none)
      ∧ f1.ServiceID = "svcB" ∧ f1.Watch = false :=
  C6_per_domain_override ⟨"", "old", true⟩ "nc" "explicit" "b.com" "fastly-api-"
    [⟨"LAGOON_FASTLY_SERVICE_ID", "svcG:true:key", "global"⟩,
     ⟨"LAGOON_FASTLY_SERVICE_IDS", "a.com:svcA:true,b.com:svcB:false", "build"⟩]
    ⟨"LAGOON_FASTLY_SERVICE_IDS", "a.com:svcA:true,b.com:svcB:false", "build"⟩
    ["a.com:svcA:true"] [] "b.com:svcB:false" "svcB" "false" [] false
    (by decide) (by decide) (by decide) (by decide) (by decide)
    (fun u hu hn => by
      have : u = "a.com:svcA:true" := by simpa using hu
      subst this
      exact absurd hn (by decide))
    (fun g hg => ⟨"svcG", "true", ["key"], true, by
      have : g = ⟨"LAGOON_FASTLY_SERVICE_ID", "svcG:true:key", "global"⟩ :=
        (Option.some.inj hg).symm
      subst this
      decide, by decide⟩)

/-- C7. When the global override `LAGOON_FASTLY_SERVICE_ID` is found (scope build or
global) with the value `serviceID:watch` or `serviceID:watch:secretSuffix`, the watch
status parses, and no entry of the per-domain list names the route,
`GenerateFastlyConfiguration` succeeds with that service id and watch status, whatever the
explicit and the no-cache service ids are; with a suffix, the secret name is the secret
prefix followed by the suffix. -/
theorem C7_global_override (f : Fastly) (nc sid route p : String)
    (vars : List EnvironmentVariable) (g : EnvironmentVariable) (gs gw : String)
    (suffix : Option String) (b : Bool)
    (hID : GetLagoonVariable "LAGOON_FASTLY_SERVICE_ID" (some ["build", "global"]) vars
      = some g)
    (hsplit : Split g.Value ':' = gs :: gw :: suffix.toList) (hw : ParseBool gw = some b)
    (hIDs : ∀ ids, GetLagoonVariable "LAGOON_FASTLY_SERVICE_IDS" (some ["build", "global"]) vars
        = some ids →
      ∀ u ∈ Split ids.Value ',', (Split u ':').head? ≠ some route) :
    ∃ f1, GenerateFastlyConfiguration f nc sid route p vars = (f1, none)
      ∧ f1.ServiceID = gs ∧ f1.Watch = b
      ∧ ∀ s, suffix = some s → f1.APISecretName = p ++ s := by
  have hloop : ∀ f0, fastlyServiceIDsVariable route p f0 vars = (f0, none) := by
    intro f0
    unfold fastlyServiceIDsVariable
    cases hi : GetLagoonVariable "LAGOON_FASTLY_SERVICE_IDS" (some ["build", "global"]) vars with
    | none => rfl
    | some ids => exact override_of_ne route p f0 _ (hIDs ids hi)
  unfold GenerateFastlyConfiguration
  cases suffix with
  | none =>
    have hg : fastlyServiceIDOverride (fastlyDefaults f nc sid) p vars
        = (⟨gs, (fastlyDefaults f nc sid).APISecretName, b⟩, none) := by
      unfold fastlyServiceIDOverride
      rw [hID]
      simp at hsplit
      simp [hsplit, hw]
    simp only [hg, hloop]
    exact ⟨_, rfl, fastlySecretPrefix_serviceID _ _, fastlySecretPrefix_watch _ _,
      fun s hs => by simp at hs⟩
  | some s0 =>
    have hg : fastlyServiceIDOverride (fastlyDefaults f nc sid) p vars
        = (⟨gs, p ++ s0, b⟩, none) := by
      unfold fastlyServiceIDOverride
      rw [hID]
      simp at hsplit
      simp [hsplit, hw]
    simp only [hg, hloop]
    refine ⟨_, rfl, fastlySecretPrefix_serviceID _ _, fastlySecretPrefix_watch _ _, ?_⟩
    intro s hs
    have : s0 = s := by simpa using hs
    subst this
    have := fastlySecretPrefix_entrySecret gs p [s0] b
    simp only [entrySecret] at this
    rw [this]

/-- Witness of C7: the global override `service-id:true:key` of scope build, no per-domain
list. -/
theorem C7_global_override_witness :
    ∃ f1, GenerateFastlyConfiguration Fastly.zero "nc" "explicit" "annotations.com"
        "fastly-api-" [⟨"LAGOON_FASTLY_SERVICE_ID", "service-id:true:key", "build"⟩]
        = (f1, none)
      ∧ f1.ServiceID = "service-id" ∧ f1.Watch = true
      ∧ ∀ s, some "key" = some s → f1.APISecretName = "fastly-api-" ++ s :=
  C7_global_override Fastly.zero "nc" "explicit" "annotations.com" "fastly-api-"
    [⟨"LAGOON_FASTLY_SERVICE_ID", "service-id:true:key", "build"⟩]
    ⟨"LAGOON_FASTLY_SERVICE_ID", "service-id:true:key", "build"⟩ "service-id" "true"
    (some "key") true (by decide) (by decide) (by decide)
    (fun ids hids => by simp [GetLagoonVariable] at hids)

/-- C8. When the global override `LAGOON_FASTLY_SERVICE_ID` is found and its value has no
`:` or its second token is no boolean, `GenerateFastlyConfiguration` returns an error,
for every route. -/
theorem C8_global_override_malformed (f : Fastly) (nc sid route p : String)
    (vars : List EnvironmentVariable) (g : EnvironmentVariable)
    (hID : GetLagoonVariable "LAGOON_FASTLY_SERVICE_ID" (some ["build", "global"]) vars
      = some g)
    (hmal : ':' ∉ g.Value.data
      ∨ ∃ w, (Split g.Value ':')[1]? = some w ∧ ParseBool w = none) :
    ∃ f1 msg, GenerateFastlyConfiguration f nc sid route p vars
      = (f1, some (.error msg)) := by
  unfold GenerateFastlyConfiguration
  have hg : ∃ msg, fastlyServiceIDOverride (fastlyDefaults f nc sid) p vars
      = (fastlyDefaults f nc sid, some (.error msg)) := by
    unfold fastlyServiceIDOverride
    rw [hID]
    rcases hmal with hno | ⟨w, hw1, hp⟩
    · have : Split g.Value ':' = [g.Value] := by
        simp [Split, splitChars_of_not_mem ':' g.Value.data hno]
      exact ⟨"no watch status was provided, only the service id", by simp [this]⟩
    · rcases hl : Split g.Value ':' with _ | ⟨s0, _ | ⟨w0, rest⟩⟩
      · exact absurd hl (Split_ne_nil _ _)
      · exact ⟨"no watch status was provided, only the service id", by simp [hl]⟩
      · rw [hl] at hw1
        have : w0 = w := by simpa using hw1
        subst this
        exact ⟨"the provided value " ++ w0 ++ " is not a valid boolean", by simp [hl, hp]⟩
  obtain ⟨msg, hg⟩ := hg
  refine ⟨fastlyDefaults f nc sid, msg, ?_⟩
  simp only [hg]

/-- Witness of C8: the global override `service-id:maybe`. -/
theorem C8_global_override_malformed_witness :
    ∃ f1 msg, GenerateFastlyConfiguration Fastly.zero "" "" "annotations.com" "fastly-api-"
        [⟨"LAGOON_FASTLY_SERVICE_ID", "service-id:maybe", "global"⟩]
      = (f1, some (.error msg)) :=
  C8_global_override_malformed Fastly.zero "" "" "annotations.com" "fastly-api-"
    [⟨"LAGOON_FASTLY_SERVICE_ID", "service-id:maybe", "global"⟩]
    ⟨"LAGOON_FASTLY_SERVICE_ID", "service-id:maybe", "global"⟩ (by decide)
    (Or.inr ⟨"maybe", by decide, by decide⟩)


/-- C9, as stated, fails: the entry `a.com:svcA` has no watch status, and the run for the
route `b.com` succeeds all the same. -/
theorem C9_counterexample :
    (Split "a.com:svcA" ':').length = 2
      ∧ GenerateFastlyConfiguration Fastly.zero "" "" "b.com" "fastly-api-"
          [⟨"LAGOON_FASTLY_SERVICE_IDS", "a.com:svcA,b.com:svcB:true", "build"⟩]
        = (⟨"svcB", "", true⟩, none) := by
  decide

/-- C9, amended. `GenerateFastlyConfiguration` returns an error whenever an entry of the
per-domain list that names the route's domain has no watch status (two tokens) or a watch
status that is no boolean, provided no entry is the route's domain alone. -/
theorem C9_per_domain_malformed (f : Fastly) (nc sid route p : String)
    (vars : List EnvironmentVariable) (ids : EnvironmentVariable) (t : String)
    (hIDs : GetLagoonVariable "LAGOON_FASTLY_SERVICE_IDS" (some ["build", "global"]) vars
      = some ids)
    (ht : t ∈ Split ids.Value ',') (hname : (Split t ':').head? = some route)
    (hmal : (Split t ':').length = 2 ∨ ∃ w, (Split t ':')[2]? = some w ∧ ParseBool w = none)
    (hlone : ∀ u ∈ Split ids.Value ',', Split u ':' ≠ [route]) :
    ∃ f1 msg, GenerateFastlyConfiguration f nc sid route p vars
      = (f1, some (.error msg)) := by
  unfold GenerateFastlyConfiguration
  rcases serviceID_ok_or_error (fastlyDefaults f nc sid) p vars with ⟨f1, hg⟩ | ⟨msg, hg⟩
  · obtain ⟨f2, msg, hl⟩ :=
      override_malformed route p f1 (Split ids.Value ',') t ht hname hmal hlone
    refine ⟨f2, msg, ?_⟩
    simp only [hg, fastlyServiceIDsVariable, hIDs, hl]
  · refine ⟨fastlyDefaults f nc sid, msg, ?_⟩
    simp only [hg]

/-- Witness of C9: the entry `b.com:svcB` for the route `b.com`. -/
theorem C9_per_domain_malformed_witness :
    ∃ f1 msg, GenerateFastlyConfiguration Fastly.zero "" "" "b.com" "fastly-api-"
        [⟨"LAGOON_FASTLY_SERVICE_IDS", "a.com:svcA:true,b.com:svcB", "build"⟩]
      = (f1, some (.error msg)) :=
  C9_per_domain_malformed Fastly.zero "" "" "b.com" "fastly-api-"
    [⟨"LAGOON_FASTLY_SERVICE_IDS", "a.com:svcA:true,b.com:svcB", "build"⟩]
    ⟨"LAGOON_FASTLY_SERVICE_IDS", "a.com:svcA:true,b.com:svcB", "build"⟩ "b.com:svcB"
    (by decide) (by decide) (by decide) (Or.inl (by decide)) (by decide)

/-- C10. When the entry of the per-domain list that decides for the route's domain (a
well-formed entry for the domain, no later entry naming it) has no secret suffix, the
resulting secret name is empty, whatever secret name the incoming configuration or the
global override carries; when it has a suffix, the resulting secret name is the secret
prefix followed by the suffix. -/
theorem C10_per_domain_secret (f : Fastly) (nc sid route p : String)
    (vars : List EnvironmentVariable) (ids : EnvironmentVariable) (pre post : List String)
    (t svc w : String) (suffix : Option String) (b : Bool)
    (hIDs : GetLagoonVariable "LAGOON_FASTLY_SERVICE_IDS" (some ["build", "global"]) vars
      = some ids)
    (hsplit : Split ids.Value ',' = pre ++ t :: post)
    (ht : Split t ':' = route :: svc :: w :: suffix.toList) (hw : ParseBool w = some b)
    (hpost : ∀ u ∈ post, (Split u ':').head? ≠ some route)
    (hpre : ∀ u ∈ pre, (Split u ':').head? = some route →
      ∃ svc w rest b, Split u ':' = route :: svc :: w :: rest ∧ ParseBool w = some b)
    (hglobal : ∀ g, GetLagoonVariable "LAGOON_FASTLY_SERVICE_ID" (some ["build", "global"]) vars
        = some g →
      ∃ gs gw grest gb, Split g.Value ':' = gs :: gw :: grest ∧ ParseBool gw = some gb) :
    ∃ f1, GenerateFastlyConfiguration f nc sid route p vars = (f1, none)
      ∧ f1.APISecretName = (match suffix with
        | none => ""
        | some s => p ++ s) := by
  refine ⟨_, GFC_of_deciding_entry f nc sid route p vars ids pre post t svc w suffix.toList b
    hIDs hsplit ht hw hpost hpre hglobal, ?_⟩
  cases suffix <;> rfl

/-- Witness of C10: the entry `annotations.com:service-id:true` without a suffix clears the
secret name that the incoming configuration and the global override set. -/
theorem C10_per_domain_secret_witness :
    ∃ f1, GenerateFastlyConfiguration ⟨"", "incoming", false⟩ "" "" "annotations.com"
        "fastly-api-"
        [⟨"LAGOON_FASTLY_SERVICE_ID", "svcG:false:global", "build"⟩,
         ⟨"LAGOON_FASTLY_SERVICE_IDS", "annotations.com:service-id:true", "build"⟩]
        = (f1, none)
      ∧ f1.APISecretName = "" :=
  C10_per_domain_secret ⟨"", "incoming", false⟩ "" "" "annotations.com" "fastly-api-"
    [⟨"LAGOON_FASTLY_SERVICE_ID", "svcG:false:global", "build"⟩,
     ⟨"LAGOON_FASTLY_SERVICE_IDS", "annotations.com:service-id:true", "build"⟩]
    ⟨"LAGOON_FASTLY_SERVICE_IDS", "annotations.com:service-id:true", "build"⟩
    [] [] "annotations.com:service-id:true" "service-id" "true" none true
    (by decide) (by decide) (by decide) (by decide) (by decide)
    (fun u hu => absurd hu (List.not_mem_nil u))
    (fun g hg => ⟨"svcG", "false", ["global"], false, by
      have : g = ⟨"LAGOON_FASTLY_SERVICE_ID", "svcG:false:global", "build"⟩ :=
        (Option.some.inj hg).symm
      subst this
      decide, by decide⟩)


/-! ## Lemmas on lowering and on the loops of `routes.go` -/

theorem char_le_iff (a b : Char) : a ≤ b ↔ a.toNat ≤ b.toNat := Iff.rfl

theorem toLowerRune_idem (c : Char) : toLowerRune (toLowerRune c) = toLowerRune c := by
  unfold toLowerRune
  by_cases h1 : c = Char.ofNat 0x212A
  · subst h1; decide
  · by_cases h2 : c = Char.ofNat 0x130
    · subst h2; decide
    · by_cases h3 : 'A' ≤ c ∧ c ≤ 'Z'
      · rw [if_neg h1, if_neg h2, if_pos h3]
        have ha : 65 ≤ c.toNat := (char_le_iff 'A' c).mp h3.1
        have hb : c.toNat ≤ 90 := (char_le_iff c 'Z').mp h3.2
        generalize c.toNat = n at ha hb
        interval_cases n <;> decide
      · rw [if_neg h1, if_neg h2, if_neg h3, if_neg h1, if_neg h2, if_neg h3]

theorem ToLower_idem (s : String) : ToLower (ToLower s) = ToLower s := by
  have h : toLowerRune ∘ toLowerRune = toLowerRune := funext toLowerRune_idem
  simp [ToLower, h]

/-- A loop that ends without failure has appended one record for each element, the one
its body makes. -/
theorem appendEach_ok {α : Type} (body : α → Except Failure RouteV2) (acc : RoutesV2)
    (xs : List α) (out : RoutesV2) (hrun : appendEach body acc xs = (out, none)) :
    ∃ news, List.Forall₂ (fun x n => body x = .ok n) xs news
      ∧ out.Routes = acc.Routes ++ news := by
  induction xs generalizing acc with
  | nil =>
    simp only [appendEach, Prod.mk.injEq, and_true] at hrun
    exact ⟨[], List.Forall₂.nil, by simp [hrun]⟩
  | cons x xs ih =>
    simp only [appendEach] at hrun
    cases hb : body x with
    | error e => simp [hb] at hrun
    | ok r =>
      simp only [hb] at hrun
      obtain ⟨news, hf, ho⟩ := ih _ hrun
      exact ⟨r :: news, List.Forall₂.cons hb hf, by simp [ho]⟩

/-- The converse of `appendEach_ok`. -/
theorem appendEach_of_forall₂ {α : Type} (body : α → Except Failure RouteV2) (acc : RoutesV2)
    (xs : List α) (news : List RouteV2)
    (hf : List.Forall₂ (fun x n => body x = .ok n) xs news) :
    appendEach body acc xs = (⟨acc.Routes ++ news⟩, none) := by
  induction hf generalizing acc with
  | nil => simp [appendEach]
  | cons hb _ ih =>
    simp only [appendEach, hb]
    rw [ih]
    simp

/-- A loop whose body fails on one of the elements fails. -/
theorem appendEach_fails {α : Type} (body : α → Except Failure RouteV2) (acc : RoutesV2)
    (xs : List α) (x : α) (hx : x ∈ xs) (e : Failure) (he : body x = .error e) :
    (appendEach body acc xs).2 ≠ none := by
  induction xs generalizing acc with
  | nil => simp at hx
  | cons y ys ih =>
    simp only [appendEach]
    cases hb : body y with
    | error e1 => simp
    | ok r =>
      simp only []
      rcases List.mem_cons.mp hx with rfl | htl
      · rw [he] at hb; cases hb
      · exact ih _ htl

/-- The failure of a loop is a failure of its body. -/
theorem appendEach_failure {α : Type} (body : α → Except Failure RouteV2) (acc : RoutesV2)
    (xs : List α) (out : RoutesV2) (e : Failure)
    (hrun : appendEach body acc xs = (out, some e)) :
    ∃ x ∈ xs, body x = .error e := by
  induction xs generalizing acc with
  | nil => simp [appendEach] at hrun
  | cons y ys ih =>
    simp only [appendEach] at hrun
    cases hb : body y with
    | error e1 =>
      simp only [hb, Prod.mk.injEq, Option.some.injEq] at hrun
      exact ⟨y, List.mem_cons_self _ _, by rw [hb, hrun.2]⟩
    | ok r =>
      simp only [hb] at hrun
      obtain ⟨x, hx, hbx⟩ := ih _ hrun
      exact ⟨x, List.mem_cons_of_mem _ hx, hbx⟩

/-- A loop depends on its elements through the body only. -/
theorem appendEach_congr {α : Type} (body : α → Except Failure RouteV2) (acc : RoutesV2)
    (xs ys : List α) (h : xs.map body = ys.map body) :
    appendEach body acc xs = appendEach body acc ys := by
  induction xs generalizing acc ys with
  | nil =>
    cases ys with
    | nil => rfl
    | cons y ys => simp at h
  | cons x xs ih =>
    cases ys with
    | nil => simp at h
    | cons y ys =>
      simp only [List.map_cons, List.cons.injEq] at h
      simp only [appendEach, h.1]
      cases body y with
      | error e => rfl
      | ok r => exact ih _ ys h.2

theorem handleAPIRoute_domain (h : String → String) (cls : String) (a : RouteV2) :
    (handleAPIRoute h cls a).1.Domain = a.Domain := by
  unfold handleAPIRoute
  simp only []
  split
  · rfl
  · split
    · rfl
    · split_ifs
      · rfl
      · rfl
      · split <;> rfl

theorem mergeFindInAPI_congr (h : String → String) (cls : String) (route route1 : RouteV2)
    (hd : route.Domain = route1.Domain) (st : Bool × RouteV2) (api : List RouteV2) :
    mergeFindInAPI h cls route st api = mergeFindInAPI h cls route1 st api := by
  induction api generalizing st with
  | nil => rfl
  | cons a api ih =>
    simp only [mergeFindInAPI, hd]
    split_ifs
    · rfl
    · split
      · rfl
      · exact ih _
    · exact ih _

theorem mergeFindInAPI_of_no_match (h : String → String) (cls : String) (route : RouteV2)
    (st : Bool × RouteV2) (api : List RouteV2) (hno : ∀ a ∈ api, a.Domain ≠ route.Domain) :
    mergeFindInAPI h cls route st api = (st, none) := by
  induction api with
  | nil => rfl
  | cons a api ih =>
    simp only [mergeFindInAPI]
    rw [if_neg (hno a (List.mem_cons_self _ _))]
    exact ih (fun b hb => hno b (List.mem_cons_of_mem _ hb))

theorem mergeFindInAPI_append (h : String → String) (cls : String) (route : RouteV2)
    (st : Bool × RouteV2) (xs ys : List RouteV2) :
    mergeFindInAPI h cls route st (xs ++ ys)
      = match mergeFindInAPI h cls route st xs with
        | (st1, none) => mergeFindInAPI h cls route st1 ys
        | (st1, some e) => (st1, some e) := by
  induction xs generalizing st with
  | nil => rfl
  | cons a xs ih =>
    simp only [List.cons_append, mergeFindInAPI]
    split_ifs
    · rfl
    · split
      · rfl
      · exact ih _
    · exact ih _

/-- The flag `existsInAPI` after the inner loop: it is set exactly when some API route has
the domain, and then the record is an API record of that domain. -/
theorem mergeFindInAPI_ok (h : String → String) (cls : String) (route : RouteV2)
    (st : Bool × RouteV2) (api : List RouteV2) (ex : Bool) (ra : RouteV2)
    (hrun : mergeFindInAPI h cls route st api = ((ex, ra), none)) :
    (ex = false → st.1 = false ∧ ∀ a ∈ api, a.Domain ≠ route.Domain)
      ∧ (ex = true → (st.1 = true → st.2.Domain = route.Domain) → ra.Domain = route.Domain) := by
  induction api generalizing st with
  | nil =>
    simp only [mergeFindInAPI, Prod.mk.injEq, and_true] at hrun
    subst hrun
    exact ⟨fun h1 => ⟨h1, by simp⟩, fun h1 h2 => h2 h1⟩
  | cons a api ih =>
    simp only [mergeFindInAPI] at hrun
    by_cases hd : a.Domain = route.Domain
    · rw [if_pos hd] at hrun
      by_cases hv : IsDNS1123Subdomain (ToLower a.Domain) ≠ []
      · rw [if_pos hv] at hrun
        simp at hrun
      · rw [if_neg hv] at hrun
        rcases hh : handleAPIRoute h cls a with ⟨r1, _ | e⟩
        · rw [hh] at hrun
          have hr1 : r1.Domain = route.Domain := by
            have := handleAPIRoute_domain h cls a
            rw [hh] at this
            exact this.trans hd
          obtain ⟨i1, i2⟩ := ih _ hrun
          exact ⟨fun h1 => by simpa using (i1 h1).1, fun h1 _ => i2 h1 (fun _ => hr1)⟩
        · rw [hh] at hrun
          simp at hrun
    · rw [if_neg hd] at hrun
      obtain ⟨i1, i2⟩ := ih _ hrun
      refine ⟨fun h1 => ⟨(i1 h1).1, ?_⟩, i2⟩
      intro b hb
      rcases List.mem_cons.mp hb with rfl | hb
      · exact hd
      · exact (i1 h1).2 b hb

/-- The record appended for a route of the configuration file has the domain of that
route, and the lowered domain is a DNS-1123 subdomain. -/
theorem mergeYamlRoute_ok (h : String → String) (cls : String) (api : List RouteV2)
    (route r : RouteV2) (hrun : mergeYamlRoute h cls api route = .ok r) :
    r.Domain = route.Domain ∧ IsDNS1123Subdomain (ToLower route.Domain) = [] := by
  unfold mergeYamlRoute at hrun
  simp only [] at hrun
  by_cases hv : IsDNS1123Subdomain (ToLower route.Domain) ≠ []
  · rw [if_pos hv] at hrun
    cases hrun
  · rw [if_neg hv] at hrun
    refine ⟨?_, not_not.mp hv⟩
    rcases hm : mergeFindInAPI h cls route (false, RouteV2.zero) api with ⟨⟨ex, ra⟩, _ | e⟩
    · rw [hm] at hrun
      cases ex with
      | true =>
        simp only [if_true, Except.ok.injEq] at hrun
        subst hrun
        exact (mergeFindInAPI_ok h cls route _ api true ra hm).2 rfl (by simp)
      | false =>
        simp only [Bool.false_eq_true, if_false] at hrun
        split_ifs at hrun <;> cases hrun <;> rfl
    · rw [hm] at hrun
      cases hrun


/-- The second round: every API route is validated; the records added are API records,
each of a domain that was not in the list, so that distinct domains stay distinct. -/
theorem mergeAPIOnly_ok (h : String → String) (cls : String) (acc : RoutesV2)
    (api : List RouteV2) (out : RoutesV2)
    (hrun : mergeAPIOnly h cls acc api = (out, none)) :
    (∀ a ∈ api, IsDNS1123Subdomain (ToLower a.Domain) = [])
      ∧ ∃ news, out.Routes = acc.Routes ++ news
        ∧ (∀ n ∈ news, ∃ a ∈ api, handleAPIRoute h cls a = (n, none))
        ∧ ((acc.Routes.map (·.Domain)).Nodup → (out.Routes.map (·.Domain)).Nodup) := by
  induction api generalizing acc with
  | nil =>
    simp only [mergeAPIOnly, Prod.mk.injEq, and_true] at hrun
    subst hrun
    exact ⟨by simp, [], by simp, by simp, id⟩
  | cons a api ih =>
    simp only [mergeAPIOnly] at hrun
    by_cases hv : IsDNS1123Subdomain (ToLower a.Domain) ≠ []
    · rw [if_pos hv] at hrun
      simp at hrun
    · rw [if_neg hv] at hrun
      rcases hh : handleAPIRoute h cls a with ⟨r1, _ | e⟩
      · rw [hh] at hrun
        simp only [] at hrun
        by_cases hex : (acc.Routes.any fun route => decide (a.Domain = route.Domain)) = true
        · rw [if_pos hex] at hrun
          obtain ⟨hval, news, ho, hn, hnd⟩ := ih _ hrun
          refine ⟨?_, news, ho, ?_, hnd⟩
          · intro b hb
            rcases List.mem_cons.mp hb with rfl | hb
            · exact not_not.mp hv
            · exact hval b hb
          · intro n hn1
            obtain ⟨b, hb, hbn⟩ := hn n hn1
            exact ⟨b, List.mem_cons_of_mem _ hb, hbn⟩
        · rw [if_neg hex] at hrun
          obtain ⟨hval, news, ho, hn, hnd⟩ := ih _ hrun
          refine ⟨?_, r1 :: news, by simp [ho], ?_, ?_⟩
          · intro b hb
            rcases List.mem_cons.mp hb with rfl | hb
            · exact not_not.mp hv
            · exact hval b hb
          · intro n hn1
            rcases List.mem_cons.mp hn1 with rfl | hn1
            · exact ⟨a, List.mem_cons_self _ _, hh⟩
            · obtain ⟨b, hb, hbn⟩ := hn n hn1
              exact ⟨b, List.mem_cons_of_mem _ hb, hbn⟩
          · intro hacc
            apply hnd
            have hr1 : r1.Domain = a.Domain := by
              have := handleAPIRoute_domain h cls a
              rw [hh] at this
              exact this
            simp only [List.map_append, List.map_cons, List.map_nil]
            rw [List.nodup_append]
            refine ⟨hacc, by simp, ?_⟩
            intro d hd1 hd2
            simp only [List.mem_singleton] at hd2
            subst hd2
            apply hex
            simp only [List.any_eq_true, decide_eq_true_eq]
            obtain ⟨r, hr, hrd⟩ := List.mem_map.mp hd1
            exact ⟨r, hr, by rw [hrd, hr1]⟩
      · rw [hh] at hrun
        simp at hrun

theorem forall₂_mem_right {α β : Type} (R : α → β → Prop) (xs : List α) (ys : List β)
    (hf : List.Forall₂ R xs ys) (y : β) (hy : y ∈ ys) : ∃ x ∈ xs, R x y := by
  induction hf with
  | nil => simp at hy
  | cons hr _ ih =>
    rcases List.mem_cons.mp hy with rfl | hy
    · exact ⟨_, List.mem_cons_self _ _, hr⟩
    · obtain ⟨x, hx, hxy⟩ := ih hy
      exact ⟨x, List.mem_cons_of_mem _ hx, hxy⟩

/-- The record of the last loop: the domain is lowered, the Fastly configuration is the
state that `GenerateFastlyConfiguration` leaves, every other field is kept. -/
theorem finalRoute_ok (vars : List EnvironmentVariable) (p : String) (fr o : RouteV2)
    (hrun : finalRoute vars p fr = .ok o) :
    o = { fr with
      Fastly := (GenerateFastlyConfiguration fr.Fastly "" fr.Fastly.ServiceID fr.Domain
        p vars).1
      Domain := ToLower fr.Domain } := by
  unfold finalRoute at hrun
  rcases hg : GenerateFastlyConfiguration fr.Fastly "" fr.Fastly.ServiceID fr.Domain p vars
    with ⟨fastly, _ | e⟩
  · rw [hg] at hrun
    simp only [Except.ok.injEq] at hrun
    rw [← hrun]
  · cases e with
    | error m =>
      rw [hg] at hrun
      simp only [Except.ok.injEq] at hrun
      rw [← hrun]
    | panic m =>
      rw [hg] at hrun
      cases hrun

/-- C1, as stated, fails.  The domain of a label of 70 times `a` and
`com` is lowercase and passes the validator of the code, which bounds the length of the
name and not that of a label.  `MergeRoutesV2` returns the declarative route of that
domain without error and with that domain, whose first label has 70 characters, more
than the 63 of a label of a DNS subdomain. -/
theorem C1_counterexample :
    (MergeRoutesV2 (fun _ => "0123456789abcdef0123456789abcdef")
        ⟨[{ RouteV2.zero with Domain := String.mk (List.replicate 70 'a') ++ ".com" }]⟩ ⟨[]⟩ []
        "nginx" "fastly-api-").2 = none
    ∧ (MergeRoutesV2 (fun _ => "0123456789abcdef0123456789abcdef")
        ⟨[{ RouteV2.zero with Domain := String.mk (List.replicate 70 'a') ++ ".com" }]⟩ ⟨[]⟩ []
        "nginx" "fastly-api-").1.Routes.map (fun r => r.Domain)
      = [String.mk (List.replicate 70 'a') ++ ".com"]
    ∧ (Split (String.mk (List.replicate 70 'a') ++ ".com") '.').map String.length = [70, 3]
    ∧ (Split (String.mk (List.replicate 70 'a') ++ ".com") '.').map len = [70, 3] := by
  refine ⟨by rfl, by rfl, by decide, by decide⟩

/-- C1. Every route that `MergeRoutesV2` returns without error has a domain that passes
`validation.IsDNS1123Subdomain` (the subdomain pattern, and at most 253 bytes in all; the
length of a label is not bounded) and is lowercase (equal to its own lowering). -/
theorem C1_merged_domains_valid (h : String → String) (yamlRoutes apiRoutes : RoutesV2)
    (vars : List EnvironmentVariable) (cls p : String) (out : RoutesV2)
    (hrun : MergeRoutesV2 h yamlRoutes apiRoutes vars cls p = (out, none)) :
    ∀ r ∈ out.Routes, IsDNS1123Subdomain r.Domain = [] ∧ ToLower r.Domain = r.Domain := by
  unfold MergeRoutesV2 at hrun
  rcases h1 : mergeFirstRound h cls apiRoutes.Routes { Routes := [] } yamlRoutes.Routes
    with ⟨r1, _ | e⟩
  · rw [h1] at hrun
    simp only [] at hrun
    rcases h2 : mergeAPIOnly h cls r1 apiRoutes.Routes with ⟨r2, _ | e⟩
    · rw [h2] at hrun
      simp only [] at hrun
      obtain ⟨n1, hf1, ho1⟩ := appendEach_ok _ _ _ _ h1
      obtain ⟨hval, n2, ho2, hn2, _⟩ := mergeAPIOnly_ok h cls r1 apiRoutes.Routes r2 h2
      obtain ⟨n3, hf3, ho3⟩ := appendEach_ok _ _ _ _ hrun
      -- every record of the first two rounds has a valid lowered domain
      have hv : ∀ r ∈ r2.Routes, IsDNS1123Subdomain (ToLower r.Domain) = [] := by
        intro r hr
        rw [ho2, ho1] at hr
        simp only [List.nil_append, List.mem_append] at hr
        rcases hr with hr | hr
        · obtain ⟨y, _, hy⟩ := forall₂_mem_right _ _ _ hf1 r hr
          obtain ⟨hd, hvy⟩ := mergeYamlRoute_ok h cls apiRoutes.Routes y r hy
          rw [hd]
          exact hvy
        · obtain ⟨a, ha, hha⟩ := hn2 r hr
          have := handleAPIRoute_domain h cls a
          rw [hha] at this
          simp only [] at this
          rw [this]
          exact hval a ha
      intro r hr
      rw [ho3] at hr
      simp only [List.nil_append] at hr
      obtain ⟨fr, hfr, hro⟩ := forall₂_mem_right _ _ _ hf3 r hr
      have hr := finalRoute_ok vars p fr r hro
      have hd : r.Domain = ToLower fr.Domain := by rw [hr]
      rw [hd]
      exact ⟨hv fr hfr, ToLower_idem _⟩
    · rw [h2] at hrun
      simp at hrun
  · rw [h1] at hrun
    simp at hrun

/-- Witness of C1: a route of the configuration file in capitals and an API route. -/
theorem C1_merged_domains_valid_witness :
    MergeRoutesV2 (fun _ => "0123456789abcdef0123456789abcdef")
        ⟨[{ RouteV2.zero with
          Domain := "WWW.Example.com", TLSAcme := some true, Insecure := some "Redirect",
          Annotations := some [], IngressName := "WWW.Example.com",
          IngressClass := "nginx", RequestVerification := some false }]⟩
        ⟨[{ RouteV2.zero with Domain := "api.example.com" }]⟩ [] "nginx" "fastly-api-"
      = (⟨[{ RouteV2.zero with
          Domain := "www.example.com", TLSAcme := some true, Insecure := some "Redirect",
          Annotations := some [], AlternativeNames := some [], IngressName := "WWW.Example.com",
          IngressClass := "nginx", RequestVerification := some false },
        { RouteV2.zero with
          Domain := "api.example.com", TLSAcme := some true, Insecure := some "Redirect",
          Annotations := some [], AlternativeNames := some [], IngressName := "api.example.com",
          IngressClass := "nginx", RequestVerification := some false }]⟩, none)
    ∧ ∀ r ∈ (⟨[{ RouteV2.zero with
          Domain := "www.example.com", TLSAcme := some true, Insecure := some "Redirect",
          Annotations := some [], AlternativeNames := some [], IngressName := "WWW.Example.com",
          IngressClass := "nginx", RequestVerification := some false },
        { RouteV2.zero with
          Domain := "api.example.com", TLSAcme := some true, Insecure := some "Redirect",
          Annotations := some [], AlternativeNames := some [], IngressName := "api.example.com",
          IngressClass := "nginx", RequestVerification := some false }]⟩ : RoutesV2).Routes,
      IsDNS1123Subdomain r.Domain = [] ∧ ToLower r.Domain = r.Domain :=
  ⟨by rfl, C1_merged_domains_valid (fun _ => "0123456789abcdef0123456789abcdef")
    ⟨[{ RouteV2.zero with
          Domain := "WWW.Example.com", TLSAcme := some true, Insecure := some "Redirect",
          Annotations := some [], IngressName := "WWW.Example.com",
          IngressClass := "nginx", RequestVerification := some false }]⟩
    ⟨[{ RouteV2.zero with Domain := "api.example.com" }]⟩ [] "nginx" "fastly-api-" _ (by rfl)⟩

theorem forall₂_map_eq {α β γ : Type} (f : α → γ) (g : β → γ) (xs : List α) (ys : List β)
    (hf : List.Forall₂ (fun x y => g y = f x) xs ys) : ys.map g = xs.map f := by
  induction hf with
  | nil => rfl
  | cons hr _ ih => simp [hr, ih]

theorem forall₂_getElem? {α β : Type} (R : α → β → Prop) (xs : List α) (ys : List β)
    (hf : List.Forall₂ R xs ys) (i : Nat) (x : α) (hx : xs[i]? = some x) :
    ∃ y, ys[i]? = some y ∧ R x y := by
  induction hf generalizing i with
  | nil => simp at hx
  | cons hr _ ih =>
    cases i with
    | zero =>
      simp only [List.getElem?_cons_zero, Option.some.injEq] at hx
      subst hx
      exact ⟨_, by simp, hr⟩
    | succ i =>
      simp only [List.getElem?_cons_succ] at hx
      obtain ⟨y, hy, hxy⟩ := ih i hx
      exact ⟨y, by simpa using hy, hxy⟩

/-- The domains after the first two rounds, when the merge goes through: the domains of
the configuration file, in order, are the first ones; all lowered domains are valid;
distinct domains of the configuration file give distinct domains. -/
theorem merge_rounds (h : String → String) (cls : String) (yaml api : List RouteV2)
    (r1 r2 : RoutesV2) (h1 : mergeFirstRound h cls api { Routes := [] } yaml = (r1, none))
    (h2 : mergeAPIOnly h cls r1 api = (r2, none)) :
    r1.Routes.map (·.Domain) = yaml.map (·.Domain)
      ∧ (∀ r ∈ r2.Routes, r.Domain ∈ (yaml ++ api).map (·.Domain))
      ∧ ((yaml.map (·.Domain)).Nodup → (r2.Routes.map (·.Domain)).Nodup) := by
  obtain ⟨n1, hf1, ho1⟩ := appendEach_ok _ _ _ _ h1
  obtain ⟨_, n2, ho2, hn2, hnd⟩ := mergeAPIOnly_ok h cls r1 api r2 h2
  simp only [List.nil_append] at ho1
  have hd1 : r1.Routes.map (·.Domain) = yaml.map (·.Domain) := by
    rw [ho1]
    apply forall₂_map_eq
    exact hf1.imp (fun x n hxn => (mergeYamlRoute_ok h cls api x n hxn).1)
  refine ⟨hd1, ?_, fun hy => hnd (hd1 ▸ hy)⟩
  intro r hr
  rw [ho2] at hr
  rcases List.mem_append.mp hr with hr | hr
  · have : r.Domain ∈ r1.Routes.map (·.Domain) := List.mem_map.mpr ⟨r, hr, rfl⟩
    rw [hd1] at this
    simp only [List.map_append, List.mem_append]
    exact Or.inl this
  · obtain ⟨a, ha, hha⟩ := hn2 r hr
    have hd := handleAPIRoute_domain h cls a
    rw [hha] at hd
    simp only [] at hd
    simp only [List.map_append, List.mem_append]
    exact Or.inr (List.mem_map.mpr ⟨a, ha, hd.symm⟩)

/-- The domains that `MergeRoutesV2` returns are pairwise distinct when those of the
configuration file are and every domain of the two lists is lowercase. -/
theorem merge_nodup (h : String → String) (yamlRoutes apiRoutes : RoutesV2)
    (vars : List EnvironmentVariable) (cls p : String) (out : RoutesV2)
    (hrun : MergeRoutesV2 h yamlRoutes apiRoutes vars cls p = (out, none))
    (hnd : (yamlRoutes.Routes.map (·.Domain)).Nodup)
    (hlow : ∀ r ∈ yamlRoutes.Routes ++ apiRoutes.Routes, ToLower r.Domain = r.Domain) :
    (out.Routes.map (·.Domain)).Nodup := by
  unfold MergeRoutesV2 at hrun
  rcases h1 : mergeFirstRound h cls apiRoutes.Routes { Routes := [] } yamlRoutes.Routes
    with ⟨r1, _ | e⟩
  · rw [h1] at hrun
    simp only [] at hrun
    rcases h2 : mergeAPIOnly h cls r1 apiRoutes.Routes with ⟨r2, _ | e⟩
    · rw [h2] at hrun
      simp only [] at hrun
      obtain ⟨_, hmem, hnd2⟩ := merge_rounds h cls _ _ r1 r2 h1 h2
      obtain ⟨n3, hf3, ho3⟩ := appendEach_ok _ _ _ _ hrun
      simp only [List.nil_append] at ho3
      have hd3 : out.Routes.map (·.Domain) = r2.Routes.map (fun r => ToLower r.Domain) := by
        rw [ho3]
        apply forall₂_map_eq
        exact hf3.imp (fun x n hxn => by rw [finalRoute_ok vars p x n hxn])
      have hd4 : r2.Routes.map (fun r => ToLower r.Domain) = r2.Routes.map (·.Domain) := by
        apply List.map_congr_left
        intro r hr
        obtain ⟨r0, hr0, hd0⟩ := List.mem_map.mp (hmem r hr)
        have hl := hlow r0 hr0
        rw [hd0] at hl
        exact hl
      rw [hd3, hd4]
      exact hnd2 hnd
    · rw [h2] at hrun
      simp at hrun
  · rw [h1] at hrun
    simp at hrun

/-- C3, as stated, fails: two routes of the configuration file with the same domain are
both returned. -/
theorem C3_counterexample :
    (MergeRoutesV2 (fun _ => "0123456789abcdef0123456789abcdef")
        ⟨[{ RouteV2.zero with Domain := "a.com", LagoonService := "nginx" },
          { RouteV2.zero with Domain := "a.com", LagoonService := "node" }]⟩
        ⟨[]⟩ [] "nginx" "fastly-api-").2 = none
      ∧ (MergeRoutesV2 (fun _ => "0123456789abcdef0123456789abcdef")
        ⟨[{ RouteV2.zero with Domain := "a.com", LagoonService := "nginx" },
          { RouteV2.zero with Domain := "a.com", LagoonService := "node" }]⟩
        ⟨[]⟩ [] "nginx" "fastly-api-").1.Routes.map (·.Domain) = ["a.com", "a.com"] := by
  constructor <;> rfl

/-- C3, amended. When the routes of the configuration file have pairwise distinct domains
and every domain of both lists is lowercase, the list that `MergeRoutesV2` returns without
error has no two routes with the same domain. -/
theorem C3_merged_domains_distinct (h : String → String) (yamlRoutes apiRoutes : RoutesV2)
    (vars : List EnvironmentVariable) (cls p : String) (out : RoutesV2)
    (hrun : MergeRoutesV2 h yamlRoutes apiRoutes vars cls p = (out, none))
    (hnd : (yamlRoutes.Routes.map (·.Domain)).Nodup)
    (hlow : ∀ r ∈ yamlRoutes.Routes ++ apiRoutes.Routes, ToLower r.Domain = r.Domain) :
    (out.Routes.map (·.Domain)).Nodup :=
  merge_nodup h yamlRoutes apiRoutes vars cls p out hrun hnd hlow

/-- Witness of C3: a domain in both lists and an API domain given twice. -/
theorem C3_merged_domains_distinct_witness :
    ((MergeRoutesV2 (fun _ => "0123456789abcdef0123456789abcdef")
        ⟨[{ RouteV2.zero with Domain := "a.com" }, { RouteV2.zero with Domain := "b.com" }]⟩
        ⟨[{ RouteV2.zero with Domain := "b.com" }, { RouteV2.zero with Domain := "c.com" },
          { RouteV2.zero with Domain := "c.com" }]⟩ [] "nginx" "fastly-api-").1.Routes.map
      (·.Domain)).Nodup :=
  C3_merged_domains_distinct (fun _ => "0123456789abcdef0123456789abcdef")
    ⟨[{ RouteV2.zero with Domain := "a.com" }, { RouteV2.zero with Domain := "b.com" }]⟩
    ⟨[{ RouteV2.zero with Domain := "b.com" }, { RouteV2.zero with Domain := "c.com" },
      { RouteV2.zero with Domain := "c.com" }]⟩ [] "nginx" "fastly-api-" _
    (by rfl) (by decide) (by decide)


/-- The record appended for a route of the configuration file whose domain the API defines
too is the API record of the last API route of that domain. -/
theorem mergeYamlRoute_of_api (h : String → String) (cls : String)
    (apre apost : List RouteV2) (a route x : RouteV2) (had : a.Domain = route.Domain)
    (hlast : ∀ b ∈ apost, b.Domain ≠ route.Domain)
    (hrun : mergeYamlRoute h cls (apre ++ a :: apost) route = .ok x) :
    handleAPIRoute h cls a = (x, none) := by
  unfold mergeYamlRoute at hrun
  simp only [] at hrun
  by_cases hv : IsDNS1123Subdomain (ToLower route.Domain) ≠ []
  · rw [if_pos hv] at hrun
    cases hrun
  · rw [if_neg hv] at hrun
    rw [mergeFindInAPI_append] at hrun
    rcases hp : mergeFindInAPI h cls route (false, RouteV2.zero) apre with ⟨st1, _ | e⟩
    · rw [hp] at hrun
      simp only [mergeFindInAPI, if_pos had] at hrun
      by_cases hva : IsDNS1123Subdomain (ToLower a.Domain) ≠ []
      · rw [if_pos hva] at hrun
        cases hrun
      · rw [if_neg hva] at hrun
        rcases hh : handleAPIRoute h cls a with ⟨fr, _ | e⟩
        · rw [hh] at hrun
          simp only [] at hrun
          rw [mergeFindInAPI_of_no_match h cls route (true, fr) apost hlast] at hrun
          simp only [if_true, Except.ok.injEq] at hrun
          rw [hrun]
        · rw [hh] at hrun
          cases hrun
    · rw [hp] at hrun
      cases hrun

/-- The record appended for a route of the configuration file whose domain the API
defines too depends on the domain of the route only. -/
theorem mergeYamlRoute_congr (h : String → String) (cls : String) (api : List RouteV2)
    (route route1 a : RouteV2) (ha : a ∈ api) (had : a.Domain = route.Domain)
    (hd : route1.Domain = route.Domain) :
    mergeYamlRoute h cls api route1 = mergeYamlRoute h cls api route := by
  unfold mergeYamlRoute
  simp only []
  rw [hd, mergeFindInAPI_congr h cls route1 route hd]
  by_cases hv : IsDNS1123Subdomain (ToLower route.Domain) ≠ []
  · rw [if_pos hv, if_pos hv]
  · rw [if_neg hv, if_neg hv]
    rcases hm : mergeFindInAPI h cls route (false, RouteV2.zero) api with ⟨⟨ex, ra⟩, _ | e⟩
    · cases ex with
      | true => simp only [if_true]
      | false =>
        exact absurd had ((mergeFindInAPI_ok h cls route _ api false ra hm).1 rfl |>.2 a ha)
    · rfl

theorem forall₂_append_cons {α β : Type} (R : α → β → Prop) (pre : List α) (x : α)
    (post : List α) (ys : List β) (hf : List.Forall₂ R (pre ++ x :: post) ys) :
    ∃ y, ys[pre.length]? = some y ∧ R x y :=
  forall₂_getElem? R _ ys hf pre.length x (by
    rw [List.getElem?_append_right (le_refl _)]
    simp)

/-- Merge precedence: the record at the place of a route of the configuration file whose
domain the API defines too. -/
theorem merge_precedence (h : String → String) (pre post : List RouteV2) (r : RouteV2)
    (apiRoutes : RoutesV2) (apre apost : List RouteV2) (a : RouteV2)
    (vars : List EnvironmentVariable) (cls p : String) (out : RoutesV2)
    (hapi : apiRoutes.Routes = apre ++ a :: apost) (had : a.Domain = r.Domain)
    (hlast : ∀ b ∈ apost, b.Domain ≠ r.Domain)
    (hrun : MergeRoutesV2 h ⟨pre ++ r :: post⟩ apiRoutes vars cls p = (out, none)) :
    ∃ fr, handleAPIRoute h cls a = (fr, none)
      ∧ out.Routes[pre.length]? = some { fr with
          Fastly := (GenerateFastlyConfiguration fr.Fastly "" fr.Fastly.ServiceID fr.Domain
            p vars).1
          Domain := ToLower fr.Domain } := by
  unfold MergeRoutesV2 at hrun
  rcases h1 : mergeFirstRound h cls apiRoutes.Routes { Routes := [] } (pre ++ r :: post)
    with ⟨r1, _ | e⟩
  · rw [h1] at hrun
    simp only [] at hrun
    rcases h2 : mergeAPIOnly h cls r1 apiRoutes.Routes with ⟨r2, _ | e⟩
    · rw [h2] at hrun
      simp only [] at hrun
      obtain ⟨n1, hf1, ho1⟩ := appendEach_ok _ _ _ _ h1
      obtain ⟨_, n2, ho2, _, _⟩ := mergeAPIOnly_ok h cls r1 apiRoutes.Routes r2 h2
      obtain ⟨n3, hf3, ho3⟩ := appendEach_ok _ _ _ _ hrun
      simp only [List.nil_append] at ho1 ho3
      obtain ⟨x, hx, hxr⟩ := forall₂_append_cons _ pre r post n1 hf1
      rw [hapi] at hxr
      have hfr := mergeYamlRoute_of_api h cls apre apost a r x had hlast hxr
      have hx2 : r2.Routes[pre.length]? = some x := by
        rw [ho2, ho1]
        have hlt : pre.length < n1.length := by
          rcases Nat.lt_or_ge pre.length n1.length with hlt | hge
          · exact hlt
          · rw [List.getElem?_eq_none hge] at hx
            cases hx
        rw [List.getElem?_append_left hlt]
        exact hx
      obtain ⟨o, ho, hxo⟩ := forall₂_getElem? _ _ _ hf3 pre.length x hx2
      refine ⟨x, hfr, ?_⟩
      rw [ho3, ho, finalRoute_ok vars p x o hxo]
    · rw [h2] at hrun
      simp at hrun
  · rw [h1] at hrun
    simp at hrun

/-- Merge precedence: the fields other than the domain of a route of the configuration
file whose domain the API defines too do not matter. -/
theorem merge_independent (h : String → String) (pre post : List RouteV2) (r r1 : RouteV2)
    (apiRoutes : RoutesV2) (a : RouteV2) (vars : List EnvironmentVariable) (cls p : String)
    (ha : a ∈ apiRoutes.Routes) (had : a.Domain = r.Domain) (hd : r1.Domain = r.Domain) :
    MergeRoutesV2 h ⟨pre ++ r1 :: post⟩ apiRoutes vars cls p
      = MergeRoutesV2 h ⟨pre ++ r :: post⟩ apiRoutes vars cls p := by
  unfold MergeRoutesV2 mergeFirstRound
  have : appendEach (mergeYamlRoute h cls apiRoutes.Routes) { Routes := [] }
      (pre ++ r1 :: post)
      = appendEach (mergeYamlRoute h cls apiRoutes.Routes) { Routes := [] }
        (pre ++ r :: post) := by
    apply appendEach_congr
    simp only [List.map_append, List.map_cons]
    rw [mergeYamlRoute_congr h cls apiRoutes.Routes r r1 a ha had hd]
  simp only [this]


/-- C4. Merge precedence.  When a route `r` of the configuration file and an API route share
a domain, `a` being the last API route of that domain, a merge without error returns, at
the place of `r`, the record `handleAPIRoute defaultIngressClass a` with the Fastly
configuration generated again and the domain lowered; and the merge returns the same
result when `r` is replaced by any route of the same domain, so that no field of `r`
other than the domain reaches the result. -/
theorem C4_merge_precedence (h : String → String) (pre post : List RouteV2) (r : RouteV2)
    (apiRoutes : RoutesV2) (apre apost : List RouteV2) (a : RouteV2)
    (vars : List EnvironmentVariable) (cls p : String) (out : RoutesV2)
    (hapi : apiRoutes.Routes = apre ++ a :: apost) (had : a.Domain = r.Domain)
    (hlast : ∀ b ∈ apost, b.Domain ≠ r.Domain)
    (hrun : MergeRoutesV2 h ⟨pre ++ r :: post⟩ apiRoutes vars cls p = (out, none)) :
    (∃ fr, handleAPIRoute h cls a = (fr, none)
      ∧ out.Routes[pre.length]? = some { fr with
          Fastly := (GenerateFastlyConfiguration fr.Fastly "" fr.Fastly.ServiceID fr.Domain
            p vars).1
          Domain := ToLower fr.Domain })
      ∧ ∀ r1 : RouteV2, r1.Domain = r.Domain →
          MergeRoutesV2 h ⟨pre ++ r1 :: post⟩ apiRoutes vars cls p = (out, none) := by
  refine ⟨merge_precedence h pre post r apiRoutes apre apost a vars cls p out hapi had hlast
    hrun, ?_⟩
  intro r1 hd
  rw [merge_independent h pre post r r1 apiRoutes a vars cls p (by rw [hapi]; simp) had hd]
  exact hrun

/-- Witness of C4: the route `a.com` of the configuration file, with the ingress class
`yaml-class`, and the API route `a.com` with the ingress class `api-class`. -/
theorem C4_merge_precedence_witness :
    (∃ fr, handleAPIRoute (fun _ => "0123456789abcdef0123456789abcdef") "nginx"
          { RouteV2.zero with Domain := "a.com", IngressClass := "api-class" } = (fr, none)
      ∧ (MergeRoutesV2 (fun _ => "0123456789abcdef0123456789abcdef")
          ⟨[] ++ { RouteV2.zero with
            Domain := "a.com", IngressClass := "yaml-class", TLSAcme := some false } :: []⟩
          ⟨[{ RouteV2.zero with Domain := "a.com", IngressClass := "api-class" }]⟩
          [] "nginx" "fastly-api-").1.Routes[([] : List RouteV2).length]? = some { fr with
          Fastly := (GenerateFastlyConfiguration fr.Fastly "" fr.Fastly.ServiceID fr.Domain
            "fastly-api-" []).1
          Domain := ToLower fr.Domain })
      ∧ ∀ r1 : RouteV2,
          r1.Domain = ({ RouteV2.zero with
            Domain := "a.com", IngressClass := "yaml-class", TLSAcme := some false }
              : RouteV2).Domain →
          MergeRoutesV2 (fun _ => "0123456789abcdef0123456789abcdef") ⟨[] ++ r1 :: []⟩
            ⟨[{ RouteV2.zero with Domain := "a.com", IngressClass := "api-class" }]⟩
            [] "nginx" "fastly-api-"
          = ((MergeRoutesV2 (fun _ => "0123456789abcdef0123456789abcdef")
            ⟨[] ++ { RouteV2.zero with
              Domain := "a.com", IngressClass := "yaml-class", TLSAcme := some false } :: []⟩
            ⟨[{ RouteV2.zero with Domain := "a.com", IngressClass := "api-class" }]⟩
            [] "nginx" "fastly-api-").1, none) :=
  C4_merge_precedence (fun _ => "0123456789abcdef0123456789abcdef") [] []
    { RouteV2.zero with Domain := "a.com", IngressClass := "yaml-class", TLSAcme := some false }
    ⟨[{ RouteV2.zero with Domain := "a.com", IngressClass := "api-class" }]⟩ [] []
    { RouteV2.zero with Domain := "a.com", IngressClass := "api-class" }
    [] "nginx" "fastly-api-" _ rfl rfl (fun b hb => absurd hb (List.not_mem_nil b)) (by rfl)


/-! ## Lemmas on the wildcard rules -/

/-- A name that passes the validator after lowering is not empty. -/
theorem valid_ne_empty (d : String) (hv : IsDNS1123Subdomain (ToLower d) = []) :
    1 ≤ d.length := by
  rcases d with ⟨l⟩
  cases l with
  | nil => exact absurd hv (by decide)
  | cons c cs => simp [String.length]

/-- The wildcard ingress name of a non-empty domain is made without a panic. -/
theorem wildcardIngressName_ok (h : String → String) (d : String) (hd : 1 ≤ d.length) :
    ∃ name, wildcardIngressName h d = .ok name := by
  unfold wildcardIngressName
  simp only []
  have hlen : ¬ len ("wildcard-" ++ d) < 10 := by
    rw [len_append]
    have : len "wildcard-" = 9 := by decide
    have := length_le_len d
    omega
  split_ifs
  · exact ⟨_, rfl⟩
  · exact ⟨_, rfl⟩

/-- The API record of a wildcard route with TLS-acme (given or defaulted) or with
alternative names is an error. -/
theorem handleAPIRoute_wildcard (h : String → String) (cls : String) (a : RouteV2)
    (hw : a.Wildcard = some true)
    (hbad : a.TLSAcme = some true ∨ a.TLSAcme = none
      ∨ ∃ n ns, a.AlternativeNames = some (n :: ns)) :
    ∃ msg, (handleAPIRoute h cls a).2 = some (.error msg) := by
  unfold handleAPIRoute
  simp only [hw]
  rcases hta : a.TLSAcme with _ | t
  · exact ⟨"Route " ++ a.Domain
      ++ " has wildcard=true and tls-acme=true, this is not supported",
      by simp [apiRouteDefaults, hta, defaultTLSAcme]⟩
  · cases t with
    | true =>
      exact ⟨"Route " ++ a.Domain
        ++ " has wildcard=true and tls-acme=true, this is not supported",
        by simp [apiRouteDefaults, hta]⟩
    | false =>
      rcases hbad with hb | hb | ⟨n, ns, hb⟩
      · rw [hta] at hb; cases hb
      · rw [hta] at hb; cases hb
      · exact ⟨"Route " ++ a.Domain
          ++ " has wildcard=true and alternativenames defined, this is not supported",
          by simp [apiRouteDefaults, hta, hb]⟩

/-- The API record of a route whose lowered domain is valid is made without a panic. -/
theorem handleAPIRoute_no_panic (h : String → String) (cls : String) (a : RouteV2)
    (hv : IsDNS1123Subdomain (ToLower a.Domain) = []) (e : Failure)
    (he : (handleAPIRoute h cls a).2 = some e) : ∃ msg, e = .error msg := by
  obtain ⟨name, hname⟩ := wildcardIngressName_ok h a.Domain (valid_ne_empty a.Domain hv)
  unfold handleAPIRoute at he
  simp only [hname] at he
  rcases hwc : a.Wildcard with _ | w
  · simp [hwc] at he
  · simp only [hwc] at he
    have ht : ∃ t, (apiRouteDefaults cls a).TLSAcme = some t := by
      unfold apiRouteDefaults
      simp only []
      rcases hta : a.TLSAcme with _ | t
      · exact ⟨true, by simp [defaultTLSAcme]⟩
      · exact ⟨t, by simp⟩
    obtain ⟨t, ht⟩ := ht
    simp only [ht] at he
    split_ifs at he
    · exact ⟨_, (Option.some.inj he).symm⟩
    · exact ⟨_, (Option.some.inj he).symm⟩


/-- A failure of the inner loop of the first round is a returned error. -/
theorem mergeFindInAPI_error (h : String → String) (cls : String) (route : RouteV2)
    (st st1 : Bool × RouteV2) (api : List RouteV2) (e : Failure)
    (hrun : mergeFindInAPI h cls route st api = (st1, some e)) : ∃ msg, e = .error msg := by
  induction api generalizing st with
  | nil => simp [mergeFindInAPI] at hrun
  | cons a api ih =>
    simp only [mergeFindInAPI] at hrun
    by_cases hd : a.Domain = route.Domain
    · rw [if_pos hd] at hrun
      by_cases hv : IsDNS1123Subdomain (ToLower a.Domain) ≠ []
      · rw [if_pos hv] at hrun
        simp only [Prod.mk.injEq, Option.some.injEq] at hrun
        exact ⟨_, hrun.2.symm⟩
      · rw [if_neg hv] at hrun
        rcases hh : handleAPIRoute h cls a with ⟨r1, _ | e1⟩
        · rw [hh] at hrun
          exact ih _ hrun
        · rw [hh] at hrun
          simp only [Prod.mk.injEq, Option.some.injEq] at hrun
          rw [← hrun.2]
          exact handleAPIRoute_no_panic h cls a (not_not.mp hv) e1 (by rw [hh])
    · rw [if_neg hd] at hrun
      exact ih _ hrun

/-- A failure of the body of the first round is a returned error. -/
theorem mergeYamlRoute_error (h : String → String) (cls : String) (api : List RouteV2)
    (route : RouteV2) (e : Failure) (hrun : mergeYamlRoute h cls api route = .error e) :
    ∃ msg, e = .error msg := by
  unfold mergeYamlRoute at hrun
  simp only [] at hrun
  by_cases hv : IsDNS1123Subdomain (ToLower route.Domain) ≠ []
  · rw [if_pos hv] at hrun
    simp only [Except.error.injEq] at hrun
    exact ⟨_, hrun.symm⟩
  · rw [if_neg hv] at hrun
    rcases hm : mergeFindInAPI h cls route (false, RouteV2.zero) api with ⟨⟨ex, ra⟩, _ | e1⟩
    · rw [hm] at hrun
      simp only [] at hrun
      split_ifs at hrun
    · rw [hm] at hrun
      simp only [Except.error.injEq] at hrun
      rw [← hrun]
      exact mergeFindInAPI_error h cls route _ _ api e1 hm

/-- The second round returns an error when it meets an API route that breaks a wildcard
rule. -/
theorem mergeAPIOnly_wildcard (h : String → String) (cls : String) (acc : RoutesV2)
    (api : List RouteV2) (a : RouteV2) (ha : a ∈ api)
    (hbad : ∃ msg, (handleAPIRoute h cls a).2 = some (.error msg)) :
    ∃ msg, (mergeAPIOnly h cls acc api).2 = some (.error msg) := by
  induction api generalizing acc with
  | nil => simp at ha
  | cons b api ih =>
    simp only [mergeAPIOnly]
    by_cases hv : IsDNS1123Subdomain (ToLower b.Domain) ≠ []
    · rw [if_pos hv]
      exact ⟨_, rfl⟩
    · rw [if_neg hv]
      rcases hh : handleAPIRoute h cls b with ⟨r1, _ | e1⟩
      · simp only []
        rcases List.mem_cons.mp ha with rfl | htl
        · obtain ⟨msg, hmsg⟩ := hbad
          rw [hh] at hmsg
          cases hmsg
        · split_ifs
          · exact ih _ htl
          · exact ih _ htl
      · simp only []
        obtain ⟨msg, hmsg⟩ := handleAPIRoute_no_panic h cls b (not_not.mp hv) e1 (by rw [hh])
        exact ⟨msg, by rw [hmsg]⟩

/-- `MergeRoutesV2` returns an error when the API list holds a route that breaks a
wildcard rule. -/
theorem merge_wildcard (h : String → String) (yamlRoutes apiRoutes : RoutesV2)
    (vars : List EnvironmentVariable) (cls p : String) (a : RouteV2)
    (ha : a ∈ apiRoutes.Routes)
    (hbad : ∃ msg, (handleAPIRoute h cls a).2 = some (.error msg)) :
    ∃ msg, (MergeRoutesV2 h yamlRoutes apiRoutes vars cls p).2 = some (.error msg) := by
  unfold MergeRoutesV2
  rcases h1 : mergeFirstRound h cls apiRoutes.Routes { Routes := [] } yamlRoutes.Routes
    with ⟨r1, _ | e⟩
  · simp only []
    obtain ⟨msg, hmsg⟩ := mergeAPIOnly_wildcard h cls r1 apiRoutes.Routes a ha hbad
    rcases h2 : mergeAPIOnly h cls r1 apiRoutes.Routes with ⟨r2, _ | e⟩
    · rw [h2] at hmsg
      cases hmsg
    · rw [h2] at hmsg
      exact ⟨msg, hmsg⟩
  · simp only []
    obtain ⟨x, _, hx⟩ := appendEach_failure _ _ _ _ _ h1
    obtain ⟨msg, hmsg⟩ := mergeYamlRoute_error h cls apiRoutes.Routes x e hx
    exact ⟨msg, by rw [hmsg]⟩

/-- The record for an override object whose first entry is a wildcard route with TLS-acme
(given or defaulted) or with alternative names is an error. -/
theorem generateRoute_wildcard (h : String → String) (vars : List EnvironmentVariable)
    (cls : String) (activeStandby : Bool) (p rName d : String) (ing : Ingress)
    (more : List (String × Ingress)) (hw : ing.Wildcard = some true)
    (hbad : ing.TLSAcme = some true ∨ ing.TLSAcme = none
      ∨ ∃ n ns, ing.AlternativeNames = some (n :: ns)) :
    ∃ msg, generateRoute h vars cls activeStandby p rName ⟨"", (d, ing) :: more⟩
      = .error (.error msg) := by
  unfold generateRoute
  simp only [if_true, applyIngresses, ingressWildcard, hw]
  rcases hta : ing.TLSAcme with _ | t
  · exact ⟨"Route " ++ d ++ " has wildcard: true and tls-acme: true, this is not supported",
      by simp [ingressOverrides, defaultRoute, hta, defaultTLSAcme]⟩
  · cases t with
    | true =>
      exact ⟨"Route " ++ d ++ " has wildcard: true and tls-acme: true, this is not supported",
        by simp [ingressOverrides, hta]⟩
    | false =>
      rcases hbad with hb | hb | ⟨n, ns, hb⟩
      · rw [hta] at hb; cases hb
      · rw [hta] at hb; cases hb
      · exact ⟨"Route " ++ d
          ++ " has wildcard: true and alternativenames defined, this is not supported",
          by simp [ingressOverrides, hta, hb]⟩

/-- `GenerateRoutesV2` fails when the body of its loop fails on an entry of the route
map. -/
theorem GenerateRoutesV2_fails (h : String → String) (yamlRoutes : RoutesV2)
    (routeMap : List (String × List Route)) (vars : List EnvironmentVariable) (cls : String)
    (activeStandby : Bool) (p rName : String) (routes : List Route) (r : Route) (e : Failure)
    (hmap : (rName, routes) ∈ routeMap) (hr : r ∈ routes)
    (he : generateRoute h vars cls activeStandby p rName r = .error e) :
    (GenerateRoutesV2 h yamlRoutes routeMap vars cls activeStandby p).2 ≠ none := by
  induction routeMap generalizing yamlRoutes with
  | nil => simp at hmap
  | cons entry rest ih =>
    obtain ⟨n, rs⟩ := entry
    simp only [GenerateRoutesV2]
    rcases hs : generateServiceRoutes h vars cls activeStandby p n yamlRoutes rs
      with ⟨y1, _ | e1⟩
    · simp only []
      rcases List.mem_cons.mp hmap with heq | htl
      · simp only [Prod.mk.injEq] at heq
        obtain ⟨hn, hrs⟩ := heq
        subst hn hrs
        have := appendEach_fails (generateRoute h vars cls activeStandby p rName) yamlRoutes
          routes r hr e he
        unfold generateServiceRoutes at hs
        rw [hs] at this
        exact absurd rfl this
      · exact ih _ htl
    · simp


/-- C2. A wildcard route (`wildcard = true`) whose TLS-acme is true (given as true, or not
given and defaulted to true) or whose alternative names are not empty is rejected.  From
the route map: the record for an override object that starts with such an entry is an
error, and `GenerateRoutesV2` does not succeed on a route map that holds it.  From the
API: `handleAPIRoute` returns an error, and so does `MergeRoutesV2` on an API list that
holds the route. -/
theorem C2_wildcard_rejected :
    (∀ (h : String → String) (vars : List EnvironmentVariable) (cls : String)
        (activeStandby : Bool) (p rName d : String) (ing : Ingress)
        (more : List (String × Ingress)),
      ing.Wildcard = some true →
      (ing.TLSAcme = some true ∨ ing.TLSAcme = none
        ∨ ∃ n ns, ing.AlternativeNames = some (n :: ns)) →
      (∃ msg, generateRoute h vars cls activeStandby p rName ⟨"", (d, ing) :: more⟩
          = .error (.error msg))
        ∧ ∀ (yamlRoutes : RoutesV2) (routeMap : List (String × List Route))
            (routes : List Route),
          (rName, routes) ∈ routeMap → (⟨"", (d, ing) :: more⟩ : Route) ∈ routes →
          (GenerateRoutesV2 h yamlRoutes routeMap vars cls activeStandby p).2 ≠ none)
    ∧ (∀ (h : String → String) (cls : String) (a : RouteV2),
      a.Wildcard = some true →
      (a.TLSAcme = some true ∨ a.TLSAcme = none
        ∨ ∃ n ns, a.AlternativeNames = some (n :: ns)) →
      (∃ msg, (handleAPIRoute h cls a).2 = some (.error msg))
        ∧ ∀ (yamlRoutes apiRoutes : RoutesV2) (vars : List EnvironmentVariable) (p : String),
          a ∈ apiRoutes.Routes →
          ∃ msg, (MergeRoutesV2 h yamlRoutes apiRoutes vars cls p).2 = some (.error msg)) := by
  constructor
  · intro h vars cls activeStandby p rName d ing more hw hbad
    have hg := generateRoute_wildcard h vars cls activeStandby p rName d ing more hw hbad
    refine ⟨hg, ?_⟩
    intro yamlRoutes routeMap routes hmap hr
    obtain ⟨msg, hmsg⟩ := hg
    exact GenerateRoutesV2_fails h yamlRoutes routeMap vars cls activeStandby p rName routes _
      _ hmap hr hmsg
  · intro h cls a hw hbad
    have hh := handleAPIRoute_wildcard h cls a hw hbad
    exact ⟨hh, fun yamlRoutes apiRoutes vars p ha =>
      merge_wildcard h yamlRoutes apiRoutes vars cls p a ha hh⟩

/-- Witness of C2: the wildcard route `example.com` with TLS-acme not given, in the route
map of the service `nginx` and in the API list. -/
theorem C2_wildcard_rejected_witness :
    ((∃ msg, generateRoute (fun _ => "0123456789abcdef0123456789abcdef") [] "nginx" false
          "fastly-api-" "nginx"
          ⟨"", [("example.com", { Ingress.zero with Wildcard := some true })]⟩
          = .error (.error msg))
      ∧ (GenerateRoutesV2 (fun _ => "0123456789abcdef0123456789abcdef") ⟨[]⟩
          [("nginx", [⟨"www.example.com", []⟩,
            ⟨"", [("example.com", { Ingress.zero with Wildcard := some true })]⟩])]
          [] "nginx" false "fastly-api-").2 ≠ none)
    ∧ ((∃ msg, (handleAPIRoute (fun _ => "0123456789abcdef0123456789abcdef") "nginx"
          { RouteV2.zero with Domain := "example.com", Wildcard := some true }).2
          = some (.error msg))
      ∧ ∃ msg, (MergeRoutesV2 (fun _ => "0123456789abcdef0123456789abcdef") ⟨[]⟩
          ⟨[{ RouteV2.zero with Domain := "example.com", Wildcard := some true }]⟩
          [] "nginx" "fastly-api-").2 = some (.error msg)) :=
  ⟨⟨(C2_wildcard_rejected.1 (fun _ => "0123456789abcdef0123456789abcdef") [] "nginx" false
        "fastly-api-" "nginx" "example.com" { Ingress.zero with Wildcard := some true } []
        rfl (Or.inr (Or.inl rfl))).1,
      (C2_wildcard_rejected.1 (fun _ => "0123456789abcdef0123456789abcdef") [] "nginx" false
        "fastly-api-" "nginx" "example.com" { Ingress.zero with Wildcard := some true } []
        rfl (Or.inr (Or.inl rfl))).2 ⟨[]⟩ _ _ (List.mem_cons_self _ _)
        (List.mem_cons_of_mem _ (List.mem_cons_self _ _))⟩,
    ⟨(C2_wildcard_rejected.2 (fun _ => "0123456789abcdef0123456789abcdef") "nginx"
        { RouteV2.zero with Domain := "example.com", Wildcard := some true }
        rfl (Or.inr (Or.inl rfl))).1,
      (C2_wildcard_rejected.2 (fun _ => "0123456789abcdef0123456789abcdef") "nginx"
        { RouteV2.zero with Domain := "example.com", Wildcard := some true }
        rfl (Or.inr (Or.inl rfl))).2 ⟨[]⟩ _ [] "fastly-api-" (List.mem_cons_self _ _)⟩⟩


/-! ## Secret prefix and defaults of `GenerateFastlyConfiguration` -/

/-- Without the two override variables the result is the defaults with the prefix step. -/
theorem GFC_no_overrides (f : Fastly) (nc sid route p : String)
    (vars : List EnvironmentVariable)
    (hID : GetLagoonVariable "LAGOON_FASTLY_SERVICE_ID" (some ["build", "global"]) vars = none)
    (hIDs : GetLagoonVariable "LAGOON_FASTLY_SERVICE_IDS" (some ["build", "global"]) vars
      = none) :
    GenerateFastlyConfiguration f nc sid route p vars
      = (fastlySecretPrefix (fastlyDefaults f nc sid) p, none) := by
  unfold GenerateFastlyConfiguration fastlyServiceIDOverride fastlyServiceIDsVariable
  simp only [hID, hIDs]

/-- The result of a run without failure is the prefix step applied to some state. -/
theorem GFC_ok_prefixed (f : Fastly) (nc sid route p : String)
    (vars : List EnvironmentVariable) (f1 : Fastly)
    (hrun : GenerateFastlyConfiguration f nc sid route p vars = (f1, none)) :
    ∃ g, f1 = fastlySecretPrefix g p := by
  unfold GenerateFastlyConfiguration at hrun
  simp only [] at hrun
  rcases hg : fastlyServiceIDOverride (fastlyDefaults f nc sid) p vars with ⟨g1, _ | e⟩
  · rw [hg] at hrun
    simp only [] at hrun
    rcases hl : fastlyServiceIDsVariable route p g1 vars with ⟨g2, _ | e⟩
    · rw [hl] at hrun
      simp only [Prod.mk.injEq, and_true] at hrun
      exact ⟨g2, hrun.symm⟩
    · rw [hl] at hrun
      simp at hrun
  · rw [hg] at hrun
    simp at hrun

/-- After the prefix step the secret name is empty or starts with the prefix. -/
theorem fastlySecretPrefix_prefixed (g : Fastly) (p : String) :
    (fastlySecretPrefix g p).APISecretName = ""
      ∨ HasPrefix (fastlySecretPrefix g p).APISecretName p = true := by
  unfold fastlySecretPrefix
  by_cases h1 : g.APISecretName = ""
  · left; simp [h1]
  · by_cases h2 : HasPrefix g.APISecretName p = true
    · right; simp [h1, h2]
    · right; simp [h1, h2, HasPrefix_append]

/-- C11. After a run of `GenerateFastlyConfiguration` without failure the secret name is
empty or starts with the secret prefix.  Without the two override variables the run does
not fail, and a secret name that is set and lacks the prefix comes back as the prefix
followed by the name, one that starts with the prefix comes back as it is, and the prefix
is not put in front a second time when the result is resolved again. -/
theorem C11_secret_name_prefixed (f : Fastly) (nc sid route p : String)
    (vars : List EnvironmentVariable) :
    (∀ f1, GenerateFastlyConfiguration f nc sid route p vars = (f1, none) →
      f1.APISecretName = "" ∨ HasPrefix f1.APISecretName p = true)
    ∧ (GetLagoonVariable "LAGOON_FASTLY_SERVICE_ID" (some ["build", "global"]) vars = none →
      GetLagoonVariable "LAGOON_FASTLY_SERVICE_IDS" (some ["build", "global"]) vars = none →
      ∃ f1, GenerateFastlyConfiguration f nc sid route p vars = (f1, none)
        ∧ (f.APISecretName ≠ "" → HasPrefix f.APISecretName p = false →
            f1.APISecretName = p ++ f.APISecretName)
        ∧ (HasPrefix f.APISecretName p = true → f1.APISecretName = f.APISecretName)
        ∧ (GenerateFastlyConfiguration f1 nc f1.ServiceID route p vars).1.APISecretName
            = f1.APISecretName) := by
  constructor
  · intro f1 hrun
    obtain ⟨g, hg⟩ := GFC_ok_prefixed f nc sid route p vars f1 hrun
    rw [hg]
    exact fastlySecretPrefix_prefixed g p
  · intro hID hIDs
    have hrun := GFC_no_overrides f nc sid route p vars hID hIDs
    refine ⟨_, hrun, ?_, ?_, ?_⟩
    · intro hne hno
      unfold fastlySecretPrefix
      simp [fastlyDefaults_secret, hne, hno]
    · intro hpre
      unfold fastlySecretPrefix
      simp [fastlyDefaults_secret, hpre]
    · rw [GFC_no_overrides _ nc _ route p vars hID hIDs]
      have hs : ∀ g : Fastly, (fastlySecretPrefix (fastlyDefaults
          (fastlySecretPrefix g p) nc (fastlySecretPrefix g p).ServiceID) p).APISecretName
          = (fastlySecretPrefix g p).APISecretName := by
        intro g
        have h1 := fastlySecretPrefix_idem g p
        have h2 := fastlyDefaults_secret (fastlySecretPrefix g p) nc
          (fastlySecretPrefix g p).ServiceID
        unfold fastlySecretPrefix at h1 h2 ⊢
        split_ifs at h1 h2 ⊢ <;> simp_all
      exact hs _

/-- Witness of C11: the secret name `key` under the prefix `fastly-api-`. -/
theorem C11_secret_name_prefixed_witness :
    ∃ f1, GenerateFastlyConfiguration ⟨"", "key", false⟩ "" "svc" "a.com" "fastly-api-" []
        = (f1, none)
      ∧ f1.APISecretName = "fastly-api-" ++ "key" :=
  match (C11_secret_name_prefixed ⟨"", "key", false⟩ "" "svc" "a.com" "fastly-api-" []).2
      (by decide) (by decide) with
  | ⟨f1, hrun, hlack, _, _⟩ => ⟨f1, hrun, hlack (by decide) (by decide)⟩

/-- C12. When neither `LAGOON_FASTLY_SERVICE_ID` nor `LAGOON_FASTLY_SERVICE_IDS` is found in
the scopes build and global, `GenerateFastlyConfiguration` does not fail: the service id is
the explicit one, with the watch flag as it was, when the explicit one is not empty;
otherwise the no-cache one, with the watch flag on, when the no-cache one is not empty;
otherwise empty, with the watch flag as it was. -/
theorem C12_no_overrides (f : Fastly) (nc sid route p : String)
    (vars : List EnvironmentVariable)
    (hID : GetLagoonVariable "LAGOON_FASTLY_SERVICE_ID" (some ["build", "global"]) vars = none)
    (hIDs : GetLagoonVariable "LAGOON_FASTLY_SERVICE_IDS" (some ["build", "global"]) vars
      = none) :
    ∃ f1, GenerateFastlyConfiguration f nc sid route p vars = (f1, none)
      ∧ (sid ≠ "" → f1.ServiceID = sid ∧ f1.Watch = f.Watch)
      ∧ (sid = "" → nc ≠ "" → f1.ServiceID = nc ∧ f1.Watch = true)
      ∧ (sid = "" → nc = "" → f1.ServiceID = "" ∧ f1.Watch = f.Watch) := by
  refine ⟨_, GFC_no_overrides f nc sid route p vars hID hIDs, ?_, ?_, ?_⟩
  · intro h1
    rw [fastlySecretPrefix_serviceID, fastlySecretPrefix_watch]
    simp [fastlyDefaults, h1]
  · intro h1 h2
    rw [fastlySecretPrefix_serviceID, fastlySecretPrefix_watch]
    simp [fastlyDefaults, h1, h2]
  · intro h1 h2
    rw [fastlySecretPrefix_serviceID, fastlySecretPrefix_watch]
    simp [fastlyDefaults, h1, h2]

/-- Witness of C12: no variables, no explicit service id, the no-cache service `nocache`. -/
theorem C12_no_overrides_witness :
    ∃ f1, GenerateFastlyConfiguration Fastly.zero "nocache" "" "annotations.com" "fastly-api-"
        [⟨"LAGOON_FASTLY_SERVICE_ID", "svc:true", "runtime"⟩] = (f1, none)
      ∧ f1.ServiceID = "nocache" ∧ f1.Watch = true :=
  match C12_no_overrides Fastly.zero "nocache" "" "annotations.com" "fastly-api-"
      [⟨"LAGOON_FASTLY_SERVICE_ID", "svc:true", "runtime"⟩] (by decide) (by decide) with
  | ⟨f1, hrun, _, hnc, _⟩ => ⟨f1, hrun, hnc rfl (by decide)⟩


/-! ## The records of `GenerateRoutesV2` -/

/-- C13, evaluated: under the global override `svcG`, which has no watch status,
`GenerateFastlyConfiguration` returns an error for the route `www.example.com`, and yet
`GenerateRoutesV2` and `MergeRoutesV2` return no error and keep the route. -/
theorem C13_fastly_error_dropped :
    (GenerateFastlyConfiguration Fastly.zero "" "" "www.example.com" "fastly-api-"
        [⟨"LAGOON_FASTLY_SERVICE_ID", "svcG", "build"⟩]).2
      = some (.error "no watch status was provided, only the service id")
    ∧ (GenerateRoutesV2 (fun _ => "0123456789abcdef0123456789abcdef") ⟨[]⟩
        [("nginx", [⟨"www.example.com", []⟩])]
        [⟨"LAGOON_FASTLY_SERVICE_ID", "svcG", "build"⟩] "nginx" false "fastly-api-").2 = none
    ∧ (GenerateRoutesV2 (fun _ => "0123456789abcdef0123456789abcdef") ⟨[]⟩
        [("nginx", [⟨"www.example.com", []⟩])]
        [⟨"LAGOON_FASTLY_SERVICE_ID", "svcG", "build"⟩] "nginx" false
        "fastly-api-").1.Routes.map (·.Domain) = ["www.example.com"]
    ∧ (MergeRoutesV2 (fun _ => "0123456789abcdef0123456789abcdef")
        ⟨[{ RouteV2.zero with Domain := "www.example.com" }]⟩ ⟨[]⟩
        [⟨"LAGOON_FASTLY_SERVICE_ID", "svcG", "build"⟩] "nginx" "fastly-api-").2 = none
    ∧ (MergeRoutesV2 (fun _ => "0123456789abcdef0123456789abcdef")
        ⟨[{ RouteV2.zero with Domain := "www.example.com" }]⟩ ⟨[]⟩
        [⟨"LAGOON_FASTLY_SERVICE_ID", "svcG", "build"⟩] "nginx"
        "fastly-api-").1.Routes.map (·.Domain) = ["www.example.com"] := by
  refine ⟨by rfl, by rfl, by rfl, by rfl, by rfl⟩

/-- A name that passes the validator after lowering is not the empty string. -/
theorem valid_ne_empty_string (d : String) (hv : IsDNS1123Subdomain (ToLower d) = []) :
    d ≠ "" := by
  intro hd
  subst hd
  exact absurd hv (by decide)

/-- The record for a bare domain, when the two override variables are not there. -/
theorem generateRoute_bare (h : String → String) (vars : List EnvironmentVariable)
    (cls : String) (activeStandby : Bool) (p s d : String) (ings : List (String × Ingress))
    (hd : IsDNS1123Subdomain (ToLower d) = [])
    (hID : GetLagoonVariable "LAGOON_FASTLY_SERVICE_ID" (some ["build", "global"]) vars = none)
    (hIDs : GetLagoonVariable "LAGOON_FASTLY_SERVICE_IDS" (some ["build", "global"]) vars
      = none) :
    generateRoute h vars cls activeStandby p s ⟨d, ings⟩
      = .ok { defaultRoute cls activeStandby with
          Domain := d, LagoonService := s, IngressName := d } := by
  unfold generateRoute
  simp only [valid_ne_empty_string d hd, if_false]
  rw [GFC_no_overrides _ "" _ d p vars hID hIDs]
  simp only [hd, ne_eq, not_true_eq_false, if_false]
  congr 1

/-- C14. For a valid domain `d` given as a bare domain string under the service `s`, the
two override variables not being there, `GenerateRoutesV2` returns no error and appends
one record: domain `d`, service `s`, ingress name `d`, TLS-acme true, insecure `Redirect`,
monitoring path `/`, request verification false, the default ingress class, empty
annotations, empty alternative names, wildcard not set, and migrate true when
active/standby is on and not set otherwise. -/
theorem C14_bare_domain_defaults (h : String → String) (yamlRoutes : RoutesV2)
    (vars : List EnvironmentVariable) (cls : String) (activeStandby : Bool) (p s d : String)
    (ings : List (String × Ingress))
    (hd : IsDNS1123Subdomain (ToLower d) = [])
    (hID : GetLagoonVariable "LAGOON_FASTLY_SERVICE_ID" (some ["build", "global"]) vars = none)
    (hIDs : GetLagoonVariable "LAGOON_FASTLY_SERVICE_IDS" (some ["build", "global"]) vars
      = none) :
    GenerateRoutesV2 h yamlRoutes [(s, [⟨d, ings⟩])] vars cls activeStandby p
      = (⟨yamlRoutes.Routes ++ [{
          Domain := d, LagoonService := s, ComposeService := "", TLSAcme := some true,
          Migrate := if activeStandby then some true else none,
          Insecure := some "Redirect", MonitoringPath := "/",
          Fastly := { ServiceID := "", APISecretName := "", Watch := false },
          Annotations := some [], Labels := none, AlternativeNames := some [],
          IngressName := d, IngressClass := cls, HSTSEnabled := none, HSTSMaxAge := 0,
          HSTSIncludeSubdomains := none, HSTSPreload := none, Autogenerated := false,
          Wildcard := none, RequestVerification := some false, PathRoutes := none }]⟩,
        none) := by
  simp only [GenerateRoutesV2, generateServiceRoutes, appendEach,
    generateRoute_bare h vars cls activeStandby p s d ings hd hID hIDs]
  rfl

/-- Witness of C14: the route list `["www.example.com"]` of the service `nginx`. -/
theorem C14_bare_domain_defaults_witness :
    GenerateRoutesV2 (fun _ => "0123456789abcdef0123456789abcdef") ⟨[]⟩
        [("nginx", [⟨"www.example.com", []⟩])] [] "nginx-class" true "fastly-api-"
      = (⟨([] : List RouteV2) ++ [{
          Domain := "www.example.com", LagoonService := "nginx", ComposeService := "",
          TLSAcme := some true, Migrate := if true then some true else none,
          Insecure := some "Redirect", MonitoringPath := "/",
          Fastly := { ServiceID := "", APISecretName := "", Watch := false },
          Annotations := some [], Labels := none, AlternativeNames := some [],
          IngressName := "www.example.com", IngressClass := "nginx-class",
          HSTSEnabled := none, HSTSMaxAge := 0,
          HSTSIncludeSubdomains := none, HSTSPreload := none, Autogenerated := false,
          Wildcard := none, RequestVerification := some false, PathRoutes := none }]⟩,
        none) :=
  C14_bare_domain_defaults (fun _ => "0123456789abcdef0123456789abcdef") ⟨[]⟩ [] "nginx-class"
    true "fastly-api-" "nginx" "www.example.com" [] (by decide) (by decide) (by decide)


/-- The result of the wildcard step: the route as it was when the flag is not given, and
else the route with the flag and the wildcard ingress name. -/
theorem ingressWildcard_ok (h : String → String) (nr0 nr : RouteV2) (ing : Ingress)
    (hrun : ingressWildcard h nr0 ing = .ok nr) :
    (ing.Wildcard = none ∧ nr = nr0)
      ∨ ∃ name, ing.Wildcard ≠ none ∧ wildcardIngressName h nr0.Domain = .ok name
          ∧ nr = { nr0 with Wildcard := ing.Wildcard, IngressName := name } := by
  unfold ingressWildcard at hrun
  rcases hw : ing.Wildcard with _ | w
  · rw [hw] at hrun
    simp only [Except.ok.injEq] at hrun
    exact Or.inl ⟨rfl, hrun.symm⟩
  · rw [hw] at hrun
    simp only [] at hrun
    rcases ht : nr0.TLSAcme with _ | t
    · rw [ht] at hrun
      cases hrun
    · rw [ht] at hrun
      simp only [] at hrun
      split_ifs at hrun
      rcases hn : wildcardIngressName h nr0.Domain with e | name
      · rw [hn] at hrun
        cases hrun
      · rw [hn] at hrun
        simp only [Except.ok.injEq] at hrun
        exact Or.inr ⟨name, by simp, rfl, hrun.symm⟩

/-- The record made for an override object with one entry: the fields of the entry laid
over the defaults, the Fastly configuration as `GenerateFastlyConfiguration` leaves it,
and the domain valid after lowering. -/
theorem generateRoute_single (h : String → String) (vars : List EnvironmentVariable)
    (cls : String) (activeStandby : Bool) (p rName d : String) (ing : Ingress) (r : RouteV2)
    (hrun : generateRoute h vars cls activeStandby p rName ⟨"", [(d, ing)]⟩ = .ok r) :
    ∃ nr, ingressWildcard h (ingressOverrides cls rName (defaultRoute cls activeStandby) d ing)
          ing = .ok nr
      ∧ r = { ingressTail nr ing with
          Fastly := (GenerateFastlyConfiguration ing.Fastly "" ing.Fastly.ServiceID d p
            vars).1 }
      ∧ IsDNS1123Subdomain (ToLower d) = [] := by
  unfold generateRoute at hrun
  simp only [if_true, applyIngresses] at hrun
  rcases hw : ingressWildcard h
      (ingressOverrides cls rName (defaultRoute cls activeStandby) d ing) ing with e | nr
  · rw [hw] at hrun
    cases hrun
  · rw [hw] at hrun
    simp only [] at hrun
    have hdom : (ingressTail nr ing).Domain = d := by
      rcases ingressWildcard_ok h _ nr ing hw with ⟨_, hnr⟩ | ⟨name, _, _, hnr⟩ <;>
        rw [hnr] <;> rfl
    have hfast : (ingressTail nr ing).Fastly = ing.Fastly := by
      rcases ingressWildcard_ok h _ nr ing hw with ⟨_, hnr⟩ | ⟨name, _, _, hnr⟩ <;>
        rw [hnr] <;> rfl
    rw [hdom, hfast] at hrun
    refine ⟨nr, rfl, ?_⟩
    rcases hg : GenerateFastlyConfiguration ing.Fastly "" ing.Fastly.ServiceID d p vars
      with ⟨fastly, _ | e⟩
    · rw [hg] at hrun
      simp only [hdom] at hrun
      split_ifs at hrun with hv
      simp only [Except.ok.injEq] at hrun
      refine ⟨?_, not_not.mp hv⟩
      rw [← hrun]
      simp only [hdom]
    · cases e with
      | error m =>
        rw [hg] at hrun
        simp only [hdom] at hrun
        split_ifs at hrun with hv
        simp only [Except.ok.injEq] at hrun
        refine ⟨?_, not_not.mp hv⟩
        rw [← hrun]
        simp only [hdom]
      | panic m =>
        rw [hg] at hrun
        cases hrun


/-- The fields of the record made for an override object with one entry, in terms of the
entry laid over the defaults. -/
theorem generateRoute_single_fields (h : String → String) (vars : List EnvironmentVariable)
    (cls : String) (activeStandby : Bool) (p rName d : String) (ing : Ingress) (r : RouteV2)
    (hrun : generateRoute h vars cls activeStandby p rName ⟨"", [(d, ing)]⟩ = .ok r) :
    ∃ name, r = { ingressTail
        (ingressOverrides cls rName (defaultRoute cls activeStandby) d ing) ing with
        Wildcard := ing.Wildcard, IngressName := name,
        Fastly := (GenerateFastlyConfiguration ing.Fastly "" ing.Fastly.ServiceID d p
          vars).1 }
      ∧ (ing.Wildcard = none → name = d)
      ∧ (ing.Wildcard ≠ none → wildcardIngressName h d = .ok name) := by
  obtain ⟨nr, hw, hr, _⟩ := generateRoute_single h vars cls activeStandby p rName d ing r hrun
  rcases ingressWildcard_ok h _ nr ing hw with ⟨hnone, hnr⟩ | ⟨name, hsome, hname, hnr⟩
  · refine ⟨d, ?_, fun _ => rfl, fun hc => absurd hnone hc⟩
    rw [hr, hnr, hnone]
    rfl
  · refine ⟨name, ?_, fun hc => absurd hc hsome, fun _ => hname⟩
    rw [hr, hnr]
    rfl

/-- C15. The record that `GenerateRoutesV2` makes for an override object with one entry
has, in each field, the value of the entry when the entry gives one, and the default
otherwise: TLS-acme (default true), insecure (`Redirect`), annotations (empty),
alternative names (empty), the HSTS flags (not set), request verification (false), path
routes (none), ingress class (the default ingress class) and monitoring path (`/`). -/
theorem C15_override_fields (h : String → String) (vars : List EnvironmentVariable)
    (cls : String) (activeStandby : Bool) (p rName d : String) (ing : Ingress) (r : RouteV2)
    (hrun : generateRoute h vars cls activeStandby p rName ⟨"", [(d, ing)]⟩ = .ok r) :
    r.Domain = d ∧ r.LagoonService = rName
      ∧ r.TLSAcme = some (ing.TLSAcme.getD true)
      ∧ r.Insecure = some (ing.Insecure.getD "Redirect")
      ∧ r.Annotations = some (ing.Annotations.getD [])
      ∧ r.AlternativeNames = some (ing.AlternativeNames.getD [])
      ∧ r.HSTSEnabled = ing.HSTSEnabled
      ∧ r.HSTSIncludeSubdomains = ing.HSTSIncludeSubdomains
      ∧ r.HSTSPreload = ing.HSTSPreload
      ∧ r.RequestVerification = some (ing.RequestVerification.getD false)
      ∧ r.PathRoutes = ing.PathRoutes
      ∧ r.IngressClass = (if ing.IngressClass ≠ "" then ing.IngressClass else cls)
      ∧ r.MonitoringPath = (if ing.MonitoringPath ≠ "" then ing.MonitoringPath else "/") := by
  obtain ⟨name, hr, _, _⟩ :=
    generateRoute_single_fields h vars cls activeStandby p rName d ing r hrun
  subst hr
  refine ⟨rfl, rfl, ?_, ?_, ?_, ?_, ?_, ?_, ?_, ?_, ?_, rfl, rfl⟩
  · cases hx : ing.TLSAcme <;>
      simp [ingressTail, ingressOverrides, defaultRoute, defaultTLSAcme, hx]
  · cases hx : ing.Insecure <;>
      simp [ingressTail, ingressOverrides, defaultRoute, defaultInsecure, hx]
  · cases hx : ing.Annotations <;>
      simp [ingressTail, ingressOverrides, defaultRoute, defaultAnnotations, hx]
  · cases hx : ing.AlternativeNames <;>
      simp [ingressTail, ingressOverrides, defaultRoute, hx]
  · cases hx : ing.HSTSEnabled <;>
      simp [ingressTail, ingressOverrides, defaultRoute, RouteV2.zero, hx]
  · cases hx : ing.HSTSIncludeSubdomains <;>
      simp [ingressTail, ingressOverrides, defaultRoute, RouteV2.zero, hx]
  · cases hx : ing.HSTSPreload <;>
      simp [ingressTail, ingressOverrides, defaultRoute, RouteV2.zero, hx]
  · cases hx : ing.RequestVerification <;>
      simp [ingressTail, ingressOverrides, defaultRoute, defaultRequestVerification, hx]
  · cases hx : ing.PathRoutes <;>
      simp [ingressTail, ingressOverrides, defaultRoute, RouteV2.zero, hx]

/-- Witness of C15: the entry `example.com` with TLS-acme false and request verification
true, everything else not given. -/
theorem C15_override_fields_witness :
    ∃ r, generateRoute (fun _ => "0123456789abcdef0123456789abcdef") [] "nginx-class" false
        "fastly-api-" "nginx"
        ⟨"", [("example.com",
          { Ingress.zero with TLSAcme := some false, RequestVerification := some true })]⟩
        = .ok r
      ∧ r.TLSAcme = some false ∧ r.RequestVerification = some true
      ∧ r.Insecure = some "Redirect" ∧ r.IngressClass = "nginx-class" :=
  (fun (r : RouteV2)
      (hrun : generateRoute (fun _ => "0123456789abcdef0123456789abcdef") [] "nginx-class"
        false "fastly-api-" "nginx"
        ⟨"", [("example.com",
          { Ingress.zero with TLSAcme := some false, RequestVerification := some true })]⟩
        = .ok r) =>
    have hc := C15_override_fields (fun _ => "0123456789abcdef0123456789abcdef") []
      "nginx-class" false "fastly-api-" "nginx" "example.com"
      { Ingress.zero with TLSAcme := some false, RequestVerification := some true } r hrun
    ⟨r, hrun, hc.2.2.1, hc.2.2.2.2.2.2.2.2.2.1, hc.2.2.2.1, hc.2.2.2.2.2.2.2.2.2.2.2.1⟩)
    _ (by rfl)


/-- C16. The HSTS max-age.  In the record that `GenerateRoutesV2` makes for an override
object with one entry, and in the record of `handleAPIRoute`, it is the given max-age when
that is greater than 0; it is 31536000 when no max-age greater than 0 is given and HSTS is
set and true; otherwise it is not defaulted: it is 0 in the record of `GenerateRoutesV2`
and the given max-age, which is not 31536000, in the record of `handleAPIRoute`. -/
theorem C16_hsts_max_age (h : String → String) (vars : List EnvironmentVariable)
    (cls : String) (activeStandby : Bool) (p rName d : String) (ing : Ingress) (r : RouteV2)
    (a : RouteV2)
    (hrun : generateRoute h vars cls activeStandby p rName ⟨"", [(d, ing)]⟩ = .ok r) :
    ((ing.HSTSMaxAge > 0 → r.HSTSMaxAge = ing.HSTSMaxAge)
      ∧ (¬ ing.HSTSMaxAge > 0 → ing.HSTSEnabled = some true → r.HSTSMaxAge = 31536000)
      ∧ (¬ ing.HSTSMaxAge > 0 → ing.HSTSEnabled ≠ some true → r.HSTSMaxAge = 0))
    ∧ ((a.HSTSMaxAge > 0 → (handleAPIRoute h cls a).1.HSTSMaxAge = a.HSTSMaxAge)
      ∧ (¬ a.HSTSMaxAge > 0 → a.HSTSEnabled = some true →
          (handleAPIRoute h cls a).1.HSTSMaxAge = 31536000)
      ∧ (¬ a.HSTSMaxAge > 0 → a.HSTSEnabled ≠ some true →
          (handleAPIRoute h cls a).1.HSTSMaxAge = a.HSTSMaxAge
            ∧ (handleAPIRoute h cls a).1.HSTSMaxAge ≠ 31536000)) := by
  constructor
  · obtain ⟨name, hr, _, _⟩ :=
      generateRoute_single_fields h vars cls activeStandby p rName d ing r hrun
    subst hr
    refine ⟨?_, ?_, ?_⟩
    · intro h1
      simp [ingressTail, ingressOverrides, h1]
    · intro h1 h2
      simp [ingressTail, ingressOverrides, defaultHSTSMaxAge, h1, h2]
    · intro h1 h2
      cases hx : ing.HSTSEnabled with
      | none =>
        simp [ingressTail, ingressOverrides, defaultRoute, RouteV2.zero, h1, hx]
      | some b =>
        cases b with
        | true => exact absurd hx h2
        | false =>
          simp [ingressTail, ingressOverrides, defaultRoute, RouteV2.zero, h1, hx]
  · have hfield : (handleAPIRoute h cls a).1.HSTSMaxAge
        = (apiRouteDefaults cls a).HSTSMaxAge := by
      unfold handleAPIRoute
      simp only []
      split
      · rfl
      · split
        · rfl
        · split_ifs
          · rfl
          · rfl
          · split <;> rfl
    rw [hfield]
    refine ⟨?_, ?_, ?_⟩
    · intro h1
      simp [apiRouteDefaults, h1]
    · intro h1 h2
      simp [apiRouteDefaults, defaultHSTSMaxAge, h1, h2]
    · intro h1 h2
      have h3 : (apiRouteDefaults cls a).HSTSMaxAge = a.HSTSMaxAge := by
        simp [apiRouteDefaults, h1, h2]
      refine ⟨h3, ?_⟩
      rw [h3]
      intro hc
      rw [hc] at h1
      exact h1 (by decide)

/-- Witness of C16: HSTS set and true without a max-age in an override object, and an API
route without HSTS. -/
theorem C16_hsts_max_age_witness :
    ∃ r, generateRoute (fun _ => "0123456789abcdef0123456789abcdef") [] "nginx" false
        "fastly-api-" "nginx"
        ⟨"", [("example.com", { Ingress.zero with HSTSEnabled := some true })]⟩ = .ok r
      ∧ r.HSTSMaxAge = 31536000
      ∧ (handleAPIRoute (fun _ => "0123456789abcdef0123456789abcdef") "nginx"
          { RouteV2.zero with Domain := "example.com" }).1.HSTSMaxAge ≠ 31536000 :=
  (fun (r : RouteV2)
      (hrun : generateRoute (fun _ => "0123456789abcdef0123456789abcdef") [] "nginx" false
        "fastly-api-" "nginx"
        ⟨"", [("example.com", { Ingress.zero with HSTSEnabled := some true })]⟩ = .ok r) =>
    have hc := C16_hsts_max_age (fun _ => "0123456789abcdef0123456789abcdef") [] "nginx"
      false "fastly-api-" "nginx" "example.com"
      { Ingress.zero with HSTSEnabled := some true } r
      { RouteV2.zero with Domain := "example.com" } hrun
    ⟨r, hrun, hc.1.2.1 (by decide) rfl, (hc.2.2.2 (by decide) (by decide)).2⟩)
    _ (by rfl)


set_option maxRecDepth 100000 in
/-- C17, as stated, fails.  The domain of 122 labels `a` and the label
U+212A (KELVIN SIGN), 245 characters and 247 bytes, passes the validator after lowering.
For its wildcard route, with TLS-acme off, `GenerateRoutesV2` returns no error; the name
`wildcard-` and the domain, lowered, has 254 bytes, the fallback is taken and cuts the
last ten bytes of the name, which are eight characters: the ingress name has 252
characters, and is not the name without its last ten characters, a dash and five
characters of the hash, which has 250 characters. -/
theorem C17_counterexample :
    IsDNS1123Subdomain (ToLower (Join (List.replicate 122 "a") "." ++ "."
        ++ String.mk [Char.ofNat 0x212A])) = []
      ∧ IsDNS1123Subdomain (ToLower ("wildcard-" ++ (Join (List.replicate 122 "a") "." ++ "."
        ++ String.mk [Char.ofNat 0x212A]))) ≠ []
      ∧ (GenerateRoutesV2 (fun _ => "0123456789abcdef0123456789abcdef") ⟨[]⟩
          [("nginx", [⟨"", [(Join (List.replicate 122 "a") "." ++ "."
              ++ String.mk [Char.ofNat 0x212A],
            { Ingress.zero with Wildcard := some true, TLSAcme := some false })]⟩])]
          [] "nginx" false "fastly-api-").2 = none
      ∧ (GenerateRoutesV2 (fun _ => "0123456789abcdef0123456789abcdef") ⟨[]⟩
          [("nginx", [⟨"", [(Join (List.replicate 122 "a") "." ++ "."
              ++ String.mk [Char.ofNat 0x212A],
            { Ingress.zero with Wildcard := some true, TLSAcme := some false })]⟩])]
          [] "nginx" false "fastly-api-").1.Routes.map (fun r => r.IngressName)
        = ["wildcard-" ++ Join (List.replicate 119 "a") "." ++ "-01234"]
      ∧ ("wildcard-" ++ Join (List.replicate 119 "a") "." ++ "-01234").length = 252
      ∧ (String.mk (("wildcard-" ++ (Join (List.replicate 122 "a") "." ++ "."
              ++ String.mk [Char.ofNat 0x212A])).data.take
            (("wildcard-" ++ (Join (List.replicate 122 "a") "." ++ "."
              ++ String.mk [Char.ofNat 0x212A])).length - 10))
          ++ "-" ++ String.mk ("0123456789abcdef0123456789abcdef".data.take 5)).length
        = 250 := by
  refine ⟨by decide, by decide, by rfl, by rfl, by decide, by decide⟩

/-- C17. For an override object with one entry, a non-empty domain `d`, `wildcard` true,
TLS-acme false and no alternative names (the two exclusion rules pass), the loop over the
entries ends without failure with the ingress name `wildcard-d` when that name, lowered,
passes the validator, and else with that name without its last ten bytes, a dash and the
first five characters of the hash of `d`: for every way to write the name as `pre ++ suf`
with `suf` of ten bytes, the ingress name is `pre`, a dash and the five characters.  The
record that `GenerateRoutesV2` makes has that ingress name.  The name is the value of
`wildcardIngressName` at the hash helper and the domain, and of nothing else. -/
theorem C17_wildcard_ingress_name (h : String → String) (vars : List EnvironmentVariable)
    (cls : String) (activeStandby : Bool) (p rName d : String) (ing : Ingress)
    (hw : ing.Wildcard = some true) (htls : ing.TLSAcme = some false)
    (halt : ing.AlternativeNames = none) (hd : 1 ≤ d.length) :
    ∃ nr, applyIngresses h cls rName (defaultRoute cls activeStandby) [(d, ing)] = .ok nr
      ∧ wildcardIngressName h d = .ok nr.IngressName
      ∧ (IsDNS1123Subdomain (ToLower ("wildcard-" ++ d)) = [] →
          nr.IngressName = "wildcard-" ++ d)
      ∧ (IsDNS1123Subdomain (ToLower ("wildcard-" ++ d)) ≠ [] →
          ∀ pre suf : String, "wildcard-" ++ d = pre ++ suf → len suf = 10 →
            nr.IngressName = pre ++ "-" ++ String.mk ((h d).data.take 5))
      ∧ ∀ r, generateRoute h vars cls activeStandby p rName ⟨"", [(d, ing)]⟩ = .ok r →
          r.IngressName = nr.IngressName := by
  have hlen : ¬ len ("wildcard-" ++ d) < 10 := by
    rw [len_append]
    have : len "wildcard-" = 9 := by decide
    have := length_le_len d
    omega
  have hname : wildcardIngressName h d
      = .ok (if IsDNS1123Subdomain (ToLower ("wildcard-" ++ d)) = [] then "wildcard-" ++ d
        else sliceTo ("wildcard-" ++ d) (len ("wildcard-" ++ d) - 10)
          ++ "-" ++ String.mk ((h d).data.take 5)) := by
    unfold wildcardIngressName
    by_cases hv : IsDNS1123Subdomain (ToLower ("wildcard-" ++ d)) = []
    · simp only [ne_eq, hv, not_true_eq_false, if_false, if_true]
    · simp only [ne_eq, hv, not_false_eq_true, if_true, if_false, hlen]
  have hstep : ingressWildcard h
      (ingressOverrides cls rName (defaultRoute cls activeStandby) d ing) ing
      = .ok { ingressOverrides cls rName (defaultRoute cls activeStandby) d ing with
          Wildcard := ing.Wildcard
          IngressName := (if IsDNS1123Subdomain (ToLower ("wildcard-" ++ d)) = []
            then "wildcard-" ++ d
            else sliceTo ("wildcard-" ++ d) (len ("wildcard-" ++ d) - 10)
              ++ "-" ++ String.mk ((h d).data.take 5)) } := by
    unfold ingressWildcard
    have hdom : (ingressOverrides cls rName (defaultRoute cls activeStandby) d ing).Domain
        = d := rfl
    have htl : (ingressOverrides cls rName (defaultRoute cls activeStandby) d ing).TLSAcme
        = some false := by
      simp [ingressOverrides, htls]
    simp only [hw, htl, hdom, hname, halt]
    simp
  have happ : ∃ nr,
      applyIngresses h cls rName (defaultRoute cls activeStandby) [(d, ing)] = .ok nr
      ∧ nr.IngressName
          = (if IsDNS1123Subdomain (ToLower ("wildcard-" ++ d)) = [] then "wildcard-" ++ d
            else sliceTo ("wildcard-" ++ d) (len ("wildcard-" ++ d) - 10)
              ++ "-" ++ String.mk ((h d).data.take 5)) := by
    simp only [applyIngresses, hstep]
    exact ⟨_, rfl, rfl⟩
  obtain ⟨nr, happ1, happ2⟩ := happ
  refine ⟨nr, happ1, ?_, ?_, ?_, ?_⟩
  · rw [hname, happ2]
  · intro hv
    rw [happ2, if_pos hv]
  · intro hv pre suf hps hsuf
    rw [happ2, if_neg hv, hps]
    have e : len (pre ++ suf) - 10 = len pre := by
      rw [len_append, hsuf]
      omega
    rw [e, sliceTo_append]
  · intro r hrun
    obtain ⟨nr1, hnr, hr, _⟩ :=
      generateRoute_single h vars cls activeStandby p rName d ing r hrun
    rw [hstep] at hnr
    simp only [Except.ok.injEq] at hnr
    rw [happ2, hr, ← hnr]
    rfl

set_option maxRecDepth 100000 in
/-- Witness of C17: the wildcard route of the domain of 125 labels `a`, 249 bytes, for
which the fallback is taken: the last ten bytes of the name are `.a.a.a.a.a`. -/
theorem C17_wildcard_ingress_name_witness :
    ∃ nr, applyIngresses (fun _ => "0123456789abcdef0123456789abcdef") "nginx" "nginx"
        (defaultRoute "nginx" false)
        [(Join (List.replicate 125 "a") ".",
          { Ingress.zero with Wildcard := some true, TLSAcme := some false })]
        = .ok nr
      ∧ nr.IngressName
        = "wildcard-" ++ Join (List.replicate 120 "a") "." ++ "-"
          ++ String.mk ("0123456789abcdef0123456789abcdef".data.take 5) :=
  match C17_wildcard_ingress_name (fun _ => "0123456789abcdef0123456789abcdef") [] "nginx"
      false "fastly-api-" "nginx" (Join (List.replicate 125 "a") ".")
      { Ingress.zero with Wildcard := some true, TLSAcme := some false }
      rfl rfl rfl (by decide) with
  | ⟨nr, hrun, _, _, hfall, _⟩ =>
    ⟨nr, hrun, hfall (by decide) ("wildcard-" ++ Join (List.replicate 120 "a") ".")
      ".a.a.a.a.a" (by decide) (by decide)⟩


/-! ## Domain validation in `GenerateRoutesV2` -/

/-- A loop that is left, with or without a failure, has appended records that its body
made. -/
theorem appendEach_prefix {α : Type} (body : α → Except Failure RouteV2) (acc : RoutesV2)
    (xs : List α) (out : RoutesV2) (e : Option Failure)
    (hrun : appendEach body acc xs = (out, e)) :
    ∃ news, out.Routes = acc.Routes ++ news ∧ ∀ n ∈ news, ∃ x ∈ xs, body x = .ok n := by
  induction xs generalizing acc with
  | nil =>
    simp only [appendEach, Prod.mk.injEq] at hrun
    exact ⟨[], by simp [← hrun.1], by simp⟩
  | cons x xs ih =>
    simp only [appendEach] at hrun
    cases hb : body x with
    | error e1 =>
      simp only [hb, Prod.mk.injEq] at hrun
      exact ⟨[], by simp [← hrun.1], by simp⟩
    | ok r =>
      simp only [hb] at hrun
      obtain ⟨news, hout, hmem⟩ := ih _ hrun
      refine ⟨r :: news, by simp [hout], ?_⟩
      intro n hn
      rcases List.mem_cons.mp hn with rfl | hn
      · exact ⟨x, List.mem_cons_self _ _, hb⟩
      · obtain ⟨y, hy, hyn⟩ := hmem n hn
        exact ⟨y, List.mem_cons_of_mem _ hy, hyn⟩

/-- A record that the body of the loop makes has a domain that is valid after lowering. -/
theorem generateRoute_valid (h : String → String) (vars : List EnvironmentVariable)
    (cls : String) (activeStandby : Bool) (p rName : String) (lagoonRoute : Route)
    (r : RouteV2)
    (hrun : generateRoute h vars cls activeStandby p rName lagoonRoute = .ok r) :
    IsDNS1123Subdomain (ToLower r.Domain) = [] := by
  unfold generateRoute at hrun
  simp only [] at hrun
  split at hrun
  · cases hrun
  · split at hrun
    · cases hrun
    · split_ifs at hrun with hv
      simp only [Except.ok.injEq] at hrun
      rw [← hrun]
      exact not_not.mp hv

/-- The records that `GenerateRoutesV2` appends, whether it fails or not, have domains
that are valid after lowering. -/
theorem GenerateRoutesV2_appended_valid (h : String → String) (yamlRoutes : RoutesV2)
    (routeMap : List (String × List Route)) (vars : List EnvironmentVariable) (cls : String)
    (activeStandby : Bool) (p : String) (out : RoutesV2) (e : Option Failure)
    (hrun : GenerateRoutesV2 h yamlRoutes routeMap vars cls activeStandby p = (out, e)) :
    ∃ news, out.Routes = yamlRoutes.Routes ++ news
      ∧ ∀ n ∈ news, IsDNS1123Subdomain (ToLower n.Domain) = [] := by
  induction routeMap generalizing yamlRoutes with
  | nil =>
    simp only [GenerateRoutesV2, Prod.mk.injEq] at hrun
    exact ⟨[], by simp [← hrun.1], by simp⟩
  | cons entry rest ih =>
    obtain ⟨rName, routes⟩ := entry
    simp only [GenerateRoutesV2] at hrun
    rcases hs : generateServiceRoutes h vars cls activeStandby p rName yamlRoutes routes
      with ⟨y1, _ | e1⟩
    · rw [hs] at hrun
      simp only [] at hrun
      obtain ⟨n1, ho1, hv1⟩ := appendEach_prefix _ _ _ _ _ hs
      obtain ⟨n2, ho2, hv2⟩ := ih y1 hrun
      refine ⟨n1 ++ n2, by simp [ho2, ho1], ?_⟩
      intro n hn
      rcases List.mem_append.mp hn with hn | hn
      · obtain ⟨x, _, hx⟩ := hv1 n hn
        exact generateRoute_valid h vars cls activeStandby p rName x n hx
      · exact hv2 n hn
    · rw [hs] at hrun
      simp only [Prod.mk.injEq] at hrun
      obtain ⟨n1, ho1, hv1⟩ := appendEach_prefix _ _ _ _ _ hs
      refine ⟨n1, by rw [← hrun.1, ho1], ?_⟩
      intro n hn
      obtain ⟨x, _, hx⟩ := hv1 n hn
      exact generateRoute_valid h vars cls activeStandby p rName x n hx

/-- A run of `GenerateRoutesV2` without failure appends one record for each route entry of
the route map. -/
theorem GenerateRoutesV2_length (h : String → String) (yamlRoutes : RoutesV2)
    (routeMap : List (String × List Route)) (vars : List EnvironmentVariable) (cls : String)
    (activeStandby : Bool) (p : String) (out : RoutesV2)
    (hrun : GenerateRoutesV2 h yamlRoutes routeMap vars cls activeStandby p = (out, none)) :
    out.Routes.length
      = yamlRoutes.Routes.length + (routeMap.map (fun entry => entry.2.length)).sum := by
  induction routeMap generalizing yamlRoutes with
  | nil =>
    simp only [GenerateRoutesV2, Prod.mk.injEq, and_true] at hrun
    simp [hrun]
  | cons entry rest ih =>
    obtain ⟨rName, routes⟩ := entry
    simp only [GenerateRoutesV2] at hrun
    rcases hs : generateServiceRoutes h vars cls activeStandby p rName yamlRoutes routes
      with ⟨y1, _ | e1⟩
    · rw [hs] at hrun
      simp only [] at hrun
      obtain ⟨news, hf, ho1⟩ := appendEach_ok _ _ _ _ hs
      rw [ih y1 hrun, ho1, List.length_append, ← hf.length_eq]
      simp only [List.map_cons, List.sum_cons]
      omega
    · rw [hs] at hrun
      simp at hrun

/-- When the body of the loop makes a record for every route entry, `GenerateRoutesV2`
returns no failure. -/
theorem GenerateRoutesV2_ok (h : String → String) (yamlRoutes : RoutesV2)
    (routeMap : List (String × List Route)) (vars : List EnvironmentVariable) (cls : String)
    (activeStandby : Bool) (p : String)
    (hall : ∀ entry ∈ routeMap, ∀ r ∈ entry.2,
      ∃ n, generateRoute h vars cls activeStandby p entry.1 r = .ok n) :
    (GenerateRoutesV2 h yamlRoutes routeMap vars cls activeStandby p).2 = none := by
  induction routeMap generalizing yamlRoutes with
  | nil => rfl
  | cons entry rest ih =>
    obtain ⟨rName, routes⟩ := entry
    simp only [GenerateRoutesV2]
    rcases hs : generateServiceRoutes h vars cls activeStandby p rName yamlRoutes routes
      with ⟨y1, _ | e1⟩
    · simp only []
      exact ih y1 (fun entry he => hall entry (List.mem_cons_of_mem _ he))
    · obtain ⟨x, hx, hxe⟩ := appendEach_failure _ _ _ _ _ hs
      obtain ⟨n, hn⟩ := hall (rName, routes) (List.mem_cons_self _ _) x hx
      rw [hn] at hxe
      cases hxe


/-- The loop over the entries of `LAGOON_FASTLY_SERVICE_IDS` does not panic when no entry
is the route's domain alone. -/
theorem override_no_panic (route p : String) (f : Fastly) (ts : List String)
    (hlone : ∀ u ∈ ts, Split u ':' ≠ [route]) (m : String) :
    (fastlyServiceIDsOverride route p f ts).2 ≠ some (.panic m) := by
  induction ts generalizing f with
  | nil => simp [fastlyServiceIDsOverride]
  | cons u ts ih =>
    simp only [fastlyServiceIDsOverride]
    rcases entry_ok_or_error route p f u (hlone u (List.mem_cons_self _ _)) with
      ⟨f1, h1⟩ | ⟨msg, h1⟩
    · rw [h1]
      exact ih f1 (fun v hv => hlone v (List.mem_cons_of_mem _ hv))
    · rw [h1]
      simp

/-- The function `GenerateFastlyConfiguration` does not panic when no entry of
`LAGOON_FASTLY_SERVICE_IDS` is the route's domain alone. -/
theorem GFC_no_panic (f : Fastly) (nc sid route p : String) (vars : List EnvironmentVariable)
    (hlone : ∀ ids, GetLagoonVariable "LAGOON_FASTLY_SERVICE_IDS" (some ["build", "global"])
      vars = some ids → ∀ u ∈ Split ids.Value ',', Split u ':' ≠ [route]) (m : String) :
    (GenerateFastlyConfiguration f nc sid route p vars).2 ≠ some (.panic m) := by
  unfold GenerateFastlyConfiguration
  simp only []
  rcases serviceID_ok_or_error (fastlyDefaults f nc sid) p vars with ⟨f1, h1⟩ | ⟨msg, h1⟩
  · rw [h1]
    simp only []
    have hv : (fastlyServiceIDsVariable route p f1 vars).2 ≠ some (.panic m) := by
      unfold fastlyServiceIDsVariable
      cases hg : GetLagoonVariable "LAGOON_FASTLY_SERVICE_IDS" (some ["build", "global"])
        vars with
      | none => simp
      | some ids => exact override_no_panic route p f1 _ (hlone ids hg) m
    rcases hr : fastlyServiceIDsVariable route p f1 vars with ⟨f2, _ | e⟩
    · simp
    · rw [hr] at hv
      simpa using hv
  · rw [h1]
    simp

/-- The wildcard step passes when the two exclusion rules do and the domain is not
empty. -/
theorem ingressWildcard_pass (h : String → String) (nr0 : RouteV2) (ing : Ingress)
    (htls : nr0.TLSAcme ≠ none)
    (hrule : ing.Wildcard = some true →
      nr0.TLSAcme = some false ∧ ing.AlternativeNames = none)
    (hd : 1 ≤ nr0.Domain.length) :
    ∃ nr, ingressWildcard h nr0 ing = .ok nr := by
  unfold ingressWildcard
  rcases hw : ing.Wildcard with _ | w
  · exact ⟨nr0, rfl⟩
  · simp only []
    rcases ht : nr0.TLSAcme with _ | t
    · exact absurd ht htls
    · obtain ⟨name, hname⟩ := wildcardIngressName_ok h nr0.Domain hd
      simp only [hname]
      cases w with
      | false => simp
      | true =>
        obtain ⟨h1, h2⟩ := hrule hw
        rw [ht] at h1
        simp only [Option.some.injEq] at h1
        subst h1
        simp [h2]

/-- The body of the loop makes a record for a bare domain that is valid after lowering,
when no entry of `LAGOON_FASTLY_SERVICE_IDS` is the domain alone. -/
theorem generateRoute_bare_ok (h : String → String) (vars : List EnvironmentVariable)
    (cls : String) (activeStandby : Bool) (p rName d : String)
    (ings : List (String × Ingress))
    (hd : IsDNS1123Subdomain (ToLower d) = [])
    (hlone : ∀ ids, GetLagoonVariable "LAGOON_FASTLY_SERVICE_IDS" (some ["build", "global"])
      vars = some ids → ∀ u ∈ Split ids.Value ',', Split u ':' ≠ [d]) :
    ∃ r, generateRoute h vars cls activeStandby p rName ⟨d, ings⟩ = .ok r := by
  unfold generateRoute
  simp only [valid_ne_empty_string d hd, if_false]
  rcases hg : GenerateFastlyConfiguration (defaultRoute cls activeStandby).Fastly ""
      (defaultRoute cls activeStandby).Fastly.ServiceID d p vars with ⟨fastly, _ | e⟩
  · simp [hd]
  · cases e with
    | error m => simp [hd]
    | panic m =>
      have hnp := GFC_no_panic (defaultRoute cls activeStandby).Fastly ""
        (defaultRoute cls activeStandby).Fastly.ServiceID d p vars hlone m
      rw [hg] at hnp
      exact absurd rfl hnp

/-- The body of the loop makes a record for an override object with one entry whose
domain is valid after lowering and which passes the two wildcard rules, when no entry of
`LAGOON_FASTLY_SERVICE_IDS` is the domain alone. -/
theorem generateRoute_single_ok (h : String → String) (vars : List EnvironmentVariable)
    (cls : String) (activeStandby : Bool) (p rName d : String) (ing : Ingress)
    (hd : IsDNS1123Subdomain (ToLower d) = [])
    (hrule : ing.Wildcard = some true →
      ing.TLSAcme = some false ∧ ing.AlternativeNames = none)
    (hlone : ∀ ids, GetLagoonVariable "LAGOON_FASTLY_SERVICE_IDS" (some ["build", "global"])
      vars = some ids → ∀ u ∈ Split ids.Value ',', Split u ':' ≠ [d]) :
    ∃ r, generateRoute h vars cls activeStandby p rName ⟨"", [(d, ing)]⟩ = .ok r := by
  have htls : (ingressOverrides cls rName (defaultRoute cls activeStandby) d ing).TLSAcme
      = some (ing.TLSAcme.getD true) := by
    cases hx : ing.TLSAcme <;> simp [ingressOverrides, defaultRoute, defaultTLSAcme, hx]
  obtain ⟨nr, hnr⟩ := ingressWildcard_pass h
    (ingressOverrides cls rName (defaultRoute cls activeStandby) d ing) ing
    (by rw [htls]; simp)
    (fun hw => by
      obtain ⟨h1, h2⟩ := hrule hw
      exact ⟨by rw [htls, h1]; rfl, h2⟩)
    (valid_ne_empty d hd)
  have hdom : (ingressTail nr ing).Domain = d := by
    rcases ingressWildcard_ok h _ nr ing hnr with ⟨_, hx⟩ | ⟨name, _, _, hx⟩ <;>
      rw [hx] <;> rfl
  have hfast : (ingressTail nr ing).Fastly = ing.Fastly := by
    rcases ingressWildcard_ok h _ nr ing hnr with ⟨_, hx⟩ | ⟨name, _, _, hx⟩ <;>
      rw [hx] <;> rfl
  unfold generateRoute
  simp only [if_true, applyIngresses, hnr, hdom, hfast]
  rcases hg : GenerateFastlyConfiguration ing.Fastly "" ing.Fastly.ServiceID d p vars
    with ⟨fastly, _ | e⟩
  · simp [hd, hdom]
  · cases e with
    | error m => simp [hd, hdom]
    | panic m =>
      have hnp := GFC_no_panic ing.Fastly "" ing.Fastly.ServiceID d p vars hlone m
      rw [hg] at hnp
      exact absurd rfl hnp

/-- When every route entry is a bare domain or an override object with one entry, the
domain is valid after lowering, the two wildcard rules pass and no entry of
`LAGOON_FASTLY_SERVICE_IDS` is a domain of the route map alone, `GenerateRoutesV2`
returns no failure and appends one record for each route entry. -/
theorem GenerateRoutesV2_ok_of_valid (h : String → String) (yamlRoutes : RoutesV2)
    (routeMap : List (String × List Route)) (vars : List EnvironmentVariable) (cls : String)
    (activeStandby : Bool) (p : String)
    (hall : ∀ entry ∈ routeMap, ∀ r ∈ entry.2, ∃ d,
      (r.Name = d ∨ ∃ ing, r = ⟨"", [(d, ing)]⟩ ∧ (ing.Wildcard = some true →
        ing.TLSAcme = some false ∧ ing.AlternativeNames = none))
      ∧ IsDNS1123Subdomain (ToLower d) = []
      ∧ ∀ ids, GetLagoonVariable "LAGOON_FASTLY_SERVICE_IDS" (some ["build", "global"])
          vars = some ids → ∀ u ∈ Split ids.Value ',', Split u ':' ≠ [d]) :
    ∃ out, GenerateRoutesV2 h yamlRoutes routeMap vars cls activeStandby p = (out, none)
      ∧ out.Routes.length
          = yamlRoutes.Routes.length + (routeMap.map (fun entry => entry.2.length)).sum := by
  have hok : (GenerateRoutesV2 h yamlRoutes routeMap vars cls activeStandby p).2 = none := by
    apply GenerateRoutesV2_ok
    intro entry he r hr
    obtain ⟨d, hshape, hd, hlone⟩ := hall entry he r hr
    rcases hshape with hname | ⟨ing, hr1, hrule⟩
    · obtain ⟨n, ings⟩ := r
      simp only [] at hname
      subst hname
      exact generateRoute_bare_ok h vars cls activeStandby p entry.1 n ings hd hlone
    · subst hr1
      exact generateRoute_single_ok h vars cls activeStandby p entry.1 d ing hd hrule hlone
  rcases hrun : GenerateRoutesV2 h yamlRoutes routeMap vars cls activeStandby p with ⟨out, e⟩
  rw [hrun] at hok
  simp only [] at hok
  subst hok
  exact ⟨out, rfl, GenerateRoutesV2_length h yamlRoutes routeMap vars cls activeStandby p
    out hrun⟩

/-- C18, evaluated.  The empty domain is not valid, and for the override object with the
empty domain and a wildcard flag `GenerateRoutesV2` does not return an error: it panics on
the slice of the ingress name.  The domain `www.example.com` is valid, and under a
`LAGOON_FASTLY_SERVICE_IDS` whose entry is that domain alone `GenerateRoutesV2` panics
too, and appends no record. -/
theorem C18_invalid_domain_panics :
    IsDNS1123Subdomain (ToLower "") ≠ []
    ∧ GenerateRoutesV2 (fun _ => "0123456789abcdef0123456789abcdef") ⟨[]⟩
        [("nginx", [⟨"", [("",
          { Ingress.zero with Wildcard := some true, TLSAcme := some false })]⟩])]
        [] "nginx" false "fastly-api-"
      = (⟨[]⟩, some (.panic "slice bounds out of range"))
    ∧ IsDNS1123Subdomain (ToLower "www.example.com") = []
    ∧ GenerateRoutesV2 (fun _ => "0123456789abcdef0123456789abcdef") ⟨[]⟩
        [("nginx", [⟨"www.example.com", []⟩])]
        [⟨"LAGOON_FASTLY_SERVICE_IDS", "www.example.com", "build"⟩]
        "nginx" false "fastly-api-"
      = (⟨[]⟩, some (.panic "index out of range [2]")) := by
  refine ⟨by decide, by rfl, by decide, by rfl⟩


/-! ## The error messages of `GenerateRoutesV2` -/

/-- A failure of `GenerateRoutesV2` is the failure of the body of the loop at one of the
route entries. -/
theorem GenerateRoutesV2_failure (h : String → String) (yamlRoutes : RoutesV2)
    (routeMap : List (String × List Route)) (vars : List EnvironmentVariable) (cls : String)
    (activeStandby : Bool) (p : String) (out : RoutesV2) (e : Failure)
    (hrun : GenerateRoutesV2 h yamlRoutes routeMap vars cls activeStandby p = (out, some e)) :
    ∃ rName routes r, (rName, routes) ∈ routeMap ∧ r ∈ routes
      ∧ generateRoute h vars cls activeStandby p rName r = .error e := by
  induction routeMap generalizing yamlRoutes with
  | nil => simp [GenerateRoutesV2] at hrun
  | cons entry rest ih =>
    obtain ⟨n, rs⟩ := entry
    simp only [GenerateRoutesV2] at hrun
    rcases hs : generateServiceRoutes h vars cls activeStandby p n yamlRoutes rs
      with ⟨y1, _ | e1⟩
    · rw [hs] at hrun
      simp only [] at hrun
      obtain ⟨rName, routes, r, hm, hr, he⟩ := ih y1 hrun
      exact ⟨rName, routes, r, List.mem_cons_of_mem _ hm, hr, he⟩
    · rw [hs] at hrun
      simp only [Prod.mk.injEq, Option.some.injEq] at hrun
      obtain ⟨x, hx, hxe⟩ := appendEach_failure _ _ _ _ _ hs
      exact ⟨n, rs, x, List.mem_cons_self _ _, hx, by rw [hxe, hrun.2]⟩

/-- The wildcard ingress name fails with a panic only. -/
theorem wildcardIngressName_error (h : String → String) (d : String) (e : Failure)
    (hrun : wildcardIngressName h d = .error e) : e = .panic "slice bounds out of range" := by
  unfold wildcardIngressName at hrun
  simp only [] at hrun
  split_ifs at hrun
  · simp only [Except.error.injEq] at hrun
    exact hrun.symm

/-- An error of the wildcard step is one of the two exclusion rules, and names the domain
of the route. -/
theorem ingressWildcard_error (h : String → String) (nr0 : RouteV2) (ing : Ingress)
    (msg : String) (hrun : ingressWildcard h nr0 ing = .error (.error msg)) :
    msg = "Route " ++ nr0.Domain
        ++ " has wildcard: true and tls-acme: true, this is not supported"
      ∨ msg = "Route " ++ nr0.Domain
        ++ " has wildcard: true and alternativenames defined, this is not supported" := by
  unfold ingressWildcard at hrun
  rcases hw : ing.Wildcard with _ | w
  · rw [hw] at hrun
    cases hrun
  · rw [hw] at hrun
    simp only [] at hrun
    rcases ht : nr0.TLSAcme with _ | t
    · rw [ht] at hrun
      simp at hrun
    · rw [ht] at hrun
      simp only [] at hrun
      split_ifs at hrun
      · simp only [Except.error.injEq, Failure.error.injEq] at hrun
        exact Or.inl hrun.symm
      · simp only [Except.error.injEq, Failure.error.injEq] at hrun
        exact Or.inr hrun.symm
      · rcases hn : wildcardIngressName h nr0.Domain with e | name
        · rw [hn] at hrun
          simp only [Except.error.injEq] at hrun
          have hp := wildcardIngressName_error h nr0.Domain e hn
          rw [hrun] at hp
          cases hp
        · rw [hn] at hrun
          cases hrun

/-- An error of the loop over the entries of an override object names the domain of one
of the entries. -/
theorem applyIngresses_error (h : String → String) (cls rName : String) (nr : RouteV2)
    (ings : List (String × Ingress)) (msg : String)
    (hrun : applyIngresses h cls rName nr ings = .error (.error msg)) :
    ∃ d ∈ ings.map Prod.fst,
      msg = "Route " ++ d ++ " has wildcard: true and tls-acme: true, this is not supported"
      ∨ msg = "Route " ++ d
        ++ " has wildcard: true and alternativenames defined, this is not supported" := by
  induction ings generalizing nr with
  | nil => simp [applyIngresses] at hrun
  | cons entry rest ih =>
    obtain ⟨d, ing⟩ := entry
    simp only [applyIngresses] at hrun
    rcases hw : ingressWildcard h (ingressOverrides cls rName nr d ing) ing with e | nr1
    · rw [hw] at hrun
      simp only [Except.error.injEq] at hrun
      rw [hrun] at hw
      exact ⟨d, by simp, ingressWildcard_error h _ ing msg hw⟩
    · rw [hw] at hrun
      simp only [] at hrun
      obtain ⟨d1, hd1, hm⟩ := ih _ hrun
      exact ⟨d1, by simp only [List.map_cons]; exact List.mem_cons_of_mem _ hd1, hm⟩

/-- The domain of the route that the loop over the entries of an override object leaves
is the domain it started with or the domain of one of the entries. -/
theorem applyIngresses_domain (h : String → String) (cls rName : String) (nr out : RouteV2)
    (ings : List (String × Ingress))
    (hrun : applyIngresses h cls rName nr ings = .ok out) :
    out.Domain ∈ nr.Domain :: ings.map Prod.fst := by
  induction ings generalizing nr with
  | nil =>
    simp only [applyIngresses, Except.ok.injEq] at hrun
    simp [hrun]
  | cons entry rest ih =>
    obtain ⟨d, ing⟩ := entry
    simp only [applyIngresses] at hrun
    rcases hw : ingressWildcard h (ingressOverrides cls rName nr d ing) ing with e | nr1
    · rw [hw] at hrun
      cases hrun
    · rw [hw] at hrun
      simp only [] at hrun
      have hdom : (ingressTail nr1 ing).Domain = d := by
        rcases ingressWildcard_ok h _ nr1 ing hw with ⟨_, hx⟩ | ⟨name, _, _, hx⟩ <;>
          rw [hx] <;> rfl
      have hmem := ih _ hrun
      rw [hdom] at hmem
      simp only [List.map_cons]
      exact List.mem_cons_of_mem _ hmem

/-- An error of the body of the loop is one of three messages, each naming a domain of the
route entry: the name of a bare domain, or a key of the override object (the empty name
for an override object without keys). -/
theorem generateRoute_error (h : String → String) (vars : List EnvironmentVariable)
    (cls : String) (activeStandby : Bool) (p rName : String) (lagoonRoute : Route)
    (msg : String)
    (hrun : generateRoute h vars cls activeStandby p rName lagoonRoute = .error (.error msg)) :
    ∃ d ∈ lagoonRoute.Name :: lagoonRoute.Ingresses.map Prod.fst,
      msg = "Route " ++ d ++ " has wildcard: true and tls-acme: true, this is not supported"
      ∨ msg = "Route " ++ d
        ++ " has wildcard: true and alternativenames defined, this is not supported"
      ∨ msg = "Route " ++ d ++ " in .lagoon.yml is not valid: "
        ++ fmtStrings (IsDNS1123Subdomain (ToLower d)) := by
  have htail : ∀ nr : RouteV2,
      (match GenerateFastlyConfiguration nr.Fastly "" nr.Fastly.ServiceID nr.Domain p vars
        with
      | (_, some (.panic m)) => (.error (.panic m) : Except Failure RouteV2)
      | (fastly, _) =>
        if IsDNS1123Subdomain (ToLower nr.Domain) ≠ [] then
          .error (.error ("Route " ++ nr.Domain ++ " in .lagoon.yml is not valid: "
            ++ fmtStrings (IsDNS1123Subdomain (ToLower nr.Domain))))
        else .ok { nr with Fastly := fastly }) = .error (.error msg) →
      msg = "Route " ++ nr.Domain ++ " in .lagoon.yml is not valid: "
        ++ fmtStrings (IsDNS1123Subdomain (ToLower nr.Domain)) := by
    intro nr hm
    split at hm
    · cases hm
    · split_ifs at hm
      simp only [Except.error.injEq, Failure.error.injEq] at hm
      exact hm.symm
  unfold generateRoute at hrun
  simp only [] at hrun
  by_cases hname : lagoonRoute.Name = ""
  · simp only [hname, if_true] at hrun
    rcases hb : applyIngresses h cls rName (defaultRoute cls activeStandby)
        lagoonRoute.Ingresses with e | nr
    · rw [hb] at hrun
      simp only [Except.error.injEq] at hrun
      rw [hrun] at hb
      obtain ⟨d, hd, hm⟩ := applyIngresses_error h cls rName _ _ msg hb
      refine ⟨d, List.mem_cons_of_mem _ hd, ?_⟩
      rcases hm with hm | hm
      · exact Or.inl hm
      · exact Or.inr (Or.inl hm)
    · rw [hb] at hrun
      simp only [] at hrun
      have hd := applyIngresses_domain h cls rName _ nr _ hb
      have hzero : (defaultRoute cls activeStandby).Domain = lagoonRoute.Name := by
        rw [hname]
        rfl
      rw [hzero] at hd
      exact ⟨nr.Domain, hd, Or.inr (Or.inr (htail nr hrun))⟩
  · simp only [hname, if_false] at hrun
    exact ⟨lagoonRoute.Name, List.mem_cons_self _ _, Or.inr (Or.inr (htail
      { defaultRoute cls activeStandby with
        Domain := lagoonRoute.Name, LagoonService := rName,
        IngressName := lagoonRoute.Name } hrun))⟩


/-- The wildcard step does not read the service of the route. -/
theorem ingressWildcard_service (h : String → String) (nr : RouteV2) (ing : Ingress)
    (s : String) :
    ingressWildcard h { nr with LagoonService := s } ing
      = Except.map (fun r => { r with LagoonService := s }) (ingressWildcard h nr ing) := by
  unfold ingressWildcard
  rcases hw : ing.Wildcard with _ | w
  · rfl
  · simp only []
    rcases ht : nr.TLSAcme with _ | t
    · rfl
    · simp only []
      split_ifs
      · rfl
      · rfl
      · rcases hn : wildcardIngressName h nr.Domain with e | name
        · rfl
        · rfl

/-- The loop over the entries of an override object under two service names: the results
differ in the service of the route only. -/
theorem applyIngresses_service (h : String → String) (cls s1 s2 x : String) (nr : RouteV2)
    (ings : List (String × Ingress)) :
    ∃ y, applyIngresses h cls s1 { nr with LagoonService := x } ings
      = Except.map (fun r => { r with LagoonService := y })
          (applyIngresses h cls s2 nr ings) := by
  induction ings generalizing nr x with
  | nil => exact ⟨x, rfl⟩
  | cons entry rest ih =>
    obtain ⟨d, ing⟩ := entry
    simp only [applyIngresses]
    have hov : ingressOverrides cls s1 { nr with LagoonService := x } d ing
        = { ingressOverrides cls s2 nr d ing with LagoonService := s1 } := rfl
    rw [hov, ingressWildcard_service]
    rcases hw : ingressWildcard h (ingressOverrides cls s2 nr d ing) ing with e | nr1
    · exact ⟨x, rfl⟩
    · obtain ⟨y, hy⟩ := ih s1 (ingressTail nr1 ing)
      exact ⟨y, hy⟩

/-- The body of the loop under two service names: the results differ in the service of
the record only, and a failure is the same failure. -/
theorem generateRoute_service (h : String → String) (vars : List EnvironmentVariable)
    (cls : String) (activeStandby : Bool) (p s1 s2 : String) (lagoonRoute : Route) :
    ∃ y, generateRoute h vars cls activeStandby p s1 lagoonRoute
      = Except.map (fun r => { r with LagoonService := y })
          (generateRoute h vars cls activeStandby p s2 lagoonRoute) := by
  have htail : ∀ (nr : RouteV2) (y : String),
      (match GenerateFastlyConfiguration nr.Fastly "" nr.Fastly.ServiceID nr.Domain p vars
        with
      | (_, some (.panic m)) => (.error (.panic m) : Except Failure RouteV2)
      | (fastly, _) =>
        if IsDNS1123Subdomain (ToLower nr.Domain) ≠ [] then
          .error (.error ("Route " ++ nr.Domain ++ " in .lagoon.yml is not valid: "
            ++ fmtStrings (IsDNS1123Subdomain (ToLower nr.Domain))))
        else .ok { nr with Fastly := fastly, LagoonService := y })
      = Except.map (fun r => { r with LagoonService := y })
        (match GenerateFastlyConfiguration nr.Fastly "" nr.Fastly.ServiceID nr.Domain p vars
          with
        | (_, some (.panic m)) => (.error (.panic m) : Except Failure RouteV2)
        | (fastly, _) =>
          if IsDNS1123Subdomain (ToLower nr.Domain) ≠ [] then
            .error (.error ("Route " ++ nr.Domain ++ " in .lagoon.yml is not valid: "
              ++ fmtStrings (IsDNS1123Subdomain (ToLower nr.Domain))))
          else .ok { nr with Fastly := fastly }) := by
    intro nr y
    split
    · rfl
    · split_ifs
      · rfl
      · rfl
  unfold generateRoute
  simp only []
  by_cases hname : lagoonRoute.Name = ""
  · simp only [hname, if_true]
    obtain ⟨y, hy⟩ := applyIngresses_service h cls s1 s2 "" (defaultRoute cls activeStandby)
      lagoonRoute.Ingresses
    have hy1 : applyIngresses h cls s1 (defaultRoute cls activeStandby) lagoonRoute.Ingresses
        = Except.map (fun r => { r with LagoonService := y })
          (applyIngresses h cls s2 (defaultRoute cls activeStandby) lagoonRoute.Ingresses) :=
      hy
    rw [hy1]
    rcases hb : applyIngresses h cls s2 (defaultRoute cls activeStandby)
        lagoonRoute.Ingresses with e | nr
    · exact ⟨y, rfl⟩
    · exact ⟨y, htail nr y⟩
  · simp only [hname, if_false]
    exact ⟨s1, htail { defaultRoute cls activeStandby with
      Domain := lagoonRoute.Name, LagoonService := s2,
      IngressName := lagoonRoute.Name } s1⟩

/-- A failure of the body of the loop does not depend on the service name. -/
theorem generateRoute_error_service (h : String → String) (vars : List EnvironmentVariable)
    (cls : String) (activeStandby : Bool) (p s1 s2 : String) (lagoonRoute : Route)
    (e : Failure) (hrun : generateRoute h vars cls activeStandby p s2 lagoonRoute = .error e) :
    generateRoute h vars cls activeStandby p s1 lagoonRoute = .error e := by
  obtain ⟨y, hy⟩ := generateRoute_service h vars cls activeStandby p s1 s2 lagoonRoute
  rw [hy, hrun]
  rfl


set_option maxRecDepth 8000 in
/-- C19, counterexample: the domain `bad_domain` under the service `nginx`.  The error
that `GenerateRoutesV2` returns names the domain, and the service name is no part of the
message. -/
theorem C19_counterexample :
    GenerateRoutesV2 (fun _ => "0123456789abcdef0123456789abcdef") ⟨[]⟩
        [("nginx", [⟨"bad_domain", []⟩])] [] "default-class" false "fastly-api-"
      = (⟨[]⟩, some (.error ("Route bad_domain in .lagoon.yml is not valid: "
          ++ fmtStrings (IsDNS1123Subdomain (ToLower "bad_domain")))))
    ∧ ¬ List.IsInfix "nginx".data ("Route bad_domain in .lagoon.yml is not valid: "
          ++ fmtStrings (IsDNS1123Subdomain (ToLower "bad_domain"))).data := by
  refine ⟨by rfl, by decide⟩

/-- C19, amended.  When `GenerateRoutesV2` returns an error, the error is that of one
route entry of the route map and its message is one of three, each naming a domain of
that entry (the name of a bare domain or a key of the override object): the wildcard with
TLS-acme message, the wildcard with alternative names message, or the message that the
domain is not valid, followed by the findings of the validator.  The message does not name
the service: the entry fails with the same message under every service name. -/
theorem C19_error_names_domain (h : String → String) (yamlRoutes : RoutesV2)
    (routeMap : List (String × List Route)) (vars : List EnvironmentVariable) (cls : String)
    (activeStandby : Bool) (p : String) (out : RoutesV2) (msg : String)
    (hrun : GenerateRoutesV2 h yamlRoutes routeMap vars cls activeStandby p
      = (out, some (.error msg))) :
    ∃ rName routes r d, (rName, routes) ∈ routeMap ∧ r ∈ routes
      ∧ d ∈ r.Name :: r.Ingresses.map Prod.fst
      ∧ (msg = "Route " ++ d
            ++ " has wildcard: true and tls-acme: true, this is not supported"
          ∨ msg = "Route " ++ d
            ++ " has wildcard: true and alternativenames defined, this is not supported"
          ∨ msg = "Route " ++ d ++ " in .lagoon.yml is not valid: "
            ++ fmtStrings (IsDNS1123Subdomain (ToLower d)))
      ∧ ∀ s, generateRoute h vars cls activeStandby p s r = .error (.error msg) := by
  obtain ⟨rName, routes, r, hm, hr, he⟩ :=
    GenerateRoutesV2_failure h yamlRoutes routeMap vars cls activeStandby p out _ hrun
  obtain ⟨d, hd, hmsg⟩ := generateRoute_error h vars cls activeStandby p rName r msg he
  exact ⟨rName, routes, r, d, hm, hr, hd, hmsg,
    fun s => generateRoute_error_service h vars cls activeStandby p s rName r _ he⟩

/-- Witness of C19: the domain `bad_domain` under the service `nginx`. -/
theorem C19_error_names_domain_witness :
    ∃ rName routes r d,
      (rName, routes) ∈ [("nginx", [(⟨"bad_domain", []⟩ : Route)])] ∧ r ∈ routes
      ∧ d ∈ r.Name :: r.Ingresses.map Prod.fst
      ∧ ("Route bad_domain in .lagoon.yml is not valid: "
            ++ fmtStrings (IsDNS1123Subdomain (ToLower "bad_domain"))
          = "Route " ++ d
            ++ " has wildcard: true and tls-acme: true, this is not supported"
        ∨ "Route bad_domain in .lagoon.yml is not valid: "
            ++ fmtStrings (IsDNS1123Subdomain (ToLower "bad_domain"))
          = "Route " ++ d
            ++ " has wildcard: true and alternativenames defined, this is not supported"
        ∨ "Route bad_domain in .lagoon.yml is not valid: "
            ++ fmtStrings (IsDNS1123Subdomain (ToLower "bad_domain"))
          = "Route " ++ d ++ " in .lagoon.yml is not valid: "
            ++ fmtStrings (IsDNS1123Subdomain (ToLower d)))
      ∧ ∀ s, generateRoute (fun _ => "0123456789abcdef0123456789abcdef") [] "default-class"
          false "fastly-api-" s r
        = .error (.error ("Route bad_domain in .lagoon.yml is not valid: "
            ++ fmtStrings (IsDNS1123Subdomain (ToLower "bad_domain")))) :=
  C19_error_names_domain (fun _ => "0123456789abcdef0123456789abcdef") ⟨[]⟩
    [("nginx", [⟨"bad_domain", []⟩])] [] "default-class" false "fastly-api-" ⟨[]⟩
    ("Route bad_domain in .lagoon.yml is not valid: "
      ++ fmtStrings (IsDNS1123Subdomain (ToLower "bad_domain")))
    (by rfl)


/-! ## The order of the merged routes -/

/-- Taking first occurrences commutes with filtering. -/
theorem firstOccurrences_filter (q : String → Bool) (l : List String) :
    firstOccurrences (l.filter q) = (firstOccurrences l).filter q := by
  induction l with
  | nil => rfl
  | cons d ds ih =>
    by_cases hq : q d = true
    · simp only [List.filter_cons, hq, if_true, firstOccurrences, ih, List.filter_filter]
      congr 1
      apply List.filter_congr
      intro x _
      exact Bool.and_comm _ _
    · simp only [List.filter_cons, hq, firstOccurrences, ih, List.filter_filter]
      simp only [Bool.false_eq_true, if_false]
      rw [ih]
      apply List.filter_congr
      intro x _
      by_cases hx : x = d
      · subst hx
        simp [hq]
      · simp [hx]

/-- The first occurrences of a list have no duplicates. -/
theorem firstOccurrences_nodup (l : List String) : (firstOccurrences l).Nodup := by
  induction l with
  | nil => simp [firstOccurrences]
  | cons d ds ih =>
    simp only [firstOccurrences, List.nodup_cons]
    exact ⟨by simp [List.mem_filter], ih.filter _⟩

/-- The first occurrences of a list have the elements of the list. -/
theorem mem_firstOccurrences (l : List String) (x : String) :
    x ∈ firstOccurrences l ↔ x ∈ l := by
  induction l with
  | nil => simp [firstOccurrences]
  | cons d ds ih =>
    simp only [firstOccurrences, List.mem_cons, List.mem_filter, ih]
    by_cases hx : x = d
    · simp [hx]
    · simp [hx]

/-- The number of first occurrences is the number of distinct elements. -/
theorem firstOccurrences_length (l : List String) :
    (firstOccurrences l).length = l.toFinset.card := by
  rw [← List.toFinset_card_of_nodup (firstOccurrences_nodup l)]
  congr 1
  ext x
  simp [mem_firstOccurrences]

/-- The domains after the second round: the domains before it, and the first occurrence
of each domain of the API routes that is not among them. -/
theorem mergeAPIOnly_domains (h : String → String) (cls : String) (acc : RoutesV2)
    (api : List RouteV2) (out : RoutesV2)
    (hrun : mergeAPIOnly h cls acc api = (out, none)) :
    out.Routes.map (·.Domain) = acc.Routes.map (·.Domain)
      ++ firstOccurrences ((api.map (·.Domain)).filter
          (fun d => decide (d ∉ acc.Routes.map (·.Domain)))) := by
  induction api generalizing acc with
  | nil =>
    simp only [mergeAPIOnly, Prod.mk.injEq, and_true] at hrun
    subst hrun
    simp [firstOccurrences]
  | cons a api ih =>
    simp only [mergeAPIOnly] at hrun
    by_cases hv : IsDNS1123Subdomain (ToLower a.Domain) ≠ []
    · rw [if_pos hv] at hrun
      simp at hrun
    · rw [if_neg hv] at hrun
      rcases hh : handleAPIRoute h cls a with ⟨ra, _ | e⟩
      · rw [hh] at hrun
        simp only [] at hrun
        have hra : ra.Domain = a.Domain := by
          have := handleAPIRoute_domain h cls a
          rw [hh] at this
          exact this
        by_cases hex : (acc.Routes.any fun route => decide (a.Domain = route.Domain)) = true
        · rw [if_pos hex] at hrun
          have hmem : a.Domain ∈ acc.Routes.map (·.Domain) := by
            simp only [List.any_eq_true, decide_eq_true_eq] at hex
            obtain ⟨r, hr, hrd⟩ := hex
            exact List.mem_map.mpr ⟨r, hr, hrd.symm⟩
          have hdec : decide (a.Domain ∉ List.map (fun x => x.Domain) acc.Routes) = false :=
            decide_eq_false (not_not.mpr hmem)
          rw [ih acc hrun]
          simp only [List.map_cons, List.filter_cons, hdec, Bool.false_eq_true, if_false]
        · rw [if_neg hex] at hrun
          have hmem : a.Domain ∉ acc.Routes.map (·.Domain) := by
            intro hm
            apply hex
            simp only [List.any_eq_true, decide_eq_true_eq]
            obtain ⟨r, hr, hrd⟩ := List.mem_map.mp hm
            exact ⟨r, hr, hrd.symm⟩
          have hdec : decide (a.Domain ∉ List.map (fun x => x.Domain) acc.Routes) = true :=
            decide_eq_true hmem
          rw [ih _ hrun]
          simp only [List.map_append, List.map_cons, List.map_nil, hra, List.append_assoc,
            List.singleton_append, List.filter_cons, hdec, if_true, firstOccurrences]
          congr 2
          rw [← firstOccurrences_filter]
          congr 1
          rw [List.filter_filter]
          apply List.filter_congr
          intro x _
          by_cases hx : x = a.Domain
          · simp [hx]
          · simp [hx]
      · rw [hh] at hrun
        simp at hrun

/-- C20. For every run of `MergeRoutesV2` without failure, the domains of the output are
the lowered domains of the routes of the configuration file in their order, followed by
the lowered domains of the API routes whose domain is the domain of no route of the
configuration file, in the order of the API routes, the first occurrence of each; so the
length of the output is the number of routes of the configuration file and the number of
distinct domains of API routes that are not domains of the configuration file.  Domains
match as the code compares them, character by character before lowering. -/
theorem C20_merge_order (h : String → String) (yamlRoutes apiRoutes : RoutesV2)
    (vars : List EnvironmentVariable) (cls p : String) (out : RoutesV2)
    (hrun : MergeRoutesV2 h yamlRoutes apiRoutes vars cls p = (out, none)) :
    out.Routes.map (·.Domain)
        = (yamlRoutes.Routes.map (·.Domain)
            ++ firstOccurrences ((apiRoutes.Routes.map (·.Domain)).filter
                (fun d => decide (d ∉ yamlRoutes.Routes.map (·.Domain))))).map ToLower
      ∧ out.Routes.length = yamlRoutes.Routes.length
          + ((apiRoutes.Routes.map (·.Domain)).filter
              (fun d => decide (d ∉ yamlRoutes.Routes.map (·.Domain)))).toFinset.card := by
  have hdoms : out.Routes.map (·.Domain)
      = (yamlRoutes.Routes.map (·.Domain)
          ++ firstOccurrences ((apiRoutes.Routes.map (·.Domain)).filter
              (fun d => decide (d ∉ yamlRoutes.Routes.map (·.Domain))))).map ToLower := by
    unfold MergeRoutesV2 at hrun
    rcases h1 : mergeFirstRound h cls apiRoutes.Routes { Routes := [] } yamlRoutes.Routes
      with ⟨r1, _ | e⟩
    · rw [h1] at hrun
      simp only [] at hrun
      rcases h2 : mergeAPIOnly h cls r1 apiRoutes.Routes with ⟨r2, _ | e⟩
      · rw [h2] at hrun
        simp only [] at hrun
        obtain ⟨hd1, _, _⟩ := merge_rounds h cls _ _ r1 r2 h1 h2
        have hd2 := mergeAPIOnly_domains h cls r1 apiRoutes.Routes r2 h2
        rw [hd1] at hd2
        obtain ⟨n3, hf3, ho3⟩ := appendEach_ok _ _ _ _ hrun
        simp only [List.nil_append] at ho3
        rw [ho3, ← hd2, List.map_map]
        apply forall₂_map_eq
        apply hf3.imp
        intro x n hxn
        rw [finalRoute_ok vars p x n hxn]
        rfl
      · rw [h2] at hrun
        simp at hrun
    · rw [h1] at hrun
      simp at hrun
  refine ⟨hdoms, ?_⟩
  have hlen := congrArg List.length hdoms
  simp only [List.length_map, List.length_append, firstOccurrences_length] at hlen
  exact hlen

/-- Witness of C20: the configuration file has `a.com` and `b.com`, the API has `c.com`,
`b.com`, `c.com` again and `d.com`. -/
theorem C20_merge_order_witness :
    (MergeRoutesV2 (fun _ => "0123456789abcdef0123456789abcdef")
        ⟨[{ RouteV2.zero with Domain := "a.com" }, { RouteV2.zero with Domain := "b.com" }]⟩
        ⟨[{ RouteV2.zero with Domain := "c.com" }, { RouteV2.zero with Domain := "b.com" },
          { RouteV2.zero with Domain := "c.com" }, { RouteV2.zero with Domain := "d.com" }]⟩
        [] "nginx" "fastly-api-").1.Routes.map (·.Domain)
      = ["a.com", "b.com", "c.com", "d.com"] :=
  (C20_merge_order (fun _ => "0123456789abcdef0123456789abcdef")
    ⟨[{ RouteV2.zero with Domain := "a.com" }, { RouteV2.zero with Domain := "b.com" }]⟩
    ⟨[{ RouteV2.zero with Domain := "c.com" }, { RouteV2.zero with Domain := "b.com" },
      { RouteV2.zero with Domain := "c.com" }, { RouteV2.zero with Domain := "d.com" }]⟩
    [] "nginx" "fastly-api-" _ (by rfl)).1.trans (by decide)


/-! ## The defaults of a route defined in the API -/

/-- The record that `handleAPIRoute` returns without failure: the copy with the defaults,
then request verification and path routes. -/
theorem handleAPIRoute_ok (h : String → String) (cls : String) (a r : RouteV2)
    (hrun : handleAPIRoute h cls a = (r, none)) :
    r = apiRouteTail (apiRouteDefaults cls a) a := by
  unfold handleAPIRoute at hrun
  simp only [] at hrun
  rcases hw : a.Wildcard with _ | w
  · simp only [hw, Prod.mk.injEq, and_true] at hrun
    exact hrun.symm
  · simp only [hw] at hrun
    split at hrun
    · simp at hrun
    · split_ifs at hrun
      · simp at hrun
      · simp at hrun
      · split at hrun
        · simp at hrun
        · simp only [Prod.mk.injEq, and_true] at hrun
          rw [← hrun]
          have hwd : (apiRouteDefaults cls a).Wildcard = some w := hw
          rw [← hwd]

/-- C24. For every API route on which `handleAPIRoute` does not fail, the record that is
returned has the TLS-acme flag, the insecure policy, the annotations and the alternative
names of the API route when the field is set (not `nil`), and `true`, `"Redirect"`, the
empty map and the empty list when it is not; its ingress class is that of the API route
when that is not empty, and the default ingress class when it is.  These are the defaults
of the record that `GenerateRoutesV2` starts from. -/
theorem C24_api_defaults (h : String → String) (cls : String) (a r : RouteV2)
    (hrun : handleAPIRoute h cls a = (r, none)) :
    r.TLSAcme = some (a.TLSAcme.getD true)
      ∧ r.Insecure = some (a.Insecure.getD "Redirect")
      ∧ r.Annotations = some (a.Annotations.getD [])
      ∧ r.AlternativeNames = some (a.AlternativeNames.getD [])
      ∧ r.IngressClass = (if a.IngressClass ≠ "" then a.IngressClass else cls)
      ∧ ∀ activeStandby,
          (a.TLSAcme = none → r.TLSAcme = (defaultRoute cls activeStandby).TLSAcme)
          ∧ (a.Insecure = none → r.Insecure = (defaultRoute cls activeStandby).Insecure)
          ∧ (a.Annotations = none
              → r.Annotations = (defaultRoute cls activeStandby).Annotations)
          ∧ (a.AlternativeNames = none
              → r.AlternativeNames = (defaultRoute cls activeStandby).AlternativeNames)
          ∧ (a.IngressClass = ""
              → r.IngressClass = (defaultRoute cls activeStandby).IngressClass) := by
  have hr := handleAPIRoute_ok h cls a r hrun
  subst hr
  have h1 : (apiRouteTail (apiRouteDefaults cls a) a).TLSAcme
      = some (a.TLSAcme.getD true) := by
    show (if a.TLSAcme.isSome then a.TLSAcme else defaultTLSAcme) = _
    cases a.TLSAcme <;> rfl
  have h2 : (apiRouteTail (apiRouteDefaults cls a) a).Insecure
      = some (a.Insecure.getD "Redirect") := by
    show (if a.Insecure.isSome then a.Insecure else defaultInsecure) = _
    cases a.Insecure <;> rfl
  have h3 : (apiRouteTail (apiRouteDefaults cls a) a).Annotations
      = some (a.Annotations.getD []) := by
    show (if a.Annotations.isSome then a.Annotations else defaultAnnotations) = _
    cases a.Annotations <;> rfl
  have h4 : (apiRouteTail (apiRouteDefaults cls a) a).AlternativeNames
      = some (a.AlternativeNames.getD []) := by
    show (if a.AlternativeNames.isSome then a.AlternativeNames else some []) = _
    cases a.AlternativeNames <;> rfl
  have h5 : (apiRouteTail (apiRouteDefaults cls a) a).IngressClass
      = (if a.IngressClass ≠ "" then a.IngressClass else cls) := rfl
  refine ⟨h1, h2, h3, h4, h5, fun activeStandby => ⟨?_, ?_, ?_, ?_, ?_⟩⟩
  · intro hn
    rw [h1, hn]
    rfl
  · intro hn
    rw [h2, hn]
    rfl
  · intro hn
    rw [h3, hn]
    rfl
  · intro hn
    rw [h4, hn]
    rfl
  · intro hn
    rw [h5, hn]
    rfl

/-- Witness of C24: an API route that sets the TLS-acme flag and the ingress class and
nothing else. -/
theorem C24_api_defaults_witness :
    (handleAPIRoute (fun _ => "0123456789abcdef0123456789abcdef") "nginx"
        { RouteV2.zero with
          Domain := "api.example.com", TLSAcme := some false, IngressClass := "custom" }).2
      = none
    ∧ (handleAPIRoute (fun _ => "0123456789abcdef0123456789abcdef") "nginx"
        { RouteV2.zero with
          Domain := "api.example.com", TLSAcme := some false,
          IngressClass := "custom" }).1.TLSAcme = some false
    ∧ (handleAPIRoute (fun _ => "0123456789abcdef0123456789abcdef") "nginx"
        { RouteV2.zero with
          Domain := "api.example.com", TLSAcme := some false,
          IngressClass := "custom" }).1.Insecure = some "Redirect"
    ∧ (handleAPIRoute (fun _ => "0123456789abcdef0123456789abcdef") "nginx"
        { RouteV2.zero with
          Domain := "api.example.com", TLSAcme := some false,
          IngressClass := "custom" }).1.Annotations = some []
    ∧ (handleAPIRoute (fun _ => "0123456789abcdef0123456789abcdef") "nginx"
        { RouteV2.zero with
          Domain := "api.example.com", TLSAcme := some false,
          IngressClass := "custom" }).1.AlternativeNames = some []
    ∧ (handleAPIRoute (fun _ => "0123456789abcdef0123456789abcdef") "nginx"
        { RouteV2.zero with
          Domain := "api.example.com", TLSAcme := some false,
          IngressClass := "custom" }).1.IngressClass = "custom" :=
  match C24_api_defaults (fun _ => "0123456789abcdef0123456789abcdef") "nginx"
      { RouteV2.zero with
        Domain := "api.example.com", TLSAcme := some false, IngressClass := "custom" }
      _ (by rfl) with
  | ⟨h1, h2, h3, h4, h5, _⟩ => ⟨by rfl, h1, h2, h3, h4, h5⟩

/-- The ingress name of the record that `handleAPIRoute` returns without failure is the
domain of the API route, whatever the wildcard flag is. -/
theorem handleAPIRoute_ingress_name (h : String → String) (cls : String) (a r : RouteV2)
    (hrun : handleAPIRoute h cls a = (r, none)) : r.IngressName = a.Domain := by
  rw [handleAPIRoute_ok h cls a r hrun]
  rfl

/-- C25, evaluated.  For the API route `example.com` with `wildcard: true` and
`tls-acme: false`, `handleAPIRoute` does not fail and the ingress name of the record it
returns is `example.com`; the name `wildcard-example.com`, which the code computes, is
stored in the parameter and is no part of the result. -/
theorem C25_wildcard_name_dropped :
    (handleAPIRoute (fun _ => "0123456789abcdef0123456789abcdef") "nginx"
        { RouteV2.zero with
          Domain := "example.com", Wildcard := some true, TLSAcme := some false }).2 = none
    ∧ (handleAPIRoute (fun _ => "0123456789abcdef0123456789abcdef") "nginx"
        { RouteV2.zero with
          Domain := "example.com", Wildcard := some true,
          TLSAcme := some false }).1.Wildcard = some true
    ∧ (handleAPIRoute (fun _ => "0123456789abcdef0123456789abcdef") "nginx"
        { RouteV2.zero with
          Domain := "example.com", Wildcard := some true,
          TLSAcme := some false }).1.IngressName = "example.com"
    ∧ wildcardIngressName (fun _ => "0123456789abcdef0123456789abcdef") "example.com"
      = .ok "wildcard-example.com" := by
  refine ⟨by rfl, by rfl, by rfl, by rfl⟩


/-! ## Routes of the configuration file that the API does not define -/

/-- The record of the first round for a route of the configuration file whose domain is
the domain of no API route: the route itself, with the empty list of alternative names in
the place of `nil`. -/
theorem mergeYamlRoute_of_no_api (h : String → String) (cls : String) (api : List RouteV2)
    (route x : RouteV2) (hno : ∀ a ∈ api, a.Domain ≠ route.Domain)
    (hrun : mergeYamlRoute h cls api route = .ok x) :
    x = { route with AlternativeNames := some (route.AlternativeNames.getD []) } := by
  unfold mergeYamlRoute at hrun
  simp only [] at hrun
  by_cases hv : IsDNS1123Subdomain (ToLower route.Domain) ≠ []
  · rw [if_pos hv] at hrun
    cases hrun
  · rw [if_neg hv, mergeFindInAPI_of_no_match h cls route _ api hno] at hrun
    simp only [Bool.false_eq_true, if_false] at hrun
    rcases han : route.AlternativeNames with _ | names
    · simp only [han, Option.isNone_none, if_true, Except.ok.injEq] at hrun
      rw [← hrun]
      rfl
    · simp only [han, Option.isNone_some, Bool.false_eq_true, if_false,
        Except.ok.injEq] at hrun
      rw [← hrun]
      cases route
      simp only [Option.getD_some] at han ⊢
      rw [han]

/-- The record of the output at the place of a route of the configuration file: the record
of the first round for the route, with the Fastly configuration generated again and the
domain lowered. -/
theorem merge_at (h : String → String) (pre post : List RouteV2) (r : RouteV2)
    (apiRoutes : RoutesV2) (vars : List EnvironmentVariable) (cls p : String) (out : RoutesV2)
    (hrun : MergeRoutesV2 h ⟨pre ++ r :: post⟩ apiRoutes vars cls p = (out, none)) :
    ∃ x, mergeYamlRoute h cls apiRoutes.Routes r = .ok x
      ∧ out.Routes[pre.length]? = some { x with
          Fastly := (GenerateFastlyConfiguration x.Fastly "" x.Fastly.ServiceID x.Domain
            p vars).1
          Domain := ToLower x.Domain } := by
  unfold MergeRoutesV2 at hrun
  rcases h1 : mergeFirstRound h cls apiRoutes.Routes { Routes := [] } (pre ++ r :: post)
    with ⟨r1, _ | e⟩
  · rw [h1] at hrun
    simp only [] at hrun
    rcases h2 : mergeAPIOnly h cls r1 apiRoutes.Routes with ⟨r2, _ | e⟩
    · rw [h2] at hrun
      simp only [] at hrun
      obtain ⟨n1, hf1, ho1⟩ := appendEach_ok _ _ _ _ h1
      obtain ⟨_, n2, ho2, _, _⟩ := mergeAPIOnly_ok h cls r1 apiRoutes.Routes r2 h2
      obtain ⟨n3, hf3, ho3⟩ := appendEach_ok _ _ _ _ hrun
      simp only [List.nil_append] at ho1 ho3
      obtain ⟨x, hx, hxr⟩ := forall₂_append_cons _ pre r post n1 hf1
      have hx2 : r2.Routes[pre.length]? = some x := by
        rw [ho2, ho1]
        have hlt : pre.length < n1.length := by
          rcases Nat.lt_or_ge pre.length n1.length with hlt | hge
          · exact hlt
          · rw [List.getElem?_eq_none hge] at hx
            cases hx
        rw [List.getElem?_append_left hlt]
        exact hx
      obtain ⟨o, ho, hxo⟩ := forall₂_getElem? _ _ _ hf3 pre.length x hx2
      refine ⟨x, hxr, ?_⟩
      rw [ho3, ho, finalRoute_ok vars p x o hxo]
    · rw [h2] at hrun
      simp at hrun
  · rw [h1] at hrun
    simp at hrun

/-- C21. In a run of `MergeRoutesV2` without failure, a route of the configuration file
whose domain is the domain of no API route is kept: the record of the output at its place
is the route in every field but three, the alternative names, where the empty list stands
for `nil`, the Fastly configuration, which is generated again from that of the route, and
the domain, which is lowered. -/
theorem C21_declarative_kept (h : String → String) (pre post : List RouteV2) (r : RouteV2)
    (apiRoutes : RoutesV2) (vars : List EnvironmentVariable) (cls p : String) (out : RoutesV2)
    (hno : ∀ a ∈ apiRoutes.Routes, a.Domain ≠ r.Domain)
    (hrun : MergeRoutesV2 h ⟨pre ++ r :: post⟩ apiRoutes vars cls p = (out, none)) :
    out.Routes[pre.length]? = some { r with
      AlternativeNames := some (r.AlternativeNames.getD [])
      Fastly := (GenerateFastlyConfiguration r.Fastly "" r.Fastly.ServiceID r.Domain
        p vars).1
      Domain := ToLower r.Domain } := by
  obtain ⟨x, hx, ho⟩ := merge_at h pre post r apiRoutes vars cls p out hrun
  rw [ho, mergeYamlRoute_of_no_api h cls apiRoutes.Routes r x hno hx]

/-- Witness of C21: the configuration file has `a.com` and `WWW.Example.com`, the second
with a monitoring path and no alternative names; the API has `api.example.com`. -/
theorem C21_declarative_kept_witness :
    (∀ a ∈ [{ RouteV2.zero with Domain := "api.example.com" }],
        a.Domain ≠ ({ RouteV2.zero with
          Domain := "WWW.Example.com", MonitoringPath := "/status" } : RouteV2).Domain)
    ∧ (MergeRoutesV2 (fun _ => "0123456789abcdef0123456789abcdef")
        ⟨[{ RouteV2.zero with Domain := "a.com" }] ++
          { RouteV2.zero with Domain := "WWW.Example.com", MonitoringPath := "/status" }
          :: []⟩
        ⟨[{ RouteV2.zero with Domain := "api.example.com" }]⟩
        [⟨"LAGOON_FASTLY_SERVICE_ID", "svcG:true", "build"⟩] "nginx"
        "fastly-api-").1.Routes[1]?
      = some { RouteV2.zero with
          Domain := "www.example.com", MonitoringPath := "/status"
          AlternativeNames := some []
          Fastly := ⟨"svcG", "", true⟩ } :=
  ⟨by decide,
    Eq.trans
      (C21_declarative_kept (fun _ => "0123456789abcdef0123456789abcdef")
        [{ RouteV2.zero with Domain := "a.com" }] []
        { RouteV2.zero with Domain := "WWW.Example.com", MonitoringPath := "/status" }
        ⟨[{ RouteV2.zero with Domain := "api.example.com" }]⟩
        [⟨"LAGOON_FASTLY_SERVICE_ID", "svcG:true", "build"⟩] "nginx" "fastly-api-" _
        (by decide) (by rfl))
      (by rfl)⟩


/-! ## The failures of `MergeRoutesV2` -/

/-- The only failure of the wildcard ingress name is the panic on the slice. -/
theorem wildcardIngressName_failure (h : String → String) (d : String) (e : Failure)
    (hrun : wildcardIngressName h d = .error e) : e = .panic "slice bounds out of range" := by
  unfold wildcardIngressName at hrun
  simp only [] at hrun
  split_ifs at hrun
  · simp only [Except.error.injEq] at hrun
    exact hrun.symm

/-- An error that `handleAPIRoute` returns is one of the two wildcard errors: the route is
a wildcard route, and either its TLS-acme flag is not an explicit `false` or its
alternative names are set. -/
theorem handleAPIRoute_error (h : String → String) (cls : String) (a : RouteV2) (msg : String)
    (he : (handleAPIRoute h cls a).2 = some (.error msg)) :
    a.Wildcard = some true
      ∧ ((a.TLSAcme ≠ some false ∧ msg = "Route " ++ a.Domain
            ++ " has wildcard=true and tls-acme=true, this is not supported")
        ∨ (a.AlternativeNames ≠ none ∧ msg = "Route " ++ a.Domain
            ++ " has wildcard=true and alternativenames defined, this is not supported")) := by
  unfold handleAPIRoute at he
  simp only [] at he
  rcases hwc : a.Wildcard with _ | w
  · simp [hwc] at he
  · simp only [hwc] at he
    rcases hta : a.TLSAcme with _ | t
    · have ht : (apiRouteDefaults cls a).TLSAcme = some true := by
        simp [apiRouteDefaults, hta, defaultTLSAcme]
      simp only [ht, true_and] at he
      cases w with
      | true =>
        simp only [if_true, Option.some.injEq, Failure.error.injEq] at he
        exact ⟨rfl, Or.inl ⟨by simp, he.symm⟩⟩
      | false =>
        simp only [Bool.false_eq_true, and_false, if_false] at he
        split at he
        · rename_i _ e1 heq
          simp only [Option.some.injEq] at he
          have hp := wildcardIngressName_failure h _ _ heq
          rw [he] at hp
          cases hp
        · simp at he
    · have ht : (apiRouteDefaults cls a).TLSAcme = some t := by
        simp [apiRouteDefaults, hta]
      simp only [ht] at he
      cases w with
      | true =>
        simp only [and_true] at he
        cases t with
        | true =>
          simp only [if_true, Option.some.injEq, Failure.error.injEq] at he
          exact ⟨rfl, Or.inl ⟨by simp, he.symm⟩⟩
        | false =>
          simp only [Bool.false_eq_true, if_false] at he
          by_cases hal : a.AlternativeNames.isSome = true
          · rw [if_pos hal] at he
            simp only [Option.some.injEq, Failure.error.injEq] at he
            refine ⟨rfl, Or.inr ⟨?_, he.symm⟩⟩
            intro hn
            rw [hn] at hal
            cases hal
          · rw [if_neg hal] at he
            split at he
            · rename_i _ e1 heq
              simp only [Option.some.injEq] at he
              have hp := wildcardIngressName_failure h _ _ heq
              rw [he] at hp
              cases hp
            · simp at he
      | false =>
        simp only [Bool.false_eq_true, and_false, if_false] at he
        split at he
        · rename_i _ e1 heq
          simp only [Option.some.injEq] at he
          have hp := wildcardIngressName_failure h _ _ heq
          rw [he] at hp
          cases hp
        · simp at he

/-- The record of an API route with a valid domain that keeps the wildcard rules is made
without failure. -/
theorem handleAPIRoute_ok_of_rules (h : String → String) (cls : String) (a : RouteV2)
    (hv : IsDNS1123Subdomain (ToLower a.Domain) = [])
    (hw : a.Wildcard = some true → a.TLSAcme = some false ∧ a.AlternativeNames = none) :
    (handleAPIRoute h cls a).2 = none := by
  rcases he : (handleAPIRoute h cls a).2 with _ | e
  · rfl
  · obtain ⟨msg, hmsg⟩ := handleAPIRoute_no_panic h cls a hv e he
    subst hmsg
    obtain ⟨hwc, hc | hc⟩ := handleAPIRoute_error h cls a msg he
    · exact absurd (hw hwc).1 hc.1
    · exact absurd (hw hwc).2 hc.1

/-- A failure of the inner loop of the first round comes from an API route of the domain
of the route: its domain is not valid, or `handleAPIRoute` fails on it. -/
theorem mergeFindInAPI_failure (h : String → String) (cls : String) (route : RouteV2)
    (st st1 : Bool × RouteV2) (api : List RouteV2) (e : Failure)
    (hrun : mergeFindInAPI h cls route st api = (st1, some e)) :
    ∃ a ∈ api, a.Domain = route.Domain
      ∧ ((IsDNS1123Subdomain (ToLower a.Domain) ≠ []
          ∧ e = .error ("Route " ++ a.Domain ++ " in API defined routes is not valid: "
              ++ fmtStrings (IsDNS1123Subdomain (ToLower a.Domain))))
        ∨ (IsDNS1123Subdomain (ToLower a.Domain) = []
          ∧ (handleAPIRoute h cls a).2 = some e)) := by
  induction api generalizing st with
  | nil => simp [mergeFindInAPI] at hrun
  | cons a api ih =>
    simp only [mergeFindInAPI] at hrun
    by_cases hd : a.Domain = route.Domain
    · rw [if_pos hd] at hrun
      by_cases hv : IsDNS1123Subdomain (ToLower a.Domain) ≠ []
      · rw [if_pos hv] at hrun
        simp only [Prod.mk.injEq, Option.some.injEq] at hrun
        exact ⟨a, List.mem_cons_self _ _, hd, Or.inl ⟨hv, hrun.2.symm⟩⟩
      · rw [if_neg hv] at hrun
        rcases hh : handleAPIRoute h cls a with ⟨r1, _ | e1⟩
        · rw [hh] at hrun
          obtain ⟨b, hb, hbd, hbc⟩ := ih _ hrun
          exact ⟨b, List.mem_cons_of_mem _ hb, hbd, hbc⟩
        · rw [hh] at hrun
          simp only [Prod.mk.injEq, Option.some.injEq] at hrun
          exact ⟨a, List.mem_cons_self _ _, hd, Or.inr ⟨not_not.mp hv, by rw [hh, ← hrun.2]⟩⟩
    · rw [if_neg hd] at hrun
      obtain ⟨b, hb, hbd, hbc⟩ := ih _ hrun
      exact ⟨b, List.mem_cons_of_mem _ hb, hbd, hbc⟩

/-- A failure of the body of the first round: the domain of the route is not valid, or it
is valid and `handleAPIRoute` fails on an API route of that domain. -/
theorem mergeYamlRoute_failure (h : String → String) (cls : String) (api : List RouteV2)
    (route : RouteV2) (e : Failure) (hrun : mergeYamlRoute h cls api route = .error e) :
    (IsDNS1123Subdomain (ToLower route.Domain) ≠ []
        ∧ e = .error ("Route " ++ route.Domain ++ " in .lagoon.yml is not valid: "
            ++ fmtStrings (IsDNS1123Subdomain (ToLower route.Domain))))
      ∨ (IsDNS1123Subdomain (ToLower route.Domain) = []
        ∧ ∃ a ∈ api, a.Domain = route.Domain ∧ (handleAPIRoute h cls a).2 = some e) := by
  unfold mergeYamlRoute at hrun
  simp only [] at hrun
  by_cases hv : IsDNS1123Subdomain (ToLower route.Domain) ≠ []
  · rw [if_pos hv] at hrun
    simp only [Except.error.injEq] at hrun
    exact Or.inl ⟨hv, hrun.symm⟩
  · rw [if_neg hv] at hrun
    right
    refine ⟨not_not.mp hv, ?_⟩
    rcases hm : mergeFindInAPI h cls route (false, RouteV2.zero) api with ⟨⟨ex, ra⟩, _ | e1⟩
    · rw [hm] at hrun
      simp only [] at hrun
      split_ifs at hrun
    · rw [hm] at hrun
      simp only [Except.error.injEq] at hrun
      subst hrun
      obtain ⟨a, ha, had, hc | hc⟩ := mergeFindInAPI_failure h cls route _ _ api e1 hm
      · rw [had] at hc
        exact absurd hc.1 hv
      · exact ⟨a, ha, had, hc.2⟩

/-- A failure of the second round comes from an API route: its domain is not valid, or
`handleAPIRoute` fails on it. -/
theorem mergeAPIOnly_failure (h : String → String) (cls : String) (acc : RoutesV2)
    (api : List RouteV2) (out : RoutesV2) (e : Failure)
    (hrun : mergeAPIOnly h cls acc api = (out, some e)) :
    ∃ a ∈ api,
      (IsDNS1123Subdomain (ToLower a.Domain) ≠ []
          ∧ e = .error ("Route " ++ a.Domain ++ " in API defined routes is not valid: "
              ++ fmtStrings (IsDNS1123Subdomain (ToLower a.Domain))))
        ∨ (IsDNS1123Subdomain (ToLower a.Domain) = []
          ∧ (handleAPIRoute h cls a).2 = some e) := by
  induction api generalizing acc with
  | nil => simp [mergeAPIOnly] at hrun
  | cons a api ih =>
    simp only [mergeAPIOnly] at hrun
    by_cases hv : IsDNS1123Subdomain (ToLower a.Domain) ≠ []
    · rw [if_pos hv] at hrun
      simp only [Prod.mk.injEq, Option.some.injEq] at hrun
      exact ⟨a, List.mem_cons_self _ _, Or.inl ⟨hv, hrun.2.symm⟩⟩
    · rw [if_neg hv] at hrun
      rcases hh : handleAPIRoute h cls a with ⟨r1, _ | e1⟩
      · rw [hh] at hrun
        simp only [] at hrun
        split_ifs at hrun
        · obtain ⟨b, hb, hbc⟩ := ih _ hrun
          exact ⟨b, List.mem_cons_of_mem _ hb, hbc⟩
        · obtain ⟨b, hb, hbc⟩ := ih _ hrun
          exact ⟨b, List.mem_cons_of_mem _ hb, hbc⟩
      · rw [hh] at hrun
        simp only [Prod.mk.injEq, Option.some.injEq] at hrun
        exact ⟨a, List.mem_cons_self _ _, Or.inr ⟨not_not.mp hv, by rw [hh, ← hrun.2]⟩⟩

/-- The second round fails with an error when an API route has a domain that is not
valid. -/
theorem mergeAPIOnly_invalid (h : String → String) (cls : String) (acc : RoutesV2)
    (api : List RouteV2) (a : RouteV2) (ha : a ∈ api)
    (hbad : IsDNS1123Subdomain (ToLower a.Domain) ≠ []) :
    ∃ msg, (mergeAPIOnly h cls acc api).2 = some (.error msg) := by
  induction api generalizing acc with
  | nil => simp at ha
  | cons b api ih =>
    simp only [mergeAPIOnly]
    by_cases hv : IsDNS1123Subdomain (ToLower b.Domain) ≠ []
    · rw [if_pos hv]
      exact ⟨_, rfl⟩
    · rw [if_neg hv]
      rcases hh : handleAPIRoute h cls b with ⟨r1, _ | e1⟩
      · simp only []
        rcases List.mem_cons.mp ha with rfl | htl
        · exact absurd hbad hv
        · split_ifs
          · exact ih _ htl
          · exact ih _ htl
      · simp only []
        obtain ⟨msg, hmsg⟩ := handleAPIRoute_no_panic h cls b (not_not.mp hv) e1 (by rw [hh])
        exact ⟨msg, by rw [hmsg]⟩

/-- A failure of the body of the last loop is the panic of
`GenerateFastlyConfiguration`. -/
theorem finalRoute_failure (vars : List EnvironmentVariable) (p : String) (fr : RouteV2)
    (e : Failure) (hrun : finalRoute vars p fr = .error e) :
    ∃ m, e = .panic m
      ∧ (GenerateFastlyConfiguration fr.Fastly "" fr.Fastly.ServiceID fr.Domain p vars).2
        = some (.panic m) := by
  unfold finalRoute at hrun
  rcases hg : GenerateFastlyConfiguration fr.Fastly "" fr.Fastly.ServiceID fr.Domain p vars
    with ⟨fastly, _ | e1⟩
  · rw [hg] at hrun
    cases hrun
  · cases e1 with
    | error m =>
      rw [hg] at hrun
      cases hrun
    | panic m =>
      rw [hg] at hrun
      simp only [Except.error.injEq] at hrun
      exact ⟨m, hrun.symm, rfl⟩

/-- `MergeRoutesV2` returns an error whenever a route of the configuration file or a
route of the API has a domain that is not valid after lowering. -/
theorem merge_invalid (h : String → String) (yamlRoutes apiRoutes : RoutesV2)
    (vars : List EnvironmentVariable) (cls p : String)
    (hbad : ∃ r ∈ yamlRoutes.Routes ++ apiRoutes.Routes,
      IsDNS1123Subdomain (ToLower r.Domain) ≠ []) :
    ∃ msg, (MergeRoutesV2 h yamlRoutes apiRoutes vars cls p).2 = some (.error msg) := by
  obtain ⟨r, hr, hinv⟩ := hbad
  unfold MergeRoutesV2
  rcases h1 : mergeFirstRound h cls apiRoutes.Routes { Routes := [] } yamlRoutes.Routes
    with ⟨r1, _ | e⟩
  · simp only []
    rcases List.mem_append.mp hr with hy | ha
    · obtain ⟨n1, hf1, _⟩ := appendEach_ok _ _ _ _ h1
      obtain ⟨i, hi⟩ := List.getElem?_of_mem hy
      obtain ⟨y, _, hy1⟩ := forall₂_getElem? _ _ _ hf1 i r hi
      exact absurd (mergeYamlRoute_ok h cls apiRoutes.Routes r y hy1).2 hinv
    · obtain ⟨msg, hmsg⟩ := mergeAPIOnly_invalid h cls r1 apiRoutes.Routes r ha hinv
      rcases h2 : mergeAPIOnly h cls r1 apiRoutes.Routes with ⟨r2, _ | e⟩
      · rw [h2] at hmsg
        cases hmsg
      · rw [h2] at hmsg
        exact ⟨msg, hmsg⟩
  · simp only []
    obtain ⟨x, _, hx⟩ := appendEach_failure _ _ _ _ _ h1
    obtain ⟨msg, hmsg⟩ := mergeYamlRoute_error h cls apiRoutes.Routes x e hx
    exact ⟨msg, by rw [hmsg]⟩

/-- The error that `MergeRoutesV2` returns names its source: a route of the configuration
file whose domain is not valid, a route of the API whose domain is not valid and is the
domain of no route of the configuration file, or a wildcard route of the API with a valid
domain. -/
theorem merge_error_source (h : String → String) (yamlRoutes apiRoutes : RoutesV2)
    (vars : List EnvironmentVariable) (cls p : String) (out : RoutesV2) (msg : String)
    (hrun : MergeRoutesV2 h yamlRoutes apiRoutes vars cls p = (out, some (.error msg))) :
    (∃ r ∈ yamlRoutes.Routes, IsDNS1123Subdomain (ToLower r.Domain) ≠ []
        ∧ msg = "Route " ++ r.Domain ++ " in .lagoon.yml is not valid: "
            ++ fmtStrings (IsDNS1123Subdomain (ToLower r.Domain)))
      ∨ (∃ a ∈ apiRoutes.Routes, IsDNS1123Subdomain (ToLower a.Domain) ≠ []
        ∧ a.Domain ∉ yamlRoutes.Routes.map (·.Domain)
        ∧ msg = "Route " ++ a.Domain ++ " in API defined routes is not valid: "
            ++ fmtStrings (IsDNS1123Subdomain (ToLower a.Domain)))
      ∨ (∃ a ∈ apiRoutes.Routes, IsDNS1123Subdomain (ToLower a.Domain) = []
        ∧ a.Wildcard = some true
        ∧ (msg = "Route " ++ a.Domain
              ++ " has wildcard=true and tls-acme=true, this is not supported"
          ∨ msg = "Route " ++ a.Domain
              ++ " has wildcard=true and alternativenames defined, this is not supported")) := by
  have hwild : ∀ a ∈ apiRoutes.Routes, IsDNS1123Subdomain (ToLower a.Domain) = [] →
      (handleAPIRoute h cls a).2 = some (.error msg) →
      ∃ a ∈ apiRoutes.Routes, IsDNS1123Subdomain (ToLower a.Domain) = []
        ∧ a.Wildcard = some true
        ∧ (msg = "Route " ++ a.Domain
              ++ " has wildcard=true and tls-acme=true, this is not supported"
          ∨ msg = "Route " ++ a.Domain
              ++ " has wildcard=true and alternativenames defined, this is not supported") := by
    intro a ha hv he
    obtain ⟨hw, hc | hc⟩ := handleAPIRoute_error h cls a msg he
    · exact ⟨a, ha, hv, hw, Or.inl hc.2⟩
    · exact ⟨a, ha, hv, hw, Or.inr hc.2⟩
  unfold MergeRoutesV2 at hrun
  rcases h1 : mergeFirstRound h cls apiRoutes.Routes { Routes := [] } yamlRoutes.Routes
    with ⟨r1, _ | e⟩
  · rw [h1] at hrun
    simp only [] at hrun
    rcases h2 : mergeAPIOnly h cls r1 apiRoutes.Routes with ⟨r2, _ | e⟩
    · rw [h2] at hrun
      simp only [] at hrun
      obtain ⟨x, _, hx⟩ := appendEach_failure _ _ _ _ _ hrun
      obtain ⟨m, hm, _⟩ := finalRoute_failure vars p x _ hx
      cases hm
    · rw [h2] at hrun
      simp only [Prod.mk.injEq, Option.some.injEq] at hrun
      obtain ⟨_, he⟩ := hrun
      subst he
      obtain ⟨a, ha, hc | hc⟩ := mergeAPIOnly_failure h cls r1 apiRoutes.Routes r2 _ h2
      · right; left
        refine ⟨a, ha, hc.1, ?_, Failure.error.inj hc.2⟩
        intro hmem
        obtain ⟨y, hy, hyd⟩ := List.mem_map.mp hmem
        obtain ⟨n1, hf1, _⟩ := appendEach_ok _ _ _ _ h1
        obtain ⟨i, hi⟩ := List.getElem?_of_mem hy
        obtain ⟨y1, _, hy1⟩ := forall₂_getElem? _ _ _ hf1 i y hi
        have hvy := (mergeYamlRoute_ok h cls apiRoutes.Routes y y1 hy1).2
        rw [hyd] at hvy
        exact hc.1 hvy
      · right; right
        exact hwild a ha hc.1 hc.2
  · rw [h1] at hrun
    simp only [Prod.mk.injEq, Option.some.injEq] at hrun
    obtain ⟨_, he⟩ := hrun
    subst he
    obtain ⟨x, hxm, hx⟩ := appendEach_failure _ _ _ _ _ h1
    rcases mergeYamlRoute_failure h cls apiRoutes.Routes x _ hx with hc | ⟨hv, a, ha, had, he⟩
    · left
      exact ⟨x, hxm, hc.1, Failure.error.inj hc.2⟩
    · right; right
      exact hwild a ha (by rw [had]; exact hv) he

/-- `MergeRoutesV2` does not fail when every domain of both lists is valid after lowering,
no API route breaks a wildcard rule, and no entry of `LAGOON_FASTLY_SERVICE_IDS` is a
domain of the lists alone. -/
theorem merge_ok_of_valid (h : String → String) (yamlRoutes apiRoutes : RoutesV2)
    (vars : List EnvironmentVariable) (cls p : String)
    (hvalid : ∀ r ∈ yamlRoutes.Routes ++ apiRoutes.Routes,
      IsDNS1123Subdomain (ToLower r.Domain) = [])
    (hrules : ∀ a ∈ apiRoutes.Routes, a.Wildcard = some true →
      a.TLSAcme = some false ∧ a.AlternativeNames = none)
    (hlone : ∀ ids, GetLagoonVariable "LAGOON_FASTLY_SERVICE_IDS" (some ["build", "global"])
      vars = some ids → ∀ u ∈ Split ids.Value ',',
        ∀ r ∈ yamlRoutes.Routes ++ apiRoutes.Routes, Split u ':' ≠ [r.Domain]) :
    (MergeRoutesV2 h yamlRoutes apiRoutes vars cls p).2 = none := by
  have hapi : ∀ a ∈ apiRoutes.Routes, (handleAPIRoute h cls a).2 = none := fun a ha =>
    handleAPIRoute_ok_of_rules h cls a (hvalid a (List.mem_append_right _ ha)) (hrules a ha)
  unfold MergeRoutesV2
  rcases h1 : mergeFirstRound h cls apiRoutes.Routes { Routes := [] } yamlRoutes.Routes
    with ⟨r1, _ | e⟩
  · simp only []
    rcases h2 : mergeAPIOnly h cls r1 apiRoutes.Routes with ⟨r2, _ | e⟩
    · simp only []
      rcases h3 : mergeFinalRoutes vars p { Routes := [] } r2.Routes with ⟨r3, _ | e⟩
      · rfl
      · exfalso
        obtain ⟨x, hxm, hx⟩ := appendEach_failure _ _ _ _ _ h3
        obtain ⟨m, _, hm⟩ := finalRoute_failure vars p x _ hx
        obtain ⟨_, hdom, _⟩ := merge_rounds h cls _ _ r1 r2 h1 h2
        obtain ⟨y, hy, hyd⟩ := List.mem_map.mp (hdom x hxm)
        exact GFC_no_panic x.Fastly "" x.Fastly.ServiceID x.Domain p vars
          (fun ids hids u hu => by
            rw [← hyd]
            exact hlone ids hids u hu y hy) m hm
    · exfalso
      obtain ⟨a, ha, hc | hc⟩ := mergeAPIOnly_failure h cls r1 apiRoutes.Routes r2 _ h2
      · exact hc.1 (hvalid a (List.mem_append_right _ ha))
      · rw [hapi a ha] at hc
        cases hc.2
  · exfalso
    obtain ⟨x, hxm, hx⟩ := appendEach_failure _ _ _ _ _ h1
    rcases mergeYamlRoute_failure h cls apiRoutes.Routes x _ hx with hc | ⟨_, a, ha, _, he⟩
    · exact hc.1 (hvalid x (List.mem_append_left _ hxm))
    · rw [hapi a ha] at he
      cases he

/-- C22, evaluated.  The domain `www.example.com` is valid, the API defines no route, and
under a `LAGOON_FASTLY_SERVICE_IDS` whose entry is that domain alone `MergeRoutesV2` does
not succeed: the last loop panics in `GenerateFastlyConfiguration`, on the third token of
the entry. -/
theorem C22_valid_merge_panics :
    IsDNS1123Subdomain (ToLower "www.example.com") = []
    ∧ MergeRoutesV2 (fun _ => "0123456789abcdef0123456789abcdef")
        ⟨[{ RouteV2.zero with Domain := "www.example.com" }]⟩ ⟨[]⟩
        [⟨"LAGOON_FASTLY_SERVICE_IDS", "www.example.com", "build"⟩] "nginx" "fastly-api-"
      = (⟨[]⟩, some (.panic "index out of range [2]")) := by
  refine ⟨by decide, by rfl⟩


/-! ## The Fastly configuration of the merged routes -/

/-- The record that the inner loop of the first round leaves, when the flag is set: the
record it started from, or the record of an API route. -/
theorem mergeFindInAPI_origin (h : String → String) (cls : String) (route : RouteV2)
    (st : Bool × RouteV2) (api : List RouteV2) (ra : RouteV2)
    (hrun : mergeFindInAPI h cls route st api = ((true, ra), none)) :
    st = (true, ra) ∨ ∃ a ∈ api, handleAPIRoute h cls a = (ra, none) := by
  induction api generalizing st with
  | nil =>
    simp only [mergeFindInAPI, Prod.mk.injEq, and_true] at hrun
    exact Or.inl hrun
  | cons a api ih =>
    simp only [mergeFindInAPI] at hrun
    by_cases hd : a.Domain = route.Domain
    · rw [if_pos hd] at hrun
      by_cases hv : IsDNS1123Subdomain (ToLower a.Domain) ≠ []
      · rw [if_pos hv] at hrun
        simp at hrun
      · rw [if_neg hv] at hrun
        rcases hh : handleAPIRoute h cls a with ⟨r1, _ | e⟩
        · rw [hh] at hrun
          right
          rcases ih _ hrun with hst | ⟨b, hb, hbr⟩
          · have hr1 : r1 = ra := (Prod.mk.inj hst).2
            exact ⟨a, List.mem_cons_self _ _, by rw [hh, hr1]⟩
          · exact ⟨b, List.mem_cons_of_mem _ hb, hbr⟩
        · rw [hh] at hrun
          simp at hrun
    · rw [if_neg hd] at hrun
      rcases ih _ hrun with hst | ⟨b, hb, hbr⟩
      · exact Or.inl hst
      · exact Or.inr ⟨b, List.mem_cons_of_mem _ hb, hbr⟩

/-- The record of the first round for a route of the configuration file: the route itself,
with the empty list of alternative names in the place of `nil`, or the record of an API
route. -/
theorem mergeYamlRoute_origin (h : String → String) (cls : String) (api : List RouteV2)
    (route x : RouteV2) (hrun : mergeYamlRoute h cls api route = .ok x) :
    x = { route with AlternativeNames := some (route.AlternativeNames.getD []) }
      ∨ ∃ a ∈ api, handleAPIRoute h cls a = (x, none) := by
  unfold mergeYamlRoute at hrun
  simp only [] at hrun
  by_cases hv : IsDNS1123Subdomain (ToLower route.Domain) ≠ []
  · rw [if_pos hv] at hrun
    cases hrun
  · rw [if_neg hv] at hrun
    rcases hm : mergeFindInAPI h cls route (false, RouteV2.zero) api with ⟨⟨ex, ra⟩, _ | e⟩
    · rw [hm] at hrun
      cases ex with
      | true =>
        simp only [if_true, Except.ok.injEq] at hrun
        subst hrun
        rcases mergeFindInAPI_origin h cls route _ api ra hm with hst | hor
        · cases (Prod.mk.inj hst).1
        · exact Or.inr hor
      | false =>
        left
        simp only [Bool.false_eq_true, if_false] at hrun
        rcases han : route.AlternativeNames with _ | names
        · simp only [han, Option.isNone_none, if_true, Except.ok.injEq] at hrun
          rw [← hrun]
          rfl
        · simp only [han, Option.isNone_some, Bool.false_eq_true, if_false,
            Except.ok.injEq] at hrun
          rw [← hrun]
          cases route
          simp only [Option.getD_some] at han ⊢
          rw [han]
    · rw [hm] at hrun
      cases hrun

/-- C23, as stated, fails: the configuration file gives the domain `WWW.example.com`, the
record of the output has the domain `www.example.com`, and the entry
`www.example.com:svc:true` of the per-domain list, which names that domain and for which
`GenerateFastlyConfiguration` resolves to the service `svc` with the watch flag set, does
not reach the record: its service id is empty and its watch flag is not set. -/
theorem C23_counterexample :
    ((MergeRoutesV2 (fun _ => "0123456789abcdef0123456789abcdef")
        ⟨[{ RouteV2.zero with Domain := "WWW.example.com" }]⟩ ⟨[]⟩
        [⟨"LAGOON_FASTLY_SERVICE_IDS", "www.example.com:svc:true", "build"⟩] "nginx"
        "fastly-api-").2 = none
      ∧ (MergeRoutesV2 (fun _ => "0123456789abcdef0123456789abcdef")
        ⟨[{ RouteV2.zero with Domain := "WWW.example.com" }]⟩ ⟨[]⟩
        [⟨"LAGOON_FASTLY_SERVICE_IDS", "www.example.com:svc:true", "build"⟩] "nginx"
        "fastly-api-").1.Routes.map (fun r => (r.Domain, r.Fastly.ServiceID, r.Fastly.Watch))
        = [("www.example.com", "", false)])
    ∧ GenerateFastlyConfiguration Fastly.zero "" "" "www.example.com" "fastly-api-"
        [⟨"LAGOON_FASTLY_SERVICE_IDS", "www.example.com:svc:true", "build"⟩]
      = (⟨"svc", "", true⟩, none) := by
  refine ⟨⟨by rfl, by rfl⟩, by rfl⟩

/-- C23, amended.  In a run of `MergeRoutesV2` without failure every record of the output
comes from a record of the first two rounds, which is a route of the configuration file
(with the empty list for `nil` alternative names) or the record that `handleAPIRoute`
makes of an API route; whichever it is, its domain is that record's domain lowered and its
Fastly configuration is what `GenerateFastlyConfiguration` leaves for that record's domain
as it was given, before lowering.  So the Fastly configuration is that for the domain of
the output record when the domain was given in lowercase, and a well-formed entry of the
per-domain list that names the domain as it was given and decides for it (no later entry
names it, the earlier ones for it and the global override are well formed) gives the
service id and the watch flag of the output record. -/
theorem C23_fastly_by_given_domain (h : String → String) (yamlRoutes apiRoutes : RoutesV2)
    (vars : List EnvironmentVariable) (cls p : String) (out : RoutesV2) (o : RouteV2)
    (hrun : MergeRoutesV2 h yamlRoutes apiRoutes vars cls p = (out, none))
    (ho : o ∈ out.Routes) :
    ∃ fr,
      ((∃ r ∈ yamlRoutes.Routes,
          fr = { r with AlternativeNames := some (r.AlternativeNames.getD []) })
        ∨ (∃ a ∈ apiRoutes.Routes, handleAPIRoute h cls a = (fr, none)))
      ∧ o.Domain = ToLower fr.Domain
      ∧ o.Fastly = (GenerateFastlyConfiguration fr.Fastly "" fr.Fastly.ServiceID fr.Domain
          p vars).1
      ∧ (ToLower fr.Domain = fr.Domain →
          o.Fastly = (GenerateFastlyConfiguration fr.Fastly "" fr.Fastly.ServiceID o.Domain
            p vars).1)
      ∧ ∀ (ids : EnvironmentVariable) (pre post : List String) (t svc w : String)
          (rest : List String) (b : Bool),
          GetLagoonVariable "LAGOON_FASTLY_SERVICE_IDS" (some ["build", "global"]) vars
            = some ids →
          Split ids.Value ',' = pre ++ t :: post →
          Split t ':' = fr.Domain :: svc :: w :: rest → ParseBool w = some b →
          (∀ u ∈ post, (Split u ':').head? ≠ some fr.Domain) →
          (∀ u ∈ pre, (Split u ':').head? = some fr.Domain →
            ∃ svc w rest b, Split u ':' = fr.Domain :: svc :: w :: rest
              ∧ ParseBool w = some b) →
          (∀ g, GetLagoonVariable "LAGOON_FASTLY_SERVICE_ID" (some ["build", "global"]) vars
              = some g →
            ∃ gs gw grest gb, Split g.Value ':' = gs :: gw :: grest
              ∧ ParseBool gw = some gb) →
          o.Fastly.ServiceID = svc ∧ o.Fastly.Watch = b := by
  unfold MergeRoutesV2 at hrun
  rcases h1 : mergeFirstRound h cls apiRoutes.Routes { Routes := [] } yamlRoutes.Routes
    with ⟨r1, _ | e⟩
  · rw [h1] at hrun
    simp only [] at hrun
    rcases h2 : mergeAPIOnly h cls r1 apiRoutes.Routes with ⟨r2, _ | e⟩
    · rw [h2] at hrun
      simp only [] at hrun
      obtain ⟨n1, hf1, ho1⟩ := appendEach_ok _ _ _ _ h1
      obtain ⟨_, n2, ho2, hn2, _⟩ := mergeAPIOnly_ok h cls r1 apiRoutes.Routes r2 h2
      obtain ⟨n3, hf3, ho3⟩ := appendEach_ok _ _ _ _ hrun
      simp only [List.nil_append] at ho1 ho3
      rw [ho3] at ho
      obtain ⟨fr, hfr, hfin⟩ := forall₂_mem_right _ _ _ hf3 o ho
      have hoeq := finalRoute_ok vars p fr o hfin
      have horigin : (∃ r ∈ yamlRoutes.Routes,
            fr = { r with AlternativeNames := some (r.AlternativeNames.getD []) })
          ∨ (∃ a ∈ apiRoutes.Routes, handleAPIRoute h cls a = (fr, none)) := by
        rw [ho2, ho1] at hfr
        rcases List.mem_append.mp hfr with hm | hm
        · obtain ⟨r, hr, hrx⟩ := forall₂_mem_right _ _ _ hf1 fr hm
          rcases mergeYamlRoute_origin h cls apiRoutes.Routes r fr hrx with hk | hk
          · exact Or.inl ⟨r, hr, hk⟩
          · exact Or.inr hk
        · exact Or.inr (hn2 fr hm)
      have hd : o.Domain = ToLower fr.Domain := by rw [hoeq]
      have hf : o.Fastly = (GenerateFastlyConfiguration fr.Fastly "" fr.Fastly.ServiceID
          fr.Domain p vars).1 := by rw [hoeq]
      refine ⟨fr, horigin, hd, hf, ?_, ?_⟩
      · intro hlow
        rw [hf, hd, hlow]
      · intro ids pre post t svc w rest b hIDs hsplit ht hw hpost hpre hglobal
        rw [hf, GFC_of_deciding_entry fr.Fastly "" fr.Fastly.ServiceID fr.Domain p vars ids
          pre post t svc w rest b hIDs hsplit ht hw hpost hpre hglobal]
        exact ⟨rfl, rfl⟩
    · rw [h2] at hrun
      simp at hrun
  · rw [h1] at hrun
    simp at hrun

/-- Witness of C23: the configuration file has `a.com`, the API has `b.com`, and the
per-domain list has an entry for each; the record of the output for the API route `b.com`
has the Fastly configuration of its entry. -/
theorem C23_fastly_by_given_domain_witness :
    ∃ fr,
      ((∃ r ∈ [{ RouteV2.zero with Domain := "a.com" }],
          fr = { r with AlternativeNames := some (r.AlternativeNames.getD []) })
        ∨ (∃ a ∈ [{ RouteV2.zero with Domain := "b.com" }],
          handleAPIRoute (fun _ => "0123456789abcdef0123456789abcdef") "nginx" a
            = (fr, none)))
      ∧ "b.com" = ToLower fr.Domain
      ∧ (⟨"svcB", "", false⟩ : Fastly)
        = (GenerateFastlyConfiguration fr.Fastly "" fr.Fastly.ServiceID fr.Domain
          "fastly-api-"
          [⟨"LAGOON_FASTLY_SERVICE_IDS", "a.com:svcA:true,b.com:svcB:false", "build"⟩]).1 :=
  match C23_fastly_by_given_domain (fun _ => "0123456789abcdef0123456789abcdef")
      ⟨[{ RouteV2.zero with Domain := "a.com" }]⟩ ⟨[{ RouteV2.zero with Domain := "b.com" }]⟩
      [⟨"LAGOON_FASTLY_SERVICE_IDS", "a.com:svcA:true,b.com:svcB:false", "build"⟩]
      "nginx" "fastly-api-" _
      { RouteV2.zero with
        Domain := "b.com", IngressName := "b.com", TLSAcme := some true
        Insecure := some "Redirect", Annotations := some [], AlternativeNames := some []
        IngressClass := "nginx", RequestVerification := some false
        Fastly := ⟨"svcB", "", false⟩ }
      (by rfl) (by decide) with
  | ⟨fr, h1, h2, h3, _, _⟩ => ⟨fr, h1, h2, h3⟩


/-! ## Lemmas on splitting and joining -/

/-- No piece of a split holds the separator. -/
theorem splitChars_sep_not_mem (sep : Char) (l : List Char) :
    ∀ p ∈ splitChars sep l, sep ∉ p := by
  induction l with
  | nil =>
    intro p hp
    simp only [splitChars, List.mem_singleton] at hp
    subst hp
    simp
  | cons c cs ih =>
    intro p hp
    unfold splitChars at hp
    by_cases hc : c = sep
    · rw [if_pos hc] at hp
      rcases List.mem_cons.mp hp with rfl | hp
      · simp
      · exact ih p hp
    · rw [if_neg hc] at hp
      rcases hs : splitChars sep cs with _ | ⟨q, qs⟩
      · exact absurd hs (splitChars_ne_nil sep cs)
      · rw [hs] at hp ih
        simp only [] at hp
        rcases List.mem_cons.mp hp with rfl | hp
        · intro hm
          rcases List.mem_cons.mp hm with hm | hm
          · exact hc hm.symm
          · exact ih q (List.mem_cons_self _ _) hm
        · exact ih p (List.mem_cons_of_mem _ hp)

/-- Joining the pieces of a split gives the list back. -/
theorem joinChars_splitChars (sep : Char) (l : List Char) :
    joinChars sep (splitChars sep l) = l := by
  induction l with
  | nil => simp [splitChars, joinChars]
  | cons c cs ih =>
    unfold splitChars
    by_cases hc : c = sep
    · rw [if_pos hc]
      rcases hs : splitChars sep cs with _ | ⟨q, qs⟩
      · exact absurd hs (splitChars_ne_nil sep cs)
      · rw [hs] at ih
        simp only [joinChars, List.nil_append, ih, hc]
    · rw [if_neg hc]
      rcases hs : splitChars sep cs with _ | ⟨q, qs⟩
      · exact absurd hs (splitChars_ne_nil sep cs)
      · rw [hs] at ih
        simp only []
        cases qs with
        | nil =>
          simp only [joinChars] at ih ⊢
          rw [ih]
        | cons r rs =>
          simp only [joinChars, List.cons_append] at ih ⊢
          rw [ih]

/-- Splitting a piece without separator, the separator and a rest. -/
theorem splitChars_append_sep (sep : Char) (p rest : List Char) (hp : sep ∉ p) :
    splitChars sep (p ++ sep :: rest) = p :: splitChars sep rest := by
  induction p with
  | nil => simp [splitChars]
  | cons c cs ih =>
    simp only [List.mem_cons, not_or] at hp
    have e := ih hp.2
    show splitChars sep (c :: (cs ++ sep :: rest)) = _
    rw [splitChars, if_neg (fun hc : c = sep => hp.1 hc.symm), e]

/-- Splitting the join of pieces without separator gives the pieces back. -/
theorem splitChars_joinChars (sep : Char) (xs : List (List Char)) (hne : xs ≠ [])
    (hx : ∀ x ∈ xs, sep ∉ x) : splitChars sep (joinChars sep xs) = xs := by
  induction xs with
  | nil => exact absurd rfl hne
  | cons p ps ih =>
    cases ps with
    | nil =>
      simp only [joinChars]
      exact splitChars_of_not_mem sep p (hx p (List.mem_cons_self _ _))
    | cons q qs =>
      simp only [joinChars]
      rw [splitChars_append_sep sep p _ (hx p (List.mem_cons_self _ _)),
        ih (List.cons_ne_nil _ _) (fun x hxm => hx x (List.mem_cons_of_mem _ hxm))]

/-! ## Lemmas on `AutogeneratedDomainFromPattern` -/

/-- The loop over the parts of the domain: the characters of the result are those of the
start value, followed by the parts, each after the fallback, joined by dots. -/
theorem autogenDomainParts_data (h : String) (len : Nat) (parts : List String)
    (acc : String) (count : Nat) (hlen : count + parts.length = len) :
    (autogenDomainParts h len acc count parts).data
      = acc.data ++ joinChars '.' (parts.map fun p => (autogenDomainPart h p).data) := by
  induction parts generalizing acc count with
  | nil => simp [autogenDomainParts, joinChars]
  | cons p rest ih =>
    cases rest with
    | nil =>
      have hc : count = len - 1 := by
        simp only [List.length_cons, List.length_nil] at hlen
        omega
      simp only [autogenDomainParts, if_pos hc, List.map_cons, List.map_nil, joinChars,
        String.data_append]
    | cons q qs =>
      have hc : ¬ count = len - 1 := by
        simp only [List.length_cons] at hlen
        omega
      simp only [autogenDomainParts, if_neg hc]
      have hlen1 : count + 1 + (q :: qs).length = len := by
        simp only [List.length_cons] at hlen ⊢
        omega
      have := ih (acc ++ autogenDomainPart h p ++ ".") (count + 1) hlen1
      simp only [autogenDomainParts, if_neg hc] at this
      rw [this]
      simp only [List.map_cons, joinChars, String.data_append, List.append_assoc]
      rfl

/-- The characters of the final domain: the pieces of the domain, each after the
fallback, joined by dots. -/
theorem autogenFinalDomain_data (sha : String → String) (d : String) :
    (autogenFinalDomain sha d).data
      = joinChars '.' ((Split d '.').map fun p => (autogenDomainPart (sha d) p).data) := by
  unfold autogenFinalDomain
  simp only []
  rw [autogenDomainParts_data (sha d) _ (Split d '.') "" 0 (by simp)]
  rfl

/-- The characters of the pieces of a split are the pieces of the characters. -/
theorem Split_data (s : String) (sep : Char) :
    (Split s sep).map String.data = splitChars sep s.data := by
  simp [Split, Function.comp_def]

/-- The final domain of a domain whose parts have at most 63 bytes is the domain. -/
theorem autogenFinalDomain_of_short (sha : String → String) (d : String)
    (hshort : ∀ part ∈ Split d '.', len part ≤ 63) : autogenFinalDomain sha d = d := by
  have hmap : ((Split d '.').map fun p => (autogenDomainPart (sha d) p).data)
      = (Split d '.').map String.data := by
    apply List.map_congr_left
    intro p hp
    have hle := hshort p hp
    unfold autogenDomainPart
    rw [if_neg (by omega)]
  have hdata := autogenFinalDomain_data sha d
  rw [hmap, Split_data, joinChars_splitChars] at hdata
  exact String.ext hdata


/-! ## The substitution of the tokens -/

/-- A list in which `old` does not occur is left as it is. -/
theorem replaceFirstChars_of_not_contains (old new l : List Char)
    (hno : containsChars old l = false) : replaceFirstChars old new l = l := by
  induction l with
  | nil =>
    simp only [containsChars, List.isEmpty_eq_false] at hno
    simp [replaceFirstChars, hno]
  | cons c cs ih =>
    simp only [containsChars, Bool.or_eq_false_iff] at hno
    simp only [replaceFirstChars, hno.1, Bool.false_eq_true, if_false, ih hno.2]

/-- The first occurrence is replaced: when the first character of `old` is not in `pre`,
`old` after `pre` becomes `new`, and what follows is left as it is. -/
theorem replaceFirstChars_first (o : Char) (os new pre post : List Char) (hpre : o ∉ pre) :
    replaceFirstChars (o :: os) new (pre ++ (o :: os) ++ post) = pre ++ new ++ post := by
  induction pre with
  | nil =>
    have hp : (o :: os).isPrefixOf (o :: (os ++ post)) = true := by
      rw [List.isPrefixOf_iff_prefix]
      exact List.prefix_append (o :: os) post
    have hd : (o :: (os ++ post)).drop (o :: os).length = post := by
      simp
    show replaceFirstChars (o :: os) new (o :: (os ++ post)) = new ++ post
    rw [replaceFirstChars, if_pos hp, hd]
  | cons p pre ih =>
    simp only [List.mem_cons, not_or] at hpre
    have hp : (o :: os).isPrefixOf (p :: (pre ++ (o :: os) ++ post)) = false := by
      simp [List.isPrefixOf, hpre.1]
    show replaceFirstChars (o :: os) new (p :: (pre ++ (o :: os) ++ post))
      = p :: (pre ++ new ++ post)
    rw [replaceFirstChars, hp, ih hpre.2]
    simp

/-- A list that holds `old` after `pre` contains `old`. -/
theorem containsChars_append (old pre post : List Char) :
    containsChars old (pre ++ old ++ post) = true := by
  induction pre with
  | nil =>
    cases hl : old ++ post with
    | nil =>
      obtain ⟨ho, hpo⟩ := List.append_eq_nil.mp hl
      subst ho hpo
      rfl
    | cons c cs =>
      have hp : old.isPrefixOf (c :: cs) = true := by
        rw [List.isPrefixOf_iff_prefix, ← hl]
        exact List.prefix_append old post
      simp [hl, containsChars, hp]
  | cons p pre ih =>
    show containsChars old (p :: (pre ++ old ++ post)) = true
    rw [containsChars, ih]
    simp

/-- The substituted domain: the pattern with the first occurrence of each token replaced,
and the service and a dot before it when the pattern has no service token. -/
theorem substitutedDomain_eq (projectName environmentName pattern service : String) :
    substitutedDomain projectName environmentName pattern service
      = (if Contains pattern serviceToken = true then "" else service ++ ".")
        ++ Replace (Replace (Replace pattern serviceToken service) projectToken projectName)
          environmentToken environmentName := by
  unfold substitutedDomain
  simp only []
  cases Contains pattern serviceToken with
  | true =>
    simp only [Bool.not_true, Bool.false_eq_true, if_false, if_true]
    apply String.ext
    simp [String.data_append]
  | false =>
    simp only [Bool.not_false, if_true, Bool.false_eq_true, if_false]

/-- The substituted domain of a pattern with the three tokens in their usual order and no
dollar sign elsewhere: the pattern with the names in the places of the tokens. -/
theorem substitutedDomain_of_tokens (projectName environmentName service : String)
    (p0 p1 p2 p3 : String)
    (h0 : '$' ∉ p0.data) (h1 : '$' ∉ p1.data) (h2 : '$' ∉ p2.data)
    (hs : '$' ∉ service.data) (hp : '$' ∉ projectName.data) :
    substitutedDomain projectName environmentName
        (p0 ++ serviceToken ++ p1 ++ projectToken ++ p2 ++ environmentToken ++ p3) service
      = p0 ++ service ++ p1 ++ projectName ++ p2 ++ environmentName ++ p3 := by
  have hc : Contains (p0 ++ serviceToken ++ p1 ++ projectToken ++ p2 ++ environmentToken
      ++ p3) serviceToken = true := by
    unfold Contains
    have := containsChars_append serviceToken.data p0.data
      (p1.data ++ projectToken.data ++ p2.data ++ environmentToken.data ++ p3.data)
    simpa [String.data_append, List.append_assoc] using this
  have hts : serviceToken.data = '$' :: "\x7bservice\x7d".data := by decide
  have htp : projectToken.data = '$' :: "\x7bproject\x7d".data := by decide
  have hte : environmentToken.data = '$' :: "\x7benvironment\x7d".data := by decide
  rw [substitutedDomain_eq, hc, if_pos rfl]
  apply String.ext
  simp only [Replace, String.data_append, List.nil_append]
  have e1 := replaceFirstChars_first '$' "\x7bservice\x7d".data service.data p0.data
    (p1.data ++ projectToken.data ++ p2.data ++ environmentToken.data ++ p3.data) h0
  have e2 := replaceFirstChars_first '$' "\x7bproject\x7d".data projectName.data
    (p0.data ++ service.data ++ p1.data)
    (p2.data ++ environmentToken.data ++ p3.data)
    (by simp only [List.mem_append, not_or]; exact ⟨⟨h0, hs⟩, h1⟩)
  have e3 := replaceFirstChars_first '$' "\x7benvironment\x7d".data environmentName.data
    (p0.data ++ service.data ++ p1.data ++ projectName.data ++ p2.data) p3.data
    (by simp only [List.mem_append, not_or]; exact ⟨⟨⟨⟨h0, hs⟩, h1⟩, hp⟩, h2⟩)
  rw [← hts] at e1
  rw [← htp] at e2
  rw [← hte] at e3
  simp only [List.append_assoc] at e1 e2 e3 ⊢
  rw [e1, e2, e3]

/-! ## The domain of an autogenerated route -/

/-- C26, as stated, fails.  With the pattern of the three tokens before
`example.com`, the service `nginx`, the environment `main` and the project of 40 times
U+00E9, the labels of the substituted domain have 5, 40, 4, 7 and 3 characters, none more
than 63; the label of the project has 80 bytes, the fallback rewrites it, and the domain
that `AutogeneratedDomainFromPattern` returns is not the substituted domain; its labels
have 5, 36, 4, 7 and 3 characters. -/
theorem C26_counterexample :
    (∀ part ∈ Split
        ((if Contains "$\x7bservice\x7d.$\x7bproject\x7d.$\x7benvironment\x7d.example.com"
            serviceToken = true then "" else "nginx" ++ ".")
          ++ Replace (Replace (Replace
              "$\x7bservice\x7d.$\x7bproject\x7d.$\x7benvironment\x7d.example.com"
              serviceToken "nginx") projectToken
              (String.mk (List.replicate 40 (Char.ofNat 0xE9)))) environmentToken "main") '.',
      part.length ≤ 63)
    ∧ (AutogeneratedDomainFromPattern
        (fun _ => "0123456789abcdef0123456789abcdef0123456789abcdef0123456789abcdef")
        (fun _ => "abcdefghijklmnopqrstuvwxyz234567abcdefghijklmnopqrstuvwxyz")
        (String.mk (List.replicate 40 (Char.ofNat 0xE9))) "main"
        "$\x7bservice\x7d.$\x7bproject\x7d.$\x7benvironment\x7d.example.com" "nginx").1
      ≠ (if Contains "$\x7bservice\x7d.$\x7bproject\x7d.$\x7benvironment\x7d.example.com"
            serviceToken = true then "" else "nginx" ++ ".")
          ++ Replace (Replace (Replace
              "$\x7bservice\x7d.$\x7bproject\x7d.$\x7benvironment\x7d.example.com"
              serviceToken "nginx") projectToken
              (String.mk (List.replicate 40 (Char.ofNat 0xE9)))) environmentToken "main"
    ∧ (AutogeneratedDomainFromPattern
        (fun _ => "0123456789abcdef0123456789abcdef0123456789abcdef0123456789abcdef")
        (fun _ => "abcdefghijklmnopqrstuvwxyz234567abcdefghijklmnopqrstuvwxyz")
        (String.mk (List.replicate 40 (Char.ofNat 0xE9))) "main"
        "$\x7bservice\x7d.$\x7bproject\x7d.$\x7benvironment\x7d.example.com" "nginx").1
      = "nginx." ++ String.mk (List.replicate 27 (Char.ofNat 0xE9))
          ++ "-01234567.main.example.com"
    ∧ (Split ("nginx." ++ String.mk (List.replicate 27 (Char.ofNat 0xE9))
          ++ "-01234567.main.example.com") '.').map String.length = [5, 36, 4, 7, 3] := by
  refine ⟨by decide, by decide, by decide, by decide⟩

/-- C26. Let the substituted domain be the router pattern with the service, project and
environment tokens replaced by the service, the project and the environment as they are
given (`strings.Replace` with the count 1: the first occurrence of each token, one after
the other), prefixed with the service and a dot exactly when the pattern contains no
service token.  When no label of it exceeds 63 bytes, it is the domain that
`AutogeneratedDomainFromPattern` returns. -/
theorem C26_domain_from_pattern (sha b32 : String → String)
    (projectName environmentName pattern service : String)
    (hshort : ∀ part ∈ Split
        ((if Contains pattern serviceToken = true then "" else service ++ ".")
          ++ Replace (Replace (Replace pattern serviceToken service) projectToken
              projectName) environmentToken environmentName) '.',
      len part ≤ 63) :
    (AutogeneratedDomainFromPattern sha b32 projectName environmentName pattern service).1
      = (if Contains pattern serviceToken = true then "" else service ++ ".")
        ++ Replace (Replace (Replace pattern serviceToken service) projectToken projectName)
          environmentToken environmentName := by
  rw [← substitutedDomain_eq] at hshort ⊢
  exact autogenFinalDomain_of_short sha _ hshort

/-- Witness of C26: the pattern with the three tokens before `example.com`, the project
`demo`, the environment `main` and the service `nginx` give
`nginx.demo.main.example.com`. -/
theorem C26_domain_from_pattern_witness :
    (AutogeneratedDomainFromPattern
        (fun _ => "0123456789abcdef0123456789abcdef0123456789abcdef0123456789abcdef")
        (fun _ => "abcdefghijklmnopqrstuvwxyz234567abcdefghijklmnopqrstuvwxyz") "demo" "main"
        "$\x7bservice\x7d.$\x7bproject\x7d.$\x7benvironment\x7d.example.com" "nginx").1
      = "nginx.demo.main.example.com" :=
  (C26_domain_from_pattern
    (fun _ => "0123456789abcdef0123456789abcdef0123456789abcdef0123456789abcdef")
    (fun _ => "abcdefghijklmnopqrstuvwxyz234567abcdefghijklmnopqrstuvwxyz") "demo" "main"
    "$\x7bservice\x7d.$\x7bproject\x7d.$\x7benvironment\x7d.example.com" "nginx"
    (by decide)).trans (by decide)


/-- C27. The short domain that `AutogeneratedDomainFromPattern` returns is the router
pattern with the service token replaced by the service and the project and environment
tokens replaced by the first eight characters of the base32 encoding of the SHA-256 hash
of the project and of the environment, prefixed with the service and a dot when the
pattern contains no service token; the label fallback is not applied to it.  So two
projects, or two environments, with the same eight characters give the same short
domain. -/
theorem C27_short_domain (sha b32 : String → String)
    (projectName environmentName pattern service : String) :
    (AutogeneratedDomainFromPattern sha b32 projectName environmentName pattern service).2
        = (if Contains pattern serviceToken = true then "" else service ++ ".")
          ++ Replace (Replace (Replace pattern serviceToken service) projectToken
              (String.mk ((b32 (sha projectName)).data.take 8)))
            environmentToken (String.mk ((b32 (sha environmentName)).data.take 8))
      ∧ ∀ project1 environment1 : String,
          (b32 (sha project1)).data.take 8 = (b32 (sha projectName)).data.take 8 →
          (b32 (sha environment1)).data.take 8 = (b32 (sha environmentName)).data.take 8 →
          (AutogeneratedDomainFromPattern sha b32 project1 environment1 pattern service).2
            = (AutogeneratedDomainFromPattern sha b32 projectName environmentName pattern
                service).2 := by
  constructor
  · show substitutedShortDomain sha b32 projectName environmentName pattern service = _
    unfold substitutedShortDomain
    simp only []
    cases Contains pattern serviceToken with
    | true =>
      simp only [Bool.not_true, Bool.false_eq_true, if_false, if_true]
      apply String.ext
      simp [String.data_append]
    | false =>
      simp only [Bool.not_false, if_true, Bool.false_eq_true, if_false]
  · intro project1 environment1 hp he
    show substitutedShortDomain sha b32 project1 environment1 pattern service
      = substitutedShortDomain sha b32 projectName environmentName pattern service
    unfold substitutedShortDomain
    simp only [hp, he]

/-- Witness of C27: the pattern with the three tokens before `example.com` and the
service `nginx`, with an encoding whose first eight characters are `abcdefgh`. -/
theorem C27_short_domain_witness :
    (AutogeneratedDomainFromPattern
        (fun _ => "0123456789abcdef0123456789abcdef0123456789abcdef0123456789abcdef")
        (fun _ => "abcdefghijklmnopqrstuvwxyz234567abcdefghijklmnopqrstuvwxyz") "demo" "main"
        "$\x7bservice\x7d.$\x7bproject\x7d.$\x7benvironment\x7d.example.com" "nginx").2
      = "nginx.abcdefgh.abcdefgh.example.com" :=
  (C27_short_domain
    (fun _ => "0123456789abcdef0123456789abcdef0123456789abcdef0123456789abcdef")
    (fun _ => "abcdefghijklmnopqrstuvwxyz234567abcdefghijklmnopqrstuvwxyz") "demo" "main"
    "$\x7bservice\x7d.$\x7bproject\x7d.$\x7benvironment\x7d.example.com" "nginx").1.trans
    (by decide)

/-! ## The label fallback -/

/-- A hex digest has no dot. -/
theorem isHexDigest_no_dot (s : String) (hs : isHexDigest s = true) : '.' ∉ s.data := by
  intro hm
  unfold isHexDigest at hs
  simp only [Bool.and_eq_true, List.all_eq_true] at hs
  have := hs.2 '.' hm
  revert this
  decide

/-- A hex digest has 64 characters. -/
theorem isHexDigest_length (s : String) (hs : isHexDigest s = true) : s.data.length = 64 := by
  unfold isHexDigest at hs
  simp only [Bool.and_eq_true, decide_eq_true_eq] at hs
  exact hs.1

/-- The characters of a hex digest are ASCII. -/
theorem isHexDigest_ascii (s : String) (hs : isHexDigest s = true) :
    ∀ c ∈ s.data, c.toNat < 0x80 := by
  intro c hc
  unfold isHexDigest at hs
  simp only [Bool.and_eq_true, List.all_eq_true, Bool.or_eq_true, decide_eq_true_eq] at hs
  rcases hs.2 c hc with h1 | h1
  · have h2 := (char_le_iff c '9').mp h1.2
    have e : ('9' : Char).toNat = 57 := rfl
    omega
  · have h2 := (char_le_iff c 'f').mp h1.2
    have e : ('f' : Char).toNat = 102 := rfl
    omega

/-- The slice `[:8]` of a hex digest has eight bytes. -/
theorem len_hash_slice (h : String) (hh : isHexDigest h = true) :
    len (String.mk (h.data.take 8)) = 8 := by
  have hl := isHexDigest_length h hh
  show utf8Bytes (h.data.take 8) = 8
  rw [utf8Bytes_of_ascii _ (fun c hc => isHexDigest_ascii h hh c (List.mem_of_mem_take hc))]
  simp only [List.length_take]
  omega

/-- A part after the fallback has at most 63 bytes, when the hash is a hex digest. -/
theorem autogenDomainPart_len (h part : String) (hh : isHexDigest h = true) :
    len (autogenDomainPart h part) ≤ 63 := by
  unfold autogenDomainPart
  by_cases hp : len part > 63
  · rw [if_pos hp, len_append, len_append, len_hash_slice h hh]
    have h1 := len_sliceTo_le part 54
    have e : len "-" = 1 := rfl
    omega
  · rw [if_neg hp]
    omega

/-- The fallback on a part of more than 63 bytes whose first 54 bytes are the characters
of `pre`: the part becomes `pre`, a dash and eight characters of the hash, 63 bytes. -/
theorem autogenDomainPart_cut (h pre suf : String) (hh : isHexDigest h = true)
    (hlong : 63 < len (pre ++ suf)) (hpre : len pre = 54) :
    autogenDomainPart h (pre ++ suf) = pre ++ "-" ++ String.mk (h.data.take 8)
      ∧ len (pre ++ "-" ++ String.mk (h.data.take 8)) = 63 := by
  constructor
  · unfold autogenDomainPart
    rw [if_pos hlong, ← hpre, sliceTo_append]
  · rw [len_append, len_append, len_hash_slice h hh, hpre]
    rfl

/-- A part without dot has no dot after the fallback, when the hash is a hex digest. -/
theorem autogenDomainPart_no_dot (h part : String) (hh : isHexDigest h = true)
    (hp : '.' ∉ part.data) : '.' ∉ (autogenDomainPart h part).data := by
  unfold autogenDomainPart
  split_ifs
  · simp only [String.data_append, List.mem_append, not_or]
    refine ⟨⟨fun hm => hp ((takeBytes_initial 54 part.data).subset hm), by decide⟩, ?_⟩
    exact fun hm => isHexDigest_no_dot h hh (List.mem_of_mem_take hm)
  · exact hp

/-- The parts of the final domain are the parts of the domain, each after the fallback,
when the hash is a hex digest. -/
theorem Split_autogenFinalDomain (sha : String → String) (d : String)
    (hh : isHexDigest (sha d) = true) :
    Split (autogenFinalDomain sha d) '.' = (Split d '.').map (autogenDomainPart (sha d)) := by
  have hdata := autogenFinalDomain_data sha d
  have hsplit : splitChars '.' (autogenFinalDomain sha d).data
      = (Split d '.').map fun p => (autogenDomainPart (sha d) p).data := by
    rw [hdata]
    apply splitChars_joinChars
    · simp [Split_ne_nil]
    · intro x hx
      obtain ⟨p, hp, hpx⟩ := List.mem_map.mp hx
      subst hpx
      apply autogenDomainPart_no_dot (sha d) p hh
      have hpd : p.data ∈ splitChars '.' d.data := by
        rw [← Split_data]
        exact List.mem_map_of_mem _ hp
      exact splitChars_sep_not_mem '.' d.data p.data hpd
  unfold Split at hsplit ⊢
  rw [hsplit]
  simp [Function.comp_def]

/-- C28, as stated, fails.  With the pattern of the three tokens before
`example.com`, the service `nginx`, the environment `main` and the project of 40 times
U+00E9, the second label of the substituted domain has 40 characters, fewer than 63, and
80 bytes: it is not left as it is, and what replaces it, its first 54 bytes (27
characters), a dash and eight characters of the hash, has 36 characters and 63 bytes. -/
theorem C28_counterexample :
    Split (substitutedDomain (String.mk (List.replicate 40 (Char.ofNat 0xE9))) "main"
        "$\x7bservice\x7d.$\x7bproject\x7d.$\x7benvironment\x7d.example.com" "nginx") '.'
      = ["nginx", String.mk (List.replicate 40 (Char.ofNat 0xE9)), "main", "example", "com"]
    ∧ (String.mk (List.replicate 40 (Char.ofNat 0xE9))).length = 40
    ∧ len (String.mk (List.replicate 40 (Char.ofNat 0xE9))) = 80
    ∧ Split (AutogeneratedDomainFromPattern
        (fun _ => "0123456789abcdef0123456789abcdef0123456789abcdef0123456789abcdef")
        (fun _ => "abcdefghijklmnopqrstuvwxyz234567abcdefghijklmnopqrstuvwxyz")
        (String.mk (List.replicate 40 (Char.ofNat 0xE9))) "main"
        "$\x7bservice\x7d.$\x7bproject\x7d.$\x7benvironment\x7d.example.com" "nginx").1 '.'
      = ["nginx", String.mk (List.replicate 27 (Char.ofNat 0xE9)) ++ "-01234567", "main",
          "example", "com"]
    ∧ (String.mk (List.replicate 27 (Char.ofNat 0xE9)) ++ "-01234567").length = 36
    ∧ len (String.mk (List.replicate 27 (Char.ofNat 0xE9)) ++ "-01234567") = 63 := by
  refine ⟨by decide, by decide, by decide, by decide, by decide, by decide⟩

/-- C28. For every input of `AutogeneratedDomainFromPattern`, with a SHA-256 helper that
returns hex digests, the labels of the returned domain are the labels of the substituted
domain, one for one and in their order, each after the fallback: a label of at most 63
bytes is itself, and a label of more than 63 bytes becomes a label of at most 63 bytes,
which is, for every way to write the label as `pre ++ suf` with `pre` of 54 bytes, `pre`,
a dash and the first eight characters of the hash of the whole substituted domain, and
has 63 bytes.  So the number of the labels is the same, and every label of the returned
domain has at most 63 bytes. -/
theorem C28_label_fallback (sha b32 : String → String)
    (projectName environmentName pattern service : String)
    (hsha : ∀ s, isHexDigest (sha s) = true) :
    List.Forall₂
        (fun part label =>
          (len part ≤ 63 ∧ label = part)
          ∨ (63 < len part ∧ len label ≤ 63
            ∧ ∀ pre suf : String, part = pre ++ suf → len pre = 54 →
              label = pre ++ "-" ++ String.mk
                  ((sha (substitutedDomain projectName environmentName pattern
                    service)).data.take 8)
                ∧ len label = 63))
        (Split (substitutedDomain projectName environmentName pattern service) '.')
        (Split (AutogeneratedDomainFromPattern sha b32 projectName environmentName pattern
          service).1 '.')
    ∧ (Split (AutogeneratedDomainFromPattern sha b32 projectName environmentName pattern
        service).1 '.').length
      = (Split (substitutedDomain projectName environmentName pattern service) '.').length
    ∧ ∀ label ∈ Split (AutogeneratedDomainFromPattern sha b32 projectName environmentName
        pattern service).1 '.', len label ≤ 63 := by
  have hsplit : Split (AutogeneratedDomainFromPattern sha b32 projectName environmentName
      pattern service).1 '.'
      = (Split (substitutedDomain projectName environmentName pattern service) '.').map
          (autogenDomainPart
            (sha (substitutedDomain projectName environmentName pattern service))) :=
    Split_autogenFinalDomain sha
      (substitutedDomain projectName environmentName pattern service) (hsha _)
  refine ⟨?_, ?_, ?_⟩
  · rw [hsplit, List.forall₂_map_right_iff, List.forall₂_same]
    intro part _
    by_cases hp : len part ≤ 63
    · left
      refine ⟨hp, ?_⟩
      unfold autogenDomainPart
      rw [if_neg (by omega)]
    · right
      refine ⟨by omega, autogenDomainPart_len _ part (hsha _), ?_⟩
      intro pre suf hps hpre
      subst hps
      have hcut := autogenDomainPart_cut
        (sha (substitutedDomain projectName environmentName pattern service)) pre suf
        (hsha _) (by omega) hpre
      rw [hcut.1]
      exact ⟨rfl, hcut.2⟩
  · rw [hsplit, List.length_map]
  · intro label hl
    rw [hsplit] at hl
    obtain ⟨p, _, hpl⟩ := List.mem_map.mp hl
    rw [← hpl]
    exact autogenDomainPart_len _ p (hsha _)

/-- Witness of C28: a project name that makes a label of 76 bytes. -/
theorem C28_label_fallback_witness :
    Split (AutogeneratedDomainFromPattern
        (fun _ => "0123456789abcdef0123456789abcdef0123456789abcdef0123456789abcdef")
        (fun _ => "abcdefghijklmnopqrstuvwxyz234567abcdefghijklmnopqrstuvwxyz")
        "a-very-long-project-name-that-goes-on-and-on-and-on-and-on-and-on-and-on" "main"
        "$\x7bservice\x7d-$\x7bproject\x7d.$\x7benvironment\x7d.example.com" "nginx").1 '.'
      = ["nginx-a-very-long-project-name-that-goes-on-and-on-and-01234567", "main",
          "example", "com"]
    ∧ ∀ label ∈ Split (AutogeneratedDomainFromPattern
        (fun _ => "0123456789abcdef0123456789abcdef0123456789abcdef0123456789abcdef")
        (fun _ => "abcdefghijklmnopqrstuvwxyz234567abcdefghijklmnopqrstuvwxyz")
        "a-very-long-project-name-that-goes-on-and-on-and-on-and-on-and-on-and-on" "main"
        "$\x7bservice\x7d-$\x7bproject\x7d.$\x7benvironment\x7d.example.com" "nginx").1 '.',
      len label ≤ 63 :=
  ⟨by decide,
    (C28_label_fallback
      (fun _ => "0123456789abcdef0123456789abcdef0123456789abcdef0123456789abcdef")
      (fun _ => "abcdefghijklmnopqrstuvwxyz234567abcdefghijklmnopqrstuvwxyz")
      "a-very-long-project-name-that-goes-on-and-on-and-on-and-on-and-on-and-on" "main"
      "$\x7bservice\x7d-$\x7bproject\x7d.$\x7benvironment\x7d.example.com" "nginx"
      (fun _ => (by decide : isHexDigest
        "0123456789abcdef0123456789abcdef0123456789abcdef0123456789abcdef" = true))).2.2⟩

/-- C29, as stated, fails.  The labels of the domain of 40 times U+00E9
before `example.com` have 40, 7 and 3 characters, none more than 63; the first label has
80 bytes, and the step rewrites it: the domain is not returned as it is. -/
theorem C29_counterexample :
    (∀ part ∈ Split (String.mk (List.replicate 40 (Char.ofNat 0xE9)) ++ ".example.com") '.',
      part.length ≤ 63)
    ∧ autogenFinalDomain
        (fun _ => "0123456789abcdef0123456789abcdef0123456789abcdef0123456789abcdef")
        (String.mk (List.replicate 40 (Char.ofNat 0xE9)) ++ ".example.com")
      ≠ String.mk (List.replicate 40 (Char.ofNat 0xE9)) ++ ".example.com"
    ∧ autogenFinalDomain
        (fun _ => "0123456789abcdef0123456789abcdef0123456789abcdef0123456789abcdef")
        (String.mk (List.replicate 40 (Char.ofNat 0xE9)) ++ ".example.com")
      = String.mk (List.replicate 27 (Char.ofNat 0xE9)) ++ "-01234567.example.com" := by
  refine ⟨by decide, by decide, by decide⟩

/-- C29. For every domain all of whose labels have at most 63 bytes, the step of
`AutogeneratedDomainFromPattern` that splits the domain on the dots, applies the fallback
to each label and joins the labels again returns the domain as it is, and the step applied
to what it returned returns that again. -/
theorem C29_normalizer_idempotent (sha : String → String) (d : String)
    (hshort : ∀ part ∈ Split d '.', len part ≤ 63) :
    autogenFinalDomain sha d = d
      ∧ autogenFinalDomain sha (autogenFinalDomain sha d) = autogenFinalDomain sha d := by
  have h1 := autogenFinalDomain_of_short sha d hshort
  exact ⟨h1, by rw [h1, h1]⟩

/-- Witness of C29: the domain `nginx.demo.main.example.com`. -/
theorem C29_normalizer_idempotent_witness :
    autogenFinalDomain
        (fun _ => "0123456789abcdef0123456789abcdef0123456789abcdef0123456789abcdef")
        "nginx.demo.main.example.com" = "nginx.demo.main.example.com"
      ∧ autogenFinalDomain
          (fun _ => "0123456789abcdef0123456789abcdef0123456789abcdef0123456789abcdef")
          (autogenFinalDomain
            (fun _ => "0123456789abcdef0123456789abcdef0123456789abcdef0123456789abcdef")
            "nginx.demo.main.example.com")
        = autogenFinalDomain
          (fun _ => "0123456789abcdef0123456789abcdef0123456789abcdef0123456789abcdef")
          "nginx.demo.main.example.com" :=
  C29_normalizer_idempotent
    (fun _ => "0123456789abcdef0123456789abcdef0123456789abcdef0123456789abcdef")
    "nginx.demo.main.example.com" (by decide)

/-! ## Autogenerated routes without a router pattern -/

/-- C30. When the variables hold no variable of the name `LAGOON_SYSTEM_ROUTER_PATTERN`
with the scope `internal_system`, `generateAutogenRoutes` returns an error, and the list
of autogenerated routes and the build values are as they were, whatever services the
build values hold. -/
theorem C30_missing_router_pattern (sha b32 : String → String)
    (projectName environmentName fastlyCacheNoCahce fastlyServiceID fastlyAPISecretPrefix
      notFound : String)
    (envVars : List EnvironmentVariable) (autogenerate : Autogenerate)
    (lagoonValues : BuildValues) (autogenRoutes : RoutesV2)
    (hno : ∀ v ∈ envVars,
      ¬ (v.Name = "LAGOON_SYSTEM_ROUTER_PATTERN" ∧ v.Scope = "internal_system")) :
    generateAutogenRoutes sha b32 projectName environmentName fastlyCacheNoCahce
        fastlyServiceID fastlyAPISecretPrefix notFound envVars autogenerate lagoonValues
        autogenRoutes
      = ((lagoonValues, autogenRoutes), some (.error notFound)) := by
  have hg : GetLagoonVariable "LAGOON_SYSTEM_ROUTER_PATTERN" (some ["internal_system"])
      envVars = none := by
    unfold GetLagoonVariable
    rw [List.find?_eq_none]
    intro v hv
    have := hno v hv
    simp only [Bool.and_eq_true, decide_eq_true_eq, List.mem_singleton]
    exact this
  unfold generateAutogenRoutes
  rw [hg]

/-- Witness of C30: the router pattern is there with the scope `build` only, and a service
`nginx` has autogenerated routes enabled. -/
theorem C30_missing_router_pattern_witness :
    generateAutogenRoutes
        (fun _ => "0123456789abcdef0123456789abcdef0123456789abcdef0123456789abcdef")
        (fun _ => "abcdefghijklmnopqrstuvwxyz234567abcdefghijklmnopqrstuvwxyz") "demo" "main"
        "" "" "fastly-api-" "variable not found"
        [⟨"LAGOON_SYSTEM_ROUTER_PATTERN",
          "$\x7bservice\x7d.$\x7bproject\x7d.$\x7benvironment\x7d.example.com", "build"⟩]
        ⟨[], ""⟩
        ⟨[("nginx", { ServiceValues.zero with
          ServiceType := "nginx", AutogeneratedRoutesEnabled := true })]⟩ ⟨[]⟩
      = ((⟨[("nginx", { ServiceValues.zero with
          ServiceType := "nginx", AutogeneratedRoutesEnabled := true })]⟩, ⟨[]⟩),
        some (.error "variable not found")) :=
  C30_missing_router_pattern
    (fun _ => "0123456789abcdef0123456789abcdef0123456789abcdef0123456789abcdef")
    (fun _ => "abcdefghijklmnopqrstuvwxyz234567abcdefghijklmnopqrstuvwxyz") "demo" "main"
    "" "" "fastly-api-" "variable not found"
    [⟨"LAGOON_SYSTEM_ROUTER_PATTERN",
      "$\x7bservice\x7d.$\x7bproject\x7d.$\x7benvironment\x7d.example.com", "build"⟩]
    ⟨[], ""⟩
    ⟨[("nginx", { ServiceValues.zero with
      ServiceType := "nginx", AutogeneratedRoutesEnabled := true })]⟩ ⟨[]⟩
    (by decide)


/-! ## The panic of `GenerateFastlyConfiguration` -/

/-- An entry of `LAGOON_FASTLY_SERVICE_IDS` that is the domain of the route alone makes the
loop over the entries panic, when no entry before it names the route. -/
theorem override_lone_entry_panics (route p : String) (f : Fastly) (pre post : List String)
    (u : String) (hu : Split u ':' = [route])
    (hpre : ∀ t ∈ pre, (Split t ':').head? ≠ some route) :
    (fastlyServiceIDsOverride route p f (pre ++ u :: post)).2
      = some (.panic "index out of range [2]") := by
  rw [override_append, override_of_ne route p f pre hpre]
  simp only [fastlyServiceIDsOverride]
  have he : fastlyServiceIDsEntry route p f u = (f, some (.panic "index out of range [2]")) := by
    unfold fastlyServiceIDsEntry
    simp [hu]
  rw [he]

/-- `GenerateFastlyConfiguration` panics for every route whose domain stands alone as an
entry of `LAGOON_FASTLY_SERVICE_IDS`, when no entry before it names the route and the
global override is absent. -/
theorem GFC_lone_entry_panics (f : Fastly) (nc sid route p : String)
    (vars : List EnvironmentVariable) (ids : EnvironmentVariable) (pre post : List String)
    (u : String)
    (hglobal : GetLagoonVariable "LAGOON_FASTLY_SERVICE_ID" (some ["build", "global"]) vars
      = none)
    (hIDs : GetLagoonVariable "LAGOON_FASTLY_SERVICE_IDS" (some ["build", "global"]) vars
      = some ids)
    (hsplit : Split ids.Value ',' = pre ++ u :: post) (hu : Split u ':' = [route])
    (hpre : ∀ t ∈ pre, (Split t ':').head? ≠ some route) :
    (GenerateFastlyConfiguration f nc sid route p vars).2
      = some (.panic "index out of range [2]") := by
  unfold GenerateFastlyConfiguration
  have h1 : fastlyServiceIDOverride (fastlyDefaults f nc sid) p vars
      = (fastlyDefaults f nc sid, none) := by
    unfold fastlyServiceIDOverride
    rw [hglobal]
  have h2 := override_lone_entry_panics route p (fastlyDefaults f nc sid) pre post u hu hpre
  simp only [h1]
  unfold fastlyServiceIDsVariable
  rw [hIDs]
  simp only [hsplit]
  rcases hr : fastlyServiceIDsOverride route p (fastlyDefaults f nc sid) (pre ++ u :: post)
    with ⟨f1, _ | e⟩
  · rw [hr] at h2
    cases h2
  · rw [hr] at h2
    simp only [] at h2 ⊢
    exact h2

/-- C36, evaluated.  `GenerateFastlyConfiguration` is not total: for the route
`www.example.com` and a `LAGOON_FASTLY_SERVICE_IDS` whose value is that domain alone, and
for the empty route and the empty value, the entry passes the comparison with the route
and the third token of a list of one token is read: the call panics and returns neither a
configuration nor an error. -/
theorem C36_fastly_index_panics :
    (GenerateFastlyConfiguration Fastly.zero "" "" "www.example.com" "fastly-api-"
        [⟨"LAGOON_FASTLY_SERVICE_IDS", "www.example.com", "build"⟩]).2
      = some (.panic "index out of range [2]")
    ∧ Split "" ':' = [""]
    ∧ (GenerateFastlyConfiguration Fastly.zero "" "" "" "fastly-api-"
        [⟨"LAGOON_FASTLY_SERVICE_IDS", "", "build"⟩]).2
      = some (.panic "index out of range [2]") := by
  refine ⟨by rfl, by rfl, by rfl⟩

/-! ## The ingress name of a route with the wildcard flag -/

/-- C37, evaluated.  For the override object `example.com` with `wildcard: false`,
`GenerateRoutesV2` returns no error and the record has the wildcard flag `false` and the
ingress name `wildcard-example.com`, not the domain: the name is set whenever the flag is
given. -/
theorem C37_wildcard_false_named :
    (GenerateRoutesV2 (fun _ => "0123456789abcdef0123456789abcdef") ⟨[]⟩
        [("nginx", [⟨"", [("example.com", { Ingress.zero with Wildcard := some false })]⟩])]
        [] "nginx" false "fastly-api-").2 = none
    ∧ (GenerateRoutesV2 (fun _ => "0123456789abcdef0123456789abcdef") ⟨[]⟩
        [("nginx", [⟨"", [("example.com", { Ingress.zero with Wildcard := some false })]⟩])]
        [] "nginx" false "fastly-api-").1.Routes.map
          (fun r => (r.Domain, r.Wildcard, r.IngressName))
      = [("example.com", some false, "wildcard-example.com")] := by
  refine ⟨by rfl, by rfl⟩

/-- The ingress name of the record made for an override object with one entry: the domain
when the wildcard flag is absent, and the wildcard ingress name when the flag is given,
be it `true` or `false`. -/
theorem generateRoute_ingress_name (h : String → String) (vars : List EnvironmentVariable)
    (cls : String) (activeStandby : Bool) (p rName d : String) (ing : Ingress) (r : RouteV2)
    (hrun : generateRoute h vars cls activeStandby p rName ⟨"", [(d, ing)]⟩ = .ok r) :
    (ing.Wildcard = none → r.IngressName = d)
      ∧ (ing.Wildcard ≠ none → wildcardIngressName h d = .ok r.IngressName) := by
  obtain ⟨name, hr, h1, h2⟩ :=
    generateRoute_single_fields h vars cls activeStandby p rName d ing r hrun
  have hn : r.IngressName = name := by rw [hr]
  rw [hn]
  exact ⟨h1, h2⟩


/-! ## API routes that give the same domain several times -/

theorem forall₂_mem_left {α β : Type} (R : α → β → Prop) (xs : List α) (ys : List β)
    (hf : List.Forall₂ R xs ys) (x : α) (hx : x ∈ xs) : ∃ y ∈ ys, R x y := by
  induction hf with
  | nil => simp at hx
  | cons hr _ ih =>
    rcases List.mem_cons.mp hx with rfl | hx
    · exact ⟨_, List.mem_cons_self _ _, hr⟩
    · obtain ⟨y, hy, hxy⟩ := ih hx
      exact ⟨y, List.mem_cons_of_mem _ hy, hxy⟩

/-- The second round adds the record of the first API route of a domain that the list
does not hold yet. -/
theorem mergeAPIOnly_first (h : String → String) (cls : String) (acc : RoutesV2)
    (pre post : List RouteV2) (a : RouteV2) (out : RoutesV2)
    (hrun : mergeAPIOnly h cls acc (pre ++ a :: post) = (out, none))
    (hacc : a.Domain ∉ acc.Routes.map (·.Domain))
    (hpre : ∀ b ∈ pre, b.Domain ≠ a.Domain) :
    ∃ fr, handleAPIRoute h cls a = (fr, none) ∧ fr ∈ out.Routes := by
  induction pre generalizing acc with
  | nil =>
    simp only [List.nil_append, mergeAPIOnly] at hrun
    by_cases hv : IsDNS1123Subdomain (ToLower a.Domain) ≠ []
    · rw [if_pos hv] at hrun
      simp at hrun
    · rw [if_neg hv] at hrun
      rcases hh : handleAPIRoute h cls a with ⟨fr, _ | e⟩
      · rw [hh] at hrun
        simp only [] at hrun
        have hex : ¬ (acc.Routes.any fun route => decide (a.Domain = route.Domain)) = true := by
          intro hc
          simp only [List.any_eq_true, decide_eq_true_eq] at hc
          obtain ⟨r, hr, hrd⟩ := hc
          exact hacc (List.mem_map.mpr ⟨r, hr, hrd.symm⟩)
        rw [if_neg hex] at hrun
        obtain ⟨_, news, hout, _, _⟩ := mergeAPIOnly_ok h cls _ post out hrun
        refine ⟨fr, rfl, ?_⟩
        rw [hout]
        simp
      · rw [hh] at hrun
        simp at hrun
  | cons b pre ih =>
    simp only [List.cons_append, mergeAPIOnly] at hrun
    have hba : b.Domain ≠ a.Domain := hpre b (List.mem_cons_self _ _)
    have hpre1 : ∀ c ∈ pre, c.Domain ≠ a.Domain :=
      fun c hc => hpre c (List.mem_cons_of_mem _ hc)
    by_cases hv : IsDNS1123Subdomain (ToLower b.Domain) ≠ []
    · rw [if_pos hv] at hrun
      simp at hrun
    · rw [if_neg hv] at hrun
      rcases hh : handleAPIRoute h cls b with ⟨rb, _ | e⟩
      · rw [hh] at hrun
        simp only [] at hrun
        have hrb : rb.Domain = b.Domain := by
          have := handleAPIRoute_domain h cls b
          rw [hh] at this
          exact this
        split_ifs at hrun
        · exact ih acc hrun hacc hpre1
        · apply ih _ hrun _ hpre1
          simp only [List.map_append, List.map_cons, List.map_nil, List.mem_append,
            List.mem_singleton, not_or]
          exact ⟨hacc, fun hc => hba (hrb ▸ hc.symm)⟩
      · rw [hh] at hrun
        simp at hrun

/-- C40. When the routes of the configuration file have pairwise distinct domains and
every domain of the two lists is lowercase, a run of `MergeRoutesV2` without failure
returns pairwise distinct domains, whatever domains the API list repeats; and a domain
that only the API gives is there once, with the record made of the first API route of that
domain. -/
theorem C40_api_duplicates (h : String → String) (yamlRoutes apiRoutes : RoutesV2)
    (vars : List EnvironmentVariable) (cls p : String) (out : RoutesV2)
    (hrun : MergeRoutesV2 h yamlRoutes apiRoutes vars cls p = (out, none))
    (hnd : (yamlRoutes.Routes.map (·.Domain)).Nodup)
    (hlow : ∀ r ∈ yamlRoutes.Routes ++ apiRoutes.Routes, ToLower r.Domain = r.Domain) :
    (out.Routes.map (·.Domain)).Nodup
      ∧ ∀ (pre post : List RouteV2) (a : RouteV2), apiRoutes.Routes = pre ++ a :: post →
          a.Domain ∉ yamlRoutes.Routes.map (·.Domain) →
          (∀ b ∈ pre, b.Domain ≠ a.Domain) →
          ∃ fr, handleAPIRoute h cls a = (fr, none)
            ∧ ({ fr with
                Fastly := (GenerateFastlyConfiguration fr.Fastly "" fr.Fastly.ServiceID
                  fr.Domain p vars).1
                Domain := ToLower fr.Domain } : RouteV2) ∈ out.Routes
            ∧ ∀ o ∈ out.Routes, o.Domain = a.Domain →
                o = { fr with
                  Fastly := (GenerateFastlyConfiguration fr.Fastly "" fr.Fastly.ServiceID
                    fr.Domain p vars).1
                  Domain := ToLower fr.Domain } := by
  have hnodup := merge_nodup h yamlRoutes apiRoutes vars cls p out hrun hnd hlow
  refine ⟨hnodup, ?_⟩
  intro pre post a hapi hny hpre
  unfold MergeRoutesV2 at hrun
  rcases h1 : mergeFirstRound h cls apiRoutes.Routes { Routes := [] } yamlRoutes.Routes
    with ⟨r1, _ | e⟩
  · rw [h1] at hrun
    simp only [] at hrun
    rcases h2 : mergeAPIOnly h cls r1 apiRoutes.Routes with ⟨r2, _ | e⟩
    · rw [h2] at hrun
      simp only [] at hrun
      obtain ⟨hd1, _, _⟩ := merge_rounds h cls _ _ r1 r2 h1 h2
      have h2a := h2
      rw [hapi] at h2a
      obtain ⟨fr, hfr, hmem⟩ := mergeAPIOnly_first h cls r1 pre post a r2 h2a
        (by rw [hd1]; exact hny) hpre
      obtain ⟨n3, hf3, ho3⟩ := appendEach_ok _ _ _ _ hrun
      simp only [List.nil_append] at ho3
      obtain ⟨o1, ho1, hfin⟩ := forall₂_mem_left _ _ _ hf3 fr hmem
      have hoeq := finalRoute_ok vars p fr o1 hfin
      have hfd : fr.Domain = a.Domain := by
        have := handleAPIRoute_domain h cls a
        rw [hfr] at this
        exact this
      have hal : ToLower a.Domain = a.Domain :=
        hlow a (List.mem_append_right _ (by rw [hapi]; simp))
      have hin : ({ fr with
          Fastly := (GenerateFastlyConfiguration fr.Fastly "" fr.Fastly.ServiceID
            fr.Domain p vars).1
          Domain := ToLower fr.Domain } : RouteV2) ∈ out.Routes := by
        rw [ho3, ← hoeq]
        exact ho1
      refine ⟨fr, hfr, hin, ?_⟩
      intro o ho hod
      apply List.inj_on_of_nodup_map hnodup ho hin
      simp only []
      rw [hod, hfd, hal]
    · rw [h2] at hrun
      simp at hrun
  · rw [h1] at hrun
    simp at hrun

/-- Witness of C40: the configuration file has `a.com`; the API gives `b.com` three times
and `a.com` once. -/
theorem C40_api_duplicates_witness :
    ((MergeRoutesV2 (fun _ => "0123456789abcdef0123456789abcdef")
        ⟨[{ RouteV2.zero with Domain := "a.com" }]⟩
        ⟨[{ RouteV2.zero with Domain := "b.com", MonitoringPath := "/first" },
          { RouteV2.zero with Domain := "b.com", MonitoringPath := "/second" },
          { RouteV2.zero with Domain := "a.com" },
          { RouteV2.zero with Domain := "b.com", MonitoringPath := "/third" }]⟩
        [] "nginx" "fastly-api-").1.Routes.map (·.Domain)).Nodup :=
  (C40_api_duplicates (fun _ => "0123456789abcdef0123456789abcdef")
    ⟨[{ RouteV2.zero with Domain := "a.com" }]⟩
    ⟨[{ RouteV2.zero with Domain := "b.com", MonitoringPath := "/first" },
      { RouteV2.zero with Domain := "b.com", MonitoringPath := "/second" },
      { RouteV2.zero with Domain := "a.com" },
      { RouteV2.zero with Domain := "b.com", MonitoringPath := "/third" }]⟩
    [] "nginx" "fastly-api-" _ (by rfl) (by decide) (by decide)).1


/-! ## The fields that the template dereferences -/

/-- The fields of an override object laid over a route keep the five fields set. -/
theorem ingressOverrides_set (cls rName d : String) (nr : RouteV2) (ing : Ingress)
    (hp : nr.TLSAcme ≠ none ∧ nr.Insecure ≠ none ∧ nr.RequestVerification ≠ none
      ∧ nr.Annotations ≠ none ∧ nr.AlternativeNames ≠ none) :
    (ingressOverrides cls rName nr d ing).TLSAcme ≠ none
      ∧ (ingressOverrides cls rName nr d ing).Insecure ≠ none
      ∧ (ingressOverrides cls rName nr d ing).RequestVerification ≠ none
      ∧ (ingressOverrides cls rName nr d ing).Annotations ≠ none
      ∧ (ingressOverrides cls rName nr d ing).AlternativeNames ≠ none := by
  obtain ⟨h1, h2, h3, h4, h5⟩ := hp
  refine ⟨?_, ?_, h3, ?_, ?_⟩
  · show (if ing.TLSAcme.isSome then ing.TLSAcme else nr.TLSAcme) ≠ none
    cases hx : ing.TLSAcme <;> simp [h1]
  · show (if ing.Insecure.isSome then ing.Insecure else nr.Insecure) ≠ none
    cases hx : ing.Insecure <;> simp [h2]
  · show (if ing.Annotations.isSome then ing.Annotations else nr.Annotations) ≠ none
    cases hx : ing.Annotations <;> simp [h4]
  · show (if ing.AlternativeNames.isSome then ing.AlternativeNames
      else nr.AlternativeNames) ≠ none
    cases hx : ing.AlternativeNames <;> simp [h5]

/-- The loop over the entries of an override object keeps the five fields set. -/
theorem applyIngresses_set (h : String → String) (cls rName : String) (nr r : RouteV2)
    (ings : List (String × Ingress))
    (hp : nr.TLSAcme ≠ none ∧ nr.Insecure ≠ none ∧ nr.RequestVerification ≠ none
      ∧ nr.Annotations ≠ none ∧ nr.AlternativeNames ≠ none)
    (hrun : applyIngresses h cls rName nr ings = .ok r) :
    r.TLSAcme ≠ none ∧ r.Insecure ≠ none ∧ r.RequestVerification ≠ none
      ∧ r.Annotations ≠ none ∧ r.AlternativeNames ≠ none := by
  induction ings generalizing nr with
  | nil =>
    simp only [applyIngresses, Except.ok.injEq] at hrun
    rw [← hrun]
    exact hp
  | cons entry rest ih =>
    obtain ⟨d, ing⟩ := entry
    simp only [applyIngresses] at hrun
    rcases hw : ingressWildcard h (ingressOverrides cls rName nr d ing) ing with e | nr1
    · rw [hw] at hrun
      cases hrun
    · rw [hw] at hrun
      simp only [] at hrun
      apply ih (ingressTail nr1 ing) _ hrun
      obtain ⟨h1, h2, h3, h4, h5⟩ := ingressOverrides_set cls rName d nr ing hp
      have hrv : ∀ x : RouteV2, x.RequestVerification ≠ none →
          (ingressTail x ing).RequestVerification ≠ none := by
        intro x hx
        show (if ing.RequestVerification.isSome then ing.RequestVerification
          else x.RequestVerification) ≠ none
        cases hy : ing.RequestVerification <;> simp [hx]
      rcases ingressWildcard_ok h _ nr1 ing hw with ⟨_, hnr⟩ | ⟨name, _, _, hnr⟩
      · rw [hnr]
        exact ⟨h1, h2, hrv _ h3, h4, h5⟩
      · rw [hnr]
        exact ⟨h1, h2, hrv _ h3, h4, h5⟩

/-- A record that the body of the loop of `GenerateRoutesV2` makes has the five fields
set. -/
theorem generateRoute_set (h : String → String) (vars : List EnvironmentVariable)
    (cls : String) (activeStandby : Bool) (p rName : String) (lagoonRoute : Route)
    (r : RouteV2)
    (hrun : generateRoute h vars cls activeStandby p rName lagoonRoute = .ok r) :
    r.TLSAcme ≠ none ∧ r.Insecure ≠ none ∧ r.RequestVerification ≠ none
      ∧ r.Annotations ≠ none ∧ r.AlternativeNames ≠ none := by
  have hdef : (defaultRoute cls activeStandby).TLSAcme ≠ none
      ∧ (defaultRoute cls activeStandby).Insecure ≠ none
      ∧ (defaultRoute cls activeStandby).RequestVerification ≠ none
      ∧ (defaultRoute cls activeStandby).Annotations ≠ none
      ∧ (defaultRoute cls activeStandby).AlternativeNames ≠ none := by
    refine ⟨?_, ?_, ?_, ?_, ?_⟩ <;>
      simp [defaultRoute, defaultTLSAcme, defaultInsecure, defaultRequestVerification,
        defaultAnnotations]
  have hbuilt : ∀ nr : RouteV2,
      (if lagoonRoute.Name = "" then
          applyIngresses h cls rName (defaultRoute cls activeStandby) lagoonRoute.Ingresses
        else
          .ok { defaultRoute cls activeStandby with
            Domain := lagoonRoute.Name, LagoonService := rName,
            IngressName := lagoonRoute.Name }) = .ok nr →
      nr.TLSAcme ≠ none ∧ nr.Insecure ≠ none ∧ nr.RequestVerification ≠ none
        ∧ nr.Annotations ≠ none ∧ nr.AlternativeNames ≠ none := by
    intro nr hb
    by_cases hn : lagoonRoute.Name = ""
    · rw [if_pos hn] at hb
      exact applyIngresses_set h cls rName _ nr _ hdef hb
    · rw [if_neg hn] at hb
      simp only [Except.ok.injEq] at hb
      rw [← hb]
      exact hdef
  unfold generateRoute at hrun
  simp only [] at hrun
  split at hrun
  · cases hrun
  · rename_i nr hb
    have hnr := hbuilt nr hb
    split at hrun
    · cases hrun
    · split_ifs at hrun
      simp only [Except.ok.injEq] at hrun
      rw [← hrun]
      exact hnr

/-- The records that `GenerateRoutesV2` appends, whether it fails or not, are records that
the body of the loop made. -/
theorem GenerateRoutesV2_appended (h : String → String) (yamlRoutes : RoutesV2)
    (routeMap : List (String × List Route)) (vars : List EnvironmentVariable) (cls : String)
    (activeStandby : Bool) (p : String) (out : RoutesV2) (e : Option Failure)
    (hrun : GenerateRoutesV2 h yamlRoutes routeMap vars cls activeStandby p = (out, e)) :
    ∃ news, out.Routes = yamlRoutes.Routes ++ news
      ∧ ∀ n ∈ news, ∃ entry ∈ routeMap, ∃ x ∈ entry.2,
          generateRoute h vars cls activeStandby p entry.1 x = .ok n := by
  induction routeMap generalizing yamlRoutes with
  | nil =>
    simp only [GenerateRoutesV2, Prod.mk.injEq] at hrun
    exact ⟨[], by simp [← hrun.1], by simp⟩
  | cons entry rest ih =>
    obtain ⟨rName, routes⟩ := entry
    simp only [GenerateRoutesV2] at hrun
    rcases hs : generateServiceRoutes h vars cls activeStandby p rName yamlRoutes routes
      with ⟨y1, _ | e1⟩
    · rw [hs] at hrun
      simp only [] at hrun
      obtain ⟨n1, ho1, hv1⟩ := appendEach_prefix _ _ _ _ _ hs
      obtain ⟨n2, ho2, hv2⟩ := ih y1 hrun
      refine ⟨n1 ++ n2, by simp [ho2, ho1], ?_⟩
      intro n hn
      rcases List.mem_append.mp hn with hn | hn
      · obtain ⟨x, hx, hxn⟩ := hv1 n hn
        exact ⟨(rName, routes), List.mem_cons_self _ _, x, hx, hxn⟩
      · obtain ⟨entry, he, x, hx, hxn⟩ := hv2 n hn
        exact ⟨entry, List.mem_cons_of_mem _ he, x, hx, hxn⟩
    · rw [hs] at hrun
      simp only [Prod.mk.injEq] at hrun
      obtain ⟨n1, ho1, hv1⟩ := appendEach_prefix _ _ _ _ _ hs
      refine ⟨n1, by rw [← hrun.1, ho1], ?_⟩
      intro n hn
      obtain ⟨x, hx, hxn⟩ := hv1 n hn
      exact ⟨(rName, routes), List.mem_cons_self _ _, x, hx, hxn⟩

/-- A record that `handleAPIRoute` returns without failure has the five fields set. -/
theorem handleAPIRoute_set (h : String → String) (cls : String) (a r : RouteV2)
    (hrun : handleAPIRoute h cls a = (r, none)) :
    r.TLSAcme ≠ none ∧ r.Insecure ≠ none ∧ r.RequestVerification ≠ none
      ∧ r.Annotations ≠ none ∧ r.AlternativeNames ≠ none := by
  rw [handleAPIRoute_ok h cls a r hrun]
  refine ⟨?_, ?_, ?_, ?_, ?_⟩
  · show (if a.TLSAcme.isSome then a.TLSAcme else defaultTLSAcme) ≠ none
    cases hx : a.TLSAcme <;> simp [defaultTLSAcme]
  · show (if a.Insecure.isSome then a.Insecure else defaultInsecure) ≠ none
    cases hx : a.Insecure <;> simp [defaultInsecure]
  · show (if a.RequestVerification.isSome then a.RequestVerification
      else defaultRequestVerification) ≠ none
    cases hx : a.RequestVerification <;> simp [defaultRequestVerification]
  · show (if a.Annotations.isSome then a.Annotations else defaultAnnotations) ≠ none
    cases hx : a.Annotations <;> simp [defaultAnnotations]
  · show (if a.AlternativeNames.isSome then a.AlternativeNames else some []) ≠ none
    cases hx : a.AlternativeNames <;> simp

/-- Every record of the output of `MergeRoutesV2` comes from a record of the first two
rounds: a route of the configuration file, with the empty list for `nil` alternative
names, or the record of an API route; its Fastly configuration is generated again and its
domain is lowered. -/
theorem merge_origin (h : String → String) (yamlRoutes apiRoutes : RoutesV2)
    (vars : List EnvironmentVariable) (cls p : String) (out : RoutesV2) (o : RouteV2)
    (hrun : MergeRoutesV2 h yamlRoutes apiRoutes vars cls p = (out, none))
    (ho : o ∈ out.Routes) :
    ∃ fr,
      ((∃ r ∈ yamlRoutes.Routes,
          fr = { r with AlternativeNames := some (r.AlternativeNames.getD []) })
        ∨ (∃ a ∈ apiRoutes.Routes, handleAPIRoute h cls a = (fr, none)))
      ∧ o = { fr with
          Fastly := (GenerateFastlyConfiguration fr.Fastly "" fr.Fastly.ServiceID fr.Domain
            p vars).1
          Domain := ToLower fr.Domain } := by
  unfold MergeRoutesV2 at hrun
  rcases h1 : mergeFirstRound h cls apiRoutes.Routes { Routes := [] } yamlRoutes.Routes
    with ⟨r1, _ | e⟩
  · rw [h1] at hrun
    simp only [] at hrun
    rcases h2 : mergeAPIOnly h cls r1 apiRoutes.Routes with ⟨r2, _ | e⟩
    · rw [h2] at hrun
      simp only [] at hrun
      obtain ⟨n1, hf1, ho1⟩ := appendEach_ok _ _ _ _ h1
      obtain ⟨_, n2, ho2, hn2, _⟩ := mergeAPIOnly_ok h cls r1 apiRoutes.Routes r2 h2
      obtain ⟨n3, hf3, ho3⟩ := appendEach_ok _ _ _ _ hrun
      simp only [List.nil_append] at ho1 ho3
      rw [ho3] at ho
      obtain ⟨fr, hfr, hfin⟩ := forall₂_mem_right _ _ _ hf3 o ho
      refine ⟨fr, ?_, finalRoute_ok vars p fr o hfin⟩
      rw [ho2, ho1] at hfr
      rcases List.mem_append.mp hfr with hm | hm
      · obtain ⟨r, hr, hrx⟩ := forall₂_mem_right _ _ _ hf1 fr hm
        rcases mergeYamlRoute_origin h cls apiRoutes.Routes r fr hrx with hk | hk
        · exact Or.inl ⟨r, hr, hk⟩
        · exact Or.inr hk
      · exact Or.inr (hn2 fr hm)
    · rw [h2] at hrun
      simp at hrun
  · rw [h1] at hrun
    simp at hrun

/-- C39. Every record that `GenerateRoutesV2` appends, whether it fails or not, and every
record that `handleAPIRoute` returns without failure has TLS-acme, the insecure policy and
request verification set, and annotations and alternative names that are not `nil`.  So
when the records that `GenerateRoutesV2` started from have these fields set too (there are
none when it starts from the empty list), every record that `MergeRoutesV2` returns for its
output has them set, and the two dereferences of `GenerateIngressTemplate`, of TLS-acme and
of the insecure policy, do not panic on it. -/
theorem C39_fields_set (h : String → String) (yamlRoutes : RoutesV2)
    (routeMap : List (String × List Route)) (vars : List EnvironmentVariable) (cls : String)
    (activeStandby : Bool) (p : String) (generated : RoutesV2) (e : Option Failure)
    (hgen : GenerateRoutesV2 h yamlRoutes routeMap vars cls activeStandby p
      = (generated, e)) :
    (∃ news, generated.Routes = yamlRoutes.Routes ++ news
        ∧ ∀ n ∈ news, n.TLSAcme ≠ none ∧ n.Insecure ≠ none ∧ n.RequestVerification ≠ none
          ∧ n.Annotations ≠ none ∧ n.AlternativeNames ≠ none)
      ∧ (∀ a r : RouteV2, handleAPIRoute h cls a = (r, none) →
          r.TLSAcme ≠ none ∧ r.Insecure ≠ none ∧ r.RequestVerification ≠ none
            ∧ r.Annotations ≠ none ∧ r.AlternativeNames ≠ none)
      ∧ ((∀ r ∈ yamlRoutes.Routes,
            r.TLSAcme ≠ none ∧ r.Insecure ≠ none ∧ r.RequestVerification ≠ none
              ∧ r.Annotations ≠ none ∧ r.AlternativeNames ≠ none) →
          ∀ (apiRoutes out : RoutesV2),
            MergeRoutesV2 h generated apiRoutes vars cls p = (out, none) →
            ∀ o ∈ out.Routes,
              (o.TLSAcme ≠ none ∧ o.Insecure ≠ none ∧ o.RequestVerification ≠ none
                ∧ o.Annotations ≠ none ∧ o.AlternativeNames ≠ none)
              ∧ (∃ t, tlsAcmeAnnotation o = .ok t)
              ∧ ∃ s, sslRedirectAnnotation o = .ok s) := by
  obtain ⟨news, hout, hnews⟩ :=
    GenerateRoutesV2_appended h yamlRoutes routeMap vars cls activeStandby p generated e hgen
  have hset : ∀ n ∈ news, n.TLSAcme ≠ none ∧ n.Insecure ≠ none
      ∧ n.RequestVerification ≠ none ∧ n.Annotations ≠ none ∧ n.AlternativeNames ≠ none := by
    intro n hn
    obtain ⟨entry, _, x, _, hx⟩ := hnews n hn
    exact generateRoute_set h vars cls activeStandby p entry.1 x n hx
  refine ⟨⟨news, hout, hset⟩, fun a r hr => handleAPIRoute_set h cls a r hr, ?_⟩
  intro hstart apiRoutes out hmerge o ho
  have hgenset : ∀ r ∈ generated.Routes, r.TLSAcme ≠ none ∧ r.Insecure ≠ none
      ∧ r.RequestVerification ≠ none ∧ r.Annotations ≠ none ∧ r.AlternativeNames ≠ none := by
    intro r hr
    rw [hout] at hr
    rcases List.mem_append.mp hr with hr | hr
    · exact hstart r hr
    · exact hset r hr
  obtain ⟨fr, horigin, hoeq⟩ := merge_origin h generated apiRoutes vars cls p out o hmerge ho
  have hfr : fr.TLSAcme ≠ none ∧ fr.Insecure ≠ none ∧ fr.RequestVerification ≠ none
      ∧ fr.Annotations ≠ none ∧ fr.AlternativeNames ≠ none := by
    rcases horigin with ⟨r, hr, hfr⟩ | ⟨a, _, ha⟩
    · obtain ⟨h1, h2, h3, h4, _⟩ := hgenset r hr
      rw [hfr]
      exact ⟨h1, h2, h3, h4, by simp⟩
    · exact handleAPIRoute_set h cls a fr ha
  have hoset : o.TLSAcme ≠ none ∧ o.Insecure ≠ none ∧ o.RequestVerification ≠ none
      ∧ o.Annotations ≠ none ∧ o.AlternativeNames ≠ none := by
    rw [hoeq]
    exact hfr
  refine ⟨hoset, ?_, ?_⟩
  · unfold tlsAcmeAnnotation
    rcases ht : o.TLSAcme with _ | t
    · exact absurd ht hoset.1
    · exact ⟨_, rfl⟩
  · unfold sslRedirectAnnotation
    rcases hi : o.Insecure with _ | i
    · exact absurd hi hoset.2.1
    · simp only []
      split_ifs
      · exact ⟨_, rfl⟩
      · exact ⟨_, rfl⟩
      · exact ⟨_, rfl⟩

/-- Witness of C39: the route map has the bare domain `www.example.com` and an override
object for `shop.example.com` that sets the insecure policy. -/
theorem C39_fields_set_witness :
    ∃ news, (GenerateRoutesV2 (fun _ => "0123456789abcdef0123456789abcdef") ⟨[]⟩
          [("nginx", [⟨"www.example.com", []⟩,
            ⟨"", [("shop.example.com", { Ingress.zero with Insecure := some "Allow" })]⟩])]
          [] "nginx" false "fastly-api-").1.Routes = ([] : List RouteV2) ++ news
      ∧ ∀ n ∈ news, n.TLSAcme ≠ none ∧ n.Insecure ≠ none ∧ n.RequestVerification ≠ none
          ∧ n.Annotations ≠ none ∧ n.AlternativeNames ≠ none :=
  (C39_fields_set (fun _ => "0123456789abcdef0123456789abcdef") ⟨[]⟩
    [("nginx", [⟨"www.example.com", []⟩,
      ⟨"", [("shop.example.com", { Ingress.zero with Insecure := some "Allow" })]⟩])]
    [] "nginx" false "fastly-api-" _ none (by rfl)).1


/-! ## The routes of `generateAutogenRoutes` -/

/-- The two conditions of the loop of `generateAutogenRoutes`. -/
theorem autogenEligible_iff (service : ServiceValues) :
    autogenEligible service = true
      ↔ service.AutogeneratedRoutesEnabled = true
        ∧ service.ServiceType ∈ supportedAutogeneratedTypes := by
  simp [autogenEligible]

/-- The body of the loop for a service that gets no route: nothing changes. -/
theorem autogenService_skip (sha b32 : String → String)
    (projectName environmentName nc sid p : String) (envVars : List EnvironmentVariable)
    (autogenerate : Autogenerate) (pattern : String) (st : BuildValues × RoutesV2)
    (serviceName : String) (service : ServiceValues)
    (hno : autogenEligible service = false) :
    autogenService sha b32 projectName environmentName nc sid p envVars autogenerate pattern
      st serviceName service = (st, none) := by
  unfold autogenService
  by_cases he : service.AutogeneratedRoutesEnabled = true
  · have ht : service.ServiceType ∉ supportedAutogeneratedTypes := by
      intro hc
      have := (autogenEligible_iff service).mpr ⟨he, hc⟩
      rw [hno] at this
      cases this
    rw [if_pos he, if_neg ht]
  · rw [if_neg he]

/-- The body of the loop for a service that gets a route, when the Fastly configuration is
generated without failure: the entry of the service in the build values is written and the
route is appended. -/
theorem autogenService_ok (sha b32 : String → String)
    (projectName environmentName nc sid p : String) (envVars : List EnvironmentVariable)
    (autogenerate : Autogenerate) (pattern : String) (st : BuildValues × RoutesV2)
    (serviceName : String) (service : ServiceValues)
    (hyes : autogenEligible service = true)
    (hcdn : (GenerateFastlyConfiguration Fastly.zero nc sid
      (AutogeneratedDomainFromPattern sha b32 projectName environmentName pattern
        (serviceTypeNameOf serviceName service)).1 p envVars).2 = none) :
    autogenService sha b32 projectName environmentName nc sid p envVars autogenerate pattern
        st serviceName service
      = (({ Services := (setService st.1.Services serviceName
            (autogeneratedServiceValues sha b32 projectName environmentName pattern
              serviceName service)) },
          { Routes := st.2.Routes ++ [autogeneratedRoute sha b32 projectName environmentName
            nc sid p envVars autogenerate pattern serviceName service] }), none) := by
  obtain ⟨he, ht⟩ := (autogenEligible_iff service).mp hyes
  unfold autogenService
  rw [if_pos he, if_pos ht]
  simp only []
  rcases hg : GenerateFastlyConfiguration Fastly.zero nc sid
      (AutogeneratedDomainFromPattern sha b32 projectName environmentName pattern
        (serviceTypeNameOf serviceName service)).1 p envVars with ⟨f, _ | e⟩
  · have hg1 : GenerateFastlyConfiguration Fastly.zero nc sid
        (AutogeneratedDomainFromPattern sha b32 projectName environmentName pattern
          (if service.TypeName ≠ "" then service.TypeName else serviceName)).1 p envVars
        = (f, none) := hg
    simp only [hg1]
    simp only [autogeneratedRoute, autogeneratedServiceValues, serviceTypeNameOf, hg1]
  · rw [hg] at hcdn
    cases hcdn

/-- The body of the loop for a service that gets a route, when the Fastly configuration
fails: the failure is returned and no route is appended. -/
theorem autogenService_fails (sha b32 : String → String)
    (projectName environmentName nc sid p : String) (envVars : List EnvironmentVariable)
    (autogenerate : Autogenerate) (pattern : String) (st : BuildValues × RoutesV2)
    (serviceName : String) (service : ServiceValues) (e : Failure)
    (hyes : autogenEligible service = true)
    (hcdn : (GenerateFastlyConfiguration Fastly.zero nc sid
      (AutogeneratedDomainFromPattern sha b32 projectName environmentName pattern
        (serviceTypeNameOf serviceName service)).1 p envVars).2 = some e) :
    (autogenService sha b32 projectName environmentName nc sid p envVars autogenerate pattern
        st serviceName service).2 = some e
      ∧ (autogenService sha b32 projectName environmentName nc sid p envVars autogenerate
        pattern st serviceName service).1.2 = st.2 := by
  obtain ⟨he, ht⟩ := (autogenEligible_iff service).mp hyes
  unfold autogenService
  rw [if_pos he, if_pos ht]
  simp only []
  rcases hg : GenerateFastlyConfiguration Fastly.zero nc sid
      (AutogeneratedDomainFromPattern sha b32 projectName environmentName pattern
        (serviceTypeNameOf serviceName service)).1 p envVars with ⟨f, _ | e1⟩
  · rw [hg] at hcdn
    cases hcdn
  · have hg1 : GenerateFastlyConfiguration Fastly.zero nc sid
        (AutogeneratedDomainFromPattern sha b32 projectName environmentName pattern
          (if service.TypeName ≠ "" then service.TypeName else serviceName)).1 p envVars
        = (f, some e1) := hg
    rw [hg] at hcdn
    simp only [Option.some.injEq] at hcdn
    subst hcdn
    simp only [hg1]
    exact ⟨trivial, trivial⟩

/-- The loop over the services, when the Fastly configuration is generated without failure
for every service that gets a route: the routes of these services are appended, one for
one and in the order of the enumeration, and their entries in the build values are
written. -/
theorem autogenServices_ok (sha b32 : String → String)
    (projectName environmentName nc sid p : String) (envVars : List EnvironmentVariable)
    (autogenerate : Autogenerate) (pattern : String) (st : BuildValues × RoutesV2)
    (services : List (String × ServiceValues))
    (hcdn : ∀ entry ∈ services, autogenEligible entry.2 = true →
      (GenerateFastlyConfiguration Fastly.zero nc sid
        (AutogeneratedDomainFromPattern sha b32 projectName environmentName pattern
          (serviceTypeNameOf entry.1 entry.2)).1 p envVars).2 = none) :
    autogenServices sha b32 projectName environmentName nc sid p envVars autogenerate pattern
        st services
      = (({ Services := (services.filter fun entry => autogenEligible entry.2).foldl
              (fun vs entry => setService vs entry.1
                (autogeneratedServiceValues sha b32 projectName environmentName pattern
                  entry.1 entry.2)) st.1.Services },
          { Routes := st.2.Routes
              ++ (services.filter fun entry => autogenEligible entry.2).map fun entry =>
                autogeneratedRoute sha b32 projectName environmentName nc sid p envVars
                  autogenerate pattern entry.1 entry.2 }), none) := by
  induction services generalizing st with
  | nil => simp [autogenServices]
  | cons entry rest ih =>
    obtain ⟨serviceName, service⟩ := entry
    have hrest : ∀ entry ∈ rest, autogenEligible entry.2 = true →
        (GenerateFastlyConfiguration Fastly.zero nc sid
          (AutogeneratedDomainFromPattern sha b32 projectName environmentName pattern
            (serviceTypeNameOf entry.1 entry.2)).1 p envVars).2 = none :=
      fun entry he => hcdn entry (List.mem_cons_of_mem _ he)
    by_cases hel : autogenEligible service = true
    · have hstep := autogenService_ok sha b32 projectName environmentName nc sid p envVars
        autogenerate pattern st serviceName service hel
        (hcdn (serviceName, service) (List.mem_cons_self _ _) hel)
      simp only [autogenServices, hstep]
      rw [ih _ hrest]
      simp [List.filter_cons, hel]
    · have hno : autogenEligible service = false := by
        cases hx : autogenEligible service
        · rfl
        · exact absurd hx hel
      have hstep := autogenService_skip sha b32 projectName environmentName nc sid p envVars
        autogenerate pattern st serviceName service hno
      simp only [autogenServices, hstep]
      rw [ih _ hrest]
      simp [List.filter_cons, hno]

/-- C31. When the router pattern is there and `GenerateFastlyConfiguration` does not fail
for the domain of any service that has autogenerated routes enabled and a type of the list
of supported types, `generateAutogenRoutes` returns no error and appends one route for each
of these services, in the order of the enumeration, and none for any other service.  The
route of a service has the domain that `AutogeneratedDomainFromPattern` makes of the
pattern and the type name of the service (its name when it has no type name), the
alternative names `prefix.domain` for the prefixes of the configuration in their order,
the TLS-acme flag of the service, and the insecure policy of the configuration when that is
not empty and `Allow` when it is. -/
theorem C31_autogenerated_routes (sha b32 : String → String)
    (projectName environmentName nc sid p notFound : String)
    (envVars : List EnvironmentVariable) (autogenerate : Autogenerate)
    (lagoonValues : BuildValues) (autogenRoutes : RoutesV2) (pat : EnvironmentVariable)
    (hpat : GetLagoonVariable "LAGOON_SYSTEM_ROUTER_PATTERN" (some ["internal_system"])
      envVars = some pat)
    (hcdn : ∀ entry ∈ lagoonValues.Services, autogenEligible entry.2 = true →
      (GenerateFastlyConfiguration Fastly.zero nc sid
        (AutogeneratedDomainFromPattern sha b32 projectName environmentName pat.Value
          (serviceTypeNameOf entry.1 entry.2)).1 p envVars).2 = none) :
    (∃ values out,
        generateAutogenRoutes sha b32 projectName environmentName nc sid p notFound envVars
          autogenerate lagoonValues autogenRoutes = ((values, out), none)
        ∧ out.Routes = autogenRoutes.Routes
            ++ (lagoonValues.Services.filter fun entry => autogenEligible entry.2).map
              fun entry => autogeneratedRoute sha b32 projectName environmentName nc sid p
                envVars autogenerate pat.Value entry.1 entry.2)
      ∧ (∀ service : ServiceValues, autogenEligible service = true
          ↔ service.AutogeneratedRoutesEnabled = true
            ∧ service.ServiceType ∈ supportedAutogeneratedTypes)
      ∧ ∀ (serviceName : String) (service : ServiceValues),
          (autogeneratedRoute sha b32 projectName environmentName nc sid p envVars
              autogenerate pat.Value serviceName service).Domain
            = (AutogeneratedDomainFromPattern sha b32 projectName environmentName pat.Value
                (if service.TypeName ≠ "" then service.TypeName else serviceName)).1
          ∧ (autogeneratedRoute sha b32 projectName environmentName nc sid p envVars
              autogenerate pat.Value serviceName service).AlternativeNames
            = some (autogenerate.Prefixes.map fun altName => altName ++ "."
                ++ (autogeneratedRoute sha b32 projectName environmentName nc sid p envVars
                  autogenerate pat.Value serviceName service).Domain)
          ∧ (autogeneratedRoute sha b32 projectName environmentName nc sid p envVars
              autogenerate pat.Value serviceName service).TLSAcme
            = some service.AutogeneratedRoutesTLSAcme
          ∧ (autogeneratedRoute sha b32 projectName environmentName nc sid p envVars
              autogenerate pat.Value serviceName service).Insecure
            = some (if autogenerate.Insecure ≠ "" then autogenerate.Insecure else "Allow") := by
  refine ⟨?_, autogenEligible_iff, fun serviceName service => ⟨rfl, rfl, rfl, rfl⟩⟩
  unfold generateAutogenRoutes
  rw [hpat]
  simp only []
  rw [autogenServices_ok sha b32 projectName environmentName nc sid p envVars autogenerate
    pat.Value (lagoonValues, autogenRoutes) lagoonValues.Services hcdn]
  exact ⟨_, _, rfl, rfl⟩

/-- Witness of C31: the services `nginx` (type `nginx`, enabled), `mariadb` (enabled, but
of a type that is not supported) and `node` (not enabled), with the prefix `www`. -/
theorem C31_autogenerated_routes_witness :
    ∃ values out,
      generateAutogenRoutes
          (fun _ => "0123456789abcdef0123456789abcdef0123456789abcdef0123456789abcdef")
          (fun _ => "abcdefghijklmnopqrstuvwxyz234567abcdefghijklmnopqrstuvwxyz") "demo" "main"
          "" "" "fastly-api-" "variable not found"
          [⟨"LAGOON_SYSTEM_ROUTER_PATTERN",
            "$\x7bservice\x7d.$\x7bproject\x7d.$\x7benvironment\x7d.example.com",
            "internal_system"⟩]
          ⟨["www"], ""⟩
          ⟨[("nginx", { ServiceValues.zero with
              ServiceType := "nginx", AutogeneratedRoutesEnabled := true,
              AutogeneratedRoutesTLSAcme := true }),
            ("mariadb", { ServiceValues.zero with
              ServiceType := "mariadb", AutogeneratedRoutesEnabled := true }),
            ("node", { ServiceValues.zero with ServiceType := "node" })]⟩ ⟨[]⟩
        = ((values, out), none)
      ∧ out.Routes = ([] : List RouteV2)
          ++ ([("nginx", { ServiceValues.zero with
                ServiceType := "nginx", AutogeneratedRoutesEnabled := true,
                AutogeneratedRoutesTLSAcme := true }),
              ("mariadb", { ServiceValues.zero with
                ServiceType := "mariadb", AutogeneratedRoutesEnabled := true }),
              ("node", { ServiceValues.zero with ServiceType := "node" })].filter
                fun entry => autogenEligible entry.2).map
            fun entry => autogeneratedRoute
              (fun _ => "0123456789abcdef0123456789abcdef0123456789abcdef0123456789abcdef")
              (fun _ => "abcdefghijklmnopqrstuvwxyz234567abcdefghijklmnopqrstuvwxyz") "demo"
              "main" "" "" "fastly-api-"
              [⟨"LAGOON_SYSTEM_ROUTER_PATTERN",
                "$\x7bservice\x7d.$\x7bproject\x7d.$\x7benvironment\x7d.example.com",
                "internal_system"⟩]
              ⟨["www"], ""⟩
              "$\x7bservice\x7d.$\x7bproject\x7d.$\x7benvironment\x7d.example.com"
              entry.1 entry.2 :=
  (C31_autogenerated_routes
    (fun _ => "0123456789abcdef0123456789abcdef0123456789abcdef0123456789abcdef")
    (fun _ => "abcdefghijklmnopqrstuvwxyz234567abcdefghijklmnopqrstuvwxyz") "demo" "main"
    "" "" "fastly-api-" "variable not found"
    [⟨"LAGOON_SYSTEM_ROUTER_PATTERN",
      "$\x7bservice\x7d.$\x7bproject\x7d.$\x7benvironment\x7d.example.com",
      "internal_system"⟩]
    ⟨["www"], ""⟩
    ⟨[("nginx", { ServiceValues.zero with
        ServiceType := "nginx", AutogeneratedRoutesEnabled := true,
        AutogeneratedRoutesTLSAcme := true }),
      ("mariadb", { ServiceValues.zero with
        ServiceType := "mariadb", AutogeneratedRoutesEnabled := true }),
      ("node", { ServiceValues.zero with ServiceType := "node" })]⟩ ⟨[]⟩
    ⟨"LAGOON_SYSTEM_ROUTER_PATTERN",
      "$\x7bservice\x7d.$\x7bproject\x7d.$\x7benvironment\x7d.example.com",
      "internal_system"⟩
    (by decide) (by decide)).1

/-! ## The autogenerated flag -/

/-- The record of an autogenerated route has the flag `Autogenerated` not set; it is the
label `lagoon.sh/autogenerated` that says `true`. -/
theorem autogeneratedRoute_flag (sha b32 : String → String)
    (projectName environmentName nc sid p : String) (envVars : List EnvironmentVariable)
    (autogenerate : Autogenerate) (pattern serviceName : String) (service : ServiceValues) :
    (autogeneratedRoute sha b32 projectName environmentName nc sid p envVars autogenerate
        pattern serviceName service).Autogenerated = false
      ∧ ∃ labels, (autogeneratedRoute sha b32 projectName environmentName nc sid p envVars
          autogenerate pattern serviceName service).Labels = some labels
        ∧ labels.lookup "lagoon.sh/autogenerated" = some "true" :=
  ⟨rfl, _, rfl, rfl⟩

/-- Every route that `generateAutogenRoutes` appends in a run without failure has the flag
`Autogenerated` not set. -/
theorem generateAutogenRoutes_flag (sha b32 : String → String)
    (projectName environmentName nc sid p notFound : String)
    (envVars : List EnvironmentVariable) (autogenerate : Autogenerate)
    (lagoonValues : BuildValues) (autogenRoutes : RoutesV2) (pat : EnvironmentVariable)
    (hpat : GetLagoonVariable "LAGOON_SYSTEM_ROUTER_PATTERN" (some ["internal_system"])
      envVars = some pat)
    (hcdn : ∀ entry ∈ lagoonValues.Services, autogenEligible entry.2 = true →
      (GenerateFastlyConfiguration Fastly.zero nc sid
        (AutogeneratedDomainFromPattern sha b32 projectName environmentName pat.Value
          (serviceTypeNameOf entry.1 entry.2)).1 p envVars).2 = none) :
    ∃ news, (generateAutogenRoutes sha b32 projectName environmentName nc sid p notFound
          envVars autogenerate lagoonValues autogenRoutes).1.2.Routes
        = autogenRoutes.Routes ++ news
      ∧ news.length
        = (lagoonValues.Services.filter fun entry => autogenEligible entry.2).length
      ∧ ∀ n ∈ news, n.Autogenerated = false := by
  unfold generateAutogenRoutes
  rw [hpat]
  simp only []
  rw [autogenServices_ok sha b32 projectName environmentName nc sid p envVars autogenerate
    pat.Value (lagoonValues, autogenRoutes) lagoonValues.Services hcdn]
  refine ⟨_, rfl, by simp, ?_⟩
  intro n hn
  obtain ⟨entry, _, he⟩ := List.mem_map.mp hn
  rw [← he]
  rfl

/-- C32, evaluated.  For the service `nginx` of type `nginx` with autogenerated routes
enabled, `generateAutogenRoutes` returns no error and appends the route
`nginx.demo.main.example.com`, whose flag `Autogenerated` is `false`: the record that the
code builds does not set the field. -/
theorem C32_autogenerated_flag_unset :
    (generateAutogenRoutes
        (fun _ => "0123456789abcdef0123456789abcdef0123456789abcdef0123456789abcdef")
        (fun _ => "abcdefghijklmnopqrstuvwxyz234567abcdefghijklmnopqrstuvwxyz") "demo" "main"
        "" "" "fastly-api-" "variable not found"
        [⟨"LAGOON_SYSTEM_ROUTER_PATTERN",
          "$\x7bservice\x7d.$\x7bproject\x7d.$\x7benvironment\x7d.example.com",
          "internal_system"⟩]
        ⟨[], ""⟩
        ⟨[("nginx", { ServiceValues.zero with
            ServiceType := "nginx", AutogeneratedRoutesEnabled := true })]⟩ ⟨[]⟩).2 = none
    ∧ (generateAutogenRoutes
        (fun _ => "0123456789abcdef0123456789abcdef0123456789abcdef0123456789abcdef")
        (fun _ => "abcdefghijklmnopqrstuvwxyz234567abcdefghijklmnopqrstuvwxyz") "demo" "main"
        "" "" "fastly-api-" "variable not found"
        [⟨"LAGOON_SYSTEM_ROUTER_PATTERN",
          "$\x7bservice\x7d.$\x7bproject\x7d.$\x7benvironment\x7d.example.com",
          "internal_system"⟩]
        ⟨[], ""⟩
        ⟨[("nginx", { ServiceValues.zero with
            ServiceType := "nginx", AutogeneratedRoutesEnabled := true })]⟩
        ⟨[]⟩).1.2.Routes.map (fun r => (r.Domain, r.Autogenerated))
      = [("nginx.demo.main.example.com", false)] := by
  refine ⟨by rfl, by rfl⟩

/-! ## What `generateAutogenRoutes` writes to the build values -/

/-- The record that is written to the entry of a service holds the two domains and
nothing of what the entry held: the type, the type name and the two flags are those of the
zero value. -/
theorem autogeneratedServiceValues_fields (sha b32 : String → String)
    (projectName environmentName pattern serviceName : String) (service : ServiceValues) :
    (autogeneratedServiceValues sha b32 projectName environmentName pattern serviceName
        service).ServiceType = ""
      ∧ (autogeneratedServiceValues sha b32 projectName environmentName pattern serviceName
        service).TypeName = ""
      ∧ (autogeneratedServiceValues sha b32 projectName environmentName pattern serviceName
        service).AutogeneratedRoutesEnabled = false
      ∧ (autogeneratedServiceValues sha b32 projectName environmentName pattern serviceName
        service).AutogeneratedRoutesTLSAcme = false :=
  ⟨rfl, rfl, rfl, rfl⟩

/-- The build values after a run of `generateAutogenRoutes` without failure: the entries
of the services that got a route are written, one after the other. -/
theorem generateAutogenRoutes_values (sha b32 : String → String)
    (projectName environmentName nc sid p notFound : String)
    (envVars : List EnvironmentVariable) (autogenerate : Autogenerate)
    (lagoonValues : BuildValues) (autogenRoutes : RoutesV2) (pat : EnvironmentVariable)
    (hpat : GetLagoonVariable "LAGOON_SYSTEM_ROUTER_PATTERN" (some ["internal_system"])
      envVars = some pat)
    (hcdn : ∀ entry ∈ lagoonValues.Services, autogenEligible entry.2 = true →
      (GenerateFastlyConfiguration Fastly.zero nc sid
        (AutogeneratedDomainFromPattern sha b32 projectName environmentName pat.Value
          (serviceTypeNameOf entry.1 entry.2)).1 p envVars).2 = none) :
    (generateAutogenRoutes sha b32 projectName environmentName nc sid p notFound envVars
        autogenerate lagoonValues autogenRoutes).1.1.Services
      = (lagoonValues.Services.filter fun entry => autogenEligible entry.2).foldl
          (fun vs entry => setService vs entry.1
            (autogeneratedServiceValues sha b32 projectName environmentName pat.Value
              entry.1 entry.2)) lagoonValues.Services := by
  unfold generateAutogenRoutes
  rw [hpat]
  simp only []
  rw [autogenServices_ok sha b32 projectName environmentName nc sid p envVars autogenerate
    pat.Value (lagoonValues, autogenRoutes) lagoonValues.Services hcdn]

/-- The build values are as they were when no service gets a route. -/
theorem generateAutogenRoutes_values_unchanged (sha b32 : String → String)
    (projectName environmentName nc sid p notFound : String)
    (envVars : List EnvironmentVariable) (autogenerate : Autogenerate)
    (lagoonValues : BuildValues) (autogenRoutes : RoutesV2)
    (hnone : ∀ entry ∈ lagoonValues.Services, autogenEligible entry.2 = false) :
    (generateAutogenRoutes sha b32 projectName environmentName nc sid p notFound envVars
        autogenerate lagoonValues autogenRoutes).1 = (lagoonValues, autogenRoutes) := by
  unfold generateAutogenRoutes
  rcases hpat : GetLagoonVariable "LAGOON_SYSTEM_ROUTER_PATTERN" (some ["internal_system"])
    envVars with _ | pat
  · rfl
  · simp only []
    have hf : (lagoonValues.Services.filter fun entry => autogenEligible entry.2) = [] := by
      rw [List.filter_eq_nil_iff]
      intro entry he
      rw [hnone entry he]
      simp
    rw [autogenServices_ok sha b32 projectName environmentName nc sid p envVars autogenerate
      pat.Value (lagoonValues, autogenRoutes) lagoonValues.Services
      (fun entry he hel => by rw [hnone entry he] at hel; cases hel)]
    simp [hf]

/-- C33, evaluated.  The service `nginx` has the type `nginx`, autogenerated routes
enabled and the TLS flag set.  After `generateAutogenRoutes` has returned without error
its entry in the build values holds the two autogenerated domains and nothing else: the
type is empty and the two flags are `false`. -/
theorem C33_service_values_overwritten :
    (generateAutogenRoutes
        (fun _ => "0123456789abcdef0123456789abcdef0123456789abcdef0123456789abcdef")
        (fun _ => "abcdefghijklmnopqrstuvwxyz234567abcdefghijklmnopqrstuvwxyz") "demo" "main"
        "" "" "fastly-api-" "variable not found"
        [⟨"LAGOON_SYSTEM_ROUTER_PATTERN",
          "$\x7bservice\x7d.$\x7bproject\x7d.$\x7benvironment\x7d.example.com",
          "internal_system"⟩]
        ⟨[], ""⟩
        ⟨[("nginx", { ServiceValues.zero with
            ServiceType := "nginx", AutogeneratedRoutesEnabled := true,
            AutogeneratedRoutesTLSAcme := true })]⟩ ⟨[]⟩).2 = none
    ∧ (generateAutogenRoutes
        (fun _ => "0123456789abcdef0123456789abcdef0123456789abcdef0123456789abcdef")
        (fun _ => "abcdefghijklmnopqrstuvwxyz234567abcdefghijklmnopqrstuvwxyz") "demo" "main"
        "" "" "fastly-api-" "variable not found"
        [⟨"LAGOON_SYSTEM_ROUTER_PATTERN",
          "$\x7bservice\x7d.$\x7bproject\x7d.$\x7benvironment\x7d.example.com",
          "internal_system"⟩]
        ⟨[], ""⟩
        ⟨[("nginx", { ServiceValues.zero with
            ServiceType := "nginx", AutogeneratedRoutesEnabled := true,
            AutogeneratedRoutesTLSAcme := true })]⟩ ⟨[]⟩).1.1.Services
      = [("nginx", { ServiceValues.zero with
          AutogeneratedRouteDomain := "nginx.demo.main.example.com",
          ShortAutogeneratedRouteDomain := "nginx.abcdefgh.abcdefgh.example.com" })]
    ∧ ({ ServiceValues.zero with
          AutogeneratedRouteDomain := "nginx.demo.main.example.com",
          ShortAutogeneratedRouteDomain := "nginx.abcdefgh.abcdefgh.example.com" }
        : ServiceValues).ServiceType = ""
    ∧ ({ ServiceValues.zero with
          AutogeneratedRouteDomain := "nginx.demo.main.example.com",
          ShortAutogeneratedRouteDomain := "nginx.abcdefgh.abcdefgh.example.com" }
        : ServiceValues).AutogeneratedRoutesEnabled = false := by
  refine ⟨by rfl, by rfl, rfl, rfl⟩

/-! ## The order of the routes and the order of the enumeration -/

/-- C34, evaluated.  The same route map, two services with one domain each, enumerated in
its two orders: `GenerateRoutesV2` returns no error both times and the two route lists
have the domains in different orders.  The same holds for the services of
`generateAutogenRoutes`. -/
theorem C34_order_follows_enumeration :
    List.Perm [("nginx", [(⟨"a.com", []⟩ : Route)]), ("node", [⟨"b.com", []⟩])]
      [("node", [⟨"b.com", []⟩]), ("nginx", [⟨"a.com", []⟩])]
    ∧ (GenerateRoutesV2 (fun _ => "0123456789abcdef0123456789abcdef") ⟨[]⟩
        [("nginx", [⟨"a.com", []⟩]), ("node", [⟨"b.com", []⟩])]
        [] "nginx" false "fastly-api-").2 = none
    ∧ (GenerateRoutesV2 (fun _ => "0123456789abcdef0123456789abcdef") ⟨[]⟩
        [("nginx", [⟨"a.com", []⟩]), ("node", [⟨"b.com", []⟩])]
        [] "nginx" false "fastly-api-").1.Routes.map (·.Domain) = ["a.com", "b.com"]
    ∧ (GenerateRoutesV2 (fun _ => "0123456789abcdef0123456789abcdef") ⟨[]⟩
        [("node", [⟨"b.com", []⟩]), ("nginx", [⟨"a.com", []⟩])]
        [] "nginx" false "fastly-api-").2 = none
    ∧ (GenerateRoutesV2 (fun _ => "0123456789abcdef0123456789abcdef") ⟨[]⟩
        [("node", [⟨"b.com", []⟩]), ("nginx", [⟨"a.com", []⟩])]
        [] "nginx" false "fastly-api-").1.Routes.map (·.Domain) = ["b.com", "a.com"]
    ∧ (generateAutogenRoutes
        (fun _ => "0123456789abcdef0123456789abcdef0123456789abcdef0123456789abcdef")
        (fun _ => "abcdefghijklmnopqrstuvwxyz234567abcdefghijklmnopqrstuvwxyz") "demo" "main"
        "" "" "fastly-api-" "variable not found"
        [⟨"LAGOON_SYSTEM_ROUTER_PATTERN",
          "$\x7bservice\x7d.$\x7bproject\x7d.$\x7benvironment\x7d.example.com",
          "internal_system"⟩]
        ⟨[], ""⟩
        ⟨[("nginx", { ServiceValues.zero with
            ServiceType := "nginx", AutogeneratedRoutesEnabled := true }),
          ("node", { ServiceValues.zero with
            ServiceType := "node", AutogeneratedRoutesEnabled := true })]⟩
        ⟨[]⟩).1.2.Routes.map (·.Domain)
      = ["nginx.demo.main.example.com", "node.demo.main.example.com"]
    ∧ (generateAutogenRoutes
        (fun _ => "0123456789abcdef0123456789abcdef0123456789abcdef0123456789abcdef")
        (fun _ => "abcdefghijklmnopqrstuvwxyz234567abcdefghijklmnopqrstuvwxyz") "demo" "main"
        "" "" "fastly-api-" "variable not found"
        [⟨"LAGOON_SYSTEM_ROUTER_PATTERN",
          "$\x7bservice\x7d.$\x7bproject\x7d.$\x7benvironment\x7d.example.com",
          "internal_system"⟩]
        ⟨[], ""⟩
        ⟨[("node", { ServiceValues.zero with
            ServiceType := "node", AutogeneratedRoutesEnabled := true }),
          ("nginx", { ServiceValues.zero with
            ServiceType := "nginx", AutogeneratedRoutesEnabled := true })]⟩
        ⟨[]⟩).1.2.Routes.map (·.Domain)
      = ["node.demo.main.example.com", "nginx.demo.main.example.com"] := by
  refine ⟨List.Perm.swap _ _ _, by rfl, by rfl, by rfl, by rfl, by rfl, by rfl⟩


/-- The records that a loop appends in a run without failure are the records that its body
makes, in the order of the elements. -/
theorem appendEach_filterMap {α : Type} (body : α → Except Failure RouteV2) (acc : RoutesV2)
    (xs : List α) (out : RoutesV2) (hrun : appendEach body acc xs = (out, none)) :
    out.Routes = acc.Routes ++ xs.filterMap (fun x => (body x).toOption) := by
  obtain ⟨news, hf, hout⟩ := appendEach_ok body acc xs out hrun
  have hnews : news = xs.filterMap (fun x => (body x).toOption) := by
    clear hrun hout
    induction hf with
    | nil => rfl
    | cons hb _ ih =>
      rw [List.filterMap_cons, hb, ← ih]
      rfl
  rw [hout, hnews]

/-- The routes of a run of `GenerateRoutesV2` without failure: those it started from,
followed by the records of the route entries, service after service in the order of the
enumeration. -/
theorem GenerateRoutesV2_routes (h : String → String) (yamlRoutes : RoutesV2)
    (routeMap : List (String × List Route)) (vars : List EnvironmentVariable) (cls : String)
    (activeStandby : Bool) (p : String) (out : RoutesV2)
    (hrun : GenerateRoutesV2 h yamlRoutes routeMap vars cls activeStandby p = (out, none)) :
    out.Routes = yamlRoutes.Routes
      ++ routeMap.flatMap fun entry => entry.2.filterMap fun x =>
          (generateRoute h vars cls activeStandby p entry.1 x).toOption := by
  induction routeMap generalizing yamlRoutes with
  | nil =>
    simp only [GenerateRoutesV2, Prod.mk.injEq, and_true] at hrun
    simp [hrun]
  | cons entry rest ih =>
    obtain ⟨rName, routes⟩ := entry
    simp only [GenerateRoutesV2] at hrun
    rcases hs : generateServiceRoutes h vars cls activeStandby p rName yamlRoutes routes
      with ⟨y1, _ | e1⟩
    · rw [hs] at hrun
      simp only [] at hrun
      rw [ih y1 hrun, appendEach_filterMap _ _ _ _ hs]
      simp [List.flatMap_cons]
    · rw [hs] at hrun
      simp at hrun

/-- Two enumerations of the same route map, both without failure, give the same routes up
to their order. -/
theorem GenerateRoutesV2_perm (h : String → String) (yamlRoutes : RoutesV2)
    (m1 m2 : List (String × List Route)) (vars : List EnvironmentVariable) (cls : String)
    (activeStandby : Bool) (p : String) (out1 out2 : RoutesV2) (hperm : m1.Perm m2)
    (h1 : GenerateRoutesV2 h yamlRoutes m1 vars cls activeStandby p = (out1, none))
    (h2 : GenerateRoutesV2 h yamlRoutes m2 vars cls activeStandby p = (out2, none)) :
    out1.Routes.Perm out2.Routes := by
  rw [GenerateRoutesV2_routes h yamlRoutes m1 vars cls activeStandby p out1 h1,
    GenerateRoutesV2_routes h yamlRoutes m2 vars cls activeStandby p out2 h2]
  exact List.Perm.append_left _ (List.Perm.flatMap_right _ hperm)


/-! ## The paths of the ingress template -/

/-- The loop over the path routes appends one path for each path route, in their order. -/
theorem ingressPathRoutes_eq (gen : AdditionalServicePort → ServiceBackendPort)
    (lValues : generator.BuildValues) (paths : List HTTPIngressPath)
    (prs : List PathRoute) :
    ingressPathRoutes gen lValues paths prs = paths ++ prs.map (ingressPath gen lValues) := by
  induction prs generalizing paths with
  | nil => simp [ingressPathRoutes]
  | cons pr rest ih =>
    simp only [ingressPathRoutes]
    rw [ih]
    simp

/-- The loop over the additional ports of one service leaves the name of the backend as it
is when no port has the name of the service of the route. -/
theorem backendServicePorts_name (gen : AdditionalServicePort → ServiceBackendPort)
    (route : RouteV2) (service : generator.ServiceValues)
    (st : ServiceBackendPort × String) (idx : Nat) (ports : List AdditionalServicePort)
    (hno : ∀ addPort ∈ ports, addPort.ServiceName ≠ route.LagoonService) :
    (backendServicePorts gen route service st idx ports).2 = st.2 := by
  induction ports generalizing st idx with
  | nil => rfl
  | cons addPort rest ih =>
    simp only [backendServicePorts]
    rw [ih _ _ (fun a ha => hno a (List.mem_cons_of_mem _ ha)),
      if_neg (hno addPort (List.mem_cons_self _ _))]
    split_ifs <;> rfl

/-- The loop over the services leaves the name of the backend as it is when no additional
port has the name of the service of the route. -/
theorem backendServiceLoop_name (gen : AdditionalServicePort → ServiceBackendPort)
    (route : RouteV2) (st : ServiceBackendPort × String)
    (services : List generator.ServiceValues)
    (hno : ∀ service ∈ services, ∀ addPort ∈ service.AdditionalServicePorts,
      addPort.ServiceName ≠ route.LagoonService) :
    (backendServiceLoop gen route st services).2 = st.2 := by
  induction services generalizing st with
  | nil => rfl
  | cons service rest ih =>
    simp only [backendServiceLoop]
    rw [ih _ (fun s hs => hno s (List.mem_cons_of_mem _ hs)),
      backendServicePorts_name gen route service st 0 _
        (hno service (List.mem_cons_self _ _))]

/-- C35. The paths of the first rule of the ingress that `GenerateIngressTemplate` builds,
the rule of the domain of the route: the first is the path `/` to the backend service of
the route (the service of the route, when no additional port has its name), and it is
followed by one path for each path route of the route, in their order, each with the path
of its path route.  So the list has one entry more than the route has path routes. -/
theorem C35_ingress_paths (gen : AdditionalServicePort → ServiceBackendPort)
    (route : RouteV2) (lValues : generator.BuildValues) :
    (ingressMainRule gen route lValues).Paths
        = { Path := "/", PathType := "Prefix",
            ServiceName := (backendService gen route lValues).2,
            ServicePort := (backendService gen route lValues).1 }
          :: (route.PathRoutes.getD []).map (ingressPath gen lValues)
      ∧ (ingressMainRule gen route lValues).Paths.map (·.Path)
        = "/" :: (route.PathRoutes.getD []).map (·.Path)
      ∧ (ingressMainRule gen route lValues).Paths.length
        = 1 + (route.PathRoutes.getD []).length
      ∧ ((∀ service ∈ lValues.Services, ∀ addPort ∈ service.AdditionalServicePorts,
            addPort.ServiceName ≠ route.LagoonService) →
          (backendService gen route lValues).2 = route.LagoonService) := by
  have hpaths : (ingressMainRule gen route lValues).Paths
      = { Path := "/", PathType := "Prefix",
          ServiceName := (backendService gen route lValues).2,
          ServicePort := (backendService gen route lValues).1 }
        :: (route.PathRoutes.getD []).map (ingressPath gen lValues) := by
    show ingressPaths gen route lValues = _
    unfold ingressPaths
    simp only []
    rw [ingressPathRoutes_eq]
    rfl
  refine ⟨hpaths, ?_, ?_, ?_⟩
  · rw [hpaths]
    simp only [List.map_cons, List.map_map]
    congr 1
  · rw [hpaths]
    simp only [List.length_cons, List.length_map]
    omega
  · intro hno
    unfold backendService
    exact backendServiceLoop_name gen route _ lValues.Services hno

/-- Witness of C35: a route of the service `nginx` with the path routes `/api` to `node`
and `/admin` to `php`. -/
theorem C35_ingress_paths_witness :
    (ingressMainRule (fun addPort => ⟨"tcp", addPort.ServicePort.Target⟩)
        { RouteV2.zero with
          Domain := "www.example.com", LagoonService := "nginx"
          PathRoutes := some [⟨"node", "/api"⟩, ⟨"php", "/admin"⟩] }
        ⟨[⟨"nginx", "", []⟩, ⟨"node", "", []⟩]⟩).Paths.map (fun x => (x.Path, x.ServiceName))
      = [("/", "nginx"), ("/api", "node"), ("/admin", "php")] :=
  (congrArg (List.map fun x => (x.Path, x.ServiceName))
    (C35_ingress_paths (fun addPort => ⟨"tcp", addPort.ServicePort.Target⟩)
      { RouteV2.zero with
        Domain := "www.example.com", LagoonService := "nginx"
        PathRoutes := some [⟨"node", "/api"⟩, ⟨"php", "/admin"⟩] }
      ⟨[⟨"nginx", "", []⟩, ⟨"node", "", []⟩]⟩).1).trans (by rfl)


/-! ## The wildcard ingress name as a DNS-1123 subdomain -/

/-- Lowering keeps the length. -/
theorem ToLower_length (s : String) : (ToLower s).length = s.length := by
  show (s.data.map toLowerRune).length = s.data.length
  simp

/-- A name of more than 253 bytes does not pass the validator. -/
theorem IsDNS1123Subdomain_of_long (s : String) (hlen : 253 < len s) :
    IsDNS1123Subdomain s ≠ [] := by
  unfold IsDNS1123Subdomain
  have h1 : len s > DNS1123SubdomainMaxLength := hlen
  rw [if_pos h1]
  simp

/-- The length of the wildcard ingress name of an ASCII domain when the fallback is taken:
the length of the domain and five, when the hash has five characters or more. -/
theorem wildcardIngressName_fallback (h : String → String) (d : String)
    (hasc : isASCII d = true) (hd : 1 ≤ d.length) (hh : 5 ≤ (h d).length)
    (hbad : IsDNS1123Subdomain (ToLower ("wildcard-" ++ d)) ≠ []) :
    ∃ name, wildcardIngressName h d = .ok name
      ∧ name = String.mk (("wildcard-" ++ d).data.take (("wildcard-" ++ d).length - 10))
          ++ "-" ++ String.mk ((h d).data.take 5)
      ∧ name.length = d.length + 5 := by
  have hl9 : ("wildcard-" ++ d).length = 9 + d.length := by
    rw [String.length_append]
    rfl
  have hasc9 : isASCII ("wildcard-" ++ d) = true := by
    rw [isASCII_iff]
    intro c hc
    rw [String.data_append, List.mem_append] at hc
    rcases hc with hc | hc
    · revert c
      decide
    · exact (isASCII_iff d).mp hasc c hc
  have hlb : len ("wildcard-" ++ d) = ("wildcard-" ++ d).length := len_of_isASCII _ hasc9
  have hlen : ¬ len ("wildcard-" ++ d) < 10 := by omega
  refine ⟨_, ?_, rfl, ?_⟩
  · unfold wildcardIngressName
    simp only [hlen, if_false]
    rw [if_pos hbad, sliceTo_of_isASCII _ hasc9, hlb]
  · have hdata : (String.mk (("wildcard-" ++ d).data.take (("wildcard-" ++ d).length - 10))
        ++ "-" ++ String.mk ((h d).data.take 5)).data
        = ("wildcard-" ++ d).data.take (("wildcard-" ++ d).length - 10) ++ ['-']
          ++ (h d).data.take 5 := by
      simp only [String.data_append]
    show (String.mk (("wildcard-" ++ d).data.take (("wildcard-" ++ d).length - 10))
        ++ "-" ++ String.mk ((h d).data.take 5)).data.length = d.length + 5
    rw [hdata]
    have hl9d : ("wildcard-" ++ d).data.length = 9 + d.length := hl9
    have hhd : 5 ≤ (h d).data.length := hh
    simp only [List.length_append, List.length_take, List.length_singleton, hl9, hl9d]
    omega

/-- The wildcard ingress name of an ASCII domain of 249 characters or more does not pass
the validator: the fallback is taken and what it makes has more than 253 characters. -/
theorem wildcardIngressName_too_long (h : String → String) (d : String)
    (hasc : isASCII d = true) (hd : 249 ≤ d.length) (hh : 5 ≤ (h d).length) :
    ∃ name, wildcardIngressName h d = .ok name ∧ name.length = d.length + 5
      ∧ IsDNS1123Subdomain name ≠ [] := by
  have hbad : IsDNS1123Subdomain (ToLower ("wildcard-" ++ d)) ≠ [] := by
    apply IsDNS1123Subdomain_of_long
    have h1 := length_le_len (ToLower ("wildcard-" ++ d))
    rw [ToLower_length, String.length_append] at h1
    have : "wildcard-".length = 9 := rfl
    omega
  obtain ⟨name, hname, _, hl⟩ := wildcardIngressName_fallback h d hasc (by omega) hh hbad
  have h2 := length_le_len name
  exact ⟨name, hname, hl, IsDNS1123Subdomain_of_long name (by omega)⟩

/-- When the fallback is not taken, the wildcard ingress name of a lowercase domain passes
the validator of the code, which bounds the length of the name and not that of a label. -/
theorem wildcardIngressName_direct (h : String → String) (d : String)
    (hlow : ToLower d = d)
    (hok : IsDNS1123Subdomain (ToLower ("wildcard-" ++ d)) = []) :
    wildcardIngressName h d = .ok ("wildcard-" ++ d)
      ∧ IsDNS1123Subdomain ("wildcard-" ++ d) = [] := by
  have hl : ToLower ("wildcard-" ++ d) = "wildcard-" ++ d := by
    have h1 : ToLower ("wildcard-" ++ d) = ToLower "wildcard-" ++ ToLower d := by
      apply String.ext
      simp [ToLower, String.data_append]
    rw [h1, hlow]
    rfl
  constructor
  · unfold wildcardIngressName
    simp only [hok, ne_eq, not_true_eq_false, if_false]
  · rw [hl] at hok
    exact hok

set_option maxRecDepth 100000 in
/-- C38, evaluated.  The domain of 125 labels `a`, 249 characters, is lowercase and a
DNS-1123 subdomain whose labels have one character each.  For the wildcard route of that
domain, with TLS-acme off, `GenerateRoutesV2` returns no error; the name `wildcard-` and
the domain has 258 characters, the fallback is taken, and the ingress name of the record
has 254 characters and does not pass the validator.  The domain of a label of 60
characters and `com` is valid too; its wildcard ingress name passes the validator of the
code, the fallback is not taken, and the first label of the name has 69 characters. -/
theorem C38_wildcard_name_not_valid :
    (IsDNS1123Subdomain (Join (List.replicate 125 "a") ".") = []
      ∧ ToLower (Join (List.replicate 125 "a") ".") = Join (List.replicate 125 "a") "."
      ∧ (Join (List.replicate 125 "a") ".").length = 249
      ∧ (Split (Join (List.replicate 125 "a") ".") '.').all (fun part => part.length ≤ 63)
        = true
      ∧ (GenerateRoutesV2 (fun _ => "0123456789abcdef0123456789abcdef") ⟨[]⟩
          [("nginx", [⟨"", [(Join (List.replicate 125 "a") ".",
            { Ingress.zero with Wildcard := some true, TLSAcme := some false })]⟩])]
          [] "nginx" false "fastly-api-").2 = none
      ∧ (GenerateRoutesV2 (fun _ => "0123456789abcdef0123456789abcdef") ⟨[]⟩
          [("nginx", [⟨"", [(Join (List.replicate 125 "a") ".",
            { Ingress.zero with Wildcard := some true, TLSAcme := some false })]⟩])]
          [] "nginx" false "fastly-api-").1.Routes.map
            (fun r => (r.Wildcard, r.IngressName.length,
              decide (IsDNS1123Subdomain r.IngressName = [])))
        = [(some true, 254, false)])
    ∧ (IsDNS1123Subdomain (String.mk (List.replicate 60 'a') ++ ".com") = []
      ∧ (Split (String.mk (List.replicate 60 'a') ++ ".com") '.').map String.length
        = [60, 3]
      ∧ (GenerateRoutesV2 (fun _ => "0123456789abcdef0123456789abcdef") ⟨[]⟩
          [("nginx", [⟨"", [(String.mk (List.replicate 60 'a') ++ ".com",
            { Ingress.zero with Wildcard := some true, TLSAcme := some false })]⟩])]
          [] "nginx" false "fastly-api-").1.Routes.map
            (fun r => (r.IngressName, (Split r.IngressName '.').map String.length))
        = [("wildcard-" ++ String.mk (List.replicate 60 'a') ++ ".com", [69, 3])]) := by
  refine ⟨⟨by decide, by decide, by decide, by decide, by rfl, by rfl⟩,
    ⟨by decide, by decide, by rfl⟩⟩

end Lagoon
